import Mathlib

/-!
Verification of the hdCycles mesh synchronisation: topology builder, attribute writers,
material slots, motion sampler and the `Sync` state machine.

A shallow embedding of `plugin/hdCycles/mesh.cpp` (class `HdCyclesMesh`).

Conventions of the embedding

* C++ `int` values (face-vertex counts, face-vertex indices, material slots) are `Int`;
  the sums that occur stay far below `2^31`, so no wrap-around is modelled.
* Arrays are lists.  A read or a store through an iterator or an `operator[]` outside the
  array is undefined behaviour in C++; here it makes the enclosing function return `none`.
* The renderer mesh `ccl::Mesh` belongs to the Cycles library.  Only the part that
  `mesh.cpp` drives is represented: the triangle arrays filled by `add_triangle`, the
  subdivision faces filled by `add_subd_face`, the subdivision type and the shader list.
  Capacity reservations (`reserve_mesh`, `reserve_subd_faces`) only allocate and are not
  represented.
* An attribute writer advances its output pointer by one for every value it stores, starting
  at the start of the attribute buffer, so the list of stored values, in order, is the
  content of the buffer.

The definitions come first: the embedding of the source, then the descriptions used to state
and prove the properties, then the example inputs.  The theorems follow.
-/

namespace HdCycles

/-! # Part I: definitions -/

/-! ## Data model -/

/-- Winding orientation of a topology (`HdTokens->rightHanded` / `HdTokens->leftHanded`). -/
inductive Orientation where
  | rightHanded
  | leftHanded
deriving DecidableEq, Repr

/-- One entry of the triangle arrays of `ccl::Mesh`: `add_triangle (v0, v1, v2, shader, smooth)`
pushes the three corners, the shader slot and the smooth flag together. -/
structure Triangle where
  v0 : Int
  v1 : Int
  v2 : Int
  shader : Int
  smooth : Bool
deriving DecidableEq, Repr

/-- The three corners of a triangle, in order. -/
def Triangle.corners (t : Triangle) : List Int := [t.v0, t.v1, t.v2]

/-- One entry of the subdivision face array of `ccl::Mesh`, as pushed by
`add_subd_face (corners, num_corners, shader, smooth)`. -/
structure SubdFace where
  corners : List Int
  shader : Int
  smooth : Bool
deriving DecidableEq, Repr

/-- Value of `ccl::Mesh::subdivision_type`. -/
inductive SubdivisionType where
  | SUBDIVISION_NONE
  | SUBDIVISION_CATMULL_CLARK
deriving DecidableEq, Repr

/-- The part of `ccl::Mesh` written by the topology builder. -/
structure Mesh where
  triangles : List Triangle
  subd_faces : List SubdFace
  subdivision_type : SubdivisionType
deriving DecidableEq, Repr

/-- A mesh with empty face arrays and no subdivision, as `_CreateCyclesMesh` leaves it
(`clear ()`, then `subdivision_type = SUBDIVISION_NONE`). -/
def Mesh.cleared : Mesh :=
  { triangles := [], subd_faces := [], subdivision_type := SubdivisionType.SUBDIVISION_NONE }

/-- `ccl::Mesh::add_triangle`. -/
def Mesh.add_triangle (m : Mesh) (v0 v1 v2 : Int) (shader : Int) (smooth : Bool) : Mesh :=
  { m with triangles := m.triangles ++ [{ v0 := v0, v1 := v1, v2 := v2, shader := shader, smooth := smooth }] }

/-- `ccl::Mesh::add_subd_face`. -/
def Mesh.add_subd_face (m : Mesh) (corners : List Int) (shader : Int) (smooth : Bool) : Mesh :=
  { m with subd_faces := m.subd_faces ++ [{ corners := corners, shader := shader, smooth := smooth }] }

/-- The members of `HdCyclesMesh` that the topology builder and the attribute writers read.

`mesh.h`, which declares the members, is not among the sources.  The one place where the
declared type changes the behaviour is the comparison `v < m_numMeshVerts` of an `int`
against the vertex count: `countIsUnsigned` records whether the count is declared with an
unsigned 64-bit type (`size_t`), in which case the `int` is converted to unsigned first.
The counters `m_numMeshFaces`, `m_numNgons` and `m_numCorners` hold the integer the topology
block computes. -/
structure HdCyclesMesh where
  m_faceVertexCounts : List Int
  m_faceVertexIndices : List Int
  m_orientation : Orientation
  m_subdivEnabled : Bool
  m_useSubdivision : Bool
  m_numMeshVerts : Nat
  m_numMeshFaces : Int
  m_numNgons : Int
  m_numCorners : Int
  countIsUnsigned : Bool
deriving DecidableEq, Repr

/-- What `Sync` reads from the `HdMeshTopology` returned by `GetMeshTopology`;
`schemeIsCatmullClark` is the value of `GetScheme () == PxOsdOpenSubdivTokens->catmullClark`. -/
structure HdMeshTopology where
  faceVertexCounts : List Int
  faceVertexIndices : List Int
  orientation : Orientation
  schemeIsCatmullClark : Bool
deriving DecidableEq, Repr

/-- An iterator read `*(begin + p)` or an array read `a[p]`: `none` outside the array. -/
def readAt {α : Type} (xs : List α) (p : Int) : Option α :=
  if p < 0 then none else xs[p.toNat]?

/-- The test `v < m_numMeshVerts` of `_PopulateFaces`. -/
def indexBelow (countIsUnsigned : Bool) (v : Int) (numMeshVerts : Nat) : Bool :=
  if countIsUnsigned then decide ((v % 2 ^ 64).toNat < numMeshVerts)
  else decide (v < (numMeshVerts : Int))

/-! ## `_PopulateFaces` -/

/-- Body of the inner loop of the triangulated branch of `_PopulateFaces`, for one `j`.
`p` is the offset of `idxIt` from the start of `m_faceVertexIndices`. -/
def fanStep (s : HdCyclesMesh) (p vCount materialId : Int) (mesh : Mesh) (j : Nat) :
    Option Mesh := do
  let v0 ← readAt s.m_faceVertexIndices p
  let v1 ← readAt s.m_faceVertexIndices (p + j + 0)
  let v2 ← readAt s.m_faceVertexIndices (p + j + 1)
  let v1 ← if s.m_orientation = Orientation.leftHanded
    then readAt s.m_faceVertexIndices (p + ((vCount - 1) - j) + 0) else some v1
  let v2 ← if s.m_orientation = Orientation.leftHanded
    then readAt s.m_faceVertexIndices (p + ((vCount - 1) - j) + 1) else some v2
  if indexBelow s.countIsUnsigned v0 s.m_numMeshVerts
      && indexBelow s.countIsUnsigned v1 s.m_numMeshVerts
      && indexBelow s.countIsUnsigned v2 s.m_numMeshVerts
  then some (mesh.add_triangle v0 v1 v2 materialId true)
  else some mesh

/-- The values of `j` taken by `for (int j = 1; j < vCount - 1; ++j)`. -/
def fanRange (vCount : Int) : List Nat :=
  List.range' 1 (vCount - 2).toNat

/-- The inner loop `for (int j = 1; j < vCount - 1; ++j)` of the triangulated branch. -/
def fanLoop (s : HdCyclesMesh) (p vCount materialId : Int) (mesh : Mesh) : Option Mesh :=
  (fanRange vCount).foldlM (fanStep s p vCount materialId) mesh

/-- The lookup `if (i < a_faceMaterials.size ()) materialId = a_faceMaterials[i]`. -/
def faceMaterial (a_faceMaterials : List Int) (i : Nat) : Int :=
  if i < a_faceMaterials.length then a_faceMaterials.getD i 0 else 0

/-- The outer loop of the triangulated branch: `counts` are the faces still to visit,
`i` the index of the first of them, `p` the offset of `idxIt`. -/
def triangulatedLoop (s : HdCyclesMesh) (a_faceMaterials : List Int) :
    List Int → Nat → Int → Mesh → Option Mesh
  | [], _, _, mesh => some mesh
  | vCount :: rest, i, p, mesh => do
    let mesh ← fanLoop s p vCount (faceMaterial a_faceMaterials i) mesh
    triangulatedLoop s a_faceMaterials rest (i + 1) (p + vCount) mesh

/-- The corner loop `for (int j = 0; j < vCount; ++j)` of the subdivision branch, filling
`vi[j]`. -/
def subdCorners (s : HdCyclesMesh) (p vCount : Int) : Option (List Int) :=
  (List.range vCount.toNat).mapM (fun j : Nat =>
    if s.m_orientation = Orientation.rightHanded
    then readAt s.m_faceVertexIndices (p + j)
    else readAt s.m_faceVertexIndices (p + (vCount - j - 1)))

/-- The loop `for (int i = 0; i < m_numMeshFaces; i++)` of the subdivision branch:
`n` iterations remain, `i` is the current face, `p` the offset of `idxIt`.
Reading `m_faceVertexCounts[i]` past the end and `vi.resize (vCount)` with a negative count
fail. -/
def subdLoop (s : HdCyclesMesh) (a_faceMaterials : List Int) :
    Nat → Nat → Int → Mesh → Option Mesh
  | 0, _, _, mesh => some mesh
  | n + 1, i, p, mesh => do
    let vCount ← s.m_faceVertexCounts[i]?
    if vCount < 0 then none
    let vi ← subdCorners s p vCount
    let mesh := mesh.add_subd_face vi (faceMaterial a_faceMaterials i) true
    subdLoop s a_faceMaterials n (i + 1) (p + vCount) mesh

/-- `HdCyclesMesh::_PopulateFaces`. -/
def _PopulateFaces (s : HdCyclesMesh) (a_faceMaterials : List Int) (mesh : Mesh) :
    Option Mesh :=
  if s.m_useSubdivision then
    subdLoop s a_faceMaterials s.m_numMeshFaces.toNat 0 0
      { mesh with subdivision_type := SubdivisionType.SUBDIVISION_CATMULL_CLARK }
  else
    triangulatedLoop s a_faceMaterials s.m_faceVertexCounts 0 0 mesh

/-! ## `Sync`: the topology block -/

/-- The loop of the subdivision case of the topology block, which counts n-gons and corners:
one iteration, on the pair `(m_numNgons, m_numCorners)`. -/
def countNgonsCorners (acc : Int × Int) (vCount : Int) : Int × Int :=
  (acc.1 + (if vCount = 4 then 0 else 1), acc.2 + vCount)

/-- The block `if (HdChangeTracker::IsTopologyDirty (*dirtyBits, id))` of `Sync`, restricted
to the members represented in `HdCyclesMesh`. -/
def syncTopology (s : HdCyclesMesh) (m_topology : HdMeshTopology) : HdCyclesMesh :=
  let s := { s with
    m_faceVertexCounts := m_topology.faceVertexCounts
    m_faceVertexIndices := m_topology.faceVertexIndices
    m_orientation := m_topology.orientation
    m_numMeshFaces := 0
    m_numNgons := 0
    m_numCorners := 0 }
  let s := if s.m_subdivEnabled
    then { s with m_useSubdivision := m_topology.schemeIsCatmullClark }
    else { s with m_useSubdivision := false }
  if s.m_useSubdivision then
    let nc := s.m_faceVertexCounts.foldl countNgonsCorners (s.m_numNgons, s.m_numCorners)
    { s with
      m_numMeshFaces := s.m_faceVertexCounts.length
      m_numNgons := nc.1
      m_numCorners := nc.2 }
  else
    { s with m_numMeshFaces :=
        s.m_faceVertexCounts.foldl (fun n vCount => n + (vCount - 2)) s.m_numMeshFaces }

/-! ## Attribute writers: the `HdInterpolationVertex` branches

The primvar values and the stored values are kept abstract: `conv` stands for the conversion
applied to a value when it is stored (`vec2f_to_float2` for a UV set; for a colour
`vec3f_to_float4`, then `ccl::color_srgb_to_linear_v4`, then `ccl::color_float4_to_uchar4`).
Each function returns the values stored through the output pointer, in the order stored. -/

section writers

variable {α β : Type}

/-- `_AddUVSet`, vertex interpolation, subdivision layout: body of
`for (int j = 0; j < vCount; ++j)`. -/
def uvVertexSubdStep (conv : α → β) (s : HdCyclesMesh) (uvs : List α) (p vCount : Int)
    (fdata : List β) (j : Nat) : Option (List β) := do
  let v ← if s.m_orientation = Orientation.rightHanded
    then readAt s.m_faceVertexIndices (p + j)
    else readAt s.m_faceVertexIndices (p + (vCount - j - 1))
  let uv ← readAt uvs v
  some (fdata ++ [conv uv])

/-- `_AddUVSet`, vertex interpolation, triangulated layout: body of
`for (int j = 1; j < vCount - 1; ++j)`. -/
def uvVertexFanStep (conv : α → β) (s : HdCyclesMesh) (uvs : List α) (p vCount : Int)
    (fdata : List β) (j : Nat) : Option (List β) := do
  let v0 ← readAt s.m_faceVertexIndices p
  let v1 ← readAt s.m_faceVertexIndices (p + j + 0)
  let v2 ← readAt s.m_faceVertexIndices (p + j + 1)
  let v1 ← if s.m_orientation = Orientation.leftHanded
    then readAt s.m_faceVertexIndices (p + ((vCount - 1) - j) + 0) else some v1
  let v2 ← if s.m_orientation = Orientation.leftHanded
    then readAt s.m_faceVertexIndices (p + ((vCount - 1) - j) + 1) else some v2
  let uv0 ← readAt uvs v0
  let uv1 ← readAt uvs v1
  let uv2 ← readAt uvs v2
  some (fdata ++ [conv uv0, conv uv1, conv uv2])

/-- `_AddUVSet`, vertex interpolation: the loop over the faces. `counts` are the faces still
to visit, `p` the offset of `idxIt`. -/
def uvVertexLoop (conv : α → β) (s : HdCyclesMesh) (uvs : List α) :
    List Int → Int → List β → Option (List β)
  | [], _, fdata => some fdata
  | vCount :: rest, p, fdata => do
    let fdata ← if s.m_useSubdivision
      then (List.range vCount.toNat).foldlM (uvVertexSubdStep conv s uvs p vCount) fdata
      else (fanRange vCount).foldlM (uvVertexFanStep conv s uvs p vCount) fdata
    uvVertexLoop conv s uvs rest (p + vCount) fdata

/-- `HdCyclesMesh::_AddUVSet` for `interpolation == HdInterpolationVertex`: the content
written to the UV attribute. -/
def _AddUVSet_Vertex (conv : α → β) (s : HdCyclesMesh) (uvs : List α) : Option (List β) :=
  uvVertexLoop conv s uvs s.m_faceVertexCounts 0 []

/-- `_AddColors`, vertex interpolation, subdivision layout: body of
`for (int j = 0; j < vCount; ++j)`. -/
def colorVertexSubdStep (conv : α → β) (s : HdCyclesMesh) (colors : List α) (p vCount : Int)
    (cdata : List β) (j : Nat) : Option (List β) := do
  let v ← if s.m_orientation = Orientation.rightHanded
    then readAt s.m_faceVertexIndices (p + j)
    else readAt s.m_faceVertexIndices (p + (vCount - j - 1))
  let c ← readAt colors v
  some (cdata ++ [conv c])

/-- `_AddColors`, vertex interpolation, triangulated layout: body of
`for (int j = 1; j < vCount - 1; ++j)`; for LeftHanded `v0` and `v2` are exchanged. -/
def colorVertexFanStep (conv : α → β) (s : HdCyclesMesh) (colors : List α) (p : Int)
    (cdata : List β) (j : Nat) : Option (List β) := do
  let v0 ← readAt s.m_faceVertexIndices p
  let v1 ← readAt s.m_faceVertexIndices (p + j + 0)
  let v2 ← readAt s.m_faceVertexIndices (p + j + 1)
  let (v0, v2) := if s.m_orientation = Orientation.leftHanded then (v2, v0) else (v0, v2)
  let c0 ← readAt colors v0
  let c1 ← readAt colors v1
  let c2 ← readAt colors v2
  some (cdata ++ [conv c0, conv c1, conv c2])

/-- `_AddColors`, vertex interpolation: the loop over the faces. -/
def colorVertexLoop (conv : α → β) (s : HdCyclesMesh) (colors : List α) :
    List Int → Int → List β → Option (List β)
  | [], _, cdata => some cdata
  | vCount :: rest, p, cdata => do
    let cdata ← if s.m_useSubdivision
      then (List.range vCount.toNat).foldlM (colorVertexSubdStep conv s colors p vCount) cdata
      else (fanRange vCount).foldlM (colorVertexFanStep conv s colors p) cdata
    colorVertexLoop conv s colors rest (p + vCount) cdata

/-- `HdCyclesMesh::_AddColors` for `interpolation == HdInterpolationVertex` and a non-empty
`colors` array (an empty one returns before any attribute is added): the content written to
the vertex-colour attribute. -/
def _AddColors_Vertex (conv : α → β) (s : HdCyclesMesh) (colors : List α) : Option (List β) :=
  colorVertexLoop conv s colors s.m_faceVertexCounts 0 []

end writers

/-! ## `Sync`: material slots of the geometry subsets -/

/-- `SdfPath`; the empty path is the empty string. -/
abbrev SdfPath := String

/-- A `ccl::Shader*`, identified by a number. -/
abbrev Shader := Nat

/-- `HdGeomSubset`: the material bound to the subset and the faces it lists. -/
structure HdGeomSubset where
  materialId : SdfPath
  indices : List Int
deriving DecidableEq, Repr

/-- What the geometry-subset loop of the rebuild reads and writes: the members
`m_usedShaders` and `m_materialMap` (a `std::map<SdfPath, int>`, here its key/value pairs),
the shader list `used_shaders` of the renderer mesh, and the local `faceMaterials`. -/
structure SubsetState where
  m_usedShaders : List Shader
  m_materialMap : List (SdfPath × Int)
  used_shaders : List Shader
  faceMaterials : List Int
deriving DecidableEq, Repr

/-- `m_materialMap.find (id)` / `m_materialMap.at (id)`. -/
def mapFind (m : List (SdfPath × Int)) (id : SdfPath) : Option Int :=
  match m with
  | [] => none
  | (k, v) :: rest => if k = id then some v else mapFind rest id

/-- `m_materialMap.insert (std::pair (id, v))`: no effect on a key already present. -/
def mapInsert (m : List (SdfPath × Int)) (id : SdfPath) (v : Int) : List (SdfPath × Int) :=
  match mapFind m id with
  | some _ => m
  | none => (id, v) :: m

/-- The store `a[i] = v` into a vector: `none` outside the vector. -/
def writeAt (xs : List Int) (i : Int) (v : Int) : Option (List Int) :=
  if 0 ≤ i ∧ i < xs.length then some (xs.set i.toNat v) else none

/-- Body of `for (auto const& subset : m_geomSubsets)`. `resolve id` is the shader of the
material prim `id` of the render index, `none` when there is no such material or it has no
shader (`subMat && subMat->GetCyclesShader ()`). -/
def subsetStep (resolve : SdfPath → Option Shader) (st : SubsetState) (subset : HdGeomSubset) :
    Option SubsetState := do
  let (st, subsetMaterialIndex) :=
    if subset.materialId ≠ "" then
      match resolve subset.materialId with
      | some shader =>
        let (st, index) :=
          match mapFind st.m_materialMap subset.materialId with
          | none =>
            let usedShaders := st.m_usedShaders ++ [shader]
            ({ st with
                m_usedShaders := usedShaders
                m_materialMap :=
                  mapInsert st.m_materialMap subset.materialId (usedShaders.length : Int) },
              (usedShaders.length : Int))
          | some index => (st, index)
        ({ st with used_shaders := st.m_usedShaders }, index)
      | none => (st, (0 : Int))
    else (st, (0 : Int))
  let faceMaterials ← subset.indices.foldlM
    (fun fm i => writeAt fm i (max (subsetMaterialIndex - 1) 0)) st.faceMaterials
  some { st with faceMaterials := faceMaterials }

/-- The loop `for (auto const& subset : m_geomSubsets)` of the rebuild. -/
def geomSubsetLoop (resolve : SdfPath → Option Shader) (subsets : List HdGeomSubset)
    (st : SubsetState) : Option SubsetState :=
  subsets.foldlM (subsetStep resolve) st

/-- The rebuild from `std::vector<int> faceMaterials; faceMaterials.resize (m_numMeshFaces)`
to the end of the geometry-subset loop; `mesh->clear ()` has emptied `used_shaders`.
Returns the members, the mesh shader list and `faceMaterials`. -/
def buildFaceMaterials (resolve : SdfPath → Option Shader) (m_geomSubsets : List HdGeomSubset)
    (m_numMeshFaces : Int) (m_usedShaders : List Shader) (m_materialMap : List (SdfPath × Int)) :
    Option SubsetState :=
  if m_numMeshFaces < 0 then none
  else geomSubsetLoop resolve m_geomSubsets
    { m_usedShaders := m_usedShaders, m_materialMap := m_materialMap, used_shaders := [],
      faceMaterials := List.replicate m_numMeshFaces.toNat 0 }

/-! ## Attribute writers: the `HdInterpolationFaceVarying` branches of the triangulated layout

The loop state is the pair of the values stored so far and the running offset `idx` (for
`_AddUVSet` the per-face counter `faceidx`). -/

section faceVaryingWriters

variable {α β : Type}

/-- `_AddUVSet`, face-varying interpolation, triangulated layout: body of
`for (int j = 1; j < vCount - 1; ++j)`; the state is `(fdata, faceidx)`. -/
def uvFaceVaryingFanStep (conv : α → β) (s : HdCyclesMesh) (uvs : List α) (idx vCount : Int)
    (st : List β × Int) (j : Nat) : Option (List β × Int) := do
  let iter : Int := 3 * ((j : Int) - 1)
  let iter := if s.m_orientation = Orientation.leftHanded
    then (vCount - 1) - ((j : Int) - 1) else iter
  let iter := iter + idx
  let v0 := iter + 0
  let v1 := iter + 1
  let v2 := iter + 2
  let uv0 ← readAt uvs v0
  let uv1 ← readAt uvs v1
  let uv2 ← readAt uvs v2
  some (st.1 ++ [conv uv0, conv uv1, conv uv2], st.2 + 3)

/-- `_AddUVSet`, face-varying interpolation, triangulated layout: the loop over the faces,
`idx` being advanced by `faceidx` after each face. -/
def uvFaceVaryingLoop (conv : α → β) (s : HdCyclesMesh) (uvs : List α) :
    List Int → Int → List β → Option (List β)
  | [], _, fdata => some fdata
  | vCount :: rest, idx, fdata => do
    let st ← (fanRange vCount).foldlM (uvFaceVaryingFanStep conv s uvs idx vCount) (fdata, 0)
    uvFaceVaryingLoop conv s uvs rest (idx + st.2) st.1

/-- `HdCyclesMesh::_AddUVSet` for `interpolation == HdInterpolationFaceVarying` with
`m_useSubdivision` false: the content written to the UV attribute. -/
def _AddUVSet_FaceVarying_triangulated (conv : α → β) (s : HdCyclesMesh) (uvs : List α) :
    Option (List β) :=
  uvFaceVaryingLoop conv s uvs s.m_faceVertexCounts 0 []

/-- `_AddColors`, face-varying interpolation, triangulated layout: body of
`for (int j = 1; j < vCount - 1; ++j)`; the state is `(cdata, idx)`.  `idxIt` stays at the
start of `m_faceVertexIndices` in this branch. -/
def colorFaceVaryingFanStep (conv : α → β) (s : HdCyclesMesh) (colors : List α) (vCount : Int)
    (st : List β × Int) (j : Nat) : Option (List β × Int) := do
  let v0 := st.2
  let v1 := st.2 + 1
  let v2 := st.2 + 2
  let v1 ← if s.m_orientation = Orientation.leftHanded
    then readAt s.m_faceVertexIndices (0 + ((vCount - 1) - j) + 0) else some v1
  let v2 ← if s.m_orientation = Orientation.leftHanded
    then readAt s.m_faceVertexIndices (0 + ((vCount - 1) - j) + 1) else some v2
  let c0 ← readAt colors v0
  let c1 ← readAt colors v1
  let c2 ← readAt colors v2
  some (st.1 ++ [conv c0, conv c1, conv c2], st.2 + 3)

/-- `_AddColors`, face-varying interpolation, triangulated layout: the loop over the faces. -/
def colorFaceVaryingLoop (conv : α → β) (s : HdCyclesMesh) (colors : List α) :
    List Int → List β × Int → Option (List β × Int)
  | [], st => some st
  | vCount :: rest, st => do
    let st ← (fanRange vCount).foldlM (colorFaceVaryingFanStep conv s colors vCount) st
    colorFaceVaryingLoop conv s colors rest st

/-- `HdCyclesMesh::_AddColors` for `interpolation == HdInterpolationFaceVarying` with
`m_useSubdivision` false and a non-empty `colors` array: the content written to the
vertex-colour attribute. -/
def _AddColors_FaceVarying_triangulated (conv : α → β) (s : HdCyclesMesh)
    (colors : List α) : Option (List β) :=
  (colorFaceVaryingLoop conv s colors s.m_faceVertexCounts ([], 0)).map (fun st => st.1)

end faceVaryingWriters

/-! ## `Sync`: the prim, the scene delegate and the renderer objects

`Sync` is embedded as it is compiled without `USE_USD_CYCLES_SCHEMA`.  The prim owns one
renderer mesh and one prototype object, both allocated by the constructor with `new` and
never reset, so the null tests `if (m_cyclesMesh)` and `if (m_cyclesObject)` succeed.  A
pointer to the renderer mesh of a prim is represented by the id of the prim.  Calls on the
scene lock, on the render param and `tag_update` on the mesh and on the object are recorded,
in order, in the member `scene`. -/

/-- `TfToken`. -/
abbrev TfToken := String

/-- `GfVec3f`.  Positions, normals and colours are only copied by the functions embedded
here, so the coordinates are carried as integers. -/
structure GfVec3f where
  x : Int
  y : Int
  z : Int
deriving DecidableEq, Repr

/-- `GfVec2f`, see `GfVec3f`. -/
structure GfVec2f where
  x : Int
  y : Int
deriving DecidableEq, Repr

/-- `GfMatrix4d`, with integer entries; `GfMatrix4d (1)` is the identity matrix `1`. -/
abbrev GfMatrix4d := Matrix (Fin 4) (Fin 4) Int

/-- `ccl::Transform`; `ccl::transform_identity ()` is `1`. -/
abbrev Transform := Matrix (Fin 4) (Fin 4) Int

/-- `HdTimeSampleArray<T, N>`: the number of samples and the arrays of times and values.
Sample times are only compared with `0`; they are carried as integers. -/
structure HdTimeSampleArray (α : Type) where
  count : Nat
  times : List Int
  values : List α

/-- `VtValue`, as far as `Sync` distinguishes what it holds. -/
inductive VtValue where
  | empty
  | vec3fArray (a : List GfVec3f)
  | vec2fArray (a : List GfVec2f)
  | other
deriving DecidableEq, Repr

/-- `VtValue::IsEmpty`. -/
def VtValue.IsEmpty : VtValue → Bool
  | VtValue.empty => true
  | _ => false

/-- `VtValue::Get<VtVec3fArray> ()`: the default (empty) array when the value holds another
type. -/
def VtValue.GetVec3fArray : VtValue → List GfVec3f
  | VtValue.vec3fArray a => a
  | _ => []

/-- `VtValue::Get<VtVec2fArray> ()`. -/
def VtValue.GetVec2fArray : VtValue → List GfVec2f
  | VtValue.vec2fArray a => a
  | _ => []

/-- `VtValue::UncheckedGet<VtArray<GfVec3f>> ()`: undefined when the value holds another
type. -/
def VtValue.UncheckedGetVec3fArray : VtValue → Option (List GfVec3f)
  | VtValue.vec3fArray a => some a
  | _ => none

/-- `HdInterpolation`, in the order of the enumeration. -/
inductive HdInterpolation where
  | HdInterpolationConstant
  | HdInterpolationUniform
  | HdInterpolationVarying
  | HdInterpolationVertex
  | HdInterpolationFaceVarying
  | HdInterpolationInstance
deriving DecidableEq, Repr

/-- `HdPrimvarDescriptor`: name and role. -/
structure HdPrimvarDescriptor where
  name : TfToken
  role : TfToken
deriving DecidableEq, Repr

/-- The bits of `HdDirtyBits` that `Sync` tests, together with the two bits
`HdChangeTracker::IsPrimvarDirty` maps the primvars `normals` and `widths` to. -/
structure HdDirtyBits where
  DirtyPoints : Bool
  DirtyTopology : Bool
  DirtyTransform : Bool
  DirtyPrimvar : Bool
  DirtyVisibility : Bool
  DirtyMaterialId : Bool
  DirtySubdivTags : Bool
  DirtyPrimID : Bool
  DirtyDisplayStyle : Bool
  DirtyDoubleSided : Bool
  DirtyInstancer : Bool
  DirtyNormals : Bool
  DirtyWidths : Bool
deriving DecidableEq, Repr

/-- `HdChangeTracker::Clean`. -/
def HdDirtyBits.Clean : HdDirtyBits :=
  { DirtyPoints := false, DirtyTopology := false, DirtyTransform := false,
    DirtyPrimvar := false, DirtyVisibility := false, DirtyMaterialId := false,
    DirtySubdivTags := false, DirtyPrimID := false, DirtyDisplayStyle := false,
    DirtyDoubleSided := false, DirtyInstancer := false, DirtyNormals := false,
    DirtyWidths := false }

/-- `HdChangeTracker::IsPrimvarDirty (dirtyBits, id, name)`: `points`, `normals` and `widths`
have a bit of their own, every other primvar is covered by `DirtyPrimvar`. -/
def IsPrimvarDirty (dirtyBits : HdDirtyBits) (name : TfToken) : Bool :=
  if name = "points" then dirtyBits.DirtyPoints
  else if name = "normals" then dirtyBits.DirtyNormals
  else if name = "widths" then dirtyBits.DirtyWidths
  else dirtyBits.DirtyPrimvar

/-- `PxOsdSubdivTags`: the five arrays `Sync` copies. -/
structure PxOsdSubdivTags where
  cornerIndices : List Int
  cornerWeights : List Int
  creaseIndices : List Int
  creaseLengths : List Int
  creaseWeights : List Int
deriving DecidableEq, Repr

/-- `ccl::Mesh::SubdEdgeCrease`. -/
structure SubdEdgeCrease where
  v0 : Int
  v1 : Int
  crease : Int
deriving DecidableEq, Repr

/-- The fields of `ccl::SubdParams` that `Sync` sets.  `dicing_rate` is the floating-point
quotient `m_dicingRate / ((m_refineLevel + 1) * 2.0f)`, kept as numerator and denominator. -/
structure SubdParams where
  dicing_rate : Int × Int
  max_level : Int
  objecttoworld : Transform

/-- An entry of an attribute set of the renderer mesh.  The motion positions hold the values
stored by `_PopulateMotion`.  The entries `normals`, `colors` and `uvSet` record a call of
`_AddNormals`, `_AddColors` and `_AddUVSet` with the array handed to the writer; which
attribute the writer adds for this input, if any, and what it stores, is described by the
embedding of that writer.  `ATTR_STD_GENERATED` records the attribute `_PopulateGenerated`
adds. -/
inductive Attribute where
  | ATTR_STD_MOTION_VERTEX_POSITION (data : List GfVec3f)
  | normals (normals : List GfVec3f) (interpolation : HdInterpolation)
  | colors (name : TfToken) (colors : List GfVec3f) (interpolation : HdInterpolation)
  | uvSet (name : TfToken) (uvs : List GfVec2f) (interpolation : HdInterpolation)
  | ATTR_STD_GENERATED
deriving DecidableEq, Repr

/-- Whether an attribute is the motion-position attribute
(`find (ccl::ATTR_STD_MOTION_VERTEX_POSITION)`). -/
def Attribute.isMotion : Attribute → Bool
  | Attribute.ATTR_STD_MOTION_VERTEX_POSITION _ => true
  | _ => false

/-- The renderer mesh `ccl::Mesh` of the prim: the geometry written by the topology builder,
the vertex buffer, the two attribute sets, the shader list and the settings `Sync` writes. -/
structure CyclesMesh extends Mesh where
  verts : List GfVec3f
  attributes : List Attribute
  subd_attributes : List Attribute
  used_shaders : List Shader
  use_motion_blur : Bool
  motion_steps : Nat
  subd_creases : List SubdEdgeCrease
  subd_params : Option SubdParams

/-- `ccl::Object`: transform, pass id, visibility mask and the geometry it points at. -/
structure CyclesObject where
  tfm : Transform
  pass_id : Int
  visibility : Nat
  geometry : Option SdfPath

/-- A call recorded in the member `scene`: the scene lock, the object registration of the
render param, `tag_update` on the mesh and on the prototype object, and `Interrupt`. -/
inductive SceneEvent where
  | lock
  | unlock
  | AddObject (object : CyclesObject)
  | RemoveObject (object : CyclesObject)
  | meshTagUpdate
  | objectTagUpdate
  | Interrupt

/-- What the scene delegate and the render index answer for this prim during one `Sync`.

* `extComputationPrimvarDescriptors`: `GetExtComputationPrimvarDescriptors (id, Vertex)`;
* `computedPrimvarValues name`: the entry `name` of the value store returned by
  `HdExtComputationUtils::GetComputedPrimvarValues`, `none` when `find` reaches the end;
* `points`: `Get (id, HdTokens->points)`; `pointSamples`: what `SamplePrimvar` stores;
* `meshTopology`, `geomSubsets`: `GetMeshTopology` and its `GetGeomSubsets ()`;
* `primvarDescriptors`, `primvar`: `GetPrimvarDescriptors (id, interpolation)`, `GetPrimvar`;
* `material id`: the shader of the material sprim `id`, `none` when the sprim is missing or
  has no shader;
* `instanceTransforms`: `SampleInstanceTransforms (id)` of the instancer of the prim, `none`
  when the render index has no such instancer;
* `HdCyclesSetTransform object useMotionBlur`: the function of that name of `utils.h`,
  applied to this delegate and prim: the object with its transform set, and the transform
  samples. -/
structure HdSceneDelegate where
  extComputationPrimvarDescriptors : List HdPrimvarDescriptor
  computedPrimvarValues : TfToken → Option VtValue
  points : VtValue
  pointSamples : HdTimeSampleArray VtValue
  meshTopology : HdMeshTopology
  geomSubsets : List HdGeomSubset
  primvarDescriptors : HdInterpolation → List HdPrimvarDescriptor
  primvar : TfToken → VtValue
  doubleSided : Bool
  refineLevel : Int
  subdivTags : PxOsdSubdivTags
  primId : Int
  materialId : SdfPath
  material : SdfPath → Option Shader
  visible : Bool
  instanceTransforms : Option (HdTimeSampleArray (List GfMatrix4d))
  HdCyclesSetTransform : CyclesObject → Bool → CyclesObject × HdTimeSampleArray GfMatrix4d

/-- The renderer scene and the library functions `Sync` relies on.

* `default_surface`, `default_vcol_surface`: the fallback shaders of the scene and of the
  render param;
* `needGenerated`: `need_attribute (scene, ccl::ATTR_STD_GENERATED)`;
* `PATH_RAY_ALL_VISIBILITY`: the visibility mask of a new object;
* `mat4d_to_transform`: the conversion of `utils.h`;
* `Resample`: `HdTimeSampleArray::Resample`;
* `triangulateVec3f`, `triangulateVec2f`: `HdMeshUtil::ComputeTriangulatedFaceVaryingPrimvar`
  on the topology the prim holds, followed by `Get` of the array. -/
structure Renderer where
  default_surface : Shader
  default_vcol_surface : Shader
  needGenerated : Bool
  PATH_RAY_ALL_VISIBILITY : Nat
  mat4d_to_transform : GfMatrix4d → Transform
  Resample : HdTimeSampleArray GfMatrix4d → Int → GfMatrix4d
  triangulateVec3f : HdCyclesMesh → List GfVec3f → List GfVec3f
  triangulateVec2f : HdCyclesMesh → List GfVec2f → List GfVec2f

/-- The state `Sync` works on: the members of `HdCyclesMesh` (those of the topology builder
first), the renderer mesh, the prototype object and the instance objects the prim owns, and
the record `scene` of the calls made on the scene.  `id` is `GetId ()`, `visible` is
`_sharedData.visible`.  The members `m_topology`, `m_displayStyle`, `m_adjacencyValid` and
`m_normalsValid` are written and never read by `mesh.cpp` otherwise than through the values
kept here. -/
structure HdCyclesMeshState extends HdCyclesMesh where
  id : SdfPath
  m_points : List GfVec3f
  m_pointSamples : HdTimeSampleArray VtValue
  m_geomSubsets : List HdGeomSubset
  m_doubleSided : Bool
  m_refineLevel : Int
  m_cornerIndices : List Int
  m_cornerWeights : List Int
  m_creaseIndices : List Int
  m_creaseLengths : List Int
  m_creaseWeights : List Int
  m_useMotionBlur : Bool
  m_dicingRate : Int
  m_maxSubdivision : Int
  m_hasVertexColors : Bool
  m_visibilityFlags : Nat
  visible : Bool
  m_usedShaders : List Shader
  m_materialMap : List (SdfPath × Int)
  m_cachedMaterialId : SdfPath
  m_transformSamples : HdTimeSampleArray GfMatrix4d
  m_cyclesMesh : CyclesMesh
  m_cyclesObject : CyclesObject
  m_cyclesInstances : List CyclesObject
  scene : List SceneEvent

/-- The local flags of `Sync`. -/
structure SyncLocals where
  mesh_updated : Bool
  newMesh : Bool
  pointsIsComputed : Bool
deriving DecidableEq, Repr

/-! ## `Sync`: the functions of the rebuild -/

/-- `HdCyclesMesh::_CreateCyclesObject`. -/
def _CreateCyclesObject (e : Renderer) : CyclesObject :=
  { tfm := 1, pass_id := -1, visibility := e.PATH_RAY_ALL_VISIBILITY, geometry := none }

/-- `ccl::Mesh::clear ()`: empties the vertex and face arrays, the creases, both attribute
sets and the shader list; the subdivision type, the subdivision parameters and the motion
settings stay. -/
def CyclesMesh.clear (m : CyclesMesh) : CyclesMesh :=
  { m with
    triangles := []
    subd_faces := []
    verts := []
    attributes := []
    subd_attributes := []
    used_shaders := []
    subd_creases := [] }

/-- `HdCyclesMesh::_PopulateVertices`. -/
def _PopulateVertices (s : HdCyclesMeshState) : HdCyclesMeshState :=
  { s with m_cyclesMesh := { s.m_cyclesMesh with verts := s.m_cyclesMesh.verts ++ s.m_points } }

/-- The inner loop `for (size_t j = 0; j < m_numMeshVerts; ++j, ++mP)` of `_PopulateMotion`:
the values it stores, `none` when it reads `pp[j]` outside `pp`. -/
def motionBlock (m_numMeshVerts : Nat) (pp : List GfVec3f) : Option (List GfVec3f) :=
  (List.range m_numMeshVerts).mapM (fun j : Nat => pp[j]?)

/-- Body of `for (size_t i = 0; i < m_pointSamples.count; ++i)` of `_PopulateMotion`; `mP` is
the list of the values stored so far. -/
def motionStep (s : HdCyclesMeshState) (mP : List GfVec3f) (i : Nat) :
    Option (List GfVec3f) := do
  let t ← s.m_pointSamples.times[i]?
  if t = 0 then some mP
  else
    let value ← s.m_pointSamples.values[i]?
    let block ← motionBlock s.m_numMeshVerts value.GetVec3fArray
    some (mP ++ block)

/-- `HdCyclesMesh::_PopulateMotion`.  When the attribute set already holds motion positions,
`attr_mP` is removed from the set and then used: the function is undefined there.  The
storage of the attribute is allocated by `add`; its capacity is not represented. -/
def _PopulateMotion (s : HdCyclesMeshState) : Option HdCyclesMeshState :=
  if s.m_pointSamples.count ≤ 1 then some s
  else
    let mesh := { s.m_cyclesMesh with
      use_motion_blur := true
      motion_steps := s.m_pointSamples.count + 1 }
    let attributes := if s.m_useSubdivision then mesh.subd_attributes else mesh.attributes
    if attributes.any Attribute.isMotion then none
    else do
      let mP ← (List.range s.m_pointSamples.count).foldlM (motionStep s) []
      let attributes := attributes ++ [Attribute.ATTR_STD_MOTION_VERTEX_POSITION mP]
      if s.m_useSubdivision
      then some { s with m_cyclesMesh := { mesh with subd_attributes := attributes } }
      else some { s with m_cyclesMesh := { mesh with attributes := attributes } }

/-- `HdCyclesMesh::_PopulateCreases`. -/
def _PopulateCreases (s : HdCyclesMeshState) : Option HdCyclesMeshState := do
  let creases ← (List.range s.m_creaseLengths.length).mapM (fun i : Nat => do
    let v0 ← s.m_creaseIndices[i * 2 + 0]?
    let v1 ← s.m_creaseIndices[i * 2 + 1]?
    let crease ← s.m_creaseWeights[i]?
    some ({ v0 := v0, v1 := v1, crease := crease } : SubdEdgeCrease))
  some { s with m_cyclesMesh := { s.m_cyclesMesh with subd_creases := creases } }

/-- Appends an entry to the attribute set the writers select,
`m_useSubdivision ? subd_attributes : attributes`. -/
def addAttribute (s : HdCyclesMeshState) (a : Attribute) : HdCyclesMeshState :=
  if s.m_useSubdivision
  then { s with m_cyclesMesh :=
    { s.m_cyclesMesh with subd_attributes := s.m_cyclesMesh.subd_attributes ++ [a] } }
  else { s with m_cyclesMesh :=
    { s.m_cyclesMesh with attributes := s.m_cyclesMesh.attributes ++ [a] } }

/-- `HdCyclesMesh::_FinishMesh`: `compute_bounds ()` changes nothing represented here, then
`_PopulateGenerated` adds the generated coordinates when the scene needs them. -/
def _FinishMesh (e : Renderer) (s : HdCyclesMeshState) : HdCyclesMeshState :=
  if e.needGenerated then addAttribute s Attribute.ATTR_STD_GENERATED else s

/-- The block of the rebuild that follows `_PopulateFaces`:
`if (m_useSubdivision) { _PopulateCreases (); ... subd_params ... }`. -/
def syncSubdivision (s : HdCyclesMeshState) : Option HdCyclesMeshState :=
  if s.m_useSubdivision then do
    let s ← _PopulateCreases s
    let subd_params : SubdParams :=
      { dicing_rate := (s.m_dicingRate, (s.m_refineLevel + 1) * 2)
        max_level := s.m_maxSubdivision
        objecttoworld := 1 }
    some { s with m_cyclesMesh := { s.m_cyclesMesh with subd_params := some subd_params } }
  else some s

/-- The normals branch of the body of the primvar loop: `UncheckedGet` and `_AddNormals`. -/
def syncNormals (interpolation : HdInterpolation) (value : VtValue) (pv : HdPrimvarDescriptor)
    (s : HdCyclesMeshState) : Option HdCyclesMeshState :=
  if !s.m_useSubdivision && pv.name = "normals" then
    value.UncheckedGetVec3fArray.map
      (fun normals => addAttribute s (Attribute.normals normals interpolation))
  else some s

/-- The branch `if (pv.role == HdPrimvarRoleTokens->color)` of the body of the primvar
loop. -/
def syncColors (e : Renderer) (interpolation : HdInterpolation) (value : VtValue)
    (pv : HdPrimvarDescriptor) (s : HdCyclesMeshState) : HdCyclesMeshState :=
  if pv.role = "color" then
    let s : HdCyclesMeshState := { s with m_hasVertexColors := true }
    match value with
    | VtValue.vec3fArray colors =>
      let colors := if !s.m_useSubdivision
          && interpolation = HdInterpolation.HdInterpolationFaceVarying
        then e.triangulateVec3f s.toHdCyclesMesh colors else colors
      addAttribute s (Attribute.colors pv.name colors interpolation)
    | _ => s
  else s

/-- The branch `if (value.IsHolding<VtArray<GfVec2f>> ())` of the body of the primvar
loop. -/
def syncUVs (e : Renderer) (interpolation : HdInterpolation) (value : VtValue)
    (pv : HdPrimvarDescriptor) (s : HdCyclesMeshState) : HdCyclesMeshState :=
  match value with
  | VtValue.vec2fArray uvs =>
    let uvs := if !s.m_useSubdivision
        && interpolation = HdInterpolation.HdInterpolationFaceVarying
      then e.triangulateVec2f s.toHdCyclesMesh uvs else uvs
    addAttribute s (Attribute.uvSet pv.name uvs interpolation)
  | _ => s

/-- Body of the primvar loop of the rebuild, for one descriptor `pv` of the interpolation
`interpolation`: the normals, then the colours, then the UV sets.  The velocities branch
only computes local values. -/
def syncPrimvar (e : Renderer) (sceneDelegate : HdSceneDelegate) (dirtyBits : HdDirtyBits)
    (interpolation : HdInterpolation) (s : HdCyclesMeshState) (pv : HdPrimvarDescriptor) :
    Option HdCyclesMeshState :=
  if IsPrimvarDirty dirtyBits pv.name then
    (syncNormals interpolation (sceneDelegate.primvar pv.name) pv s).map
      (fun s => syncUVs e interpolation (sceneDelegate.primvar pv.name) pv
        (syncColors e interpolation (sceneDelegate.primvar pv.name) pv s))
  else some s

/-- The primvar loop of the rebuild.  `primvarDescsPerInterpolation` is a `std::map`, visited
in the order of its keys: Constant, Vertex, FaceVarying. -/
def syncPrimvars (e : Renderer) (sceneDelegate : HdSceneDelegate) (dirtyBits : HdDirtyBits)
    (s : HdCyclesMeshState) : Option HdCyclesMeshState :=
  [HdInterpolation.HdInterpolationConstant, HdInterpolation.HdInterpolationVertex,
    HdInterpolation.HdInterpolationFaceVarying].foldlM
    (fun s interpolation => (sceneDelegate.primvarDescriptors interpolation).foldlM
      (syncPrimvar e sceneDelegate dirtyBits interpolation) s) s

/-! ## `Sync`: the blocks that pull the scene data

Each block takes and returns the state of the prim together with the local flags. -/

/-- The loop over `extComputationDescs`: it skips the descriptors not named `points` and
leaves at the first one that is (`break`). -/
def syncExtComputation (sceneDelegate : HdSceneDelegate) (dirtyBits : HdDirtyBits)
    (st : HdCyclesMeshState × SyncLocals) : HdCyclesMeshState × SyncLocals :=
  match sceneDelegate.extComputationPrimvarDescriptors.find?
      (fun desc => decide (desc.name = "points")) with
  | none => st
  | some desc =>
    if IsPrimvarDirty dirtyBits desc.name then
      let l := { st.2 with mesh_updated := true }
      match sceneDelegate.computedPrimvarValues desc.name with
      | none => (st.1, l)
      | some value =>
        if !value.IsEmpty then
          ({ st.1 with
              m_points := value.GetVec3fArray
              m_numMeshVerts := value.GetVec3fArray.length },
            { l with pointsIsComputed := true, newMesh := true })
        else (st.1, l)
    else st

/-- The block `if (HdChangeTracker::IsPrimvarDirty (*dirtyBits, id, HdTokens->points))`. -/
def syncPoints (sceneDelegate : HdSceneDelegate) (dirtyBits : HdDirtyBits)
    (st : HdCyclesMeshState × SyncLocals) : HdCyclesMeshState × SyncLocals :=
  if IsPrimvarDirty dirtyBits "points" then
    let l := { st.2 with mesh_updated := true }
    let pointsValue := sceneDelegate.points
    if !pointsValue.IsEmpty then
      let s : HdCyclesMeshState := { st.1 with m_points := pointsValue.GetVec3fArray }
      let st : HdCyclesMeshState × SyncLocals :=
        if s.m_points.length > 0
        then ({ s with m_numMeshVerts := s.m_points.length }, { l with newMesh := true })
        else (s, l)
      ({ st.1 with m_pointSamples := sceneDelegate.pointSamples }, st.2)
    else (st.1, l)
  else st

/-- The block `if (HdChangeTracker::IsTopologyDirty (*dirtyBits, id))`: the members of the
topology builder are set by `syncTopology`. -/
def syncTopologyBlock (sceneDelegate : HdSceneDelegate) (dirtyBits : HdDirtyBits)
    (st : HdCyclesMeshState × SyncLocals) : HdCyclesMeshState × SyncLocals :=
  if dirtyBits.DirtyTopology then
    ({ st.1 with
        toHdCyclesMesh := syncTopology st.1.toHdCyclesMesh sceneDelegate.meshTopology
        m_geomSubsets := sceneDelegate.geomSubsets },
      { st.2 with newMesh := true })
  else st

/-- The block `if (*dirtyBits & HdChangeTracker::DirtyDoubleSided)`. -/
def syncDoubleSided (sceneDelegate : HdSceneDelegate) (dirtyBits : HdDirtyBits)
    (st : HdCyclesMeshState × SyncLocals) : HdCyclesMeshState × SyncLocals :=
  if dirtyBits.DirtyDoubleSided then
    ({ st.1 with m_doubleSided := sceneDelegate.doubleSided }, { st.2 with mesh_updated := true })
  else st

/-- The block `if (*dirtyBits & HdChangeTracker::DirtyDisplayStyle)`. -/
def syncDisplayStyle (sceneDelegate : HdSceneDelegate) (dirtyBits : HdDirtyBits)
    (st : HdCyclesMeshState × SyncLocals) : HdCyclesMeshState × SyncLocals :=
  if dirtyBits.DirtyDisplayStyle then
    let l := { st.2 with mesh_updated := true }
    if st.1.m_refineLevel ≠ sceneDelegate.refineLevel then
      ({ st.1 with m_refineLevel := sceneDelegate.refineLevel }, { l with newMesh := true })
    else (st.1, l)
  else st

/-- The block `if (HdChangeTracker::IsSubdivTagsDirty (*dirtyBits, id))`. -/
def syncSubdivTags (sceneDelegate : HdSceneDelegate) (dirtyBits : HdDirtyBits)
    (st : HdCyclesMeshState × SyncLocals) : HdCyclesMeshState × SyncLocals :=
  if dirtyBits.DirtySubdivTags then
    ({ st.1 with
        m_cornerIndices := sceneDelegate.subdivTags.cornerIndices
        m_cornerWeights := sceneDelegate.subdivTags.cornerWeights
        m_creaseIndices := sceneDelegate.subdivTags.creaseIndices
        m_creaseLengths := sceneDelegate.subdivTags.creaseLengths
        m_creaseWeights := sceneDelegate.subdivTags.creaseWeights },
      { st.2 with newMesh := true })
  else st

/-- `Sync` from the declaration of the local flags to the end of the subdivision-tags block:
the part that pulls the scene data and decides whether the mesh is rebuilt. -/
def syncPull (sceneDelegate : HdSceneDelegate) (dirtyBits : HdDirtyBits)
    (s : HdCyclesMeshState) : HdCyclesMeshState × SyncLocals :=
  syncSubdivTags sceneDelegate dirtyBits
    (syncDisplayStyle sceneDelegate dirtyBits
      (syncDoubleSided sceneDelegate dirtyBits
        (syncTopologyBlock sceneDelegate dirtyBits
          (syncPoints sceneDelegate dirtyBits
            (syncExtComputation sceneDelegate dirtyBits
              (s, { mesh_updated := false, newMesh := false, pointsIsComputed := false }))))))

/-! ## `Sync`: the rebuild and the blocks that follow it -/

/-- The rebuild from `m_cyclesMesh->clear ()` to
`m_cyclesMesh->use_motion_blur = m_useMotionBlur`. -/
def rebuildVertices (s : HdCyclesMeshState) : HdCyclesMeshState :=
  let s : HdCyclesMeshState := { s with m_cyclesMesh := s.m_cyclesMesh.clear }
  let s := _PopulateVertices s
  { s with m_cyclesMesh := { s.m_cyclesMesh with use_motion_blur := s.m_useMotionBlur } }

/-- `if (m_useMotionBlur) _PopulateMotion ();`. -/
def rebuildMotion (s : HdCyclesMeshState) : Option HdCyclesMeshState :=
  if s.m_useMotionBlur then _PopulateMotion s else some s

/-- The rebuild from `std::vector<int> faceMaterials` to `_PopulateFaces (faceMaterials)`. -/
def rebuildFaces (sceneDelegate : HdSceneDelegate) (s : HdCyclesMeshState) :
    Option HdCyclesMeshState :=
  (buildFaceMaterials sceneDelegate.material s.m_geomSubsets s.m_numMeshFaces
      s.m_usedShaders s.m_materialMap).bind (fun st =>
    (_PopulateFaces s.toHdCyclesMesh st.faceMaterials s.m_cyclesMesh.toMesh).map
      (fun geometry => { s with
        m_usedShaders := st.m_usedShaders
        m_materialMap := st.m_materialMap
        m_cyclesMesh := { s.m_cyclesMesh with
          toMesh := geometry
          used_shaders := st.used_shaders } }))

/-- `if (m_usedShaders.size () > 0) m_cyclesMesh->used_shaders = m_usedShaders;`. -/
def applyUsedShaders (s : HdCyclesMeshState) : HdCyclesMeshState :=
  if s.m_usedShaders.length > 0
  then { s with m_cyclesMesh := { s.m_cyclesMesh with used_shaders := s.m_usedShaders } }
  else s

/-- The block `if (newMesh)`. -/
def syncRebuild (e : Renderer) (sceneDelegate : HdSceneDelegate) (dirtyBits : HdDirtyBits)
    (s : HdCyclesMeshState) : Option HdCyclesMeshState :=
  (rebuildMotion (rebuildVertices s)).bind (fun s =>
    (rebuildFaces sceneDelegate s).bind (fun s =>
      (syncSubdivision s).bind (fun s =>
        (syncPrimvars e sceneDelegate dirtyBits s).map applyUsedShaders)))

/-- The block `if (*dirtyBits & HdChangeTracker::DirtyTransform)`. -/
def syncTransform (sceneDelegate : HdSceneDelegate) (dirtyBits : HdDirtyBits)
    (st : HdCyclesMeshState × SyncLocals) : HdCyclesMeshState × SyncLocals :=
  if dirtyBits.DirtyTransform then
    let r := sceneDelegate.HdCyclesSetTransform st.1.m_cyclesObject st.1.m_useMotionBlur
    let s := { st.1 with m_cyclesObject := r.1, m_transformSamples := r.2 }
    let s := match s.m_cyclesMesh.subd_params with
      | some p => { s with m_cyclesMesh :=
          { s.m_cyclesMesh with subd_params := some { p with objecttoworld := s.m_cyclesObject.tfm } } }
      | none => s
    (s, { st.2 with mesh_updated := true })
  else st

/-- The block `if (*dirtyBits & HdChangeTracker::DirtyPrimID)`. -/
def syncPrimId (sceneDelegate : HdSceneDelegate) (dirtyBits : HdDirtyBits)
    (s : HdCyclesMeshState) : HdCyclesMeshState :=
  if dirtyBits.DirtyPrimID then
    { s with m_cyclesObject := { s.m_cyclesObject with pass_id := sceneDelegate.primId + 1 } }
  else s

/-- The choice of `fallbackShader` and the block
`if (*dirtyBits & HdChangeTracker::DirtyMaterialId)`. -/
def syncMaterialId (e : Renderer) (sceneDelegate : HdSceneDelegate) (dirtyBits : HdDirtyBits)
    (s : HdCyclesMeshState) : HdCyclesMeshState :=
  let fallbackShader := if s.m_hasVertexColors then e.default_vcol_surface else e.default_surface
  if dirtyBits.DirtyMaterialId then
    let s := { s with m_cachedMaterialId := sceneDelegate.materialId }
    if s.m_faceVertexCounts.length > 0 then
      let shader :=
        if s.m_cachedMaterialId ≠ "" then
          match sceneDelegate.material s.m_cachedMaterialId with
          | some shader => shader
          | none => fallbackShader
        else fallbackShader
      let s := { s with m_usedShaders := s.m_usedShaders ++ [shader] }
      { s with m_cyclesMesh := { s.m_cyclesMesh with used_shaders := s.m_usedShaders } }
    else s
  else s

/-- The block `if (*dirtyBits & HdChangeTracker::DirtyVisibility)`. -/
def syncVisibility (sceneDelegate : HdSceneDelegate) (dirtyBits : HdDirtyBits)
    (st : HdCyclesMeshState × SyncLocals) : HdCyclesMeshState × SyncLocals :=
  if dirtyBits.DirtyVisibility then
    let s := { st.1 with visible := sceneDelegate.visible }
    let s := if !s.visible then { s with m_visibilityFlags := 0 } else s
    (s, { st.2 with mesh_updated := true })
  else st

/-- The combined transforms of instance `i`: body of the loop
`for (size_t i = 0; i < newNumInstances; ++i)`.  The reads `m_transformSamples.values[0]`,
`instanceTransforms.values[j][i]` and `instanceTransforms.times[j]` are unchecked. -/
def combinedTransform (e : Renderer) (s : HdCyclesMeshState)
    (instanceTransforms : HdTimeSampleArray (List GfMatrix4d)) (i : Nat) :
    Option (List GfMatrix4d) := do
  let prototypeIsIdentity ←
    if s.m_transformSamples.count = 0 then some true
    else if s.m_transformSamples.count = 1
    then (s.m_transformSamples.values[0]?).map (fun m => decide (m = 1))
    else some false
  (List.range instanceTransforms.count).mapM (fun j : Nat => do
    if prototypeIsIdentity then
      let values_j ← instanceTransforms.values[j]?
      values_j[i]?
    else
      let t ← instanceTransforms.times[j]?
      let values_j ← instanceTransforms.values[j]?
      let m ← values_j[i]?
      some (e.Resample s.m_transformSamples t * m))

/-- Body of the loop `for (int j = 0; j < newNumInstances; ++j)`: the instance object `j`. -/
def instanceObject (e : Renderer) (s : HdCyclesMeshState)
    (combinedTransforms : List (List GfMatrix4d)) (j : Nat) : Option CyclesObject := do
  let combined ← combinedTransforms[j]?
  let m ← combined[0]?
  some { _CreateCyclesObject e with tfm := e.mat4d_to_transform m, geometry := some s.id }

/-- The value of `newNumInstances`; reading `instanceTransforms.values[0]` is unchecked. -/
def newNumInstances (instanceTransforms : HdTimeSampleArray (List GfMatrix4d)) : Option Nat :=
  if instanceTransforms.count > 0
  then (instanceTransforms.values[0]?).map (fun v => v.length)
  else some 0

/-- The loop that removes and deletes the instance objects, and `m_cyclesInstances.clear ()`. -/
def clearInstances (s : HdCyclesMeshState) : HdCyclesMeshState :=
  { s with
    scene := s.scene ++ s.m_cyclesInstances.map SceneEvent.RemoveObject
    m_cyclesInstances := [] }

/-- The two loops of the block `if (newNumInstances != 0)`: the objects created, in order. -/
def createInstances (e : Renderer) (s : HdCyclesMeshState)
    (instanceTransforms : HdTimeSampleArray (List GfMatrix4d)) (newNumInstances : Nat) :
    Option (List CyclesObject) :=
  ((List.range newNumInstances).mapM (combinedTransform e s instanceTransforms)).bind
    (fun combinedTransforms =>
      (List.range newNumInstances).mapM (instanceObject e s combinedTransforms))

/-- The state after the objects `objects` are pushed to `m_cyclesInstances` and added to the
scene, and the prototype is hidden. -/
def pushInstances (s : HdCyclesMeshState) (objects : List CyclesObject) : HdCyclesMeshState :=
  { s with
    m_cyclesInstances := s.m_cyclesInstances ++ objects
    scene := s.scene ++ objects.map SceneEvent.AddObject
    m_visibilityFlags := 0 }

/-- The block `if (newMesh || (*dirtyBits & HdChangeTracker::DirtyInstancer))`. -/
def syncInstances (e : Renderer) (sceneDelegate : HdSceneDelegate) (dirtyBits : HdDirtyBits)
    (st : HdCyclesMeshState × SyncLocals) : Option (HdCyclesMeshState × SyncLocals) :=
  if st.2.newMesh || dirtyBits.DirtyInstancer then
    match sceneDelegate.instanceTransforms with
    | none => some (st.1, { st.2 with mesh_updated := true })
    | some instanceTransforms =>
      (newNumInstances instanceTransforms).bind (fun n =>
        if n ≠ 0 then
          (createInstances e (clearInstances st.1) instanceTransforms n).map (fun objects =>
            (pushInstances (clearInstances st.1) objects, { st.2 with mesh_updated := true }))
        else some (clearInstances st.1, { st.2 with mesh_updated := true }))
  else some st

/-- The block `if (mesh_updated || newMesh)`. -/
def syncTag (st : HdCyclesMeshState × SyncLocals) : HdCyclesMeshState :=
  if st.2.mesh_updated || st.2.newMesh then
    { st.1 with
      m_cyclesObject := { st.1.m_cyclesObject with visibility := st.1.m_visibilityFlags }
      scene := st.1.scene
        ++ [SceneEvent.meshTagUpdate, SceneEvent.objectTagUpdate, SceneEvent.Interrupt] }
  else st.1

/-- `Sync` from the rebuild to the end of the visibility block. -/
def syncUpdate (e : Renderer) (sceneDelegate : HdSceneDelegate) (dirtyBits : HdDirtyBits)
    (st : HdCyclesMeshState × SyncLocals) : Option (HdCyclesMeshState × SyncLocals) :=
  (if st.2.newMesh then syncRebuild e sceneDelegate dirtyBits st.1 else some st.1).map
    (fun s =>
      let st := syncTransform sceneDelegate dirtyBits (s, st.2)
      syncVisibility sceneDelegate dirtyBits
        (syncMaterialId e sceneDelegate dirtyBits (syncPrimId sceneDelegate dirtyBits st.1),
          st.2))

/-- `Sync` from the finish of the mesh to the release of the lock. -/
def syncFinish (e : Renderer) (st : HdCyclesMeshState × SyncLocals) : HdCyclesMeshState :=
  let s := syncTag (if st.2.newMesh then _FinishMesh e st.1 else st.1, st.2)
  { s with scene := s.scene ++ [SceneEvent.unlock] }

/-- `HdCyclesMesh::Sync`: the state of the prim after the call and the value left in
`*dirtyBits`; `none` when the run reads or stores outside an array. -/
def Sync (e : Renderer) (sceneDelegate : HdSceneDelegate) (dirtyBits : HdDirtyBits)
    (s : HdCyclesMeshState) : Option (HdCyclesMeshState × HdDirtyBits) :=
  ((syncUpdate e sceneDelegate dirtyBits
      (syncPull sceneDelegate dirtyBits { s with scene := s.scene ++ [SceneEvent.lock] })).bind
    (syncInstances e sceneDelegate dirtyBits)).map
    (fun st => (syncFinish e st, HdDirtyBits.Clean))

/-! ## Attribute writers: the remaining branches, and the writers as a whole -/

section moreWriters

variable {α β : Type}

/-- The number of iterations of a loop `for (size_t i = 0; i < n; i++)` whose bound has the
value `n`: the bound is compared as a `size_t`, so a negative one counts as `n + 2 ^ 64`.
As long as the product that gives the bound does not overflow, the result is the same
whether the bound is computed from an `int` or from a `size_t` member. -/
def sizeTLoopCount (n : Int) : Nat := (n % 2 ^ 64).toNat

/-- `HdCyclesMesh::_AddColors` for `interpolation == HdInterpolationUniform` and a non-empty
`colors` array: the content written to the vertex-colour attribute.  The subdivision branch
runs `i` below `m_numMeshFaces` and reads `colors[i]`, the other branch runs `i` below
`m_numMeshFaces * 2` and reads `colors[floor (i / 2)]`. -/
def _AddColors_Uniform (conv : α → β) (s : HdCyclesMesh) (colors : List α) : Option (List β) :=
  if s.m_useSubdivision then
    (List.range (sizeTLoopCount s.m_numMeshFaces)).mapM
      (fun i : Nat => (colors[i]?).map conv)
  else
    (List.range (sizeTLoopCount (s.m_numMeshFaces * 2))).mapM
      (fun i : Nat => (colors[i / 2]?).map conv)

/-- `HdCyclesMesh::_AddColors` for `interpolation == HdInterpolationConstant` and a non-empty
`colors` array: the content written to the vertex-colour attribute.  Both branches of
`if (m_useSubdivision)` run `i` below `m_numMeshFaces * 3` and read `colors[0]`. -/
def _AddColors_Constant (conv : α → β) (s : HdCyclesMesh) (colors : List α) :
    Option (List β) :=
  if s.m_useSubdivision then
    (List.range (sizeTLoopCount (s.m_numMeshFaces * 3))).mapM
      (fun _ : Nat => (colors[0]?).map conv)
  else
    (List.range (sizeTLoopCount (s.m_numMeshFaces * 3))).mapM
      (fun _ : Nat => (colors[0]?).map conv)

/-- The face-varying branch of the subdivision layout, one face: for RightHanded
`for (int j = 0; j < vCount; ++j)` reads `data[idx + j]`, for LeftHanded
`for (int j = vCount; j > 0; --j)` reads `data[idx + (j - 1)]` (`k` counts the iterations,
`j = vCount - k`). -/
def faceVaryingSubdFace (conv : α → β) (s : HdCyclesMesh) (data : List α) (idx vCount : Int)
    (out : List β) : Option (List β) :=
  (List.range vCount.toNat).foldlM (fun (out : List β) (k : Nat) =>
    (if s.m_orientation = Orientation.rightHanded
      then readAt data (idx + k)
      else readAt data (idx + ((vCount - k) - 1))).map (fun x => out ++ [conv x])) out

/-- The face-varying branch of the subdivision layout: the loop over the faces, `idx` being
advanced by `vCount` after each face. -/
def faceVaryingSubdLoop (conv : α → β) (s : HdCyclesMesh) (data : List α) :
    List Int → Int → List β → Option (List β)
  | [], _, out => some out
  | vCount :: rest, idx, out =>
    (faceVaryingSubdFace conv s data idx vCount out).bind
      (fun out => faceVaryingSubdLoop conv s data rest (idx + vCount) out)

/-- `HdCyclesMesh::_AddUVSet` for `interpolation == HdInterpolationFaceVarying` with
`m_useSubdivision` true: the content written to the UV attribute.  For RightHanded the faces
are visited from the last to the first (`for (int i = m_faceVertexCounts.size (); i > 0;
i--)`, `vCount = m_faceVertexCounts[i - 1]`), for LeftHanded from the first to the last. -/
def _AddUVSet_FaceVarying_subdivision (conv : α → β) (s : HdCyclesMesh) (uvs : List α) :
    Option (List β) :=
  faceVaryingSubdLoop conv s uvs
    (if s.m_orientation = Orientation.rightHanded
      then s.m_faceVertexCounts.reverse else s.m_faceVertexCounts) 0 []

/-- `HdCyclesMesh::_AddColors` for `interpolation == HdInterpolationFaceVarying` with
`m_useSubdivision` true and a non-empty `colors` array; the loops are those of
`_AddUVSet`. -/
def _AddColors_FaceVarying_subdivision (conv : α → β) (s : HdCyclesMesh) (colors : List α) :
    Option (List β) :=
  faceVaryingSubdLoop conv s colors
    (if s.m_orientation = Orientation.rightHanded
      then s.m_faceVertexCounts.reverse else s.m_faceVertexCounts) 0 []

/-- `HdCyclesMesh::_AddColors`: `some none` when the function returns before it adds the
attribute (`if (colors.size () <= 0) return;`), `some (some cdata)` when it adds the
vertex-colour attribute `name` and stores `cdata` in it, `none` when it reads outside an
array.  An interpolation without a branch stores nothing. -/
def _AddColors (conv : α → β) (s : HdCyclesMesh) (colors : List α)
    (interpolation : HdInterpolation) : Option (Option (List β)) :=
  if colors.length ≤ 0 then some none
  else
    (match interpolation with
      | HdInterpolation.HdInterpolationVertex => _AddColors_Vertex conv s colors
      | HdInterpolation.HdInterpolationUniform => _AddColors_Uniform conv s colors
      | HdInterpolation.HdInterpolationConstant => _AddColors_Constant conv s colors
      | HdInterpolation.HdInterpolationFaceVarying =>
        if s.m_useSubdivision then _AddColors_FaceVarying_subdivision conv s colors
        else _AddColors_FaceVarying_triangulated conv s colors
      | _ => some []).map some

/-- What a call of `_AddUVSet` that returns leaves on the mesh: the attribute
`attributes->add (ccl::ATTR_STD_UV, uv_name)` with the values `fdata` stored in it, and the
call `mikk_compute_tangents (name, m_cyclesMesh, need_sign, true)` that ends the function
(`need_tangent` and `need_sign` are forced to `true`). -/
structure UVSetEffect (β : Type) where
  uv_name : TfToken
  fdata : List β
  tangents_of : TfToken
  need_sign : Bool
deriving DecidableEq, Repr

/-- `HdCyclesMesh::_AddUVSet`: `none` when it reads outside an array.  The attribute is added
before the array is looked at; an interpolation without a branch stores nothing. -/
def _AddUVSet (conv : α → β) (s : HdCyclesMesh) (name : TfToken) (uvs : List α)
    (interpolation : HdInterpolation) : Option (UVSetEffect β) :=
  (match interpolation with
    | HdInterpolation.HdInterpolationVertex => _AddUVSet_Vertex conv s uvs
    | HdInterpolation.HdInterpolationFaceVarying =>
      if s.m_useSubdivision then _AddUVSet_FaceVarying_subdivision conv s uvs
      else _AddUVSet_FaceVarying_triangulated conv s uvs
    | _ => some []).map
    (fun fdata => { uv_name := name, fdata := fdata, tangents_of := name, need_sign := true })

end moreWriters

/-! ## `_AddNormals` -/

/-- Unary minus of `ccl::float3`. -/
def GfVec3f.neg (n : GfVec3f) : GfVec3f := { x := -n.x, y := -n.y, z := -n.z }

/-- The outcome of a run of code that has a loop without a bound: `done a` when the code
returns, `undefined` when it reads outside an array, `outOfFuel` when the iterations allowed
are used up before either happens. -/
inductive Run (α : Type) where
  | done (a : α)
  | undefined
  | outOfFuel
deriving DecidableEq, Repr

/-- The attribute a call of `_AddNormals` adds to the selected attribute set, with the stores
the call makes into it: `(idx, n)` stands for `data[idx] = n`. -/
inductive NormalsAttribute where
  | ATTR_STD_FACE_NORMAL (fN : List (Int × GfVec3f))
  | ATTR_STD_VERTEX_NORMAL (cdata : List (Int × GfVec3f))
deriving DecidableEq, Repr

/-- The loop `for (int j = 1; j < vCount - 1; ++idx) { fN[idx] = ...normals[idx]; }` of the
Uniform branch of `_AddNormals`, `j` being the value the loop tests (it is never assigned in
the loop).  Each iteration takes one unit of fuel; the result is the value of `idx` and the
stores made. -/
def normalsUniformInner (normals : List GfVec3f) (vCount j : Int) :
    Nat → Int → List (Int × GfVec3f) → Run (Int × List (Int × GfVec3f))
  | 0, idx, fN => if j < vCount - 1 then Run.outOfFuel else Run.done (idx, fN)
  | fuel + 1, idx, fN =>
    if j < vCount - 1 then
      match readAt normals idx with
      | none => Run.undefined
      | some n => normalsUniformInner normals vCount j fuel (idx + 1) (fN ++ [(idx, n)])
    else Run.done (idx, fN)

/-- The loop `for (int i = 0; i < m_faceVertexCounts.size (); i++)` of the Uniform branch of
`_AddNormals`; `fuel` bounds the iterations of each inner loop. -/
def normalsUniformLoop (normals : List GfVec3f) (fuel : Nat) :
    List Int → Int → List (Int × GfVec3f) → Run (List (Int × GfVec3f))
  | [], _, fN => Run.done fN
  | vCount :: rest, idx, fN =>
    match normalsUniformInner normals vCount 1 fuel idx fN with
    | Run.done r => normalsUniformLoop normals fuel rest r.1 r.2
    | Run.undefined => Run.undefined
    | Run.outOfFuel => Run.outOfFuel

/-- `HdCyclesMesh::_AddNormals` for `interpolation == HdInterpolationUniform`: the stores made
through `fN`, with `int idx = 0` before the loop. -/
def _AddNormals_Uniform (fuel : Nat) (s : HdCyclesMeshState) (normals : List GfVec3f) :
    Run (List (Int × GfVec3f)) :=
  normalsUniformLoop normals fuel s.m_faceVertexCounts 0 []

/-- `HdCyclesMesh::_AddNormals` for `interpolation == HdInterpolationVertex`: the stores of the
loop `for (size_t i = 0; i < m_cyclesMesh->verts.size (); i++)`, in order, `none` when it
reads `normals[i]` outside `normals`.  (The `memset` before the loop zeroes the entries the
loop then stores to.) -/
def _AddNormals_Vertex (s : HdCyclesMeshState) (normals : List GfVec3f) :
    Option (List (Int × GfVec3f)) :=
  (List.range s.m_cyclesMesh.verts.length).mapM (fun i : Nat =>
    (normals[i]?).map (fun n =>
      ((i : Int), if s.m_orientation = Orientation.leftHanded then n.neg else n)))

/-- `HdCyclesMesh::_AddNormals`: the state of the prim after the call and, beside it, the
attribute the call added to the selected set (the attribute sets of the state record the
calls of the writers, not what they store).  `add_face_normals` and `add_vertex_normals` are
the functions of `ccl::Mesh` the FaceVarying branch calls.  An interpolation without a branch
does nothing. -/
def _AddNormals (add_face_normals add_vertex_normals : CyclesMesh → CyclesMesh) (fuel : Nat)
    (s : HdCyclesMeshState) (normals : List GfVec3f) (interpolation : HdInterpolation) :
    Run (HdCyclesMeshState × Option NormalsAttribute) :=
  match interpolation with
  | HdInterpolation.HdInterpolationUniform =>
    match _AddNormals_Uniform fuel s normals with
    | Run.done fN => Run.done (s, some (NormalsAttribute.ATTR_STD_FACE_NORMAL fN))
    | Run.undefined => Run.undefined
    | Run.outOfFuel => Run.outOfFuel
  | HdInterpolation.HdInterpolationVertex =>
    match _AddNormals_Vertex s normals with
    | some cdata => Run.done (s, some (NormalsAttribute.ATTR_STD_VERTEX_NORMAL cdata))
    | none => Run.undefined
  | HdInterpolation.HdInterpolationFaceVarying =>
    Run.done
      ({ s with m_cyclesMesh := add_vertex_normals (add_face_normals s.m_cyclesMesh) }, none)
  | _ => Run.done (s, none)

/-! ## `_MeshTextureSpace` and the generated coordinates, over exact arithmetic -/

/-- `ccl::float3` with rational components. -/
structure float3 where
  x : ℚ
  y : ℚ
  z : ℚ
deriving DecidableEq

/-- `ccl::make_float3`. -/
def make_float3 (x y z : ℚ) : float3 := { x := x, y := y, z := z }

/-- `a + b` on `ccl::float3`, by component. -/
def float3.add (a b : float3) : float3 := { x := a.x + b.x, y := a.y + b.y, z := a.z + b.z }

/-- `a - b` on `ccl::float3`, by component. -/
def float3.sub (a b : float3) : float3 := { x := a.x - b.x, y := a.y - b.y, z := a.z - b.z }

/-- `a * b` on `ccl::float3`, by component. -/
def float3.mul (a b : float3) : float3 := { x := a.x * b.x, y := a.y * b.y, z := a.z * b.z }

/-- `a / f` on `ccl::float3`, for a scalar `f`. -/
def float3.divScalar (a : float3) (f : ℚ) : float3 := { x := a.x / f, y := a.y / f, z := a.z / f }

/-- `ccl::BoundBox`, the type of the member `bounds` of `ccl::Mesh`. -/
structure BoundBox where
  min : float3
  max : float3
deriving DecidableEq

/-- `HdCyclesMesh::_MeshTextureSpace`: the values left in `loc` and `size`, for the bounds of
the mesh. -/
def _MeshTextureSpace (bounds : BoundBox) : float3 × float3 :=
  let loc := (bounds.max.add bounds.min).divScalar 2
  let size := (bounds.max.sub bounds.min).divScalar 2
  let size := if size.x ≠ 0 then { size with x := (1 / 2) / size.x } else size
  let size := if size.y ≠ 0 then { size with y := (1 / 2) / size.y } else size
  let size := if size.z ≠ 0 then { size with z := (1 / 2) / size.z } else size
  let loc := (loc.mul size).sub (make_float3 (1 / 2) (1 / 2) (1 / 2))
  (loc, size)

/-- The value `_PopulateGenerated` stores for the vertex `v`:
`generated[i] = m_cyclesMesh->verts[i] * size - loc`. -/
def generatedCoordinate (v loc size : float3) : float3 := (v.mul size).sub loc

/-! ## Descriptions used in the statements and proofs -/

/-- Corner `k` of the polygon whose first corner sits at offset `p` of the index array. -/
def corner (s : HdCyclesMesh) (p k : Int) : Int :=
  s.m_faceVertexIndices.getD (p + k).toNat 0

/-- The corner indices of the polygon of size `N` whose first corner sits at offset `p`. -/
def polygonCorners (s : HdCyclesMesh) (p N : Int) : List Int :=
  (List.range N.toNat).map (fun k : Nat => corner s p k)

/-- The triangle that iteration `j` of the inner loop offers to the bound test. -/
def fanCandidate (s : HdCyclesMesh) (p vCount materialId : Int) (j : Nat) : Triangle :=
  if s.m_orientation = Orientation.leftHanded then
    { v0 := corner s p 0, v1 := corner s p ((vCount - 1) - j), v2 := corner s p ((vCount - 1) - j + 1),
      shader := materialId, smooth := true }
  else
    { v0 := corner s p 0, v1 := corner s p j, v2 := corner s p (j + 1),
      shader := materialId, smooth := true }

/-- The bound test of `_PopulateFaces` on the three corners of a triangle. -/
def passesBound (s : HdCyclesMesh) (t : Triangle) : Bool :=
  indexBelow s.countIsUnsigned t.v0 s.m_numMeshVerts
    && indexBelow s.countIsUnsigned t.v1 s.m_numMeshVerts
    && indexBelow s.countIsUnsigned t.v2 s.m_numMeshVerts

/-- Triangles kept from one polygon. -/
def faceTriangles (s : HdCyclesMesh) (p vCount materialId : Int) : List Triangle :=
  ((fanRange vCount).map (fanCandidate s p vCount materialId)).filter (passesBound s)

/-- Triangles kept from the polygons `counts`, the first of which has index `i` and
offset `p`. -/
def facesTriangles (s : HdCyclesMesh) (a_faceMaterials : List Int) :
    List Int → Nat → Int → List Triangle
  | [], _, _ => []
  | vCount :: rest, i, p =>
    faceTriangles s p vCount (faceMaterial a_faceMaterials i)
      ++ facesTriangles s a_faceMaterials rest (i + 1) (p + vCount)

/-- Sum of a list of face-vertex counts. -/
def countSum (counts : List Int) : Int := counts.foldl (fun a c => a + c) 0

/-- All triangles offered to the bound test for the polygons `counts`, kept or not. -/
def facesCandidates (s : HdCyclesMesh) (a_faceMaterials : List Int) :
    List Int → Nat → Int → List Triangle
  | [], _, _ => []
  | vCount :: rest, i, p =>
    (fanRange vCount).map (fanCandidate s p vCount (faceMaterial a_faceMaterials i))
      ++ facesCandidates s a_faceMaterials rest (i + 1) (p + vCount)

/-- The vertex index stored at each face corner of the mesh, in corner order: the three
corners of each triangle in the triangulated layout, the corners of each subdivision face in
the subdivision layout. -/
def cornerVertices (useSubdivision : Bool) (m : Mesh) : List Int :=
  if useSubdivision then m.subd_faces.flatMap (fun f => f.corners)
  else m.triangles.flatMap (fun t => t.corners)

/-- The vertex list handed to `add_subd_face` for a polygon, by orientation. -/
def orientCorners (o : Orientation) (corners : List Int) : List Int :=
  if o = Orientation.rightHanded then corners else corners.reverse

/-- The vertex index of every face corner of the layout, in corner order, for the polygons
`counts` the first of which has offset `p`. -/
def layoutCorners (s : HdCyclesMesh) : List Int → Int → List Int
  | [], _ => []
  | vCount :: rest, p =>
    (if s.m_useSubdivision then orientCorners s.m_orientation (polygonCorners s p vCount)
      else (fanRange vCount).flatMap (fun j => (fanCandidate s p vCount 0 j).corners))
      ++ layoutCorners s rest (p + vCount)

/-- Exchange of the last two corners of a triangle. -/
def swapLastTwo (t : Triangle) : Triangle :=
  { t with v1 := t.v2, v2 := t.v1 }

/-- Subdivision faces added for the polygons `counts`, the first of which has index `i`
and offset `p`. -/
def subdFacesOf (s : HdCyclesMesh) (a_faceMaterials : List Int) :
    List Int → Nat → Int → List SubdFace
  | [], _, _ => []
  | vCount :: rest, i, p =>
    { corners := orientCorners s.m_orientation (polygonCorners s p vCount),
      shader := faceMaterial a_faceMaterials i, smooth := true }
      :: subdFacesOf s a_faceMaterials rest (i + 1) (p + vCount)

/-- The value stored for the faces of a subset whose material index is `index`. -/
def slotOfIndex (index : Int) : Int := max (index - 1) 0

/-- The loop `for (int i : subset.indices) faceMaterials[i] = v`. -/
def writeFaces (v : Int) (indices : List Int) (faceMaterials : List Int) : Option (List Int) :=
  indices.foldlM (fun fm i => writeAt fm i v) faceMaterials

/-- Consistency of `m_materialMap` with `m_usedShaders`: every entry `(id, k)` has `k ≥ 1`,
`id` resolves to a shader, and that shader is entry `k - 1` of `m_usedShaders`.  It holds for
the empty map of a new prim. -/
def mapConsistent (resolve : SdfPath → Option Shader) (usedShaders : List Shader)
    (map : List (SdfPath × Int)) : Bool :=
  map.all (fun e => decide (1 ≤ e.2) && (resolve e.1).isSome
    && (usedShaders[(e.2 - 1).toNat]? == resolve e.1))

/-- What a run of the geometry-subset loop over `subsets` from `st` to `st'` guarantees;
`newIds` are the material paths whose shader the run appended to `m_usedShaders`. -/
structure RunFacts (resolve : SdfPath → Option Shader) (subsets : List HdGeomSubset)
    (st st' : SubsetState) (newIds : List SdfPath) : Prop where
  consistent : mapConsistent resolve st'.m_usedShaders st'.m_materialMap = true
  length_eq : st'.faceMaterials.length = st.faceMaterials.length
  nodup : newIds.Nodup
  fresh : ∀ id ∈ newIds, mapFind st.m_materialMap id = none
  fromSubsets : ∀ id ∈ newIds, ∃ S ∈ subsets, S.materialId = id
  recorded : ∀ id ∈ newIds, mapFind st'.m_materialMap id ≠ none
  shaders : st'.m_usedShaders.map some = st.m_usedShaders.map some ++ newIds.map resolve
  stable : ∀ id k, mapFind st.m_materialMap id = some k → mapFind st'.m_materialMap id = some k
  origin : ∀ id, mapFind st'.m_materialMap id ≠ none →
    mapFind st.m_materialMap id ≠ none ∨ id ∈ newIds
  registered : ∀ S ∈ subsets, S.materialId ≠ "" → (resolve S.materialId).isSome →
    mapFind st'.m_materialMap S.materialId ≠ none
  untouched : ∀ j : Int, (∀ S ∈ subsets, j ∉ S.indices) →
    readAt st'.faceMaterials j = readAt st.faceMaterials j
  grows : ∃ extra, st'.m_usedShaders = st.m_usedShaders ++ extra
  meshShaders : st.used_shaders = st.m_usedShaders → st'.used_shaders = st'.m_usedShaders

/-- No material was registered while the used-shader list was empty. -/
def SlotZeroFree (st : SubsetState) : Prop :=
  st.m_usedShaders ≠ [] ∧ ∀ id k, mapFind st.m_materialMap id = some k → 2 ≤ k

/-- The number of fan triangles of the polygons `counts`. -/
def fanTriangleCount (counts : List Int) : Nat :=
  (counts.map (fun c : Int => (c - 2).toNat)).sum

/-- The attribute set the writers select, `m_useSubdivision ? subd_attributes : attributes`. -/
def selectedAttributes (s : HdCyclesMeshState) : List Attribute :=
  if s.m_useSubdivision then s.m_cyclesMesh.subd_attributes else s.m_cyclesMesh.attributes

/-- The samples `_PopulateMotion` visits, in order: the first `m_pointSamples.count` pairs of
a time and a value. -/
def motionSamples (s : HdCyclesMeshState) : List (Int × VtValue) :=
  (s.m_pointSamples.times.zip s.m_pointSamples.values).take s.m_pointSamples.count

/-- The samples whose time is not `0`, in order. -/
def nonZeroSamples (samples : List (Int × VtValue)) : List (Int × VtValue) :=
  samples.filter (fun p => !decide (p.1 = 0))

/-- The keyframe block of a sample: its positions for the vertices `0 .. V - 1`. -/
def keyframeBlock (V : Nat) (sample : Int × VtValue) : List GfVec3f :=
  sample.2.GetVec3fArray.take V

/-- Every sample whose time is not `0` holds at least `V` positions. -/
def samplesFit (V : Nat) (samples : List (Int × VtValue)) : Bool :=
  samples.all (fun p => decide (p.1 = 0) || decide (V ≤ p.2.GetVec3fArray.length))

/-- The state `_PopulateMotion` leaves when it stores `mP` in a new motion-position
attribute. -/
def withMotion (s : HdCyclesMeshState) (mP : List GfVec3f) : HdCyclesMeshState :=
  if s.m_useSubdivision
  then { s with m_cyclesMesh := { s.m_cyclesMesh with
    use_motion_blur := true
    motion_steps := s.m_pointSamples.count + 1
    subd_attributes := s.m_cyclesMesh.subd_attributes
      ++ [Attribute.ATTR_STD_MOTION_VERTEX_POSITION mP] } }
  else { s with m_cyclesMesh := { s.m_cyclesMesh with
    use_motion_blur := true
    motion_steps := s.m_pointSamples.count + 1
    attributes := s.m_cyclesMesh.attributes
      ++ [Attribute.ATTR_STD_MOTION_VERTEX_POSITION mP] } }

/-- The buffers of the renderer mesh: the vertices, the geometry written by the topology
builder and the two attribute sets. -/
def meshBuffers (s : HdCyclesMeshState) :
    List GfVec3f × Mesh × List Attribute × List Attribute :=
  (s.m_cyclesMesh.verts, s.m_cyclesMesh.toMesh, s.m_cyclesMesh.attributes,
    s.m_cyclesMesh.subd_attributes)

/-- What the blocks of `Sync` that follow the rebuild leave alone: the members of the
topology builder, the points, the id and the buffers of the renderer mesh. -/
def syncFrame (s : HdCyclesMeshState) :
    HdCyclesMesh × List GfVec3f × SdfPath × List GfVec3f × Mesh × List Attribute
      × List Attribute :=
  (s.toHdCyclesMesh, s.m_points, s.id, meshBuffers s)

/-- A sequence of calls of `Sync` on one prim, each with its delegate answers and dirty
bits. -/
def syncAll (e : Renderer) :
    List (HdSceneDelegate × HdDirtyBits) → HdCyclesMeshState → Option HdCyclesMeshState
  | [], s => some s
  | call :: rest, s => (Sync e call.1 call.2 s).bind (fun r => syncAll e rest r.1)

/-- Whether `Sync` rebuilds the mesh: the value of `newMesh` when the scene data are
pulled. -/
def rebuilds (d : HdSceneDelegate) (dirtyBits : HdDirtyBits) (s : HdCyclesMeshState) : Bool :=
  (syncPull d dirtyBits s).2.newMesh

/-- What the blocks that pull the scene data leave alone: the id, the renderer mesh, the
prototype object, the instance objects, the record of the scene calls, the shader members
and the visibility mask. -/
def pullFrame (s : HdCyclesMeshState) :
    SdfPath × CyclesMesh × CyclesObject × List CyclesObject × List SceneEvent × List Shader
      × List (SdfPath × Int) × Nat × Bool × Int × Bool × Bool :=
  (s.id, s.m_cyclesMesh, s.m_cyclesObject, s.m_cyclesInstances, s.scene, s.m_usedShaders,
    s.m_materialMap, s.m_visibilityFlags, s.m_useMotionBlur, s.m_maxSubdivision,
    s.m_subdivEnabled, s.countIsUnsigned)

/-- The attribute set the writers do not select. -/
def unselectedAttributes (s : HdCyclesMeshState) : List Attribute :=
  if s.m_useSubdivision then s.m_cyclesMesh.attributes else s.m_cyclesMesh.subd_attributes

/-- What the rebuild leaves alone, outside the renderer mesh: the members of the topology
builder, the id, the points, the instance objects, the record of the scene calls, the
visibility mask, the prototype object and the configuration. -/
def rebuildFrame (s : HdCyclesMeshState) :
    HdCyclesMesh × SdfPath × List GfVec3f × List CyclesObject × List SceneEvent × Nat
      × CyclesObject × Int × Bool :=
  (s.toHdCyclesMesh, s.id, s.m_points, s.m_cyclesInstances, s.scene, s.m_visibilityFlags,
    s.m_cyclesObject, s.m_maxSubdivision, s.m_useMotionBlur)

/-- The attribute the normals branch of the primvar loop adds for the descriptor `pv`. -/
def normalsRecords (interpolation : HdInterpolation) (value : VtValue)
    (pv : HdPrimvarDescriptor) (members : HdCyclesMesh) : List Attribute :=
  if !members.m_useSubdivision && pv.name = "normals" then
    match value with
    | VtValue.vec3fArray normals => [Attribute.normals normals interpolation]
    | _ => []
  else []

/-- The attribute the colour branch of the primvar loop adds for the descriptor `pv`. -/
def colorsRecords (e : Renderer) (interpolation : HdInterpolation) (value : VtValue)
    (pv : HdPrimvarDescriptor) (members : HdCyclesMesh) : List Attribute :=
  if pv.role = "color" then
    match value with
    | VtValue.vec3fArray colors =>
      [Attribute.colors pv.name
        (if !members.m_useSubdivision
            && interpolation = HdInterpolation.HdInterpolationFaceVarying
          then e.triangulateVec3f members colors else colors) interpolation]
    | _ => []
  else []

/-- The attribute the UV branch of the primvar loop adds for the descriptor `pv`. -/
def uvRecords (e : Renderer) (interpolation : HdInterpolation) (value : VtValue)
    (pv : HdPrimvarDescriptor) (members : HdCyclesMesh) : List Attribute :=
  match value with
  | VtValue.vec2fArray uvs =>
    [Attribute.uvSet pv.name
      (if !members.m_useSubdivision
          && interpolation = HdInterpolation.HdInterpolationFaceVarying
        then e.triangulateVec2f members uvs else uvs) interpolation]
  | _ => []

/-- The attributes the body of the primvar loop adds for the descriptor `pv` of the
interpolation `interpolation`, in order: none when the primvar is not dirty. -/
def primvarRecords (e : Renderer) (d : HdSceneDelegate) (dirtyBits : HdDirtyBits)
    (members : HdCyclesMesh) (interpolation : HdInterpolation) (pv : HdPrimvarDescriptor) :
    List Attribute :=
  if IsPrimvarDirty dirtyBits pv.name then
    normalsRecords interpolation (d.primvar pv.name) pv members
      ++ colorsRecords e interpolation (d.primvar pv.name) pv members
      ++ uvRecords e interpolation (d.primvar pv.name) pv members
  else []

/-- The attributes the primvar loop of a rebuild adds, in order. -/
def allPrimvarRecords (e : Renderer) (d : HdSceneDelegate) (dirtyBits : HdDirtyBits)
    (members : HdCyclesMesh) : List Attribute :=
  [HdInterpolation.HdInterpolationConstant, HdInterpolation.HdInterpolationVertex,
    HdInterpolation.HdInterpolationFaceVarying].flatMap
    (fun interpolation => (d.primvarDescriptors interpolation).flatMap
      (primvarRecords e d dirtyBits members interpolation))

/-- The value of the local `fallbackShader` of `Sync` when the member `m_hasVertexColors`
holds `m_hasVertexColors`. -/
def fallbackShader (e : Renderer) (m_hasVertexColors : Bool) : Shader :=
  if m_hasVertexColors then e.default_vcol_surface else e.default_surface

/-- The shader the MaterialId block appends to `m_usedShaders`: the shader of the material
bound to the prim when the material id is not empty and the render index holds a material
with a shader for it, `fallbackShader` otherwise. -/
def materialShader (e : Renderer) (d : HdSceneDelegate) (m_hasVertexColors : Bool) : Shader :=
  if d.materialId ≠ "" then
    match d.material d.materialId with
    | some shader => shader
    | none => fallbackShader e m_hasVertexColors
  else fallbackShader e m_hasVertexColors

/-- Whether the primvar loop of a rebuild comes across a dirty primvar whose role is
`color`. -/
def visitsColorPrimvar (d : HdSceneDelegate) (dirtyBits : HdDirtyBits) : Bool :=
  [HdInterpolation.HdInterpolationConstant, HdInterpolation.HdInterpolationVertex,
    HdInterpolation.HdInterpolationFaceVarying].any (fun interpolation =>
      (d.primvarDescriptors interpolation).any (fun pv =>
        IsPrimvarDirty dirtyBits pv.name && decide (pv.role = "color")))

/-- Whether a recorded scene call is one of the three calls of the block
`if (mesh_updated || newMesh)`: `tag_update` on the mesh, `tag_update` on the object,
`Interrupt`. -/
def SceneEvent.isUpdate : SceneEvent → Bool
  | SceneEvent.meshTagUpdate => true
  | SceneEvent.objectTagUpdate => true
  | SceneEvent.Interrupt => true
  | _ => false

/-- The members the blocks after the MaterialId block leave alone beside those of
`syncFrame`: the shader list of the prim, the shader list of the mesh, the vertex-colour
flag and the cached material id. -/
def shaderMembers (s : HdCyclesMeshState) : List Shader × List Shader × Bool × SdfPath :=
  (s.m_usedShaders, s.m_cyclesMesh.used_shaders, s.m_hasVertexColors, s.m_cachedMaterialId)

/-- Whether a recorded scene call is `scene->mutex.lock ()`. -/
def SceneEvent.isLock : SceneEvent → Bool
  | SceneEvent.lock => true
  | _ => false

/-- Whether a recorded scene call is `scene->mutex.unlock ()`. -/
def SceneEvent.isUnlock : SceneEvent → Bool
  | SceneEvent.unlock => true
  | _ => false

/-- Triangles kept from the polygons `counts`, as `facesTriangles`, with the triangles of
each polygon in reverse order. -/
def facesTrianglesReversed (s : HdCyclesMesh) (a_faceMaterials : List Int) :
    List Int → Nat → Int → List Triangle
  | [], _, _ => []
  | vCount :: rest, i, p =>
    (faceTriangles s p vCount (faceMaterial a_faceMaterials i)).reverse
      ++ facesTrianglesReversed s a_faceMaterials rest (i + 1) (p + vCount)

/-- The component of a `float3` on the axis `a`: `0` for `x`, `1` for `y`, `2` for `z`. -/
def float3.axis (v : float3) (a : Fin 3) : ℚ :=
  match a with
  | 0 => v.x
  | 1 => v.y
  | 2 => v.z

/-- The positions, in the face-varying buffer and in the index array alike, of the corners of
the subdivision faces, in the order in which `_PopulateFaces` hands the corners to
`add_subd_face`: for each polygon, of size `vCount` with its first corner at `p`, the
positions `p, .., p + vCount - 1`, reversed for LeftHanded orientation. -/
def subdCornerPositions (o : Orientation) : List Int → Int → List Int
  | [], _ => []
  | vCount :: rest, p =>
    orientCorners o ((List.range vCount.toNat).map (fun k : Nat => p + k))
      ++ subdCornerPositions o rest (p + vCount)

/-- Triangles kept from polygon `k` of the topology: the fan of the polygon, whose first
corner sits at the sum of the sizes of the polygons before it, with the material slot
`_PopulateFaces` looks up for the index `k`. -/
def polygonTriangles (s : HdCyclesMesh) (a_faceMaterials : List Int) (k : Nat) :
    List Triangle :=
  faceTriangles s (countSum (s.m_faceVertexCounts.take k)) (s.m_faceVertexCounts.getD k 0)
    (faceMaterial a_faceMaterials k)

/-- The state in which a `Sync` that rebuilds reaches `faceMaterials.resize (m_numMeshFaces)`:
the lock is taken, the scene data are pulled, the mesh is cleared, the vertices and the
motion positions are populated.  `none` when the `Sync` does not rebuild, or is undefined
before it gets there. -/
def syncToResize (d : HdSceneDelegate) (dirtyBits : HdDirtyBits) (s : HdCyclesMeshState) :
    Option HdCyclesMeshState :=
  if rebuilds d dirtyBits s then
    rebuildMotion (rebuildVertices
      (syncPull d dirtyBits { s with scene := s.scene ++ [SceneEvent.lock] }).1)
  else none

/-- Whether the block of the external computations sets `newMesh`: the delegate lists an
external computation for the primvar `points`, the primvar is dirty, and the value store
holds a value for it that is not empty. -/
def computedPointsRebuild (d : HdSceneDelegate) (dirtyBits : HdDirtyBits) : Bool :=
  d.extComputationPrimvarDescriptors.any (fun desc => decide (desc.name = "points"))
    && dirtyBits.DirtyPoints
    && (match d.computedPrimvarValues "points" with
      | some value => !value.IsEmpty
      | none => false)

/-- The condition under which the blocks that pull the scene data set `newMesh`: computed
points as in `computedPointsRebuild`, Points dirty with a points value that holds a non-empty
array, Topology dirty, DisplayStyle dirty with a refine level that differs from the one the
prim holds, or SubdivTags dirty. -/
def rebuildCondition (d : HdSceneDelegate) (dirtyBits : HdDirtyBits) (s : HdCyclesMeshState) :
    Bool :=
  computedPointsRebuild d dirtyBits
    || (dirtyBits.DirtyPoints && !d.points.GetVec3fArray.isEmpty)
    || dirtyBits.DirtyTopology
    || (dirtyBits.DirtyDisplayStyle && !decide (s.m_refineLevel = d.refineLevel))
    || dirtyBits.DirtySubdivTags

/-- Two quads over the corner indices `0..7` with 8 vertices, in the triangulated layout. -/
def twoQuads (o : Orientation) : HdCyclesMesh :=
  { m_faceVertexCounts := [4, 4], m_faceVertexIndices := [0, 1, 2, 3, 4, 5, 6, 7],
    m_orientation := o, m_subdivEnabled := false, m_useSubdivision := false,
    m_numMeshVerts := 8, m_numMeshFaces := 4, m_numNgons := 0, m_numCorners := 0,
    countIsUnsigned := true }

/-- One quad whose last corner index, 5, is outside the 4 vertices. -/
def quadWithStrayIndex : HdCyclesMesh :=
  { m_faceVertexCounts := [4], m_faceVertexIndices := [0, 1, 2, 5],
    m_orientation := Orientation.rightHanded, m_subdivEnabled := false,
    m_useSubdivision := false, m_numMeshVerts := 4, m_numMeshFaces := 2, m_numNgons := 0,
    m_numCorners := 0, countIsUnsigned := false }

/-- A prim with `n` vertices and subdivision disabled, before its topology is pulled. -/
def meshWithVerts (n : Nat) : HdCyclesMesh :=
  { m_faceVertexCounts := [], m_faceVertexIndices := [],
    m_orientation := Orientation.rightHanded, m_subdivEnabled := false,
    m_useSubdivision := false, m_numMeshVerts := n, m_numMeshFaces := 0, m_numNgons := 0,
    m_numCorners := 0, countIsUnsigned := false }

/-- One triangle whose last corner index, 5, is outside the 3 vertices. -/
def strayTriangle : HdMeshTopology :=
  { faceVertexCounts := [3], faceVertexIndices := [0, 1, 5],
    orientation := Orientation.rightHanded, schemeIsCatmullClark := false }

/-- One face with a single vertex. -/
def oneVertexFace : HdMeshTopology :=
  { faceVertexCounts := [1], faceVertexIndices := [0],
    orientation := Orientation.rightHanded, schemeIsCatmullClark := false }

/-- Two quads over the corner indices `0..7`. -/
def twoQuadsTopology : HdMeshTopology :=
  { faceVertexCounts := [4, 4], faceVertexIndices := [0, 1, 2, 3, 4, 5, 6, 7],
    orientation := Orientation.rightHanded, schemeIsCatmullClark := false }

/-- A prim with `n` vertices and subdivision enabled, before its topology is pulled. -/
def subdivMeshWithVerts (n : Nat) : HdCyclesMesh :=
  { meshWithVerts n with m_subdivEnabled := true }

/-- A quad and a triangle over the corner indices `0..6`, Catmull-Clark scheme. -/
def quadAndTriangle (o : Orientation) : HdMeshTopology :=
  { faceVertexCounts := [4, 3], faceVertexIndices := [0, 1, 2, 3, 4, 5, 6],
    orientation := o, schemeIsCatmullClark := true }

/-- One LeftHanded triangle over the corner indices `0, 1, 2` with 3 vertices. -/
def leftHandedTriangle : HdCyclesMesh :=
  { m_faceVertexCounts := [3], m_faceVertexIndices := [0, 1, 2],
    m_orientation := Orientation.leftHanded, m_subdivEnabled := false,
    m_useSubdivision := false, m_numMeshVerts := 3, m_numMeshFaces := 1, m_numNgons := 0,
    m_numCorners := 0, countIsUnsigned := false }

/-- Materials `/a` and `/b` resolve to the shaders 7 and 8; no other path resolves. -/
def twoMaterials (id : SdfPath) : Option Shader :=
  if id = "/a" then some 7 else if id = "/b" then some 8 else none

/-- Three subsets over four faces, the first and the last carrying the same material. -/
def threeSubsets : List HdGeomSubset :=
  [{ materialId := "/a", indices := [0] }, { materialId := "/b", indices := [1, 2] },
   { materialId := "/a", indices := [3] }]

/-- The state in which the first rebuild of a prim with four faces enters the loop. -/
def freshSubsetState : SubsetState :=
  { m_usedShaders := [], m_materialMap := [], used_shaders := [],
    faceMaterials := List.replicate 4 0 }

/-- A time-sample array without samples. -/
def noSamples {α : Type} : HdTimeSampleArray α :=
  { count := 0, times := [], values := [] }

/-- A renderer whose scene needs no generated coordinates; the library functions are the
simplest ones (no example below calls them on a value that matters). -/
def plainRenderer : Renderer :=
  { default_surface := 1
    default_vcol_surface := 2
    needGenerated := false
    PATH_RAY_ALL_VISIBILITY := 2047
    mat4d_to_transform := fun m => m
    Resample := fun _ _ => 1
    triangulateVec3f := fun _ a => a
    triangulateVec2f := fun _ a => a }

/-- The prim `/mesh` as the constructor leaves it, for a configuration without subdivision
and without motion blur: empty members, an empty renderer mesh, and the prototype object
made by `_CreateCyclesObject` and pointed at the mesh. -/
def newPrim : HdCyclesMeshState :=
  { m_faceVertexCounts := []
    m_faceVertexIndices := []
    m_orientation := Orientation.rightHanded
    m_subdivEnabled := false
    m_useSubdivision := false
    m_numMeshVerts := 0
    m_numMeshFaces := 0
    m_numNgons := 0
    m_numCorners := 0
    countIsUnsigned := true
    id := "/mesh"
    m_points := []
    m_pointSamples := noSamples
    m_geomSubsets := []
    m_doubleSided := false
    m_refineLevel := 0
    m_cornerIndices := []
    m_cornerWeights := []
    m_creaseIndices := []
    m_creaseLengths := []
    m_creaseWeights := []
    m_useMotionBlur := false
    m_dicingRate := 1
    m_maxSubdivision := 12
    m_hasVertexColors := false
    m_visibilityFlags := plainRenderer.PATH_RAY_ALL_VISIBILITY
    visible := true
    m_usedShaders := []
    m_materialMap := []
    m_cachedMaterialId := ""
    m_transformSamples := noSamples
    m_cyclesMesh :=
      { triangles := []
        subd_faces := []
        subdivision_type := SubdivisionType.SUBDIVISION_NONE
        verts := []
        attributes := []
        subd_attributes := []
        used_shaders := []
        use_motion_blur := false
        motion_steps := 0
        subd_creases := []
        subd_params := none }
    m_cyclesObject := { _CreateCyclesObject plainRenderer with geometry := some "/mesh" }
    m_cyclesInstances := []
    scene := [] }

/-- The dirty bits of `GetInitialDirtyBitsMask`. -/
def initialDirtyBits : HdDirtyBits :=
  { HdDirtyBits.Clean with
    DirtyPoints := true
    DirtyTransform := true
    DirtyPrimvar := true
    DirtyTopology := true
    DirtyVisibility := true
    DirtyMaterialId := true
    DirtySubdivTags := true
    DirtyPrimID := true
    DirtyDisplayStyle := true
    DirtyDoubleSided := true }

/-- The three points of `triangleDelegate`. -/
def trianglePoints : List GfVec3f :=
  [{ x := 0, y := 0, z := 0 }, { x := 1, y := 0, z := 0 }, { x := 0, y := 1, z := 0 }]

/-- A delegate for one right-handed triangle with three points, a vertex-interpolated UV set
`st`, no material, no instancer and no computed primvar. -/
def triangleDelegate : HdSceneDelegate :=
  { extComputationPrimvarDescriptors := []
    computedPrimvarValues := fun _ => none
    points := VtValue.vec3fArray trianglePoints
    pointSamples := { count := 1, times := [0], values := [VtValue.vec3fArray trianglePoints] }
    meshTopology :=
      { faceVertexCounts := [3], faceVertexIndices := [0, 1, 2],
        orientation := Orientation.rightHanded, schemeIsCatmullClark := false }
    geomSubsets := []
    primvarDescriptors := fun interpolation =>
      if interpolation = HdInterpolation.HdInterpolationVertex
      then [{ name := "st", role := "textureCoordinate" }] else []
    primvar := fun name =>
      if name = "st"
      then VtValue.vec2fArray [{ x := 0, y := 0 }, { x := 1, y := 0 }, { x := 0, y := 1 }]
      else VtValue.empty
    doubleSided := false
    refineLevel := 0
    subdivTags :=
      { cornerIndices := [], cornerWeights := [], creaseIndices := [], creaseLengths := [],
        creaseWeights := [] }
    primId := 7
    materialId := ""
    material := fun _ => none
    visible := true
    instanceTransforms := none
    HdCyclesSetTransform := fun object _ => (object, noSamples) }

/-- The points of `trianglePoints` moved by one unit along `z`. -/
def raisedPoints : List GfVec3f :=
  [{ x := 0, y := 0, z := 1 }, { x := 1, y := 0, z := 1 }, { x := 0, y := 1, z := 1 }]

/-- A prim with three vertices and two point samples: `trianglePoints` at the first time of
`times`, the array `second` at the second. -/
def movingTriangle (times : List Int) (second : List GfVec3f) : HdCyclesMeshState :=
  { newPrim with
    m_numMeshVerts := 3
    m_points := trianglePoints
    m_useMotionBlur := true
    m_pointSamples :=
      { count := 2, times := times,
        values := [VtValue.vec3fArray trianglePoints, VtValue.vec3fArray second] } }

/-- Only `DirtyPrimvar` is set. -/
def onlyPrimvarDirty : HdDirtyBits :=
  { HdDirtyBits.Clean with DirtyPrimvar := true }

/-- Only `DirtyPoints` is set. -/
def onlyPointsDirty : HdDirtyBits :=
  { HdDirtyBits.Clean with DirtyPoints := true }

/-- The delegate `triangleDelegate` after the UV set `st` was edited. -/
def editedUVsDelegate : HdSceneDelegate :=
  { triangleDelegate with
    primvar := fun name =>
      if name = "st"
      then VtValue.vec2fArray [{ x := 5, y := 5 }, { x := 6, y := 5 }, { x := 5, y := 6 }]
      else VtValue.empty }

/-- The delegate `triangleDelegate` when it answers the query of the points with an empty
value. -/
def noPointsDelegate : HdSceneDelegate :=
  { triangleDelegate with points := VtValue.empty }

/-- The delegate `triangleDelegate` after the points were moved to `raisedPoints`. -/
def raisedPointsDelegate : HdSceneDelegate :=
  { triangleDelegate with
    points := VtValue.vec3fArray raisedPoints
    pointSamples := { count := 1, times := [0], values := [VtValue.vec3fArray raisedPoints] } }

/-- The delegate `triangleDelegate` when its points value holds an empty array. -/
def emptyPointsDelegate : HdSceneDelegate :=
  { triangleDelegate with points := VtValue.vec3fArray [] }

/-- The prim `/mesh` as the constructor leaves it when subdivision is enabled in the
configuration and the configured maximum subdivision is `0`. -/
def newSubdivPrim : HdCyclesMeshState :=
  { newPrim with m_subdivEnabled := true, m_maxSubdivision := 0 }

/-- A delegate for one quad with the Catmull-Clark scheme, four points and refine level 5. -/
def quadDelegate : HdSceneDelegate :=
  { triangleDelegate with
    points := VtValue.vec3fArray (trianglePoints ++ [{ x := 1, y := 1, z := 0 }])
    meshTopology :=
      { faceVertexCounts := [4], faceVertexIndices := [0, 1, 2, 3],
        orientation := Orientation.rightHanded, schemeIsCatmullClark := true }
    primvarDescriptors := fun _ => []
    refineLevel := 5 }

/-- Two instance transforms at one sample time. -/
def twoInstances : HdTimeSampleArray (List GfMatrix4d) :=
  { count := 1, times := [0], values := [[1, 1]] }

/-- The delegate `triangleDelegate` with an instancer that reports `twoInstances`. -/
def instancedDelegate : HdSceneDelegate :=
  { triangleDelegate with instanceTransforms := some twoInstances }

/-- The delegate `triangleDelegate` with an instancer that reports no instance. -/
def noInstanceDelegate : HdSceneDelegate :=
  { triangleDelegate with instanceTransforms := some { count := 1, times := [0], values := [[]] } }

/-- Only `DirtyInstancer` is set. -/
def onlyInstancerDirty : HdDirtyBits :=
  { HdDirtyBits.Clean with DirtyInstancer := true }

/-- The points the external computation of `computedPointsDelegate` produces. -/
def computedPoints : List GfVec3f :=
  [{ x := 0, y := 0, z := 9 }, { x := 1, y := 0, z := 9 }, { x := 0, y := 1, z := 9 }]

/-- The delegate `triangleDelegate` with an external computation for the primvar `points`
whose value is `computedPoints`; the points primvar itself still holds `trianglePoints`. -/
def computedPointsDelegate : HdSceneDelegate :=
  { triangleDelegate with
    extComputationPrimvarDescriptors := [{ name := "points", role := "point" }]
    computedPrimvarValues := fun name =>
      if name = "points" then some (VtValue.vec3fArray computedPoints) else none }

/-- The prim `/mesh` holding one triangle with orientation `o`, its three points in the vertex
buffer of the mesh. -/
def trianglePrim (o : Orientation) : HdCyclesMeshState :=
  _PopulateVertices { newPrim with
    m_faceVertexCounts := [3]
    m_faceVertexIndices := [0, 1, 2]
    m_orientation := o
    m_numMeshVerts := 3
    m_numMeshFaces := 1
    m_points := trianglePoints }

/-- The delegate `triangleDelegate` when the material `/red`, whose shader is `5`, is bound to
the prim. -/
def redMaterialDelegate : HdSceneDelegate :=
  { triangleDelegate with
    materialId := "/red"
    material := fun id => if id = "/red" then some 5 else none }

/-- The delegate `triangleDelegate` when the material `/gone`, which the render index does
not hold, is bound to the prim. -/
def missingMaterialDelegate : HdSceneDelegate :=
  { triangleDelegate with materialId := "/gone" }

/-- The delegate `triangleDelegate` with a vertex-interpolated primvar `displayColor` of role
`color` in place of the UV set. -/
def colouredDelegate : HdSceneDelegate :=
  { triangleDelegate with
    primvarDescriptors := fun interpolation =>
      if interpolation = HdInterpolation.HdInterpolationVertex
      then [{ name := "displayColor", role := "color" }] else []
    primvar := fun name =>
      if name = "displayColor" then VtValue.vec3fArray trianglePoints else VtValue.empty }

/-- The delegate `triangleDelegate` when the prim id is `9`. -/
def renumberedDelegate : HdSceneDelegate :=
  { triangleDelegate with primId := 9 }

/-- Only `DirtyMaterialId` is set. -/
def onlyMaterialIdDirty : HdDirtyBits :=
  { HdDirtyBits.Clean with DirtyMaterialId := true }

/-- Only `DirtyPrimID` is set. -/
def onlyPrimIdDirty : HdDirtyBits :=
  { HdDirtyBits.Clean with DirtyPrimID := true }

/-- `DirtyPoints` and `DirtyTopology` are set. -/
def pointsAndTopologyDirty : HdDirtyBits :=
  { HdDirtyBits.Clean with DirtyPoints := true, DirtyTopology := true }

/-- Only `DirtyTopology` is set. -/
def onlyTopologyDirty : HdDirtyBits :=
  { HdDirtyBits.Clean with DirtyTopology := true }

/-- Only `DirtyVisibility` is set. -/
def onlyVisibilityDirty : HdDirtyBits :=
  { HdDirtyBits.Clean with DirtyVisibility := true }

/-- The delegate `triangleDelegate` when the prim is reported invisible. -/
def hiddenDelegate : HdSceneDelegate :=
  { triangleDelegate with visible := false }

/-- The transform that moves by `5` along `x`. -/
def movedAlongX : Transform :=
  fun i j => if i = j then 1 else if i = 0 ∧ j = 3 then 5 else 0

/-- The delegate `quadDelegate` when `HdCyclesSetTransform` stores `movedAlongX` in the
object. -/
def movedQuadDelegate : HdSceneDelegate :=
  { quadDelegate with
    HdCyclesSetTransform := fun object _ => ({ object with tfm := movedAlongX }, noSamples) }

/-- The new prim `/mesh` once it was reported invisible: the visibility mask is `0`. -/
def hiddenPrim : HdCyclesMeshState :=
  { newPrim with m_visibilityFlags := 0, visible := false }

/-- Bounds from `(0, 0, 0)` to `(2, 4, 0)`: a flat box. -/
def flatBounds : BoundBox :=
  { min := make_float3 0 0 0, max := make_float3 2 4 0 }

/-- The delegate `colouredDelegate` when the value of `displayColor` is not an array of
`GfVec3f` (an array of `GfVec4f`, say). -/
def otherColourDelegate : HdSceneDelegate :=
  { colouredDelegate with
    primvar := fun name => if name = "displayColor" then VtValue.other else VtValue.empty }

/-- The delegate `colouredDelegate` when the value of `displayColor` is an empty array. -/
def emptyColourDelegate : HdSceneDelegate :=
  { colouredDelegate with
    primvar := fun name =>
      if name = "displayColor" then VtValue.vec3fArray [] else VtValue.empty }

/-- The delegate `triangleDelegate` when the topology is one face with a single vertex. -/
def oneVertexFaceDelegate : HdSceneDelegate :=
  { triangleDelegate with meshTopology := oneVertexFace }

/-- The prim `/mesh` as the constructor leaves it when motion blur is enabled in the
configuration. -/
def motionBlurPrim : HdCyclesMeshState :=
  { newPrim with m_useMotionBlur := true }

/-- The delegate `triangleDelegate` with two point samples: `trianglePoints` at time `0` and
the array `second` at time `1`. -/
def sampledDelegate (second : List GfVec3f) : HdSceneDelegate :=
  { triangleDelegate with
    pointSamples :=
      { count := 2, times := [0, 1],
        values := [VtValue.vec3fArray trianglePoints, VtValue.vec3fArray second] } }

/-- The delegate `computedPointsDelegate` when the points value holds an empty array. -/
def computedEmptyPointsDelegate : HdSceneDelegate :=
  { computedPointsDelegate with points := VtValue.vec3fArray [] }

theorem readAt_eq_getD (xs : List Int) (q : Int) (h0 : 0 ≤ q) (h1 : q < xs.length) :
    readAt xs q = some (xs.getD q.toNat 0) := by
  have hlt : q.toNat < xs.length := by omega
  unfold readAt
  rw [if_neg (by omega)]
  rw [List.getD_eq_getElem?_getD, List.getElem?_eq_getElem hlt]
  rfl

theorem mem_fanRange {vCount : Int} {j : Nat} (h : j ∈ fanRange vCount) :
    1 ≤ j ∧ (j : Int) + 2 ≤ vCount := by
  unfold fanRange at h
  rw [List.mem_range'_1] at h
  omega

theorem readAt_corner (s : HdCyclesMesh) (p k : Int) (h0 : 0 ≤ p + k)
    (h1 : p + k < s.m_faceVertexIndices.length) :
    readAt s.m_faceVertexIndices (p + k) = some (corner s p k) :=
  readAt_eq_getD _ _ h0 h1

theorem boundTest_eq (s : HdCyclesMesh) (mesh : Mesh) (v0 v1 v2 materialId : Int) :
    (if (indexBelow s.countIsUnsigned v0 s.m_numMeshVerts
          && indexBelow s.countIsUnsigned v1 s.m_numMeshVerts
          && indexBelow s.countIsUnsigned v2 s.m_numMeshVerts) = true
      then some (mesh.add_triangle v0 v1 v2 materialId true) else some mesh)
      = some { mesh with triangles := mesh.triangles
          ++ [Triangle.mk v0 v1 v2 materialId true].filter (passesBound s) } := by
  by_cases hb : passesBound s (Triangle.mk v0 v1 v2 materialId true) = true
  · have hb2 := hb
    simp only [passesBound] at hb2
    rw [if_pos hb2, List.filter_cons_of_pos hb]
    rfl
  · have hb2 := hb
    simp only [passesBound] at hb2
    rw [if_neg hb2, List.filter_cons_of_neg hb]
    simp

theorem fanStep_eq (s : HdCyclesMesh) (p vCount materialId : Int) (mesh : Mesh) (j : Nat)
    (hp : 0 ≤ p) (hj : 1 ≤ j) (hjv : (j : Int) + 2 ≤ vCount)
    (hlen : p + vCount ≤ s.m_faceVertexIndices.length) :
    fanStep s p vCount materialId mesh j
      = some { mesh with triangles := mesh.triangles
                ++ [fanCandidate s p vCount materialId j].filter (passesBound s) } := by
  have r0 : readAt s.m_faceVertexIndices p = some (corner s p 0) := by
    have := readAt_corner s p 0 (by omega) (by omega)
    simpa using this
  have r1 : readAt s.m_faceVertexIndices (p + j + 0) = some (corner s p j) := by
    have := readAt_corner s p j (by omega) (by omega)
    simpa using this
  have r2 : readAt s.m_faceVertexIndices (p + j + 1) = some (corner s p (j + 1)) := by
    have := readAt_corner s p (j + 1) (by omega) (by omega)
    rw [← add_assoc] at this
    exact this
  have r3 : readAt s.m_faceVertexIndices (p + ((vCount - 1) - j) + 0)
      = some (corner s p ((vCount - 1) - j)) := by
    have := readAt_corner s p ((vCount - 1) - j) (by omega) (by omega)
    simpa using this
  have r4 : readAt s.m_faceVertexIndices (p + ((vCount - 1) - j) + 1)
      = some (corner s p ((vCount - 1) - j + 1)) := by
    have := readAt_corner s p ((vCount - 1) - j + 1) (by omega) (by omega)
    rw [← add_assoc] at this
    exact this
  unfold fanStep
  rw [r0, r1, r2]
  by_cases ho : s.m_orientation = Orientation.leftHanded
  · simp only [ho, if_true, r3, r4, Option.bind_eq_bind, Option.some_bind, fanCandidate]
    exact boundTest_eq s mesh _ _ _ materialId
  · simp only [ho, if_false, Option.bind_eq_bind, Option.some_bind, fanCandidate]
    exact boundTest_eq s mesh _ _ _ materialId

theorem fanFold_eq (s : HdCyclesMesh) (p vCount materialId : Int)
    (hp : 0 ≤ p) (hlen : p + vCount ≤ s.m_faceVertexIndices.length) :
    ∀ (js : List Nat) (mesh : Mesh), (∀ j ∈ js, 1 ≤ j ∧ (j : Int) + 2 ≤ vCount) →
      js.foldlM (fanStep s p vCount materialId) mesh
        = some { mesh with triangles := mesh.triangles
            ++ (js.map (fanCandidate s p vCount materialId)).filter (passesBound s) } := by
  intro js
  induction js with
  | nil => intro mesh _; simp
  | cons j js ih =>
    intro mesh h
    have hj := h j (List.mem_cons_self _ _)
    rw [List.foldlM_cons, fanStep_eq s p vCount materialId mesh j hp hj.1 hj.2 hlen]
    simp only [Option.bind_eq_bind, Option.some_bind]
    rw [ih _ (fun k hk => h k (List.mem_cons_of_mem _ hk))]
    simp [List.filter_cons]
    split <;> simp

theorem fanLoop_eq (s : HdCyclesMesh) (p vCount materialId : Int) (mesh : Mesh)
    (hp : 0 ≤ p) (hlen : p + vCount ≤ s.m_faceVertexIndices.length) :
    fanLoop s p vCount materialId mesh
      = some { mesh with triangles := mesh.triangles ++ faceTriangles s p vCount materialId } :=
  fanFold_eq s p vCount materialId hp hlen _ mesh (fun _ h => mem_fanRange h)

theorem countSum_cons (c : Int) (cs : List Int) : countSum (c :: cs) = c + countSum cs := by
  unfold countSum
  rw [List.foldl_cons, zero_add]
  have : ∀ (l : List Int) (a : Int), l.foldl (fun a c => a + c) a = a + l.foldl (fun a c => a + c) 0 := by
    intro l
    induction l with
    | nil => intro a; simp
    | cons x xs ih => intro a; rw [List.foldl_cons, ih, List.foldl_cons, zero_add, ih x]; ring
  exact this cs c

theorem countSum_nil : countSum [] = 0 := rfl

theorem countSum_append (a b : List Int) : countSum (a ++ b) = countSum a + countSum b := by
  induction a with
  | nil => simp [countSum_nil]
  | cons x xs ih => rw [List.cons_append, countSum_cons, countSum_cons, ih]; ring

theorem countSum_nonneg (cs : List Int) (h : ∀ c ∈ cs, 0 ≤ c) : 0 ≤ countSum cs := by
  induction cs with
  | nil => simp [countSum_nil]
  | cons x xs ih =>
    rw [countSum_cons]
    have := h x (List.mem_cons_self _ _)
    have := ih (fun c hc => h c (List.mem_cons_of_mem _ hc))
    omega

theorem triangulatedLoop_eq (s : HdCyclesMesh) (a_faceMaterials : List Int) :
    ∀ (counts : List Int) (i : Nat) (p : Int) (mesh : Mesh), 0 ≤ p →
      (∀ c ∈ counts, 0 ≤ c) → p + countSum counts ≤ s.m_faceVertexIndices.length →
      triangulatedLoop s a_faceMaterials counts i p mesh
        = some { mesh with triangles := mesh.triangles
            ++ facesTriangles s a_faceMaterials counts i p } := by
  intro counts
  induction counts with
  | nil => intro i p mesh _ _ _; simp [triangulatedLoop, facesTriangles]
  | cons c cs ih =>
    intro i p mesh hp hnn hlen
    have hc := hnn c (List.mem_cons_self _ _)
    have hcs : ∀ x ∈ cs, 0 ≤ x := fun x hx => hnn x (List.mem_cons_of_mem _ hx)
    have hs := countSum_nonneg cs hcs
    rw [countSum_cons] at hlen
    unfold triangulatedLoop
    rw [fanLoop_eq s p c _ mesh hp (by omega)]
    simp only [Option.bind_eq_bind, Option.some_bind]
    rw [ih (i + 1) (p + c) _ (by omega) hcs (by omega)]
    simp [facesTriangles]

theorem facesTriangles_append (s : HdCyclesMesh) (a_faceMaterials : List Int) :
    ∀ (a b : List Int) (i : Nat) (p : Int),
      facesTriangles s a_faceMaterials (a ++ b) i p
        = facesTriangles s a_faceMaterials a i p
          ++ facesTriangles s a_faceMaterials b (i + a.length) (p + countSum a) := by
  intro a
  induction a with
  | nil => intro b i p; simp [facesTriangles, countSum_nil]
  | cons x xs ih =>
    intro b i p
    rw [List.cons_append]
    simp only [facesTriangles, ih, countSum_cons, List.length_cons, List.append_assoc]
    congr 3
    · omega
    · ring

theorem populateFaces_triangulated (s : HdCyclesMesh) (a_faceMaterials : List Int) (mesh : Mesh)
    (hsub : s.m_useSubdivision = false) (hnn : ∀ c ∈ s.m_faceVertexCounts, 0 ≤ c)
    (hlen : countSum s.m_faceVertexCounts ≤ s.m_faceVertexIndices.length) :
    _PopulateFaces s a_faceMaterials mesh
      = some { mesh with triangles := mesh.triangles
          ++ facesTriangles s a_faceMaterials s.m_faceVertexCounts 0 0 } := by
  unfold _PopulateFaces
  rw [hsub]
  simp only [Bool.false_eq_true, if_false]
  exact triangulatedLoop_eq s a_faceMaterials _ 0 0 mesh (le_refl _) hnn (by omega)

theorem facesTriangles_counts_irrelevant (s : HdCyclesMesh) (cs : List Int)
    (a_faceMaterials : List Int) :
    ∀ (counts : List Int) (i : Nat) (p : Int),
      facesTriangles { s with m_faceVertexCounts := cs } a_faceMaterials counts i p
        = facesTriangles s a_faceMaterials counts i p := by
  intro counts
  induction counts with
  | nil => intro i p; rfl
  | cons c rest ih =>
    intro i p
    simp only [facesTriangles, ih]
    rfl

theorem populateFaces_counts (s : HdCyclesMesh) (a_faceMaterials : List Int) (mesh : Mesh)
    (cs : List Int) (hsub : s.m_useSubdivision = false) (hnn : ∀ c ∈ cs, 0 ≤ c)
    (hlen : countSum cs ≤ s.m_faceVertexIndices.length) :
    _PopulateFaces { s with m_faceVertexCounts := cs } a_faceMaterials mesh
      = some { mesh with triangles := mesh.triangles
          ++ facesTriangles s a_faceMaterials cs 0 0 } := by
  have h := populateFaces_triangulated { s with m_faceVertexCounts := cs } a_faceMaterials mesh
    hsub hnn hlen
  rw [facesTriangles_counts_irrelevant] at h
  exact h

/-! ## The triangulated branch of `_PopulateFaces` -/

theorem mem_polygonCorners (s : HdCyclesMesh) (p N v : Int) :
    v ∈ polygonCorners s p N ↔ ∃ k : Nat, (k : Int) < N ∧ v = corner s p k := by
  unfold polygonCorners
  rw [List.mem_map]
  constructor
  · rintro ⟨k, hk, rfl⟩
    rw [List.mem_range] at hk
    exact ⟨k, by omega, rfl⟩
  · rintro ⟨k, hk, rfl⟩
    exact ⟨k, by rw [List.mem_range]; omega, rfl⟩

theorem below_of_polygonCorners (s : HdCyclesMesh) (p N : Int)
    (h : ∀ v ∈ polygonCorners s p N, indexBelow s.countIsUnsigned v s.m_numMeshVerts = true) :
    ∀ k : Nat, (k : Int) < N →
      indexBelow s.countIsUnsigned (corner s p k) s.m_numMeshVerts = true :=
  fun k hk => h _ ((mem_polygonCorners s p N _).mpr ⟨k, hk, rfl⟩)

theorem faceTriangles_rightHanded (s : HdCyclesMesh) (p N materialId : Int)
    (hor : s.m_orientation = Orientation.rightHanded)
    (hbelow : ∀ k : Nat, (k : Int) < N →
      indexBelow s.countIsUnsigned (corner s p k) s.m_numMeshVerts = true) :
    faceTriangles s p N materialId
      = (List.range' 1 (N - 2).toNat).map (fun j : Nat =>
          Triangle.mk (corner s p 0) (corner s p j) (corner s p (j + 1)) materialId true) := by
  unfold faceTriangles
  rw [List.filter_eq_self.mpr]
  · apply List.map_congr_left
    intro j _
    simp [fanCandidate, hor]
  · intro t ht
    rw [List.mem_map] at ht
    obtain ⟨j, hj, rfl⟩ := ht
    have hj2 := mem_fanRange hj
    have h0 := hbelow 0 (by omega)
    have h1 := hbelow j (by omega)
    have h2 := hbelow (j + 1) (by push_cast; omega)
    simp only [Nat.cast_zero, Nat.cast_add, Nat.cast_one] at h0 h2
    simp [fanCandidate, hor, passesBound, h0, h1, h2]

/-- C1. Triangulated branch, RightHanded: a polygon of size `N` whose corner indices all pass
the bound test contributes exactly the triangles `(idx[0], idx[j], idx[j+1])`, `j = 1..N-2`,
in increasing `j`, right after the triangles of the preceding polygons; the polygons after it
only append. -/
theorem populateFaces_rightHanded_fan (s : HdCyclesMesh) (a_faceMaterials : List Int)
    (mesh : Mesh) (pre post : List Int) (N : Int)
    (hsub : s.m_useSubdivision = false)
    (hor : s.m_orientation = Orientation.rightHanded)
    (hcounts : s.m_faceVertexCounts = pre ++ N :: post)
    (hnn : ∀ c ∈ s.m_faceVertexCounts, 0 ≤ c)
    (hlen : countSum s.m_faceVertexCounts ≤ s.m_faceVertexIndices.length)
    (hbelow : ∀ v ∈ polygonCorners s (countSum pre) N,
      indexBelow s.countIsUnsigned v s.m_numMeshVerts = true) :
    ∃ mPre mPoly mAll : Mesh,
      _PopulateFaces { s with m_faceVertexCounts := pre } a_faceMaterials mesh = some mPre
      ∧ _PopulateFaces { s with m_faceVertexCounts := pre ++ [N] } a_faceMaterials mesh
          = some mPoly
      ∧ _PopulateFaces s a_faceMaterials mesh = some mAll
      ∧ mPoly.triangles = mPre.triangles ++ (List.range' 1 (N - 2).toNat).map (fun j : Nat =>
          Triangle.mk (corner s (countSum pre) 0) (corner s (countSum pre) j)
            (corner s (countSum pre) (j + 1)) (faceMaterial a_faceMaterials pre.length) true)
      ∧ mPoly.triangles <+: mAll.triangles := by
  have hN : 0 ≤ N := hnn N (by rw [hcounts]; simp)
  have hpre : ∀ c ∈ pre, 0 ≤ c := fun c hc => hnn c (by rw [hcounts]; simp [hc])
  have hpost : ∀ c ∈ post, 0 ≤ c := fun c hc => hnn c (by rw [hcounts]; simp [hc])
  have hsum : countSum s.m_faceVertexCounts = countSum pre + (N + countSum post) := by
    rw [hcounts, countSum_append, countSum_cons]
  have hpost0 := countSum_nonneg post hpost
  have hpre0 := countSum_nonneg pre hpre
  have e1 := populateFaces_counts s a_faceMaterials mesh pre hsub hpre (by omega)
  have e2 := populateFaces_counts s a_faceMaterials mesh (pre ++ [N]) hsub
    (by intro c hc
        rcases List.mem_append.mp hc with h | h
        · exact hpre c h
        · simp at h; omega)
    (by rw [countSum_append, countSum_cons, countSum_nil]; omega)
  have e3 := populateFaces_triangulated s a_faceMaterials mesh hsub hnn hlen
  refine ⟨_, _, _, e1, e2, e3, ?_, ?_⟩
  · show mesh.triangles ++ facesTriangles s a_faceMaterials (pre ++ [N]) 0 0
      = mesh.triangles ++ facesTriangles s a_faceMaterials pre 0 0 ++ _
    rw [facesTriangles_append]
    simp only [facesTriangles, List.append_nil, zero_add, List.append_assoc]
    rw [faceTriangles_rightHanded s (countSum pre) N _ hor (below_of_polygonCorners s _ N hbelow)]
  · show mesh.triangles ++ facesTriangles s a_faceMaterials (pre ++ [N]) 0 0
      <+: mesh.triangles ++ facesTriangles s a_faceMaterials s.m_faceVertexCounts 0 0
    rw [hcounts]
    have : pre ++ N :: post = (pre ++ [N]) ++ post := by simp
    rw [this, facesTriangles_append s a_faceMaterials (pre ++ [N]) post, ← List.append_assoc]
    exact List.prefix_append _ _

theorem populateFaces_rightHanded_fan_witness :
    ∃ mPre mPoly mAll : Mesh,
      _PopulateFaces { twoQuads Orientation.rightHanded with m_faceVertexCounts := [4] } []
          Mesh.cleared = some mPre
      ∧ _PopulateFaces { twoQuads Orientation.rightHanded with m_faceVertexCounts := [4] ++ [4] }
          [] Mesh.cleared = some mPoly
      ∧ _PopulateFaces (twoQuads Orientation.rightHanded) [] Mesh.cleared = some mAll
      ∧ mPoly.triangles = mPre.triangles ++ (List.range' 1 ((4 : Int) - 2).toNat).map
          (fun j : Nat =>
            Triangle.mk (corner (twoQuads Orientation.rightHanded) (countSum [4]) 0)
              (corner (twoQuads Orientation.rightHanded) (countSum [4]) j)
              (corner (twoQuads Orientation.rightHanded) (countSum [4]) (j + 1))
              (faceMaterial [] [4].length) true)
      ∧ mPoly.triangles <+: mAll.triangles :=
  populateFaces_rightHanded_fan (twoQuads Orientation.rightHanded) [] Mesh.cleared [4] [] 4
    rfl rfl rfl (by decide) (by decide)
    (by decide)

theorem fanCandidate_corners (s : HdCyclesMesh) (p N materialId : Int) (j : Nat)
    (hj : j ∈ fanRange N) :
    (fanCandidate s p N materialId j).v0 ∈ polygonCorners s p N
      ∧ (fanCandidate s p N materialId j).v1 ∈ polygonCorners s p N
      ∧ (fanCandidate s p N materialId j).v2 ∈ polygonCorners s p N := by
  have hj2 := mem_fanRange hj
  simp only [mem_polygonCorners]
  by_cases ho : s.m_orientation = Orientation.leftHanded
  · simp only [fanCandidate, ho, if_true]
    refine ⟨⟨0, by omega, by simp⟩, ⟨(N - 1 - j).toNat, by omega, ?_⟩,
      ⟨(N - 1 - j + 1).toNat, by omega, ?_⟩⟩
    · rw [Int.toNat_of_nonneg (by omega)]
    · rw [Int.toNat_of_nonneg (by omega)]
  · simp only [fanCandidate, ho, if_false]
    exact ⟨⟨0, by omega, by simp⟩, ⟨j, by omega, rfl⟩, ⟨j + 1, by push_cast; omega, by simp⟩⟩

theorem passesBound_of_corners (s : HdCyclesMesh) (p N : Int) (t : Triangle)
    (hbelow : ∀ v ∈ polygonCorners s p N,
      indexBelow s.countIsUnsigned v s.m_numMeshVerts = true)
    (h : t.v0 ∈ polygonCorners s p N ∧ t.v1 ∈ polygonCorners s p N
      ∧ t.v2 ∈ polygonCorners s p N) :
    passesBound s t = true := by
  simp [passesBound, hbelow _ h.1, hbelow _ h.2.1, hbelow _ h.2.2]

theorem faceTriangles_all (s : HdCyclesMesh) (p N materialId : Int)
    (hbelow : ∀ v ∈ polygonCorners s p N,
      indexBelow s.countIsUnsigned v s.m_numMeshVerts = true) :
    faceTriangles s p N materialId = (fanRange N).map (fanCandidate s p N materialId) := by
  unfold faceTriangles
  rw [List.filter_eq_self]
  intro t ht
  rw [List.mem_map] at ht
  obtain ⟨j, hj, rfl⟩ := ht
  exact passesBound_of_corners s p N _ hbelow (fanCandidate_corners s p N materialId j hj)

/-- C2. Triangulated branch, either orientation: a polygon of size `N ≥ 3` whose corner
indices all pass the bound test contributes exactly `N - 2` triangles, placed right after the
triangles of the preceding polygons, and each of their three indices is a corner index of that
polygon. -/
theorem populateFaces_polygon_count_and_corners (s : HdCyclesMesh)
    (a_faceMaterials : List Int) (mesh : Mesh) (pre post : List Int) (N : Int)
    (hsub : s.m_useSubdivision = false)
    (hN : 3 ≤ N)
    (hcounts : s.m_faceVertexCounts = pre ++ N :: post)
    (hnn : ∀ c ∈ s.m_faceVertexCounts, 0 ≤ c)
    (hlen : countSum s.m_faceVertexCounts ≤ s.m_faceVertexIndices.length)
    (hbelow : ∀ v ∈ polygonCorners s (countSum pre) N,
      indexBelow s.countIsUnsigned v s.m_numMeshVerts = true) :
    ∃ (mPre mPoly mAll : Mesh) (tris : List Triangle),
      _PopulateFaces { s with m_faceVertexCounts := pre } a_faceMaterials mesh = some mPre
      ∧ _PopulateFaces { s with m_faceVertexCounts := pre ++ [N] } a_faceMaterials mesh
          = some mPoly
      ∧ _PopulateFaces s a_faceMaterials mesh = some mAll
      ∧ mPoly.triangles = mPre.triangles ++ tris
      ∧ mPoly.triangles <+: mAll.triangles
      ∧ (tris.length : Int) = N - 2
      ∧ ∀ t ∈ tris, t.v0 ∈ polygonCorners s (countSum pre) N ∧ t.v1 ∈ polygonCorners s (countSum pre) N
          ∧ t.v2 ∈ polygonCorners s (countSum pre) N := by
  have hpre : ∀ c ∈ pre, 0 ≤ c := fun c hc => hnn c (by rw [hcounts]; simp [hc])
  have hpost : ∀ c ∈ post, 0 ≤ c := fun c hc => hnn c (by rw [hcounts]; simp [hc])
  have hsum : countSum s.m_faceVertexCounts = countSum pre + (N + countSum post) := by
    rw [hcounts, countSum_append, countSum_cons]
  have hpost0 := countSum_nonneg post hpost
  have hpre0 := countSum_nonneg pre hpre
  have e1 := populateFaces_counts s a_faceMaterials mesh pre hsub hpre (by omega)
  have e2 := populateFaces_counts s a_faceMaterials mesh (pre ++ [N]) hsub
    (by intro c hc
        rcases List.mem_append.mp hc with h | h
        · exact hpre c h
        · simp at h; omega)
    (by rw [countSum_append, countSum_cons, countSum_nil]; omega)
  have e3 := populateFaces_triangulated s a_faceMaterials mesh hsub hnn hlen
  refine ⟨_, _, _, faceTriangles s (countSum pre) N (faceMaterial a_faceMaterials pre.length),
    e1, e2, e3, ?_, ?_, ?_, ?_⟩
  · show mesh.triangles ++ facesTriangles s a_faceMaterials (pre ++ [N]) 0 0
      = mesh.triangles ++ facesTriangles s a_faceMaterials pre 0 0 ++ _
    rw [facesTriangles_append]
    simp only [facesTriangles, List.append_nil, zero_add, List.append_assoc]
  · show mesh.triangles ++ facesTriangles s a_faceMaterials (pre ++ [N]) 0 0
      <+: mesh.triangles ++ facesTriangles s a_faceMaterials s.m_faceVertexCounts 0 0
    rw [hcounts]
    have : pre ++ N :: post = (pre ++ [N]) ++ post := by simp
    rw [this, facesTriangles_append s a_faceMaterials (pre ++ [N]) post, ← List.append_assoc]
    exact List.prefix_append _ _
  · rw [faceTriangles_all s _ N _ hbelow, List.length_map, fanRange, List.length_range']
    omega
  · intro t ht
    rw [faceTriangles_all s _ N _ hbelow, List.mem_map] at ht
    obtain ⟨j, hj, rfl⟩ := ht
    exact fanCandidate_corners s _ N _ j hj

theorem populateFaces_polygon_count_and_corners_witness :
    ∃ (mPre mPoly mAll : Mesh) (tris : List Triangle),
      _PopulateFaces { twoQuads Orientation.leftHanded with m_faceVertexCounts := [4] } []
          Mesh.cleared = some mPre
      ∧ _PopulateFaces { twoQuads Orientation.leftHanded with m_faceVertexCounts := [4] ++ [4] }
          [] Mesh.cleared = some mPoly
      ∧ _PopulateFaces (twoQuads Orientation.leftHanded) [] Mesh.cleared = some mAll
      ∧ mPoly.triangles = mPre.triangles ++ tris
      ∧ mPoly.triangles <+: mAll.triangles
      ∧ (tris.length : Int) = 4 - 2
      ∧ ∀ t ∈ tris, t.v0 ∈ polygonCorners (twoQuads Orientation.leftHanded) (countSum [4]) 4
          ∧ t.v1 ∈ polygonCorners (twoQuads Orientation.leftHanded) (countSum [4]) 4
          ∧ t.v2 ∈ polygonCorners (twoQuads Orientation.leftHanded) (countSum [4]) 4 :=
  populateFaces_polygon_count_and_corners (twoQuads Orientation.leftHanded) [] Mesh.cleared
    [4] [] 4 rfl (by decide) rfl (by decide) (by decide)
    (by decide)

/-- C3 (evaluation at the scenario of the specification). Two quads over indices `0..7`,
8 vertices: under LeftHanded orientation `_PopulateFaces` emits the RightHanded triangles of
each quad in reverse order with unchanged winding; the LeftHanded output is not the
RightHanded output with the last two corners of each triangle exchanged. -/
theorem populateFaces_twoQuads_leftHanded_winding :
    (_PopulateFaces (twoQuads Orientation.rightHanded) [] Mesh.cleared).map Mesh.triangles
        = some [Triangle.mk 0 1 2 0 true, Triangle.mk 0 2 3 0 true,
                Triangle.mk 4 5 6 0 true, Triangle.mk 4 6 7 0 true]
      ∧ (_PopulateFaces (twoQuads Orientation.leftHanded) [] Mesh.cleared).map Mesh.triangles
        = some [Triangle.mk 0 2 3 0 true, Triangle.mk 0 1 2 0 true,
                Triangle.mk 4 6 7 0 true, Triangle.mk 4 5 6 0 true]
      ∧ (_PopulateFaces (twoQuads Orientation.leftHanded) [] Mesh.cleared).map Mesh.triangles
        ≠ (_PopulateFaces (twoQuads Orientation.rightHanded) [] Mesh.cleared).map
            (fun m => m.triangles.map swapLastTwo) := by
  decide

theorem facesTriangles_eq_filter (s : HdCyclesMesh) (a_faceMaterials : List Int) :
    ∀ (counts : List Int) (i : Nat) (p : Int),
      facesTriangles s a_faceMaterials counts i p
        = (facesCandidates s a_faceMaterials counts i p).filter (passesBound s) := by
  intro counts
  induction counts with
  | nil => intro i p; rfl
  | cons c rest ih =>
    intro i p
    simp only [facesTriangles, facesCandidates, List.filter_append, ih, faceTriangles]

theorem facesCandidates_numMeshVerts (s : HdCyclesMesh) (n : Nat) (a_faceMaterials : List Int) :
    ∀ (counts : List Int) (i : Nat) (p : Int),
      facesCandidates { s with m_numMeshVerts := n } a_faceMaterials counts i p
        = facesCandidates s a_faceMaterials counts i p := by
  intro counts
  induction counts with
  | nil => intro i p; rfl
  | cons c rest ih =>
    intro i p
    simp only [facesCandidates, ih]
    rfl

theorem facesCandidates_length (s : HdCyclesMesh) (a_faceMaterials : List Int) :
    ∀ (counts : List Int) (i : Nat) (p : Int),
      (facesCandidates s a_faceMaterials counts i p).length
        = (counts.map (fun c : Int => (c - 2).toNat)).sum := by
  intro counts
  induction counts with
  | nil => intro i p; rfl
  | cons c rest ih =>
    intro i p
    simp [facesCandidates, ih, fanRange]

theorem corner_range (s : HdCyclesMesh) (p k : Int)
    (hidx : ∀ v ∈ s.m_faceVertexIndices, 0 ≤ v ∧ v < 2 ^ 31) :
    0 ≤ corner s p k ∧ corner s p k < 2 ^ 31 := by
  unfold corner
  by_cases h : (p + k).toNat < s.m_faceVertexIndices.length
  · rw [List.getD_eq_getElem _ _ h]
    exact hidx _ (List.getElem_mem h)
  · rw [List.getD_eq_default _ _ (by omega)]
    norm_num

theorem indexBelow_of_int_range (u : Bool) (v : Int) (n : Nat) (h0 : 0 ≤ v)
    (h1 : v < 2 ^ 31) : indexBelow u v n = decide (v < (n : Int)) := by
  unfold indexBelow
  cases u
  · simp
  · simp only [if_true]
    have hm : v % 2 ^ 64 = v := Int.emod_eq_of_lt h0 (by omega)
    rw [hm]
    congr 1
    apply propext
    omega

theorem fanCandidate_range (s : HdCyclesMesh) (p vCount materialId : Int) (j : Nat)
    (hidx : ∀ v ∈ s.m_faceVertexIndices, 0 ≤ v ∧ v < 2 ^ 31) :
    (0 ≤ (fanCandidate s p vCount materialId j).v0
        ∧ (fanCandidate s p vCount materialId j).v0 < 2 ^ 31)
      ∧ (0 ≤ (fanCandidate s p vCount materialId j).v1
        ∧ (fanCandidate s p vCount materialId j).v1 < 2 ^ 31)
      ∧ (0 ≤ (fanCandidate s p vCount materialId j).v2
        ∧ (fanCandidate s p vCount materialId j).v2 < 2 ^ 31) := by
  by_cases ho : s.m_orientation = Orientation.leftHanded
  · simp only [fanCandidate, ho, if_true]
    exact ⟨corner_range s _ _ hidx, corner_range s _ _ hidx, corner_range s _ _ hidx⟩
  · simp only [fanCandidate, ho, if_false]
    exact ⟨corner_range s _ _ hidx, corner_range s _ _ hidx, corner_range s _ _ hidx⟩

theorem facesCandidates_range (s : HdCyclesMesh) (a_faceMaterials : List Int)
    (hidx : ∀ v ∈ s.m_faceVertexIndices, 0 ≤ v ∧ v < 2 ^ 31) :
    ∀ (counts : List Int) (i : Nat) (p : Int),
      ∀ t ∈ facesCandidates s a_faceMaterials counts i p,
        (0 ≤ t.v0 ∧ t.v0 < 2 ^ 31) ∧ (0 ≤ t.v1 ∧ t.v1 < 2 ^ 31)
          ∧ (0 ≤ t.v2 ∧ t.v2 < 2 ^ 31) := by
  intro counts
  induction counts with
  | nil => intro i p t ht; simp [facesCandidates] at ht
  | cons c rest ih =>
    intro i p t ht
    simp only [facesCandidates, List.mem_append, List.mem_map] at ht
    rcases ht with ⟨j, _, rfl⟩ | ht
    · exact fanCandidate_range s p c _ j hidx
    · exact ih _ _ t ht

theorem passesBound_of_int_range (s : HdCyclesMesh) (t : Triangle)
    (h : (0 ≤ t.v0 ∧ t.v0 < 2 ^ 31) ∧ (0 ≤ t.v1 ∧ t.v1 < 2 ^ 31)
      ∧ (0 ≤ t.v2 ∧ t.v2 < 2 ^ 31)) :
    passesBound s t = decide (t.v0 < (s.m_numMeshVerts : Int)
      ∧ t.v1 < (s.m_numMeshVerts : Int) ∧ t.v2 < (s.m_numMeshVerts : Int)) := by
  unfold passesBound
  rw [indexBelow_of_int_range _ _ _ h.1.1 h.1.2, indexBelow_of_int_range _ _ _ h.2.1.1 h.2.1.2,
    indexBelow_of_int_range _ _ _ h.2.2.1 h.2.2.2]
  simp [Bool.decide_and, Bool.and_assoc]

/-- C4. Triangulated branch, non-negative `int` indices: for every vertex count the run
succeeds (a dropped triangle is no error), and its triangles are exactly those fan triangles
`(v0, v1, v2)` with `v0`, `v1`, `v2` all below `m_numMeshVerts`, in the order and with the
corners they have when nothing is dropped.  `fan` is the output under a vertex count that
exceeds every `int`, one triangle per iteration of the inner loop. -/
theorem populateFaces_drops_exactly_out_of_range (s : HdCyclesMesh)
    (a_faceMaterials : List Int) (mesh : Mesh)
    (hsub : s.m_useSubdivision = false)
    (hnn : ∀ c ∈ s.m_faceVertexCounts, 0 ≤ c)
    (hlen : countSum s.m_faceVertexCounts ≤ s.m_faceVertexIndices.length)
    (hidx : ∀ v ∈ s.m_faceVertexIndices, 0 ≤ v ∧ v < 2 ^ 31) :
    ∃ (mAll mOut : Mesh) (fan : List Triangle),
      _PopulateFaces { s with m_numMeshVerts := 2 ^ 31 } a_faceMaterials mesh = some mAll
      ∧ mAll.triangles = mesh.triangles ++ fan
      ∧ fan.length = (s.m_faceVertexCounts.map (fun c : Int => (c - 2).toNat)).sum
      ∧ _PopulateFaces s a_faceMaterials mesh = some mOut
      ∧ mOut.triangles = mesh.triangles ++ fan.filter (fun t =>
          decide (t.v0 < (s.m_numMeshVerts : Int) ∧ t.v1 < (s.m_numMeshVerts : Int)
            ∧ t.v2 < (s.m_numMeshVerts : Int))) := by
  have e1 := populateFaces_triangulated { s with m_numMeshVerts := 2 ^ 31 } a_faceMaterials
    mesh hsub hnn hlen
  have e2 := populateFaces_triangulated s a_faceMaterials mesh hsub hnn hlen
  have hr := facesCandidates_range s a_faceMaterials hidx s.m_faceVertexCounts 0 0
  refine ⟨_, _, facesCandidates s a_faceMaterials s.m_faceVertexCounts 0 0, e1, ?_, ?_, e2, ?_⟩
  · show mesh.triangles ++ facesTriangles { s with m_numMeshVerts := 2 ^ 31 } a_faceMaterials
      s.m_faceVertexCounts 0 0 = _
    rw [facesTriangles_eq_filter, facesCandidates_numMeshVerts, List.filter_eq_self.mpr]
    intro t ht
    have h := hr t ht
    rw [passesBound_of_int_range _ t h]
    simp only [decide_eq_true_eq]
    show t.v0 < ((2 ^ 31 : Nat) : Int) ∧ t.v1 < ((2 ^ 31 : Nat) : Int)
      ∧ t.v2 < ((2 ^ 31 : Nat) : Int)
    norm_num
    exact ⟨h.1.2, h.2.1.2, h.2.2.2⟩
  · exact facesCandidates_length s a_faceMaterials _ 0 0
  · show mesh.triangles ++ facesTriangles s a_faceMaterials s.m_faceVertexCounts 0 0 = _
    rw [facesTriangles_eq_filter]
    congr 1
    apply List.filter_congr
    intro t ht
    exact passesBound_of_int_range s t (hr t ht)

theorem populateFaces_drops_exactly_out_of_range_witness :
    ∃ (mAll mOut : Mesh) (fan : List Triangle),
      _PopulateFaces { quadWithStrayIndex with m_numMeshVerts := 2 ^ 31 } [] Mesh.cleared
          = some mAll
      ∧ mAll.triangles = Mesh.cleared.triangles ++ fan
      ∧ fan.length
          = (quadWithStrayIndex.m_faceVertexCounts.map (fun c : Int => (c - 2).toNat)).sum
      ∧ _PopulateFaces quadWithStrayIndex [] Mesh.cleared = some mOut
      ∧ mOut.triangles = Mesh.cleared.triangles ++ fan.filter (fun t =>
          decide (t.v0 < (quadWithStrayIndex.m_numMeshVerts : Int)
            ∧ t.v1 < (quadWithStrayIndex.m_numMeshVerts : Int)
            ∧ t.v2 < (quadWithStrayIndex.m_numMeshVerts : Int))) :=
  populateFaces_drops_exactly_out_of_range quadWithStrayIndex [] Mesh.cleared rfl
    (by decide) (by decide) (by decide)

/-! ## Face count of the topology block against the triangles emitted -/

theorem syncTopology_triangulated (s : HdCyclesMesh) (t : HdMeshTopology)
    (hmode : (syncTopology s t).m_useSubdivision = false) :
    syncTopology s t = { s with
      m_faceVertexCounts := t.faceVertexCounts
      m_faceVertexIndices := t.faceVertexIndices
      m_orientation := t.orientation
      m_useSubdivision := false
      m_numMeshFaces := t.faceVertexCounts.foldl (fun n vCount => n + (vCount - 2)) 0
      m_numNgons := 0
      m_numCorners := 0 } := by
  unfold syncTopology at hmode ⊢
  cases he : s.m_subdivEnabled <;> cases hc : t.schemeIsCatmullClark <;>
    simp_all

theorem foldl_faceCount (counts : List Int) (a : Int) :
    counts.foldl (fun n vCount => n + (vCount - 2)) a
      = a + (countSum counts - 2 * counts.length) := by
  induction counts generalizing a with
  | nil => simp [countSum_nil]
  | cons c cs ih =>
    rw [List.foldl_cons, ih, countSum_cons, List.length_cons]
    push_cast
    ring

theorem sum_toNat_faceCount (counts : List Int) (h2 : ∀ c ∈ counts, 2 ≤ c) :
    (((counts.map (fun c : Int => (c - 2).toNat)).sum : Nat) : Int)
      = countSum counts - 2 * counts.length := by
  induction counts with
  | nil => simp [countSum_nil]
  | cons c cs ih =>
    have hc := h2 c (List.mem_cons_self _ _)
    have ih2 := ih (fun x hx => h2 x (List.mem_cons_of_mem _ hx))
    rw [List.map_cons, List.sum_cons, countSum_cons, List.length_cons, Nat.cast_add, ih2,
      Int.toNat_of_nonneg (by omega)]
    push_cast
    ring

theorem corner_mem (s : HdCyclesMesh) (p k : Int) (h0 : 0 ≤ p + k)
    (h1 : p + k < s.m_faceVertexIndices.length) : corner s p k ∈ s.m_faceVertexIndices := by
  unfold corner
  have hlt : (p + k).toNat < s.m_faceVertexIndices.length := by omega
  rw [List.getD_eq_getElem _ _ hlt]
  exact List.getElem_mem hlt

theorem polygonCorners_subset (s : HdCyclesMesh) (p N : Int) (hp : 0 ≤ p)
    (hlen : p + N ≤ s.m_faceVertexIndices.length) :
    ∀ v ∈ polygonCorners s p N, v ∈ s.m_faceVertexIndices := by
  intro v hv
  obtain ⟨k, hk, rfl⟩ := (mem_polygonCorners s p N v).mp hv
  exact corner_mem s p k (by omega) (by omega)

theorem facesCandidates_mem (s : HdCyclesMesh) (a_faceMaterials : List Int) :
    ∀ (counts : List Int) (i : Nat) (p : Int), 0 ≤ p → (∀ c ∈ counts, 0 ≤ c) →
      p + countSum counts ≤ s.m_faceVertexIndices.length →
      ∀ t ∈ facesCandidates s a_faceMaterials counts i p,
        t.v0 ∈ s.m_faceVertexIndices ∧ t.v1 ∈ s.m_faceVertexIndices
          ∧ t.v2 ∈ s.m_faceVertexIndices := by
  intro counts
  induction counts with
  | nil => intro i p _ _ _ t ht; simp [facesCandidates] at ht
  | cons c rest ih =>
    intro i p hp hnn hlen t ht
    have hc := hnn c (List.mem_cons_self _ _)
    have hrest : ∀ x ∈ rest, 0 ≤ x := fun x hx => hnn x (List.mem_cons_of_mem _ hx)
    have hs := countSum_nonneg rest hrest
    rw [countSum_cons] at hlen
    simp only [facesCandidates, List.mem_append, List.mem_map] at ht
    rcases ht with ⟨j, hj, rfl⟩ | ht
    · have hcs := fanCandidate_corners s p c (faceMaterial a_faceMaterials i) j hj
      have hsub := polygonCorners_subset s p c hp (by omega)
      exact ⟨hsub _ hcs.1, hsub _ hcs.2.1, hsub _ hcs.2.2⟩
    · exact ih (i + 1) (p + c) (by omega) hrest (by omega) t ht

theorem facesTriangles_all_pass (s : HdCyclesMesh) (a_faceMaterials : List Int)
    (hnn : ∀ c ∈ s.m_faceVertexCounts, 0 ≤ c)
    (hlen : countSum s.m_faceVertexCounts ≤ s.m_faceVertexIndices.length)
    (hbelow : ∀ v ∈ s.m_faceVertexIndices,
      indexBelow s.countIsUnsigned v s.m_numMeshVerts = true) :
    facesTriangles s a_faceMaterials s.m_faceVertexCounts 0 0
      = facesCandidates s a_faceMaterials s.m_faceVertexCounts 0 0 := by
  rw [facesTriangles_eq_filter, List.filter_eq_self]
  intro t ht
  have h := facesCandidates_mem s a_faceMaterials _ 0 0 (le_refl _) hnn (by omega) t ht
  simp [passesBound, hbelow _ h.1, hbelow _ h.2.1, hbelow _ h.2.2]

/-- C5 (counterexample). Non-empty topologies in non-subdivision mode for which the number
of triangles emitted differs from `m_numMeshFaces`: a triangle with an index outside the
vertex count (`m_numMeshFaces = 1`, nothing emitted), and a face with one vertex
(`m_numMeshFaces = -1`, nothing emitted). -/
theorem face_count_differs_from_emitted :
    ((syncTopology (meshWithVerts 3) strayTriangle).m_useSubdivision = false
      ∧ (syncTopology (meshWithVerts 3) strayTriangle).m_numMeshFaces = 1
      ∧ (_PopulateFaces (syncTopology (meshWithVerts 3) strayTriangle) [] Mesh.cleared).map
          (fun m => m.triangles.length) = some 0)
    ∧ ((syncTopology (meshWithVerts 3) oneVertexFace).m_useSubdivision = false
      ∧ (syncTopology (meshWithVerts 3) oneVertexFace).m_numMeshFaces = -1
      ∧ (_PopulateFaces (syncTopology (meshWithVerts 3) oneVertexFace) [] Mesh.cleared).map
          (fun m => m.triangles.length) = some 0) := by
  decide

/-- C5 (amended). Non-subdivision mode, every face with at least 2 vertices and every
face-vertex index passing the bound test (no triangle is dropped): the number of triangles
`_PopulateFaces` emits into the cleared mesh equals the `m_numMeshFaces` computed by the
topology block, and both equal (sum of face-vertex-counts) - 2 x (number of faces). -/
theorem face_count_equals_emitted (s : HdCyclesMesh) (t : HdMeshTopology)
    (a_faceMaterials : List Int)
    (hmode : (syncTopology s t).m_useSubdivision = false)
    (h2 : ∀ c ∈ t.faceVertexCounts, 2 ≤ c)
    (hlen : countSum t.faceVertexCounts ≤ t.faceVertexIndices.length)
    (hbelow : ∀ v ∈ t.faceVertexIndices,
      indexBelow s.countIsUnsigned v s.m_numMeshVerts = true) :
    ∃ m : Mesh,
      _PopulateFaces (syncTopology s t) a_faceMaterials Mesh.cleared = some m
      ∧ (m.triangles.length : Int) = (syncTopology s t).m_numMeshFaces
      ∧ (syncTopology s t).m_numMeshFaces
          = countSum t.faceVertexCounts - 2 * t.faceVertexCounts.length := by
  have hs := syncTopology_triangulated s t hmode
  have hnn : ∀ c ∈ (syncTopology s t).m_faceVertexCounts, 0 ≤ c := by
    rw [hs]
    intro c hc
    have := h2 c hc
    omega
  have hlen2 : countSum (syncTopology s t).m_faceVertexCounts
      ≤ (syncTopology s t).m_faceVertexIndices.length := by
    rw [hs]
    exact hlen
  have hbelow2 : ∀ v ∈ (syncTopology s t).m_faceVertexIndices,
      indexBelow (syncTopology s t).countIsUnsigned v (syncTopology s t).m_numMeshVerts
        = true := by
    rw [hs]
    exact hbelow
  have hfaces : (syncTopology s t).m_numMeshFaces
      = countSum t.faceVertexCounts - 2 * t.faceVertexCounts.length := by
    rw [hs]
    show t.faceVertexCounts.foldl (fun n vCount => n + (vCount - 2)) 0 = _
    rw [foldl_faceCount]
    ring
  have e := populateFaces_triangulated (syncTopology s t) a_faceMaterials Mesh.cleared hmode
    hnn hlen2
  refine ⟨_, e, ?_, hfaces⟩
  rw [hfaces]
  show ((Mesh.cleared.triangles
    ++ facesTriangles (syncTopology s t) a_faceMaterials
        (syncTopology s t).m_faceVertexCounts 0 0).length : Int) = _
  rw [facesTriangles_all_pass _ _ hnn hlen2 hbelow2, List.length_append,
    facesCandidates_length]
  have hc : (syncTopology s t).m_faceVertexCounts = t.faceVertexCounts := by rw [hs]
  rw [hc, Nat.cast_add, sum_toNat_faceCount _ h2]
  simp [Mesh.cleared]

theorem face_count_equals_emitted_witness :
    ∃ m : Mesh,
      _PopulateFaces (syncTopology (meshWithVerts 8) twoQuadsTopology) [] Mesh.cleared = some m
      ∧ (m.triangles.length : Int) = (syncTopology (meshWithVerts 8) twoQuadsTopology).m_numMeshFaces
      ∧ (syncTopology (meshWithVerts 8) twoQuadsTopology).m_numMeshFaces
          = countSum twoQuadsTopology.faceVertexCounts
            - 2 * twoQuadsTopology.faceVertexCounts.length :=
  face_count_equals_emitted (meshWithVerts 8) twoQuadsTopology [] (by decide) (by decide)
    (by decide) (by decide)

/-! ## The subdivision branch of `_PopulateFaces` -/

theorem mapM_option_eq_map {α β : Type} (f : α → Option β) (g : α → β) :
    ∀ l : List α, (∀ x ∈ l, f x = some (g x)) → l.mapM f = some (l.map g) := by
  intro l
  induction l with
  | nil => intro _; rfl
  | cons x xs ih =>
    intro h
    rw [List.mapM_cons, h x (List.mem_cons_self _ _),
      ih (fun y hy => h y (List.mem_cons_of_mem _ hy))]
    rfl

theorem polygonCorners_length (s : HdCyclesMesh) (p N : Int) :
    (polygonCorners s p N).length = N.toNat := by
  simp [polygonCorners]

theorem polygonCorners_getElem (s : HdCyclesMesh) (p N : Int) (k : Nat)
    (hk : k < (polygonCorners s p N).length) :
    (polygonCorners s p N)[k] = corner s p k := by
  simp [polygonCorners]

theorem subdCorners_eq (s : HdCyclesMesh) (p vCount : Int) (hp : 0 ≤ p) (hv : 0 ≤ vCount)
    (hlen : p + vCount ≤ s.m_faceVertexIndices.length) :
    subdCorners s p vCount
      = some (orientCorners s.m_orientation (polygonCorners s p vCount)) := by
  unfold subdCorners orientCorners
  by_cases ho : s.m_orientation = Orientation.rightHanded
  · simp only [ho, if_true]
    exact mapM_option_eq_map _ (fun k : Nat => corner s p k) _ (fun k hk => by
      rw [List.mem_range] at hk
      exact readAt_corner s p k (by omega) (by omega))
  · simp only [ho, if_false]
    rw [mapM_option_eq_map _ (fun k : Nat => corner s p (vCount - k - 1)) _ (fun k hk => by
      rw [List.mem_range] at hk
      exact readAt_corner s p (vCount - k - 1) (by omega) (by omega))]
    congr 1
    apply List.ext_getElem
    · simp [polygonCorners_length]
    · intro k h1 h2
      rw [List.getElem_reverse, polygonCorners_getElem]
      simp only [List.getElem_map, List.getElem_range, polygonCorners_length]
      simp only [List.length_map, List.length_range] at h1
      congr 1
      omega

theorem subdLoop_eq (s : HdCyclesMesh) (a_faceMaterials : List Int) :
    ∀ (rest : List Int) (i : Nat) (p : Int) (mesh : Mesh),
      s.m_faceVertexCounts.drop i = rest → 0 ≤ p → (∀ c ∈ rest, 0 ≤ c) →
      p + countSum rest ≤ s.m_faceVertexIndices.length →
      subdLoop s a_faceMaterials rest.length i p mesh
        = some { mesh with
            subd_faces := mesh.subd_faces ++ (subdFacesOf s a_faceMaterials rest i p) } := by
  intro rest
  induction rest with
  | nil => intro i p mesh _ _ _ _; simp [subdLoop, subdFacesOf]
  | cons c cs ih =>
    intro i p mesh hdrop hp hnn hlen
    have hc := hnn c (List.mem_cons_self _ _)
    have hcs : ∀ x ∈ cs, 0 ≤ x := fun x hx => hnn x (List.mem_cons_of_mem _ hx)
    have hs := countSum_nonneg cs hcs
    rw [countSum_cons] at hlen
    have hget : s.m_faceVertexCounts[i]? = some c := by
      have := List.getElem?_drop s.m_faceVertexCounts i 0
      rw [hdrop] at this
      simpa using this.symm
    have hdrop2 : s.m_faceVertexCounts.drop (i + 1) = cs := by
      rw [← List.drop_drop 1 i, hdrop]
      rfl
    rw [List.length_cons]
    unfold subdLoop
    rw [hget]
    simp only [Option.bind_eq_bind, Option.some_bind]
    rw [if_neg (by omega)]
    simp only [Option.pure_def, Option.some_bind]
    rw [subdCorners_eq s p c hp hc (by omega)]
    simp only [Option.some_bind]
    rw [ih (i + 1) (p + c) _ hdrop2 (by omega) hcs (by omega)]
    simp [subdFacesOf, Mesh.add_subd_face]

theorem syncTopology_subdivision (s : HdCyclesMesh) (t : HdMeshTopology)
    (hmode : (syncTopology s t).m_useSubdivision = true) :
    syncTopology s t = { s with
      m_faceVertexCounts := t.faceVertexCounts
      m_faceVertexIndices := t.faceVertexIndices
      m_orientation := t.orientation
      m_useSubdivision := true
      m_numMeshFaces := t.faceVertexCounts.length
      m_numNgons := (t.faceVertexCounts.foldl countNgonsCorners (0, 0)).1
      m_numCorners := (t.faceVertexCounts.foldl countNgonsCorners (0, 0)).2 } := by
  unfold syncTopology at hmode ⊢
  cases he : s.m_subdivEnabled <;> cases hc : t.schemeIsCatmullClark <;>
    simp_all

theorem foldl_countNgonsCorners_snd (counts : List Int) (a : Int × Int) :
    (counts.foldl countNgonsCorners a).2 = a.2 + countSum counts := by
  induction counts generalizing a with
  | nil => simp [countSum_nil]
  | cons c cs ih =>
    rw [List.foldl_cons, ih, countSum_cons]
    simp only [countNgonsCorners]
    ring

theorem subdFacesOf_length (s : HdCyclesMesh) (a_faceMaterials : List Int) :
    ∀ (rest : List Int) (i : Nat) (p : Int),
      (subdFacesOf s a_faceMaterials rest i p).length = rest.length := by
  intro rest
  induction rest with
  | nil => intro i p; rfl
  | cons c cs ih => intro i p; simp [subdFacesOf, ih]

theorem subdFacesOf_getElem? (s : HdCyclesMesh) (a_faceMaterials : List Int) :
    ∀ (rest : List Int) (i : Nat) (p : Int) (k : Nat), k < rest.length →
      (subdFacesOf s a_faceMaterials rest i p)[k]?
        = some { corners := orientCorners s.m_orientation
                   (polygonCorners s (p + countSum (rest.take k)) (rest.getD k 0)),
                 shader := faceMaterial a_faceMaterials (i + k), smooth := true } := by
  intro rest
  induction rest with
  | nil => intro i p k hk; simp at hk
  | cons c cs ih =>
    intro i p k hk
    cases k with
    | zero => simp [subdFacesOf, countSum_nil]
    | succ k =>
      simp only [subdFacesOf, List.getElem?_cons_succ, List.take_succ_cons, countSum_cons,
        List.getD_cons_succ]
      rw [ih (i + 1) (p + c) k (by simpa using hk)]
      congr 3
      · rw [add_assoc]
      · omega

theorem subdFacesOf_cornerCount (s : HdCyclesMesh) (a_faceMaterials : List Int) :
    ∀ (rest : List Int) (i : Nat) (p : Int), (∀ c ∈ rest, 0 ≤ c) →
      ((subdFacesOf s a_faceMaterials rest i p).map
          (fun f : SubdFace => (f.corners.length : Int))).sum = countSum rest := by
  intro rest
  induction rest with
  | nil => intro i p _; simp [subdFacesOf, countSum_nil]
  | cons c cs ih =>
    intro i p hnn
    have hc := hnn c (List.mem_cons_self _ _)
    simp only [subdFacesOf, List.map_cons, List.sum_cons, countSum_cons,
      ih (i + 1) (p + c) (fun x hx => hnn x (List.mem_cons_of_mem _ hx))]
    congr 1
    unfold orientCorners
    split
    · rw [polygonCorners_length]; omega
    · rw [List.length_reverse, polygonCorners_length]; omega

/-- C6. Subdivision branch, run on the cleared mesh after the topology block: no triangle is
added; exactly one subdivision face is added per polygon, in polygon order; face `k` holds
the corner indices of polygon `k` in their order for RightHanded and in reversed order for
LeftHanded; the number of faces is the number of polygons and the number of face corners is
the sum of the face-vertex-counts, which are also the values of `m_numMeshFaces` and
`m_numCorners`. -/
theorem populateFaces_subdivision_faces (s : HdCyclesMesh) (t : HdMeshTopology)
    (a_faceMaterials : List Int)
    (hmode : (syncTopology s t).m_useSubdivision = true)
    (hnn : ∀ c ∈ t.faceVertexCounts, 0 ≤ c)
    (hlen : countSum t.faceVertexCounts ≤ t.faceVertexIndices.length) :
    ∃ m : Mesh,
      _PopulateFaces (syncTopology s t) a_faceMaterials Mesh.cleared = some m
      ∧ m.triangles = []
      ∧ m.subd_faces.length = t.faceVertexCounts.length
      ∧ (∀ k : Nat, k < t.faceVertexCounts.length →
          m.subd_faces[k]? = some
            { corners :=
                if t.orientation = Orientation.rightHanded
                then polygonCorners (syncTopology s t) (countSum (t.faceVertexCounts.take k))
                  (t.faceVertexCounts.getD k 0)
                else (polygonCorners (syncTopology s t) (countSum (t.faceVertexCounts.take k))
                  (t.faceVertexCounts.getD k 0)).reverse,
              shader := faceMaterial a_faceMaterials k, smooth := true })
      ∧ (m.subd_faces.map (fun f : SubdFace => (f.corners.length : Int))).sum
          = countSum t.faceVertexCounts
      ∧ (syncTopology s t).m_numMeshFaces = t.faceVertexCounts.length
      ∧ (syncTopology s t).m_numCorners = countSum t.faceVertexCounts := by
  have hs := syncTopology_subdivision s t hmode
  have hc : (syncTopology s t).m_faceVertexCounts = t.faceVertexCounts := by rw [hs]
  have hi : (syncTopology s t).m_faceVertexIndices = t.faceVertexIndices := by rw [hs]
  have ho : (syncTopology s t).m_orientation = t.orientation := by rw [hs]
  have hf : (syncTopology s t).m_numMeshFaces = t.faceVertexCounts.length := by rw [hs]
  have hn : (syncTopology s t).m_numCorners = countSum t.faceVertexCounts := by
    rw [hs]
    show (t.faceVertexCounts.foldl countNgonsCorners (0, 0)).2 = _
    rw [foldl_countNgonsCorners_snd]
    simp
  have e := subdLoop_eq (syncTopology s t) a_faceMaterials t.faceVertexCounts 0 0
    { Mesh.cleared with subdivision_type := SubdivisionType.SUBDIVISION_CATMULL_CLARK }
    (by rw [hc]; rfl) (le_refl _) hnn (by rw [hi]; omega)
  have hrun : _PopulateFaces (syncTopology s t) a_faceMaterials Mesh.cleared
      = some { triangles := [],
               subd_faces := subdFacesOf (syncTopology s t) a_faceMaterials
                 t.faceVertexCounts 0 0,
               subdivision_type := SubdivisionType.SUBDIVISION_CATMULL_CLARK } := by
    unfold _PopulateFaces
    rw [hmode, if_pos rfl, hf, Int.toNat_ofNat, e]
    simp [Mesh.cleared]
  refine ⟨_, hrun, rfl, subdFacesOf_length _ _ _ 0 0, ?_,
    subdFacesOf_cornerCount _ _ _ 0 0 hnn, hf, hn⟩
  intro k hk
  show (subdFacesOf (syncTopology s t) a_faceMaterials t.faceVertexCounts 0 0)[k]? = _
  rw [subdFacesOf_getElem? _ _ _ 0 0 k hk, ho]
  simp [orientCorners]

theorem populateFaces_subdivision_faces_witness :
    ∃ m : Mesh,
      _PopulateFaces (syncTopology (subdivMeshWithVerts 7) (quadAndTriangle Orientation.leftHanded))
          [] Mesh.cleared = some m
      ∧ m.triangles = []
      ∧ m.subd_faces.length = (quadAndTriangle Orientation.leftHanded).faceVertexCounts.length
      ∧ (∀ k : Nat, k < (quadAndTriangle Orientation.leftHanded).faceVertexCounts.length →
          m.subd_faces[k]? = some
            { corners :=
                if (quadAndTriangle Orientation.leftHanded).orientation = Orientation.rightHanded
                then polygonCorners
                  (syncTopology (subdivMeshWithVerts 7) (quadAndTriangle Orientation.leftHanded))
                  (countSum ((quadAndTriangle Orientation.leftHanded).faceVertexCounts.take k))
                  ((quadAndTriangle Orientation.leftHanded).faceVertexCounts.getD k 0)
                else (polygonCorners
                  (syncTopology (subdivMeshWithVerts 7) (quadAndTriangle Orientation.leftHanded))
                  (countSum ((quadAndTriangle Orientation.leftHanded).faceVertexCounts.take k))
                  ((quadAndTriangle Orientation.leftHanded).faceVertexCounts.getD k 0)).reverse,
              shader := faceMaterial [] k, smooth := true })
      ∧ (m.subd_faces.map (fun f : SubdFace => (f.corners.length : Int))).sum
          = countSum (quadAndTriangle Orientation.leftHanded).faceVertexCounts
      ∧ (syncTopology (subdivMeshWithVerts 7) (quadAndTriangle Orientation.leftHanded)).m_numMeshFaces
          = (quadAndTriangle Orientation.leftHanded).faceVertexCounts.length
      ∧ (syncTopology (subdivMeshWithVerts 7) (quadAndTriangle Orientation.leftHanded)).m_numCorners
          = countSum (quadAndTriangle Orientation.leftHanded).faceVertexCounts :=
  populateFaces_subdivision_faces (subdivMeshWithVerts 7)
    (quadAndTriangle Orientation.leftHanded) [] (by decide) (by decide) (by decide)

/-! ## Vertex-interpolated UVs and colours against the stored faces -/

theorem foldlM_chunks {β γ ι : Type} (step : List β → γ → Option (List β))
    (chunk : γ → List ι) (f : ι → Option β) :
    ∀ (js : List γ), (∀ j ∈ js, ∀ out, step out j = ((chunk j).mapM f).map (out ++ ·)) →
      ∀ out, js.foldlM step out = ((js.flatMap chunk).mapM f).map (out ++ ·) := by
  intro js
  induction js with
  | nil =>
    intro _ out
    rw [List.foldlM_nil, List.flatMap_nil, List.mapM_nil]
    show some out = some (out ++ [])
    rw [List.append_nil]
  | cons j js ih =>
    intro h out
    have ih2 := ih (fun k hk => h k (List.mem_cons_of_mem _ hk))
    rw [List.foldlM_cons, h j (List.mem_cons_self _ _), List.flatMap_cons, List.mapM_append]
    cases h1 : (chunk j).mapM f with
    | none => rfl
    | some a =>
      simp only [Option.map_some', Option.bind_eq_bind, Option.some_bind]
      rw [ih2]
      cases h2 : (js.flatMap chunk).mapM f with
      | none => rfl
      | some b =>
        show some (out ++ a ++ b) = some (out ++ (a ++ b))
        rw [List.append_assoc]

theorem fanCandidate_corners_eq (s : HdCyclesMesh) (p vCount m1 m2 : Int) (j : Nat) :
    (fanCandidate s p vCount m1 j).corners = (fanCandidate s p vCount m2 j).corners := by
  unfold fanCandidate Triangle.corners
  split <;> rfl

theorem uvVertexFanStep_eq {α β : Type} (conv : α → β) (s : HdCyclesMesh) (uvs : List α)
    (p vCount materialId : Int) (fdata : List β) (j : Nat)
    (hp : 0 ≤ p) (hj : 1 ≤ j) (hjv : (j : Int) + 2 ≤ vCount)
    (hlen : p + vCount ≤ s.m_faceVertexIndices.length) :
    uvVertexFanStep conv s uvs p vCount fdata j
      = ((fanCandidate s p vCount materialId j).corners.mapM
          (fun v => (readAt uvs v).map conv)).map (fdata ++ ·) := by
  have r0 : readAt s.m_faceVertexIndices p = some (corner s p 0) := by
    have := readAt_corner s p 0 (by omega) (by omega)
    simpa using this
  have r1 : readAt s.m_faceVertexIndices (p + j + 0) = some (corner s p j) := by
    have := readAt_corner s p j (by omega) (by omega)
    simpa using this
  have r2 : readAt s.m_faceVertexIndices (p + j + 1) = some (corner s p (j + 1)) := by
    have := readAt_corner s p (j + 1) (by omega) (by omega)
    rw [← add_assoc] at this
    exact this
  have r3 : readAt s.m_faceVertexIndices (p + ((vCount - 1) - j) + 0)
      = some (corner s p ((vCount - 1) - j)) := by
    have := readAt_corner s p ((vCount - 1) - j) (by omega) (by omega)
    simpa using this
  have r4 : readAt s.m_faceVertexIndices (p + ((vCount - 1) - j) + 1)
      = some (corner s p ((vCount - 1) - j + 1)) := by
    have := readAt_corner s p ((vCount - 1) - j + 1) (by omega) (by omega)
    rw [← add_assoc] at this
    exact this
  unfold uvVertexFanStep
  rw [r0, r1, r2]
  by_cases ho : s.m_orientation = Orientation.leftHanded
  · simp only [ho, if_true, r3, r4, Option.bind_eq_bind, Option.some_bind, fanCandidate,
      Triangle.corners]
    simp only [List.mapM_cons, List.mapM_nil]
    cases readAt uvs (corner s p 0) <;> cases readAt uvs (corner s p (vCount - 1 - j)) <;>
      cases readAt uvs (corner s p (vCount - 1 - j + 1)) <;> rfl
  · simp only [ho, if_false, Option.bind_eq_bind, Option.some_bind, fanCandidate,
      Triangle.corners]
    simp only [List.mapM_cons, List.mapM_nil]
    cases readAt uvs (corner s p 0) <;> cases readAt uvs (corner s p j) <;>
      cases readAt uvs (corner s p (j + 1)) <;> rfl

theorem uvVertexSubdStep_eq {α β : Type} (conv : α → β) (s : HdCyclesMesh) (uvs : List α)
    (p vCount : Int) (fdata : List β) (j : Nat)
    (hp : 0 ≤ p) (hjv : (j : Int) < vCount)
    (hlen : p + vCount ≤ s.m_faceVertexIndices.length) :
    uvVertexSubdStep conv s uvs p vCount fdata j
      = ([if s.m_orientation = Orientation.rightHanded then corner s p j
            else corner s p (vCount - j - 1)].mapM
          (fun v => (readAt uvs v).map conv)).map (fdata ++ ·) := by
  have r1 := readAt_corner s p j (by omega) (by omega)
  have r2 := readAt_corner s p (vCount - j - 1) (by omega) (by omega)
  unfold uvVertexSubdStep
  by_cases ho : s.m_orientation = Orientation.rightHanded
  · simp only [ho, if_true, r1, Option.bind_eq_bind, Option.some_bind]
    simp only [List.mapM_cons, List.mapM_nil]
    cases readAt uvs (corner s p j) <;> rfl
  · simp only [ho, if_false, r2, Option.bind_eq_bind, Option.some_bind]
    simp only [List.mapM_cons, List.mapM_nil]
    cases readAt uvs (corner s p (vCount - j - 1)) <;> rfl

theorem flatMap_singleton_map {ι κ : Type} (g : ι → κ) (l : List ι) :
    l.flatMap (fun x => [g x]) = l.map g := by
  induction l with
  | nil => rfl
  | cons x xs ih => simp [List.flatMap_cons, ih]

theorem orientCorners_eq_map (s : HdCyclesMesh) (p vCount : Int) :
    orientCorners s.m_orientation (polygonCorners s p vCount)
      = (List.range vCount.toNat).map (fun j : Nat =>
          if s.m_orientation = Orientation.rightHanded then corner s p j
          else corner s p (vCount - j - 1)) := by
  unfold orientCorners
  by_cases ho : s.m_orientation = Orientation.rightHanded
  · simp only [ho, if_true]
    rfl
  · simp only [ho, if_false]
    apply List.ext_getElem
    · simp [polygonCorners_length]
    · intro k h1 h2
      rw [List.getElem_reverse, polygonCorners_getElem]
      simp only [List.getElem_map, List.getElem_range, polygonCorners_length]
      simp only [List.length_map, List.length_range] at h2
      congr 1
      omega

theorem chunk_bind {β ι : Type} (f : ι → Option β) (A B : List ι) (out : List β)
    (k : List β → Option (List β)) (hk : ∀ fd, k fd = (B.mapM f).map (fd ++ ·)) :
    ((A.mapM f).map (out ++ ·)).bind k = ((A ++ B).mapM f).map (out ++ ·) := by
  rw [List.mapM_append]
  cases h1 : A.mapM f with
  | none => rfl
  | some a =>
    simp only [Option.map_some', Option.bind_eq_bind, Option.some_bind]
    rw [hk]
    cases h2 : B.mapM f with
    | none => rfl
    | some b =>
      show some (out ++ a ++ b) = some (out ++ (a ++ b))
      rw [List.append_assoc]

theorem uvVertexLoop_eq {α β : Type} (conv : α → β) (s : HdCyclesMesh) (uvs : List α) :
    ∀ (counts : List Int) (p : Int) (fdata : List β), 0 ≤ p → (∀ c ∈ counts, 0 ≤ c) →
      p + countSum counts ≤ s.m_faceVertexIndices.length →
      uvVertexLoop conv s uvs counts p fdata
        = ((layoutCorners s counts p).mapM (fun v => (readAt uvs v).map conv)).map
            (fdata ++ ·) := by
  intro counts
  induction counts with
  | nil =>
    intro p fdata _ _ _
    unfold uvVertexLoop layoutCorners
    rw [List.mapM_nil]
    show some fdata = some (fdata ++ [])
    rw [List.append_nil]
  | cons c cs ih =>
    intro p fdata hp hnn hlen
    have hc := hnn c (List.mem_cons_self _ _)
    have hcs : ∀ x ∈ cs, 0 ≤ x := fun x hx => hnn x (List.mem_cons_of_mem _ hx)
    have hs := countSum_nonneg cs hcs
    rw [countSum_cons] at hlen
    have hk := fun fd => ih (p + c) fd (by omega) hcs (by omega)
    unfold uvVertexLoop layoutCorners
    by_cases hsub : s.m_useSubdivision = true
    · simp only [hsub, if_true]
      rw [foldlM_chunks (uvVertexSubdStep conv s uvs p c)
        (fun j : Nat => [if s.m_orientation = Orientation.rightHanded then corner s p j
            else corner s p (c - j - 1)]) _ _
        (fun j hj out => uvVertexSubdStep_eq conv s uvs p c out j hp
          (by rw [List.mem_range] at hj; omega) (by omega)),
        flatMap_singleton_map, ← orientCorners_eq_map]
      exact chunk_bind _ _ _ fdata _ hk
    · simp only [hsub, if_false, Bool.false_eq_true]
      rw [foldlM_chunks (uvVertexFanStep conv s uvs p c)
        (fun j : Nat => (fanCandidate s p c 0 j).corners) _ _
        (fun j hj out => uvVertexFanStep_eq conv s uvs p c 0 out j hp
          (mem_fanRange hj).1 (mem_fanRange hj).2 (by omega))]
      exact chunk_bind _ _ _ fdata _ hk

theorem flatMap_map_corners {ι : Type} (g : ι → Triangle) (l : List ι) :
    (l.map g).flatMap (fun t => t.corners) = l.flatMap (fun j => (g j).corners) := by
  induction l with
  | nil => rfl
  | cons x xs ih => simp [List.flatMap_cons, ih]

theorem facesCandidates_corners (s : HdCyclesMesh) (a_faceMaterials : List Int)
    (hsub : s.m_useSubdivision = false) :
    ∀ (counts : List Int) (i : Nat) (p : Int),
      (facesCandidates s a_faceMaterials counts i p).flatMap (fun t => t.corners)
        = layoutCorners s counts p := by
  intro counts
  induction counts with
  | nil => intro i p; rfl
  | cons c cs ih =>
    intro i p
    simp only [facesCandidates, layoutCorners, List.flatMap_append, ih, hsub,
      Bool.false_eq_true, if_false, flatMap_map_corners]
    congr 1
    apply List.flatMap_congr
    intro j _
    exact fanCandidate_corners_eq s p c _ 0 j

theorem subdFacesOf_corners (s : HdCyclesMesh) (a_faceMaterials : List Int)
    (hsub : s.m_useSubdivision = true) :
    ∀ (counts : List Int) (i : Nat) (p : Int),
      (subdFacesOf s a_faceMaterials counts i p).flatMap (fun f => f.corners)
        = layoutCorners s counts p := by
  intro counts
  induction counts with
  | nil => intro i p; rfl
  | cons c cs ih =>
    intro i p
    simp only [subdFacesOf, layoutCorners, List.flatMap_cons, ih, hsub, if_true]

theorem layoutCorners_mem (s : HdCyclesMesh) :
    ∀ (counts : List Int) (p : Int), 0 ≤ p → (∀ c ∈ counts, 0 ≤ c) →
      p + countSum counts ≤ s.m_faceVertexIndices.length →
      ∀ v ∈ layoutCorners s counts p, v ∈ s.m_faceVertexIndices := by
  intro counts
  induction counts with
  | nil => intro p _ _ _ v hv; simp [layoutCorners] at hv
  | cons c cs ih =>
    intro p hp hnn hlen v hv
    have hc := hnn c (List.mem_cons_self _ _)
    have hcs : ∀ x ∈ cs, 0 ≤ x := fun x hx => hnn x (List.mem_cons_of_mem _ hx)
    have hs := countSum_nonneg cs hcs
    rw [countSum_cons] at hlen
    have hsubset := polygonCorners_subset s p c hp (by omega)
    simp only [layoutCorners, List.mem_append] at hv
    rcases hv with hv | hv
    · by_cases hsub : s.m_useSubdivision = true
      · simp only [hsub, if_true, orientCorners] at hv
        split at hv
        · exact hsubset v hv
        · exact hsubset v (List.mem_reverse.mp hv)
      · simp only [hsub, if_false, Bool.false_eq_true, List.mem_flatMap] at hv
        obtain ⟨j, hj, hv⟩ := hv
        have hcor := fanCandidate_corners s p c 0 j hj
        simp only [Triangle.corners, List.mem_cons, List.mem_singleton, List.not_mem_nil,
          or_false] at hv
        rcases hv with rfl | rfl | rfl
        · exact hsubset _ hcor.1
        · exact hsubset _ hcor.2.1
        · exact hsubset _ hcor.2.2
    · exact ih (p + c) (by omega) hcs (by omega) v hv

theorem mapM_option_some {ι β : Type} (f : ι → Option β) :
    ∀ l : List ι, (∀ x ∈ l, ∃ y, f x = some y) → ∃ ys, l.mapM f = some ys := by
  intro l
  induction l with
  | nil => intro _; exact ⟨[], rfl⟩
  | cons x xs ih =>
    intro h
    obtain ⟨y, hy⟩ := h x (List.mem_cons_self _ _)
    obtain ⟨ys, hys⟩ := ih (fun z hz => h z (List.mem_cons_of_mem _ hz))
    exact ⟨y :: ys, by rw [List.mapM_cons, hy, hys]; rfl⟩

theorem readAt_some_of_lt {α : Type} (xs : List α) (v : Int) (h0 : 0 ≤ v)
    (h1 : v < xs.length) : ∃ y, readAt xs v = some y := by
  have hlt : v.toNat < xs.length := by omega
  exact ⟨xs[v.toNat], by unfold readAt; rw [if_neg (by omega), List.getElem?_eq_getElem hlt]⟩

theorem populateFaces_cornerVertices (s : HdCyclesMesh) (a_faceMaterials : List Int)
    (hnn : ∀ c ∈ s.m_faceVertexCounts, 0 ≤ c)
    (hlen : countSum s.m_faceVertexCounts ≤ s.m_faceVertexIndices.length)
    (hfaces : s.m_useSubdivision = true → s.m_numMeshFaces = s.m_faceVertexCounts.length)
    (hbelow : ∀ v ∈ s.m_faceVertexIndices,
      indexBelow s.countIsUnsigned v s.m_numMeshVerts = true) :
    ∃ m : Mesh, _PopulateFaces s a_faceMaterials Mesh.cleared = some m
      ∧ cornerVertices s.m_useSubdivision m = layoutCorners s s.m_faceVertexCounts 0 := by
  by_cases hsub : s.m_useSubdivision = true
  · have e := subdLoop_eq s a_faceMaterials s.m_faceVertexCounts 0 0
      { Mesh.cleared with subdivision_type := SubdivisionType.SUBDIVISION_CATMULL_CLARK }
      rfl (le_refl _) hnn (by omega)
    refine ⟨{ triangles := [],
              subd_faces := subdFacesOf s a_faceMaterials s.m_faceVertexCounts 0 0,
              subdivision_type := SubdivisionType.SUBDIVISION_CATMULL_CLARK }, ?_, ?_⟩
    · unfold _PopulateFaces
      rw [hsub, if_pos rfl, hfaces hsub, Int.toNat_ofNat, e]
      simp [Mesh.cleared]
    · rw [hsub]
      show (subdFacesOf s a_faceMaterials s.m_faceVertexCounts 0 0).flatMap
        (fun f => f.corners) = _
      exact subdFacesOf_corners s a_faceMaterials hsub _ 0 0
  · have hsub2 : s.m_useSubdivision = false := by simpa using hsub
    refine ⟨_, populateFaces_triangulated s a_faceMaterials Mesh.cleared hsub2 hnn hlen, ?_⟩
    rw [hsub2]
    show (([] : List Triangle) ++ facesTriangles s a_faceMaterials s.m_faceVertexCounts 0 0).flatMap
      (fun t => t.corners) = _
    rw [List.nil_append, facesTriangles_all_pass s a_faceMaterials hnn hlen hbelow]
    exact facesCandidates_corners s a_faceMaterials hsub2 _ 0 0

/-- C7. Vertex-interpolated UVs, either layout, either orientation: when every face-vertex
index passes the bound test (no triangle is dropped) and indexes the UV array,
`_PopulateFaces` and `_AddUVSet` both succeed and the value `_AddUVSet` stores for a face
corner is the converted `uvs[v]`, `v` being the vertex index `_PopulateFaces` stored at that
corner (corner `c` of triangle `k` is position `3 k + c`; the corners of the subdivision
faces follow one another face after face). -/
theorem addUVSet_vertex_follows_faces {α β : Type} (conv : α → β) (s : HdCyclesMesh)
    (a_faceMaterials : List Int) (uvs : List α)
    (hnn : ∀ c ∈ s.m_faceVertexCounts, 0 ≤ c)
    (hlen : countSum s.m_faceVertexCounts ≤ s.m_faceVertexIndices.length)
    (hfaces : s.m_useSubdivision = true → s.m_numMeshFaces = s.m_faceVertexCounts.length)
    (hbelow : ∀ v ∈ s.m_faceVertexIndices,
      indexBelow s.countIsUnsigned v s.m_numMeshVerts = true)
    (huv : ∀ v ∈ s.m_faceVertexIndices, 0 ≤ v ∧ v < uvs.length) :
    ∃ (m : Mesh) (fdata : List β),
      _PopulateFaces s a_faceMaterials Mesh.cleared = some m
      ∧ _AddUVSet_Vertex conv s uvs = some fdata
      ∧ (cornerVertices s.m_useSubdivision m).mapM (fun v => (readAt uvs v).map conv)
          = some fdata := by
  obtain ⟨m, hm, hcv⟩ := populateFaces_cornerVertices s a_faceMaterials hnn hlen hfaces hbelow
  have hrun := uvVertexLoop_eq conv s uvs s.m_faceVertexCounts 0 [] (le_refl _) hnn
    (by omega)
  obtain ⟨ys, hys⟩ := mapM_option_some (fun v => (readAt uvs v).map conv)
    (layoutCorners s s.m_faceVertexCounts 0) (fun v hv => by
      have hmem := layoutCorners_mem s _ 0 (le_refl _) hnn (by omega) v hv
      obtain ⟨y, hy⟩ := readAt_some_of_lt uvs v (huv v hmem).1 (huv v hmem).2
      exact ⟨conv y, by show Option.map conv (readAt uvs v) = _; rw [hy]; rfl⟩)
  refine ⟨m, ys, hm, ?_, ?_⟩
  · unfold _AddUVSet_Vertex
    rw [hrun, hys]
    rfl
  · rw [hcv]
    exact hys

theorem addUVSet_vertex_follows_faces_witness :
    ∃ (m : Mesh) (fdata : List Nat),
      _PopulateFaces (twoQuads Orientation.leftHanded) [] Mesh.cleared = some m
      ∧ _AddUVSet_Vertex (fun uv : Nat => uv) (twoQuads Orientation.leftHanded)
          [10, 11, 12, 13, 14, 15, 16, 17] = some fdata
      ∧ (cornerVertices (twoQuads Orientation.leftHanded).m_useSubdivision m).mapM
          (fun v => (readAt [10, 11, 12, 13, 14, 15, 16, 17] v).map (fun uv : Nat => uv))
          = some fdata :=
  addUVSet_vertex_follows_faces (fun uv : Nat => uv) (twoQuads Orientation.leftHanded) []
    [10, 11, 12, 13, 14, 15, 16, 17] (by decide) (by decide) (by decide) (by decide)
    (by decide)

/-- C8 (evaluation at the failing input). One LeftHanded triangle `(0, 1, 2)`, triangulated
layout, vertex colours `[c0, c1, c2]`: `_PopulateFaces` stores the triangle `(0, 1, 2)` while
`_AddColors` stores the converted colours of the vertices `2, 1, 0` in this order, so corner 0
carries vertex 0 and the colour of vertex 2. `_AddUVSet` on the same input stores the values
of the vertices `0, 1, 2`. -/
theorem addColors_vertex_leftHanded_triangle {β : Type} (conv : Nat → β) :
    (_PopulateFaces leftHandedTriangle [] Mesh.cleared).map (cornerVertices false)
        = some [0, 1, 2]
      ∧ _AddColors_Vertex conv leftHandedTriangle [10, 11, 12]
        = some [conv 12, conv 11, conv 10]
      ∧ _AddUVSet_Vertex conv leftHandedTriangle [10, 11, 12]
        = some [conv 10, conv 11, conv 12] := by
  refine ⟨by decide, rfl, rfl⟩

/-! ## Material slots of the geometry subsets -/

theorem option_bind_some_eq_map {α β : Type} (x : Option α) (g : α → β) :
    x.bind (fun a => some (g a)) = x.map g := by
  cases x <;> rfl

theorem slotOfIndex_zero : slotOfIndex 0 = 0 := by decide

theorem subsetStep_unresolved (resolve : SdfPath → Option Shader) (st : SubsetState)
    (S : HdGeomSubset) (h : S.materialId = "" ∨ resolve S.materialId = none) :
    subsetStep resolve st S
      = (writeFaces 0 S.indices st.faceMaterials).map
          (fun fm => { st with faceMaterials := fm }) := by
  rw [← slotOfIndex_zero]
  unfold subsetStep writeFaces slotOfIndex
  rcases h with h | h
  · simp only [h, ne_eq, not_true_eq_false, if_false]
    exact option_bind_some_eq_map _ _
  · by_cases he : S.materialId = ""
    · simp only [he, ne_eq, not_true_eq_false, if_false]
      exact option_bind_some_eq_map _ _
    · simp only [he, ne_eq, not_false_eq_true, if_true, h]
      exact option_bind_some_eq_map _ _

theorem subsetStep_new (resolve : SdfPath → Option Shader) (st : SubsetState)
    (S : HdGeomSubset) (sh : Shader) (hne : S.materialId ≠ "")
    (hres : resolve S.materialId = some sh)
    (hfind : mapFind st.m_materialMap S.materialId = none) :
    subsetStep resolve st S
      = (writeFaces (slotOfIndex ((st.m_usedShaders.length : Int) + 1)) S.indices
            st.faceMaterials).map
          (fun fm => { m_usedShaders := st.m_usedShaders ++ [sh],
                       m_materialMap :=
                         (S.materialId, (st.m_usedShaders.length : Int) + 1) :: st.m_materialMap,
                       used_shaders := st.m_usedShaders ++ [sh],
                       faceMaterials := fm }) := by
  unfold subsetStep writeFaces slotOfIndex
  simp only [hne, ne_eq, not_false_eq_true, if_true, hres, hfind, mapInsert,
    List.length_append, List.length_singleton, Nat.cast_add, Nat.cast_one]
  exact option_bind_some_eq_map _ _

theorem subsetStep_known (resolve : SdfPath → Option Shader) (st : SubsetState)
    (S : HdGeomSubset) (sh : Shader) (k : Int) (hne : S.materialId ≠ "")
    (hres : resolve S.materialId = some sh)
    (hfind : mapFind st.m_materialMap S.materialId = some k) :
    subsetStep resolve st S
      = (writeFaces (slotOfIndex k) S.indices st.faceMaterials).map
          (fun fm => { st with used_shaders := st.m_usedShaders, faceMaterials := fm }) := by
  unfold subsetStep writeFaces slotOfIndex
  simp only [hne, ne_eq, not_false_eq_true, if_true, hres, hfind]
  exact option_bind_some_eq_map _ _

theorem writeFaces_spec (v : Int) :
    ∀ (indices : List Int) (fm : List Int),
      (∀ i ∈ indices, 0 ≤ i ∧ i < fm.length) →
      ∃ fm', writeFaces v indices fm = some fm' ∧ fm'.length = fm.length
        ∧ (∀ i ∈ indices, readAt fm' i = some v)
        ∧ (∀ j : Int, j ∉ indices → readAt fm' j = readAt fm j) := by
  intro indices
  induction indices with
  | nil => intro fm _; exact ⟨fm, rfl, rfl, by simp, fun _ _ => rfl⟩
  | cons i rest ih =>
    intro fm h
    have hi := h i (List.mem_cons_self _ _)
    have hlt : i.toNat < fm.length := by omega
    obtain ⟨fm', hrun, hlen, hin, hout⟩ := ih (fm.set i.toNat v) (fun j hj => by
      rw [List.length_set]; exact h j (List.mem_cons_of_mem _ hj))
    have hstep : writeAt fm i v = some (fm.set i.toNat v) := by
      unfold writeAt; rw [if_pos hi]
    refine ⟨fm', ?_, ?_, ?_, ?_⟩
    · unfold writeFaces
      rw [List.foldlM_cons, hstep]
      exact hrun
    · rw [hlen, List.length_set]
    · intro j hj
      by_cases hjr : j ∈ rest
      · exact hin j hjr
      · have hji : j = i := by
          rcases List.mem_cons.mp hj with h1 | h1
          · exact h1
          · exact absurd h1 hjr
        rw [hout j hjr, hji]
        unfold readAt
        rw [if_neg (by omega), List.getElem?_set_self hlt]
    · intro j hj
      have hjr : j ∉ rest := fun h1 => hj (List.mem_cons_of_mem _ h1)
      have hji : j ≠ i := fun h1 => hj (by rw [h1]; exact List.mem_cons_self _ _)
      rw [hout j hjr]
      unfold readAt
      by_cases hj0 : j < 0
      · rw [if_pos hj0, if_pos hj0]
      · rw [if_neg hj0, if_neg hj0, List.getElem?_set_ne (by omega)]

theorem mapFind_mem : ∀ (m : List (SdfPath × Int)) (id : SdfPath) (k : Int),
    mapFind m id = some k → (id, k) ∈ m := by
  intro m
  induction m with
  | nil => intro id k h; simp [mapFind] at h
  | cons e rest ih =>
    intro id k h
    obtain ⟨a, v⟩ := e
    unfold mapFind at h
    by_cases hk : a = id
    · rw [if_pos hk] at h
      simp only [Option.some.injEq] at h
      rw [hk, h]
      exact List.mem_cons_self _ _
    · rw [if_neg hk] at h
      exact List.mem_cons_of_mem _ (ih id k h)

theorem mapConsistent_find (resolve : SdfPath → Option Shader) (usedShaders : List Shader)
    (map : List (SdfPath × Int)) (h : mapConsistent resolve usedShaders map = true)
    (id : SdfPath) (k : Int) (hf : mapFind map id = some k) :
    1 ≤ k ∧ ∃ sh, resolve id = some sh ∧ usedShaders[(k - 1).toNat]? = some sh := by
  unfold mapConsistent at h
  rw [List.all_eq_true] at h
  have he := h (id, k) (mapFind_mem map id k hf)
  simp only [Bool.and_eq_true, decide_eq_true_eq, beq_iff_eq] at he
  obtain ⟨⟨h1, h2⟩, h3⟩ := he
  obtain ⟨sh, hsh⟩ := Option.isSome_iff_exists.mp h2
  exact ⟨h1, sh, hsh, by rw [h3, hsh]⟩

theorem mapConsistent_append (resolve : SdfPath → Option Shader) (usedShaders : List Shader)
    (extra : List Shader) (map : List (SdfPath × Int))
    (h : mapConsistent resolve usedShaders map = true) :
    mapConsistent resolve (usedShaders ++ extra) map = true := by
  unfold mapConsistent at h ⊢
  rw [List.all_eq_true] at h ⊢
  intro e he
  have h1 := h e he
  simp only [Bool.and_eq_true, decide_eq_true_eq, beq_iff_eq] at h1 ⊢
  obtain ⟨⟨h1, h2⟩, h3⟩ := h1
  refine ⟨⟨h1, h2⟩, ?_⟩
  obtain ⟨sh, hsh⟩ := Option.isSome_iff_exists.mp h2
  rw [hsh] at h3 ⊢
  have hlt : (e.2 - 1).toNat < usedShaders.length := by
    by_contra hc
    rw [List.getElem?_eq_none (by omega)] at h3
    exact Option.noConfusion h3
  rw [List.getElem?_append_left hlt]
  exact h3

theorem mapConsistent_cons (resolve : SdfPath → Option Shader) (usedShaders : List Shader)
    (map : List (SdfPath × Int)) (id : SdfPath) (sh : Shader)
    (h : mapConsistent resolve usedShaders map = true) (hres : resolve id = some sh) :
    mapConsistent resolve (usedShaders ++ [sh])
      ((id, (usedShaders.length : Int) + 1) :: map) = true := by
  have h2 := mapConsistent_append resolve usedShaders [sh] map h
  unfold mapConsistent at h2 ⊢
  rw [List.all_cons, h2, Bool.and_true]
  simp only [Bool.and_eq_true, decide_eq_true_eq, beq_iff_eq, hres, Option.isSome_some,
    and_true]
  refine ⟨by omega, ?_⟩
  have : ((usedShaders.length : Int) + 1 - 1).toNat = usedShaders.length := by omega
  rw [this]
  simp

theorem mapFind_cons (m : List (SdfPath × Int)) (a id : SdfPath) (v : Int) :
    mapFind ((a, v) :: m) id = if a = id then some v else mapFind m id := by
  rw [mapFind]

theorem RunFacts.nil (resolve : SdfPath → Option Shader) (st : SubsetState)
    (h : mapConsistent resolve st.m_usedShaders st.m_materialMap = true) :
    RunFacts resolve [] st st [] where
  consistent := h
  length_eq := rfl
  nodup := List.nodup_nil
  fresh := fun _ hid => absurd hid (List.not_mem_nil _)
  fromSubsets := fun _ hid => absurd hid (List.not_mem_nil _)
  recorded := fun _ hid => absurd hid (List.not_mem_nil _)
  shaders := by simp
  stable := fun _ _ h => h
  origin := fun _ h => Or.inl h
  registered := fun _ hS => absurd hS (List.not_mem_nil _)
  untouched := fun _ _ => rfl
  grows := ⟨[], by simp⟩
  meshShaders := fun h => h

theorem RunFacts.append {resolve : SdfPath → Option Shader} {A B : List HdGeomSubset}
    {st st1 st2 : SubsetState} {n1 n2 : List SdfPath}
    (h1 : RunFacts resolve A st st1 n1) (h2 : RunFacts resolve B st1 st2 n2) :
    RunFacts resolve (A ++ B) st st2 (n1 ++ n2) where
  consistent := h2.consistent
  length_eq := by rw [h2.length_eq, h1.length_eq]
  nodup := by
    rw [List.nodup_append]
    refine ⟨h1.nodup, h2.nodup, ?_⟩
    intro id hid1 hid2
    exact h1.recorded id hid1 (h2.fresh id hid2)
  fresh := by
    intro id hid
    rcases List.mem_append.mp hid with h | h
    · exact h1.fresh id h
    · cases hf : mapFind st.m_materialMap id with
      | none => rfl
      | some k =>
        have := h1.stable id k hf
        rw [h2.fresh id h] at this
        exact Option.noConfusion this
  fromSubsets := by
    intro id hid
    rcases List.mem_append.mp hid with h | h
    · obtain ⟨S, hS, e⟩ := h1.fromSubsets id h
      exact ⟨S, List.mem_append_left _ hS, e⟩
    · obtain ⟨S, hS, e⟩ := h2.fromSubsets id h
      exact ⟨S, List.mem_append_right _ hS, e⟩
  recorded := by
    intro id hid
    rcases List.mem_append.mp hid with h | h
    · cases hf : mapFind st1.m_materialMap id with
      | none => exact absurd hf (h1.recorded id h)
      | some k => rw [h2.stable id k hf]; exact Option.some_ne_none k
    · exact h2.recorded id h
  shaders := by
    rw [h2.shaders, h1.shaders, List.map_append, List.append_assoc]
  stable := fun id k h => h2.stable id k (h1.stable id k h)
  origin := by
    intro id h
    rcases h2.origin id h with h' | h'
    · rcases h1.origin id h' with h'' | h''
      · exact Or.inl h''
      · exact Or.inr (List.mem_append_left _ h'')
    · exact Or.inr (List.mem_append_right _ h')
  registered := by
    intro S hS hne hres
    rcases List.mem_append.mp hS with h | h
    · cases hf : mapFind st1.m_materialMap S.materialId with
      | none => exact absurd hf (h1.registered S h hne hres)
      | some k => rw [h2.stable _ k hf]; exact Option.some_ne_none k
    · exact h2.registered S h hne hres
  untouched := by
    intro j hj
    rw [h2.untouched j (fun S hS => hj S (List.mem_append_right _ hS)),
      h1.untouched j (fun S hS => hj S (List.mem_append_left _ hS))]
  grows := by
    obtain ⟨e1, he1⟩ := h1.grows
    obtain ⟨e2, he2⟩ := h2.grows
    exact ⟨e1 ++ e2, by rw [he2, he1, List.append_assoc]⟩
  meshShaders := fun h => h2.meshShaders (h1.meshShaders h)

theorem subsetStep_facts (resolve : SdfPath → Option Shader) (st : SubsetState)
    (S : HdGeomSubset)
    (hinv : mapConsistent resolve st.m_usedShaders st.m_materialMap = true)
    (hidx : ∀ i ∈ S.indices, 0 ≤ i ∧ i < st.faceMaterials.length) :
    ∃ (st1 : SubsetState) (new : List SdfPath),
      subsetStep resolve st S = some st1
      ∧ RunFacts resolve [S] st st1 new
      ∧ (∀ sh, S.materialId ≠ "" → resolve S.materialId = some sh →
          ∃ k, mapFind st1.m_materialMap S.materialId = some k ∧ 1 ≤ k
            ∧ st1.m_usedShaders[(k - 1).toNat]? = some sh
            ∧ st1.used_shaders = st1.m_usedShaders
            ∧ ∀ i ∈ S.indices, readAt st1.faceMaterials i = some (k - 1))
      ∧ ((S.materialId = "" ∨ resolve S.materialId = none) →
          ∀ i ∈ S.indices, readAt st1.faceMaterials i = some 0) := by
  by_cases hun : S.materialId = "" ∨ resolve S.materialId = none
  · obtain ⟨fm', hrun, hlen, hin, hout⟩ := writeFaces_spec 0 S.indices st.faceMaterials hidx
    refine ⟨{ st with faceMaterials := fm' }, [], ?_, ?_, ?_, ?_⟩
    · rw [subsetStep_unresolved resolve st S hun, hrun]
      rfl
    · exact {
        consistent := hinv
        length_eq := hlen
        nodup := List.nodup_nil
        fresh := fun _ hid => absurd hid (List.not_mem_nil _)
        fromSubsets := fun _ hid => absurd hid (List.not_mem_nil _)
        recorded := fun _ hid => absurd hid (List.not_mem_nil _)
        shaders := by simp
        stable := fun _ _ h => h
        origin := fun _ h => Or.inl h
        registered := by
          intro T hT hne hres
          rw [List.mem_singleton] at hT
          rw [hT] at hne hres
          rcases hun with h | h
          · exact absurd h hne
          · rw [h] at hres
            exact absurd hres (by simp)
        untouched := fun j hj => hout j (hj S (List.mem_singleton_self S))
        grows := ⟨[], by simp⟩
        meshShaders := fun h => h }
    · intro sh hne hres
      rcases hun with h | h
      · exact absurd h hne
      · rw [h] at hres
        exact Option.noConfusion hres
    · intro _ i hi
      exact hin i hi
  · have hne : S.materialId ≠ "" := fun h => hun (Or.inl h)
    obtain ⟨sh, hres⟩ : ∃ sh, resolve S.materialId = some sh := by
      cases h : resolve S.materialId with
      | none => exact absurd (Or.inr h) hun
      | some sh => exact ⟨sh, rfl⟩
    cases hfind : mapFind st.m_materialMap S.materialId with
    | none =>
      obtain ⟨fm', hrun, hlen, hin, hout⟩ := writeFaces_spec
        (slotOfIndex ((st.m_usedShaders.length : Int) + 1)) S.indices st.faceMaterials hidx
      have hslot : slotOfIndex ((st.m_usedShaders.length : Int) + 1)
          = (st.m_usedShaders.length : Int) + 1 - 1 := by
        unfold slotOfIndex
        omega
      refine ⟨{ m_usedShaders := st.m_usedShaders ++ [sh],
                m_materialMap :=
                  (S.materialId, (st.m_usedShaders.length : Int) + 1) :: st.m_materialMap,
                used_shaders := st.m_usedShaders ++ [sh],
                faceMaterials := fm' }, [S.materialId], ?_, ?_, ?_, ?_⟩
      · rw [subsetStep_new resolve st S sh hne hres hfind, hrun]
        rfl
      · exact {
          consistent := mapConsistent_cons resolve _ _ _ sh hinv hres
          length_eq := hlen
          nodup := List.nodup_singleton _
          fresh := by
            intro id hid
            rw [List.mem_singleton] at hid
            rw [hid]
            exact hfind
          fromSubsets := by
            intro id hid
            rw [List.mem_singleton] at hid
            exact ⟨S, List.mem_singleton_self S, hid.symm⟩
          recorded := by
            intro id hid
            rw [List.mem_singleton] at hid
            show mapFind ((S.materialId, _) :: st.m_materialMap) id ≠ none
            rw [mapFind_cons, if_pos hid.symm]
            exact Option.some_ne_none _
          shaders := by simp [hres]
          stable := by
            intro id k h
            show mapFind ((S.materialId, _) :: st.m_materialMap) id = some k
            rw [mapFind_cons]
            by_cases he : S.materialId = id
            · rw [← he, hfind] at h
              exact Option.noConfusion h
            · rw [if_neg he]
              exact h
          origin := by
            intro id h
            by_cases he : S.materialId = id
            · exact Or.inr (by rw [List.mem_singleton]; exact he.symm)
            · have h' : mapFind ((S.materialId, (st.m_usedShaders.length : Int) + 1)
                  :: st.m_materialMap) id ≠ none := h
              rw [mapFind_cons, if_neg he] at h'
              exact Or.inl h'
          registered := by
            intro T hT _ _
            rw [List.mem_singleton] at hT
            show mapFind ((S.materialId, _) :: st.m_materialMap) T.materialId ≠ none
            rw [hT, mapFind_cons, if_pos rfl]
            exact Option.some_ne_none _
          untouched := fun j hj => hout j (hj S (List.mem_singleton_self S))
          grows := ⟨[sh], rfl⟩
          meshShaders := fun _ => rfl }
      · intro sh' _ hres'
        rw [hres] at hres'
        simp only [Option.some.injEq] at hres'
        refine ⟨(st.m_usedShaders.length : Int) + 1, ?_, by omega, ?_, rfl, ?_⟩
        · show mapFind ((S.materialId, _) :: st.m_materialMap) S.materialId = _
          rw [mapFind_cons, if_pos rfl]
        · show (st.m_usedShaders ++ [sh])[((st.m_usedShaders.length : Int) + 1 - 1).toNat]? = _
          have : ((st.m_usedShaders.length : Int) + 1 - 1).toNat = st.m_usedShaders.length := by
            omega
          rw [this, ← hres']
          simp
        · intro i hi
          rw [← hslot]
          exact hin i hi
      · intro h
        exact absurd h hun
    | some k =>
      obtain ⟨hk1, sh2, hres2, hget⟩ := mapConsistent_find resolve _ _ hinv _ k hfind
      obtain ⟨fm', hrun, hlen, hin, hout⟩ := writeFaces_spec (slotOfIndex k) S.indices
        st.faceMaterials hidx
      have hslot : slotOfIndex k = k - 1 := by
        unfold slotOfIndex
        omega
      refine ⟨{ st with used_shaders := st.m_usedShaders, faceMaterials := fm' }, [],
        ?_, ?_, ?_, ?_⟩
      · rw [subsetStep_known resolve st S sh k hne hres hfind, hrun]
        rfl
      · exact {
          consistent := hinv
          length_eq := hlen
          nodup := List.nodup_nil
          fresh := fun _ hid => absurd hid (List.not_mem_nil _)
          fromSubsets := fun _ hid => absurd hid (List.not_mem_nil _)
          recorded := fun _ hid => absurd hid (List.not_mem_nil _)
          shaders := by simp
          stable := fun _ _ h => h
          origin := fun _ h => Or.inl h
          registered := by
            intro T hT _ _
            rw [List.mem_singleton] at hT
            show mapFind st.m_materialMap T.materialId ≠ none
            rw [hT, hfind]
            exact Option.some_ne_none _
          untouched := fun j hj => hout j (hj S (List.mem_singleton_self S))
          grows := ⟨[], by simp⟩
          meshShaders := fun _ => rfl }
      · intro sh' _ hres'
        rw [hres2] at hres'
        simp only [Option.some.injEq] at hres'
        refine ⟨k, hfind, hk1, by rw [← hres']; exact hget, rfl, ?_⟩
        intro i hi
        rw [← hslot]
        exact hin i hi
      · intro h
        exact absurd h hun

theorem geomSubsetLoop_cons (resolve : SdfPath → Option Shader) (S : HdGeomSubset)
    (rest : List HdGeomSubset) (st : SubsetState) :
    geomSubsetLoop resolve (S :: rest) st
      = (subsetStep resolve st S).bind (geomSubsetLoop resolve rest) := by
  unfold geomSubsetLoop
  rw [List.foldlM_cons]
  rfl

theorem geomSubsetLoop_append (resolve : SdfPath → Option Shader)
    (A B : List HdGeomSubset) (st : SubsetState) :
    geomSubsetLoop resolve (A ++ B) st
      = (geomSubsetLoop resolve A st).bind (geomSubsetLoop resolve B) := by
  unfold geomSubsetLoop
  rw [List.foldlM_append]
  rfl

theorem geomSubsetLoop_facts (resolve : SdfPath → Option Shader) :
    ∀ (subsets : List HdGeomSubset) (st : SubsetState),
      mapConsistent resolve st.m_usedShaders st.m_materialMap = true →
      (∀ S ∈ subsets, ∀ i ∈ S.indices, 0 ≤ i ∧ i < st.faceMaterials.length) →
      ∃ (st' : SubsetState) (newIds : List SdfPath),
        geomSubsetLoop resolve subsets st = some st'
        ∧ RunFacts resolve subsets st st' newIds := by
  intro subsets
  induction subsets with
  | nil => intro st hinv _; exact ⟨st, [], rfl, RunFacts.nil resolve st hinv⟩
  | cons S rest ih =>
    intro st hinv hidx
    obtain ⟨st1, n1, hstep, f1, _, _⟩ := subsetStep_facts resolve st S hinv
      (hidx S (List.mem_cons_self _ _))
    obtain ⟨st2, n2, hrun, f2⟩ := ih st1 f1.consistent (fun T hT i hi => by
      rw [f1.length_eq]
      exact hidx T (List.mem_cons_of_mem _ hT) i hi)
    refine ⟨st2, n1 ++ n2, ?_, ?_⟩
    · rw [geomSubsetLoop_cons, hstep]
      exact hrun
    · exact RunFacts.append f1 f2

theorem getElem?_of_grows (xs extra : List Shader) (n : Nat) (sh : Shader)
    (h : xs[n]? = some sh) : (xs ++ extra)[n]? = some sh := by
  have hlt : n < xs.length := by
    by_contra hc
    rw [List.getElem?_eq_none (by omega)] at h
    exact Option.noConfusion h
  rw [List.getElem?_append_left hlt]
  exact h

/-- C9. For any list of geometry subsets, run from a state whose material map is consistent
with the used-shader list (as it is for a new prim and after every run): the shaders
appended to `m_usedShaders` are those of a duplicate-free list `newIds` of material paths
that were not in the map before, so each material is appended once, however many subsets
carry it; the run leaves every such path in the map and the map consistent, so a rebuild
started later, with further shaders possibly appended in between, appends none of the
materials already registered.  For every subset `S` whose material resolves to a shader
`sh`, all faces of `S` hold the slot `k - 1` once `S` has been processed, where `k` is the
map entry of the material: the same for every subset carrying it, the position of `sh` in
`m_usedShaders` and in the mesh shader list; the faces keep it to the end of the loop unless
a later subset lists them too. -/
theorem geomSubsets_register_material_once (resolve : SdfPath → Option Shader)
    (subsets : List HdGeomSubset) (st : SubsetState)
    (hinv : mapConsistent resolve st.m_usedShaders st.m_materialMap = true)
    (hidx : ∀ S ∈ subsets, ∀ i ∈ S.indices, 0 ≤ i ∧ i < st.faceMaterials.length) :
    ∃ (st' : SubsetState) (newIds : List SdfPath),
      geomSubsetLoop resolve subsets st = some st'
      ∧ newIds.Nodup
      ∧ (∀ id ∈ newIds, mapFind st.m_materialMap id = none ∧ ∃ S ∈ subsets, S.materialId = id)
      ∧ st'.m_usedShaders.map some = st.m_usedShaders.map some ++ newIds.map resolve
      ∧ mapConsistent resolve st'.m_usedShaders st'.m_materialMap = true
      ∧ (∀ id k, mapFind st.m_materialMap id = some k → mapFind st'.m_materialMap id = some k)
      ∧ (∀ (pre post : List HdGeomSubset) (S : HdGeomSubset) (sh : Shader),
          subsets = pre ++ S :: post → S.materialId ≠ "" → resolve S.materialId = some sh →
          ∃ (k : Int) (mid : SubsetState),
            mapFind st'.m_materialMap S.materialId = some k
            ∧ 0 ≤ k - 1
            ∧ st'.m_usedShaders[(k - 1).toNat]? = some sh
            ∧ st'.used_shaders[(k - 1).toNat]? = some sh
            ∧ geomSubsetLoop resolve (pre ++ [S]) st = some mid
            ∧ mapFind mid.m_materialMap S.materialId = some k
            ∧ (∀ i ∈ S.indices, readAt mid.faceMaterials i = some (k - 1))
            ∧ (∀ i ∈ S.indices, (∀ T ∈ post, i ∉ T.indices) →
                readAt st'.faceMaterials i = some (k - 1)))
      ∧ (∀ (subsets2 : List HdGeomSubset) (extra : List Shader) (faceMaterials2 : List Int),
          (∀ S ∈ subsets2, ∀ i ∈ S.indices, 0 ≤ i ∧ i < faceMaterials2.length) →
          ∃ (st2 : SubsetState) (newIds2 : List SdfPath),
            geomSubsetLoop resolve subsets2
                { m_usedShaders := st'.m_usedShaders ++ extra,
                  m_materialMap := st'.m_materialMap, used_shaders := [],
                  faceMaterials := faceMaterials2 } = some st2
            ∧ st2.m_usedShaders.map some
                = (st'.m_usedShaders ++ extra).map some ++ newIds2.map resolve
            ∧ newIds2.Nodup
            ∧ ∀ id ∈ newIds2, id ∉ newIds ∧ mapFind st.m_materialMap id = none) := by
  obtain ⟨st', newIds, hrun, f⟩ := geomSubsetLoop_facts resolve subsets st hinv hidx
  refine ⟨st', newIds, hrun, f.nodup, fun id hid => ⟨f.fresh id hid, f.fromSubsets id hid⟩,
    f.shaders, f.consistent, f.stable, ?_, ?_⟩
  · intro pre post S sh hsplit hne hres
    have hidxPre : ∀ T ∈ pre, ∀ i ∈ T.indices, 0 ≤ i ∧ i < st.faceMaterials.length :=
      fun T hT => hidx T (by rw [hsplit]; exact List.mem_append_left _ hT)
    obtain ⟨a, n1, ha, fa⟩ := geomSubsetLoop_facts resolve pre st hinv hidxPre
    have hidxS : ∀ i ∈ S.indices, 0 ≤ i ∧ i < a.faceMaterials.length := by
      rw [fa.length_eq]
      exact hidx S (by rw [hsplit]; simp)
    obtain ⟨mid, n2, hmid, fmid, hslot, _⟩ := subsetStep_facts resolve a S fa.consistent hidxS
    have hidxPost : ∀ T ∈ post, ∀ i ∈ T.indices, 0 ≤ i ∧ i < mid.faceMaterials.length := by
      intro T hT
      rw [fmid.length_eq, fa.length_eq]
      exact hidx T (by rw [hsplit]; simp [hT])
    obtain ⟨fin, n3, hfin, ffin⟩ := geomSubsetLoop_facts resolve post mid fmid.consistent
      hidxPost
    have hmidrun : geomSubsetLoop resolve (pre ++ [S]) st = some mid := by
      rw [geomSubsetLoop_append, ha]
      show geomSubsetLoop resolve [S] a = some mid
      rw [geomSubsetLoop_cons, hmid]
      rfl
    have hfinrun : geomSubsetLoop resolve subsets st = some fin := by
      have : pre ++ S :: post = (pre ++ [S]) ++ post := by simp
      rw [hsplit, this, geomSubsetLoop_append, hmidrun]
      exact hfin
    have heq : st' = fin := by
      rw [hrun] at hfinrun
      exact Option.some.inj hfinrun
    obtain ⟨k, hk, hk1, hget, hmesh, hfaces⟩ := hslot sh hne hres
    obtain ⟨extra, hextra⟩ := ffin.grows
    have hgetfin : fin.m_usedShaders[(k - 1).toNat]? = some sh := by
      rw [hextra]
      exact getElem?_of_grows _ _ _ _ hget
    refine ⟨k, mid, ?_, by omega, ?_, ?_, hmidrun, hk, hfaces, ?_⟩
    · rw [heq]
      exact ffin.stable _ k hk
    · rw [heq]
      exact hgetfin
    · rw [heq, ffin.meshShaders hmesh]
      exact hgetfin
    · intro i hi hpost
      rw [heq, ffin.untouched i hpost]
      exact hfaces i hi
  · intro subsets2 extra faceMaterials2 hidx2
    obtain ⟨st2, newIds2, hrun2, f2⟩ := geomSubsetLoop_facts resolve subsets2
      { m_usedShaders := st'.m_usedShaders ++ extra, m_materialMap := st'.m_materialMap,
        used_shaders := [], faceMaterials := faceMaterials2 }
      (mapConsistent_append resolve _ extra _ f.consistent) hidx2
    refine ⟨st2, newIds2, hrun2, f2.shaders, f2.nodup, ?_⟩
    intro id hid
    have hfresh : mapFind st'.m_materialMap id = none := f2.fresh id hid
    refine ⟨fun hmem => f.recorded id hmem hfresh, ?_⟩
    cases hf : mapFind st.m_materialMap id with
    | none => rfl
    | some k =>
      rw [f.stable id k hf] at hfresh
      exact Option.noConfusion hfresh

theorem geomSubsets_register_material_once_witness :
    mapConsistent twoMaterials freshSubsetState.m_usedShaders freshSubsetState.m_materialMap
        = true
      ∧ ∃ (st' : SubsetState) (newIds : List SdfPath),
        geomSubsetLoop twoMaterials threeSubsets freshSubsetState = some st'
        ∧ newIds.Nodup
        ∧ st'.m_usedShaders.map some
            = freshSubsetState.m_usedShaders.map some ++ newIds.map twoMaterials :=
  ⟨by decide,
    match geomSubsets_register_material_once twoMaterials threeSubsets freshSubsetState
      (by decide) (by decide) with
    | ⟨st', newIds, h1, h2, _, h4, _⟩ => ⟨st', newIds, h1, h2, h4⟩⟩

/-! ## Slot 0 -/

theorem subsetStep_members (resolve : SdfPath → Option Shader) (st st1 : SubsetState)
    (S : HdGeomSubset) (h : subsetStep resolve st S = some st1) :
    (st1.m_usedShaders = st.m_usedShaders ∧ st1.m_materialMap = st.m_materialMap)
      ∨ (∃ sh, st1.m_usedShaders = st.m_usedShaders ++ [sh]
          ∧ st1.m_materialMap
              = (S.materialId, (st.m_usedShaders.length : Int) + 1) :: st.m_materialMap) := by
  by_cases hun : S.materialId = "" ∨ resolve S.materialId = none
  · rw [subsetStep_unresolved resolve st S hun] at h
    obtain ⟨fm, _, hfm⟩ := Option.map_eq_some'.mp h
    rw [← hfm]
    exact Or.inl ⟨rfl, rfl⟩
  · have hne : S.materialId ≠ "" := fun h => hun (Or.inl h)
    obtain ⟨sh, hres⟩ : ∃ sh, resolve S.materialId = some sh := by
      cases h : resolve S.materialId with
      | none => exact absurd (Or.inr h) hun
      | some sh => exact ⟨sh, rfl⟩
    cases hfind : mapFind st.m_materialMap S.materialId with
    | none =>
      rw [subsetStep_new resolve st S sh hne hres hfind] at h
      obtain ⟨fm, _, hfm⟩ := Option.map_eq_some'.mp h
      rw [← hfm]
      exact Or.inr ⟨sh, rfl, rfl⟩
    | some k =>
      rw [subsetStep_known resolve st S sh k hne hres hfind] at h
      obtain ⟨fm, _, hfm⟩ := Option.map_eq_some'.mp h
      rw [← hfm]
      exact Or.inl ⟨rfl, rfl⟩

theorem subsetStep_slotZeroFree (resolve : SdfPath → Option Shader) (st st1 : SubsetState)
    (S : HdGeomSubset) (h : subsetStep resolve st S = some st1) (hz : SlotZeroFree st) :
    SlotZeroFree st1 := by
  rcases subsetStep_members resolve st st1 S h with ⟨h1, h2⟩ | ⟨sh, h1, h2⟩
  · unfold SlotZeroFree
    rw [h1, h2]
    exact hz
  · unfold SlotZeroFree
    rw [h1, h2]
    refine ⟨by simp, ?_⟩
    intro id k hk
    rw [mapFind_cons] at hk
    by_cases he : S.materialId = id
    · rw [if_pos he] at hk
      simp only [Option.some.injEq] at hk
      have hpos : 0 < st.m_usedShaders.length := List.length_pos.mpr hz.1
      omega
    · rw [if_neg he] at hk
      exact hz.2 id k hk

theorem geomSubsetLoop_slotZeroFree (resolve : SdfPath → Option Shader) :
    ∀ (subsets : List HdGeomSubset) (st st' : SubsetState),
      geomSubsetLoop resolve subsets st = some st' → SlotZeroFree st → SlotZeroFree st' := by
  intro subsets
  induction subsets with
  | nil =>
    intro st st' h hz
    have : st = st' := Option.some.inj h
    rw [← this]
    exact hz
  | cons S rest ih =>
    intro st st' h hz
    rw [geomSubsetLoop_cons] at h
    obtain ⟨st1, h1, h2⟩ := Option.bind_eq_some.mp h
    exact ih st1 st' h2 (subsetStep_slotZeroFree resolve st st1 S h1 hz)

/-- First rebuild of a prim with one face, listed by a subset whose material `/a` resolves
to shader 7: the used-shader list is empty when `/a` is registered,
and the face is assigned slot 0, the position of shader 7 in the mesh shader list. -/
theorem resolved_subset_face_gets_slot_zero :
    twoMaterials "/a" = some 7
      ∧ (buildFaceMaterials twoMaterials [{ materialId := "/a", indices := [0] }] 1 [] []).map
          (fun st => (st.faceMaterials, st.used_shaders)) = some ([0], [7]) := by
  decide

/-- Rebuild entered with a non-empty used-shader list and a consistent
material map all of whose entries are at least 2 (nothing was registered while the list was
empty): a face whose last listing subset has a material that resolves to a shader is
assigned a slot `≥ 1`, the position of that shader in the mesh shader list; a face whose last
listing subset has an empty or unresolvable material, and a face listed by no subset, is
assigned slot 0. -/
theorem slot_zero_only_without_resolved_material (resolve : SdfPath → Option Shader)
    (m_geomSubsets : List HdGeomSubset) (m_numMeshFaces : Int) (m_usedShaders : List Shader)
    (m_materialMap : List (SdfPath × Int))
    (hfaces : 0 ≤ m_numMeshFaces)
    (hinv : mapConsistent resolve m_usedShaders m_materialMap = true)
    (hidx : ∀ S ∈ m_geomSubsets, ∀ i ∈ S.indices, 0 ≤ i ∧ i < m_numMeshFaces)
    (hne : m_usedShaders ≠ [])
    (hmap : ∀ e ∈ m_materialMap, 2 ≤ e.2) :
    ∃ st' : SubsetState,
      buildFaceMaterials resolve m_geomSubsets m_numMeshFaces m_usedShaders m_materialMap
          = some st'
      ∧ (∀ (pre post : List HdGeomSubset) (S : HdGeomSubset),
          m_geomSubsets = pre ++ S :: post →
          ∀ i ∈ S.indices, (∀ T ∈ post, i ∉ T.indices) →
            (∀ sh, S.materialId ≠ "" → resolve S.materialId = some sh →
              ∃ slot : Int, readAt st'.faceMaterials i = some slot ∧ 1 ≤ slot
                ∧ st'.used_shaders[slot.toNat]? = some sh)
            ∧ ((S.materialId = "" ∨ resolve S.materialId = none) →
                readAt st'.faceMaterials i = some 0))
      ∧ (∀ j : Int, 0 ≤ j → j < m_numMeshFaces → (∀ S ∈ m_geomSubsets, j ∉ S.indices) →
          readAt st'.faceMaterials j = some 0) := by
  have hlen0 : (List.replicate m_numMeshFaces.toNat (0 : Int)).length = m_numMeshFaces.toNat :=
    List.length_replicate _ _
  let st : SubsetState :=
    { m_usedShaders := m_usedShaders, m_materialMap := m_materialMap, used_shaders := [],
      faceMaterials := List.replicate m_numMeshFaces.toNat 0 }
  have hidx' : ∀ S ∈ m_geomSubsets, ∀ i ∈ S.indices, 0 ≤ i ∧ i < st.faceMaterials.length := by
    intro S hS i hi
    have := hidx S hS i hi
    show 0 ≤ i ∧ i < ((List.replicate m_numMeshFaces.toNat (0 : Int)).length : Int)
    rw [hlen0]
    omega
  have hz : SlotZeroFree st :=
    ⟨hne, fun id k hk => hmap (id, k) (mapFind_mem m_materialMap id k hk)⟩
  obtain ⟨st', newIds, hrun, f⟩ := geomSubsetLoop_facts resolve m_geomSubsets st hinv hidx'
  have hbuild : buildFaceMaterials resolve m_geomSubsets m_numMeshFaces m_usedShaders
      m_materialMap = some st' := by
    unfold buildFaceMaterials
    rw [if_neg (by omega)]
    exact hrun
  refine ⟨st', hbuild, ?_, ?_⟩
  · intro pre post S hsplit i hi hpost
    have hidxPre : ∀ T ∈ pre, ∀ i ∈ T.indices, 0 ≤ i ∧ i < st.faceMaterials.length :=
      fun T hT => hidx' T (by rw [hsplit]; exact List.mem_append_left _ hT)
    obtain ⟨a, n1, ha, fa⟩ := geomSubsetLoop_facts resolve pre st hinv hidxPre
    have hidxS : ∀ i ∈ S.indices, 0 ≤ i ∧ i < a.faceMaterials.length := by
      rw [fa.length_eq]
      exact hidx' S (by rw [hsplit]; simp)
    obtain ⟨mid, n2, hmid, fmid, hslot, hzero⟩ :=
      subsetStep_facts resolve a S fa.consistent hidxS
    have hidxPost : ∀ T ∈ post, ∀ i ∈ T.indices, 0 ≤ i ∧ i < mid.faceMaterials.length := by
      intro T hT
      rw [fmid.length_eq, fa.length_eq]
      exact hidx' T (by rw [hsplit]; simp [hT])
    obtain ⟨fin, n3, hfin, ffin⟩ := geomSubsetLoop_facts resolve post mid fmid.consistent
      hidxPost
    have hfinrun : geomSubsetLoop resolve m_geomSubsets st = some fin := by
      rw [hsplit, geomSubsetLoop_append, ha]
      show geomSubsetLoop resolve (S :: post) a = some fin
      rw [geomSubsetLoop_cons, hmid]
      exact hfin
    have heq : st' = fin := by
      rw [hrun] at hfinrun
      exact Option.some.inj hfinrun
    have hzmid : SlotZeroFree mid :=
      subsetStep_slotZeroFree resolve a mid S hmid
        (geomSubsetLoop_slotZeroFree resolve pre st a ha hz)
    refine ⟨?_, ?_⟩
    · intro sh hne' hres
      obtain ⟨k, hk, _, hget, hmesh, hfaces'⟩ := hslot sh hne' hres
      have hk2 := hzmid.2 _ k hk
      obtain ⟨extra, hextra⟩ := ffin.grows
      refine ⟨k - 1, ?_, by omega, ?_⟩
      · rw [heq, ffin.untouched i hpost]
        exact hfaces' i hi
      · rw [heq, ffin.meshShaders hmesh, hextra]
        exact getElem?_of_grows _ _ _ _ hget
    · intro hun
      rw [heq, ffin.untouched i hpost]
      exact hzero hun i hi
  · intro j hj0 hj1 hnone
    rw [f.untouched j hnone]
    show readAt (List.replicate m_numMeshFaces.toNat (0 : Int)) j = some 0
    unfold readAt
    rw [if_neg (by omega), List.getElem?_replicate, if_pos (by omega)]

/-- The fallback shader 5 was applied before any subset material was registered. -/
theorem slot_zero_only_without_resolved_material_witness :
    ∃ st' : SubsetState,
      buildFaceMaterials twoMaterials threeSubsets 4 [5] [] = some st'
      ∧ (∀ (pre post : List HdGeomSubset) (S : HdGeomSubset),
          threeSubsets = pre ++ S :: post →
          ∀ i ∈ S.indices, (∀ T ∈ post, i ∉ T.indices) →
            (∀ sh, S.materialId ≠ "" → twoMaterials S.materialId = some sh →
              ∃ slot : Int, readAt st'.faceMaterials i = some slot ∧ 1 ≤ slot
                ∧ st'.used_shaders[slot.toNat]? = some sh)
            ∧ ((S.materialId = "" ∨ twoMaterials S.materialId = none) →
                readAt st'.faceMaterials i = some 0))
      ∧ (∀ j : Int, 0 ≤ j → j < 4 → (∀ S ∈ threeSubsets, j ∉ S.indices) →
          readAt st'.faceMaterials j = some 0) :=
  slot_zero_only_without_resolved_material twoMaterials threeSubsets 4 [5] []
    (by decide) (by decide) (by decide) (by decide) (by decide)

/-! ## Face-varying data in the triangulated layout -/

theorem take_add_three {α : Type} (l : List α) (q : Nat) (h : q + 3 ≤ l.length) :
    ∃ a b c, l[q]? = some a ∧ l[q + 1]? = some b ∧ l[q + 2]? = some c
      ∧ l.take (q + 3) = l.take q ++ [a, b, c] := by
  have h0 : q < l.length := by omega
  have h1 : q + 1 < l.length := by omega
  have h2 : q + 2 < l.length := by omega
  refine ⟨l[q], l[q + 1], l[q + 2], List.getElem?_eq_getElem h0, List.getElem?_eq_getElem h1,
    List.getElem?_eq_getElem h2, ?_⟩
  have e3 : l.take (q + 3) = l.take (q + 2) ++ [l[q + 2]] := by
    rw [List.take_succ, List.getElem?_eq_getElem h2]; rfl
  have e2 : l.take (q + 2) = l.take (q + 1) ++ [l[q + 1]] := by
    rw [List.take_succ, List.getElem?_eq_getElem h1]; rfl
  have e1 : l.take (q + 1) = l.take q ++ [l[q]] := by
    rw [List.take_succ, List.getElem?_eq_getElem h0]; rfl
  rw [e3, e2, e1, List.append_assoc, List.append_assoc]
  rfl

theorem readAt_natCast {α : Type} (l : List α) (q : Nat) : readAt l (q : Int) = l[q]? := by
  unfold readAt
  rw [if_neg (by omega), Int.toNat_ofNat]

theorem uvFaceVaryingFold_rightHanded {α β : Type} (conv : α → β) (s : HdCyclesMesh)
    (uvs : List α) (vCount : Int) (q0 : Nat)
    (hor : s.m_orientation = Orientation.rightHanded) :
    ∀ n : Nat, q0 + 3 * n ≤ uvs.length →
      (List.range' 1 n).foldlM (uvFaceVaryingFanStep conv s uvs q0 vCount)
          ((uvs.take q0).map conv, 0)
        = some ((uvs.take (q0 + 3 * n)).map conv, ((3 * n : Nat) : Int)) := by
  intro n
  induction n with
  | zero => intro _; rfl
  | succ n ih =>
    intro h
    rw [List.range'_concat, List.foldlM_append, ih (by omega)]
    obtain ⟨a, b, c, ha, hb, hc, htake⟩ := take_add_three uvs (q0 + 3 * n) (by omega)
    have hne : ¬ s.m_orientation = Orientation.leftHanded := by rw [hor]; decide
    have r0 : readAt uvs (3 * (((1 + n : Nat) : Int) - 1) + (q0 : Int) + 0) = some a := by
      have : 3 * (((1 + n : Nat) : Int) - 1) + (q0 : Int) + 0 = ((q0 + 3 * n : Nat) : Int) := by
        push_cast; ring
      rw [this, readAt_natCast, ha]
    have r1 : readAt uvs (3 * (((1 + n : Nat) : Int) - 1) + (q0 : Int) + 1) = some b := by
      have : 3 * (((1 + n : Nat) : Int) - 1) + (q0 : Int) + 1
          = ((q0 + 3 * n + 1 : Nat) : Int) := by
        push_cast; ring
      rw [this, readAt_natCast, hb]
    have r2 : readAt uvs (3 * (((1 + n : Nat) : Int) - 1) + (q0 : Int) + 2) = some c := by
      have : 3 * (((1 + n : Nat) : Int) - 1) + (q0 : Int) + 2
          = ((q0 + 3 * n + 2 : Nat) : Int) := by
        push_cast; ring
      rw [this, readAt_natCast, hc]
    have hq : q0 + 3 * (n + 1) = q0 + 3 * n + 3 := by ring
    simp only [Option.bind_eq_bind, Option.some_bind, List.foldlM_cons, List.foldlM_nil,
      uvFaceVaryingFanStep, hne, if_false, r0, r1, r2, Nat.one_mul]
    rw [hq, htake]
    simp only [List.map_append, List.map_cons, List.map_nil, Option.pure_def, Option.bind_some,
      Option.some.injEq, Prod.mk.injEq, true_and]
    push_cast
    ring

theorem uvFaceVaryingLoop_rightHanded {α β : Type} (conv : α → β) (s : HdCyclesMesh)
    (uvs : List α) (hor : s.m_orientation = Orientation.rightHanded) :
    ∀ (counts : List Int) (q0 : Nat), q0 + 3 * fanTriangleCount counts ≤ uvs.length →
      uvFaceVaryingLoop conv s uvs counts (q0 : Int) ((uvs.take q0).map conv)
        = some ((uvs.take (q0 + 3 * fanTriangleCount counts)).map conv) := by
  intro counts
  induction counts with
  | nil => intro q0 _; simp [uvFaceVaryingLoop, fanTriangleCount]
  | cons c cs ih =>
    intro q0 h
    have hT : fanTriangleCount (c :: cs) = (c - 2).toNat + fanTriangleCount cs := by
      simp [fanTriangleCount]
    rw [hT] at h ⊢
    unfold uvFaceVaryingLoop fanRange
    rw [uvFaceVaryingFold_rightHanded conv s uvs c q0 hor _ (by omega)]
    simp only [Option.bind_eq_bind, Option.some_bind]
    have hq : (q0 : Int) + ((3 * (c - 2).toNat : Nat) : Int)
        = ((q0 + 3 * (c - 2).toNat : Nat) : Int) := by push_cast; ring
    have hq2 : q0 + 3 * (c - 2).toNat + 3 * fanTriangleCount cs
        = q0 + 3 * ((c - 2).toNat + fanTriangleCount cs) := by ring
    rw [hq, ih (q0 + 3 * (c - 2).toNat) (by omega), hq2]

theorem colorFaceVaryingFold_rightHanded {α β : Type} (conv : α → β) (s : HdCyclesMesh)
    (colors : List α) (vCount : Int) (q0 : Nat)
    (hor : s.m_orientation = Orientation.rightHanded) :
    ∀ n : Nat, q0 + 3 * n ≤ colors.length →
      (List.range' 1 n).foldlM (colorFaceVaryingFanStep conv s colors vCount)
          ((colors.take q0).map conv, (q0 : Int))
        = some ((colors.take (q0 + 3 * n)).map conv, ((q0 + 3 * n : Nat) : Int)) := by
  intro n
  induction n with
  | zero => intro _; rfl
  | succ n ih =>
    intro h
    rw [List.range'_concat, List.foldlM_append, ih (by omega)]
    obtain ⟨a, b, c, ha, hb, hc, htake⟩ := take_add_three colors (q0 + 3 * n) (by omega)
    have hne : ¬ s.m_orientation = Orientation.leftHanded := by rw [hor]; decide
    have r0 : readAt colors ((q0 + 3 * n : Nat) : Int) = some a := by
      rw [readAt_natCast, ha]
    have r1 : readAt colors (((q0 + 3 * n : Nat) : Int) + 1) = some b := by
      have : ((q0 + 3 * n : Nat) : Int) + 1 = ((q0 + 3 * n + 1 : Nat) : Int) := by push_cast; ring
      rw [this, readAt_natCast, hb]
    have r2 : readAt colors (((q0 + 3 * n : Nat) : Int) + 2) = some c := by
      have : ((q0 + 3 * n : Nat) : Int) + 2 = ((q0 + 3 * n + 2 : Nat) : Int) := by push_cast; ring
      rw [this, readAt_natCast, hc]
    have hq : q0 + 3 * (n + 1) = q0 + 3 * n + 3 := by ring
    simp only [Option.bind_eq_bind, Option.some_bind, List.foldlM_cons, List.foldlM_nil,
      colorFaceVaryingFanStep, hne, if_false, r0, r1, r2]
    rw [hq, htake]
    simp only [List.map_append, List.map_cons, List.map_nil, Option.pure_def, Option.bind_some,
      Option.some.injEq, Prod.mk.injEq, true_and]
    push_cast
    ring

theorem colorFaceVaryingLoop_rightHanded {α β : Type} (conv : α → β) (s : HdCyclesMesh)
    (colors : List α) (hor : s.m_orientation = Orientation.rightHanded) :
    ∀ (counts : List Int) (q0 : Nat), q0 + 3 * fanTriangleCount counts ≤ colors.length →
      colorFaceVaryingLoop conv s colors counts ((colors.take q0).map conv, (q0 : Int))
        = some ((colors.take (q0 + 3 * fanTriangleCount counts)).map conv,
            ((q0 + 3 * fanTriangleCount counts : Nat) : Int)) := by
  intro counts
  induction counts with
  | nil => intro q0 _; simp [colorFaceVaryingLoop, fanTriangleCount]
  | cons c cs ih =>
    intro q0 h
    have hT : fanTriangleCount (c :: cs) = (c - 2).toNat + fanTriangleCount cs := by
      simp [fanTriangleCount]
    rw [hT] at h ⊢
    unfold colorFaceVaryingLoop fanRange
    rw [colorFaceVaryingFold_rightHanded conv s colors c q0 hor _ (by omega)]
    simp only [Option.bind_eq_bind, Option.some_bind]
    have hq2 : q0 + 3 * (c - 2).toNat + 3 * fanTriangleCount cs
        = q0 + 3 * ((c - 2).toNat + fanTriangleCount cs) := by ring
    rw [ih (q0 + 3 * (c - 2).toNat) (by omega), hq2]


/-- C20: on a RightHanded mesh in triangulated mode, FaceVarying data is written in the
    order of the input buffer. With `T = fanTriangleCount s.m_faceVertexCounts` fan
    triangles and a buffer of at least `3 * T` entries, `_AddUVSet` and `_AddColors` both
    write exactly the entries `0, 1, ..., 3 * T - 1` of their buffer, converted, in that
    order. -/
theorem faceVarying_rightHanded_copies_in_order {α β γ δ : Type}
    (convUV : α → β) (convColor : γ → δ) (s : HdCyclesMesh) (uvs : List α) (colors : List γ)
    (hor : s.m_orientation = Orientation.rightHanded)
    (huv : 3 * fanTriangleCount s.m_faceVertexCounts ≤ uvs.length)
    (hcol : 3 * fanTriangleCount s.m_faceVertexCounts ≤ colors.length) :
    _AddUVSet_FaceVarying_triangulated convUV s uvs
        = some ((uvs.take (3 * fanTriangleCount s.m_faceVertexCounts)).map convUV)
      ∧ _AddColors_FaceVarying_triangulated convColor s colors
        = some ((colors.take (3 * fanTriangleCount s.m_faceVertexCounts)).map convColor)
      ∧ ((uvs.take (3 * fanTriangleCount s.m_faceVertexCounts)).map convUV).length
        = 3 * fanTriangleCount s.m_faceVertexCounts
      ∧ ((colors.take (3 * fanTriangleCount s.m_faceVertexCounts)).map convColor).length
        = 3 * fanTriangleCount s.m_faceVertexCounts := by
  have h1 := uvFaceVaryingLoop_rightHanded convUV s uvs hor s.m_faceVertexCounts 0
    (by omega)
  have h2 := colorFaceVaryingLoop_rightHanded convColor s colors hor s.m_faceVertexCounts 0
    (by omega)
  rw [Nat.zero_add] at h1 h2
  refine ⟨?_, ?_, ?_, ?_⟩
  · unfold _AddUVSet_FaceVarying_triangulated
    exact h1
  · unfold _AddColors_FaceVarying_triangulated
    have h3 : colorFaceVaryingLoop convColor s colors s.m_faceVertexCounts ([], 0)
        = some ((colors.take (3 * fanTriangleCount s.m_faceVertexCounts)).map convColor,
            ((3 * fanTriangleCount s.m_faceVertexCounts : Nat) : Int)) := h2
    rw [h3]
    rfl
  · rw [List.length_map, List.length_take]
    omega
  · rw [List.length_map, List.length_take]
    omega

theorem faceVarying_rightHanded_copies_in_order_witness :
    _AddUVSet_FaceVarying_triangulated (fun x : Nat => x) (twoQuads Orientation.rightHanded)
        [10, 11, 12, 13, 14, 15, 16, 17, 18, 19, 20, 21]
      = some [10, 11, 12, 13, 14, 15, 16, 17, 18, 19, 20, 21]
    ∧ _AddColors_FaceVarying_triangulated (fun x : Nat => x)
        (twoQuads Orientation.rightHanded) [10, 11, 12, 13, 14, 15, 16, 17, 18, 19, 20, 21]
      = some [10, 11, 12, 13, 14, 15, 16, 17, 18, 19, 20, 21] :=
  match faceVarying_rightHanded_copies_in_order (fun x : Nat => x) (fun x : Nat => x)
      (twoQuads Orientation.rightHanded) [10, 11, 12, 13, 14, 15, 16, 17, 18, 19, 20, 21]
      [10, 11, 12, 13, 14, 15, 16, 17, 18, 19, 20, 21] rfl (by decide) (by decide) with
  | ⟨h1, h2, _, _⟩ => ⟨h1, h2⟩

/-! ## `_PopulateMotion` -/

theorem motionBlock_eq (V : Nat) (pp : List GfVec3f) :
    motionBlock V pp = if V ≤ pp.length then some (pp.take V) else none := by
  unfold motionBlock
  induction V with
  | zero => rw [if_pos (Nat.zero_le _)]; rfl
  | succ n ih =>
    rw [List.range_succ, List.mapM_append, ih, List.mapM_cons, List.mapM_nil]
    by_cases h : n + 1 ≤ pp.length
    · have hn : n < pp.length := by omega
      rw [if_pos (by omega), if_pos h, List.take_succ, List.getElem?_eq_getElem hn]
      rfl
    · rw [if_neg h]
      have hnone : pp[n]? = none := List.getElem?_eq_none (by omega)
      rw [hnone]
      by_cases h2 : n ≤ pp.length
      · rw [if_pos h2]
        rfl
      · rw [if_neg h2]
        rfl

theorem motionFold_eq (s : HdCyclesMeshState) :
    ∀ k : Nat, k ≤ s.m_pointSamples.times.length → k ≤ s.m_pointSamples.values.length →
      (List.range k).foldlM (motionStep s) []
        = if samplesFit s.m_numMeshVerts
              ((s.m_pointSamples.times.zip s.m_pointSamples.values).take k) = true
          then some ((nonZeroSamples
              ((s.m_pointSamples.times.zip s.m_pointSamples.values).take k)).flatMap
                (keyframeBlock s.m_numMeshVerts))
          else none := by
  intro k
  induction k with
  | zero => intro _ _; rfl
  | succ k ih =>
    intro ht hv
    have hkt : k < s.m_pointSamples.times.length := by omega
    have hkv : k < s.m_pointSamples.values.length := by omega
    have hz : k < (s.m_pointSamples.times.zip s.m_pointSamples.values).length := by
      rw [List.length_zip]; omega
    have htake : (s.m_pointSamples.times.zip s.m_pointSamples.values).take (k + 1)
        = (s.m_pointSamples.times.zip s.m_pointSamples.values).take k
          ++ [(s.m_pointSamples.times[k], s.m_pointSamples.values[k])] := by
      rw [List.take_succ, List.getElem?_eq_getElem hz, List.getElem_zip]
      rfl
    rw [List.range_succ, List.foldlM_append, ih (by omega) (by omega), htake]
    generalize (s.m_pointSamples.times.zip s.m_pointSamples.values).take k = done
    have hstep : ∀ mP, motionStep s mP k
        = if s.m_pointSamples.times[k] = 0 then some mP
          else if s.m_numMeshVerts ≤ (s.m_pointSamples.values[k]).GetVec3fArray.length
          then some (mP ++ (s.m_pointSamples.values[k]).GetVec3fArray.take s.m_numMeshVerts)
          else none := by
      intro mP
      unfold motionStep
      rw [List.getElem?_eq_getElem hkt, List.getElem?_eq_getElem hkv]
      simp only [Option.bind_eq_bind, Option.some_bind, motionBlock_eq]
      by_cases h0 : s.m_pointSamples.times[k] = 0
      · simp [h0]
      · by_cases h1 : s.m_numMeshVerts ≤ (s.m_pointSamples.values[k]).GetVec3fArray.length
        · simp [h0, h1]
        · simp [h0, h1]
    by_cases hfit : samplesFit s.m_numMeshVerts done = true
    · rw [if_pos hfit]
      simp only [Option.bind_eq_bind, Option.some_bind, List.foldlM_cons, List.foldlM_nil,
        hstep]
      by_cases h0 : s.m_pointSamples.times[k] = 0
      · have : samplesFit s.m_numMeshVerts
            (done ++ [(s.m_pointSamples.times[k], s.m_pointSamples.values[k])]) = true := by
          simp [samplesFit, h0] at hfit ⊢
          exact hfit
        rw [if_pos this]
        simp [h0, nonZeroSamples, List.filter_append]
      · by_cases h1 : s.m_numMeshVerts ≤ (s.m_pointSamples.values[k]).GetVec3fArray.length
        · have : samplesFit s.m_numMeshVerts
              (done ++ [(s.m_pointSamples.times[k], s.m_pointSamples.values[k])]) = true := by
            simp [samplesFit, h1] at hfit ⊢
            exact hfit
          rw [if_pos this]
          simp [h0, h1, nonZeroSamples, List.filter_append, keyframeBlock]
        · have : ¬ samplesFit s.m_numMeshVerts
              (done ++ [(s.m_pointSamples.times[k], s.m_pointSamples.values[k])]) = true := by
            simp [samplesFit, h0, h1]
          rw [if_neg this]
          simp [h0, h1]
    · rw [if_neg hfit]
      have : ¬ samplesFit s.m_numMeshVerts
          (done ++ [(s.m_pointSamples.times[k], s.m_pointSamples.values[k])]) = true := by
        simp [samplesFit] at hfit ⊢
        intro h
        obtain ⟨a, b, hab, hh⟩ := hfit
        have := h a b hab
        omega
      rw [if_neg this]
      rfl

theorem populateMotion_run (s : HdCyclesMeshState) (hn : 1 < s.m_pointSamples.count)
    (ht : s.m_pointSamples.count ≤ s.m_pointSamples.times.length)
    (hv : s.m_pointSamples.count ≤ s.m_pointSamples.values.length)
    (hfresh : (selectedAttributes s).any Attribute.isMotion = false) :
    _PopulateMotion s
      = if samplesFit s.m_numMeshVerts (motionSamples s) = true
        then some (withMotion s
          ((nonZeroSamples (motionSamples s)).flatMap (keyframeBlock s.m_numMeshVerts)))
        else none := by
  unfold _PopulateMotion
  rw [if_neg (by omega)]
  have hfresh2 : (if s.m_useSubdivision = true then s.m_cyclesMesh.subd_attributes
      else s.m_cyclesMesh.attributes).any Attribute.isMotion = false := hfresh
  simp only [hfresh2, Bool.false_eq_true, if_false, motionFold_eq s _ ht hv]
  unfold motionSamples withMotion
  by_cases hfit : samplesFit s.m_numMeshVerts
      ((s.m_pointSamples.times.zip s.m_pointSamples.values).take s.m_pointSamples.count) = true
  · rw [if_pos hfit, if_pos hfit]
    by_cases hs : s.m_useSubdivision = true
    · simp [hs]
    · simp [hs]
  · rw [if_neg hfit, if_neg hfit]
    rfl

theorem samplesFit_iff (V : Nat) (samples : List (Int × VtValue)) :
    samplesFit V samples = true
      ↔ ∀ p ∈ samples, p.1 ≠ 0 → V ≤ p.2.GetVec3fArray.length := by
  unfold samplesFit
  rw [List.all_eq_true]
  constructor
  · intro h p hp h0
    have := h p hp
    simp [h0] at this
    exact this
  · intro h p hp
    by_cases h0 : p.1 = 0
    · simp [h0]
    · simp [h0, h p hp h0]

theorem selectedAttributes_withMotion (s : HdCyclesMeshState) (mP : List GfVec3f) :
    selectedAttributes (withMotion s mP)
      = selectedAttributes s ++ [Attribute.ATTR_STD_MOTION_VERTEX_POSITION mP] := by
  unfold selectedAttributes withMotion
  by_cases hs : s.m_useSubdivision = true
  · simp [hs]
  · simp [hs]

theorem motion_steps_withMotion (s : HdCyclesMeshState) (mP : List GfVec3f) :
    (withMotion s mP).m_cyclesMesh.motion_steps = s.m_pointSamples.count + 1 := by
  unfold withMotion
  by_cases hs : s.m_useSubdivision = true
  · simp [hs]
  · simp [hs]

theorem motionSamples_length (s : HdCyclesMeshState)
    (ht : s.m_pointSamples.count ≤ s.m_pointSamples.times.length)
    (hv : s.m_pointSamples.count ≤ s.m_pointSamples.values.length) :
    (motionSamples s).length = s.m_pointSamples.count := by
  unfold motionSamples
  rw [List.length_take, List.length_zip]
  omega

theorem nonZeroSamples_length (samples : List (Int × VtValue)) :
    (nonZeroSamples samples).length + (samples.filter (fun p => decide (p.1 = 0))).length
      = samples.length := by
  unfold nonZeroSamples
  induction samples with
  | nil => rfl
  | cons p ps ih =>
    by_cases h0 : p.1 = 0
    · simp [List.filter_cons, h0] at ih ⊢
      omega
    · simp [List.filter_cons, h0] at ih ⊢
      omega

/-- C16 (amended): for more than one time sample, on a mesh whose selected attribute set
holds no motion positions yet and whose samples with a non-zero time each hold at least `V`
positions (`V` the vertex count `m_numMeshVerts`), `_PopulateMotion` returns, sets the
motion-step count to the sample count plus one and adds one attribute that holds exactly one
keyframe block per sample whose time is not `0`, in sample order, each block being the
positions of that sample for the vertices `0 .. V - 1`; nothing is stored for a sample whose
time is `0`.  For two samples of which exactly one has time `0` this gives motion-step count
`3` and exactly one keyframe block. -/
theorem populateMotion_one_block_per_nonzero_sample (s : HdCyclesMeshState)
    (hn : 1 < s.m_pointSamples.count)
    (ht : s.m_pointSamples.count ≤ s.m_pointSamples.times.length)
    (hv : s.m_pointSamples.count ≤ s.m_pointSamples.values.length)
    (hfresh : (selectedAttributes s).any Attribute.isMotion = false)
    (hfit : ∀ p ∈ motionSamples s, p.1 ≠ 0 → s.m_numMeshVerts ≤ p.2.GetVec3fArray.length) :
    ∃ s', _PopulateMotion s = some s'
      ∧ s'.m_cyclesMesh.motion_steps = s.m_pointSamples.count + 1
      ∧ selectedAttributes s' = selectedAttributes s
          ++ [Attribute.ATTR_STD_MOTION_VERTEX_POSITION
            (((nonZeroSamples (motionSamples s)).map (keyframeBlock s.m_numMeshVerts)).flatten)]
      ∧ (∀ p ∈ nonZeroSamples (motionSamples s),
          p ∈ motionSamples s ∧ p.1 ≠ 0
            ∧ (keyframeBlock s.m_numMeshVerts p).length = s.m_numMeshVerts
            ∧ ∀ j, j < s.m_numMeshVerts →
                (keyframeBlock s.m_numMeshVerts p)[j]? = p.2.GetVec3fArray[j]?)
      ∧ (∀ p ∈ motionSamples s, p.1 ≠ 0 → p ∈ nonZeroSamples (motionSamples s))
      ∧ (s.m_pointSamples.count = 2 →
          ((motionSamples s).filter (fun p => decide (p.1 = 0))).length = 1 →
          s'.m_cyclesMesh.motion_steps = 3
            ∧ ((nonZeroSamples (motionSamples s)).map
                (keyframeBlock s.m_numMeshVerts)).length = 1) := by
  have hrun := populateMotion_run s hn ht hv hfresh
  rw [if_pos ((samplesFit_iff _ _).mpr hfit)] at hrun
  refine ⟨_, hrun, motion_steps_withMotion s _, ?_, ?_, ?_, ?_⟩
  · rw [selectedAttributes_withMotion, List.flatMap_def]
  · intro p hp
    have hmem : p ∈ motionSamples s ∧ p.1 ≠ 0 := by
      unfold nonZeroSamples at hp
      rw [List.mem_filter] at hp
      refine ⟨hp.1, ?_⟩
      have := hp.2
      simp at this
      exact this
    refine ⟨hmem.1, hmem.2, ?_, ?_⟩
    · unfold keyframeBlock
      rw [List.length_take]
      have := hfit p hmem.1 hmem.2
      omega
    · intro j hj
      unfold keyframeBlock
      rw [List.getElem?_take_of_lt hj]
  · intro p hp h0
    unfold nonZeroSamples
    rw [List.mem_filter]
    exact ⟨hp, by simp [h0]⟩
  · intro h2 hzero
    have hlen := nonZeroSamples_length (motionSamples s)
    rw [motionSamples_length s ht hv] at hlen
    refine ⟨?_, ?_⟩
    · rw [motion_steps_withMotion, h2]
    · rw [List.length_map]
      omega

theorem populateMotion_one_block_per_nonzero_sample_witness :
    ∃ s', _PopulateMotion (movingTriangle [0, 1] raisedPoints) = some s'
      ∧ s'.m_cyclesMesh.motion_steps = 3
      ∧ selectedAttributes s'
        = [Attribute.ATTR_STD_MOTION_VERTEX_POSITION raisedPoints] :=
  match populateMotion_one_block_per_nonzero_sample (movingTriangle [0, 1] raisedPoints)
      (by decide) (by decide) (by decide) (by decide) (by decide) with
  | ⟨s', h1, h2, h3, _⟩ => ⟨s', h1, h2, h3⟩

/-- C16 (counterexample). Two samples at the times `-1` and `1`, none at time `0`, yield
motion-step count `3` and two keyframe blocks (six positions for three vertices), not one. -/
theorem populateMotion_two_samples_two_blocks :
    (_PopulateMotion (movingTriangle [-1, 1] raisedPoints)).map
        (fun s' => (s'.m_cyclesMesh.motion_steps, s'.m_cyclesMesh.attributes))
      = some (3, [Attribute.ATTR_STD_MOTION_VERTEX_POSITION (trianglePoints ++ raisedPoints)]) := by
  decide

/-- `_PopulateMotion` has no size check.  For more than one sample, on a mesh
whose selected attribute set holds no motion positions yet, it completes exactly when every
sample with a non-zero time holds at least `V` positions; it then stores the first `V`
positions of each such sample, whatever the length of the sample.  When such a sample holds
fewer than `V` positions, the run reads outside the sample. -/
theorem populateMotion_completes_iff_samples_long_enough (s : HdCyclesMeshState)
    (hn : 1 < s.m_pointSamples.count)
    (ht : s.m_pointSamples.count ≤ s.m_pointSamples.times.length)
    (hv : s.m_pointSamples.count ≤ s.m_pointSamples.values.length)
    (hfresh : (selectedAttributes s).any Attribute.isMotion = false) :
    ((∃ s', _PopulateMotion s = some s')
        ↔ ∀ p ∈ motionSamples s, p.1 ≠ 0 → s.m_numMeshVerts ≤ p.2.GetVec3fArray.length)
      ∧ (_PopulateMotion s = none
        ↔ ∃ p ∈ motionSamples s, p.1 ≠ 0 ∧ p.2.GetVec3fArray.length < s.m_numMeshVerts)
      ∧ ∀ s', _PopulateMotion s = some s' →
          selectedAttributes s' = selectedAttributes s
            ++ [Attribute.ATTR_STD_MOTION_VERTEX_POSITION
              ((nonZeroSamples (motionSamples s)).flatMap
                (fun p => p.2.GetVec3fArray.take s.m_numMeshVerts))] := by
  have hrun := populateMotion_run s hn ht hv hfresh
  by_cases hfit : samplesFit s.m_numMeshVerts (motionSamples s) = true
  · rw [if_pos hfit] at hrun
    have hall := (samplesFit_iff _ _).mp hfit
    refine ⟨⟨fun _ => hall, fun _ => ⟨_, hrun⟩⟩, ⟨?_, ?_⟩, ?_⟩
    · intro h
      rw [hrun] at h
      cases h
    · intro h
      obtain ⟨p, hp, h0, hlt⟩ := h
      have := hall p hp h0
      omega
    · intro s' hs'
      rw [hrun] at hs'
      cases hs'
      exact selectedAttributes_withMotion s _
  · rw [if_neg hfit] at hrun
    have hnot : ¬ ∀ p ∈ motionSamples s, p.1 ≠ 0 →
        s.m_numMeshVerts ≤ p.2.GetVec3fArray.length :=
      fun h => hfit ((samplesFit_iff _ _).mpr h)
    refine ⟨⟨?_, fun h => absurd h hnot⟩, ⟨fun _ => ?_, fun _ => hrun⟩, ?_⟩
    · intro h
      obtain ⟨s', hs'⟩ := h
      rw [hrun] at hs'
      cases hs'
    · by_contra hcon
      apply hnot
      intro p hp h0
      by_contra hlt
      exact hcon ⟨p, hp, h0, by omega⟩
    · intro s' hs'
      rw [hrun] at hs'
      cases hs'

theorem populateMotion_completes_iff_samples_long_enough_witness :
    (∃ s', _PopulateMotion (movingTriangle [0, 1] (raisedPoints ++ raisedPoints)) = some s')
      ↔ ∀ p ∈ motionSamples (movingTriangle [0, 1] (raisedPoints ++ raisedPoints)),
          p.1 ≠ 0 → 3 ≤ p.2.GetVec3fArray.length :=
  (populateMotion_completes_iff_samples_long_enough
    (movingTriangle [0, 1] (raisedPoints ++ raisedPoints))
    (by decide) (by decide) (by decide) (by decide)).1

/-- With three vertices and a sample at time `1` that holds six
positions, `_PopulateMotion` completes, sets the motion-step count and stores the first
three positions of the sample. -/
theorem populateMotion_accepts_longer_sample :
    (_PopulateMotion (movingTriangle [0, 1] (raisedPoints ++ raisedPoints))).map
        (fun s' => (s'.m_cyclesMesh.motion_steps, s'.m_cyclesMesh.attributes))
      = some (3, [Attribute.ATTR_STD_MOTION_VERTEX_POSITION raisedPoints]) := by
  decide

/-! ## `Sync`: the blocks one by one -/

theorem isPrimvarDirty_points (dirtyBits : HdDirtyBits) :
    IsPrimvarDirty dirtyBits "points" = dirtyBits.DirtyPoints := by
  unfold IsPrimvarDirty
  rw [if_pos rfl]

theorem syncExtComputation_clean (d : HdSceneDelegate) (dirtyBits : HdDirtyBits)
    (st : HdCyclesMeshState × SyncLocals) (h : dirtyBits.DirtyPoints = false) :
    syncExtComputation d dirtyBits st = st := by
  unfold syncExtComputation
  cases hf : d.extComputationPrimvarDescriptors.find?
      (fun desc => decide (desc.name = "points")) with
  | none => rfl
  | some desc =>
    have hname : desc.name = "points" := by
      have := List.find?_some hf
      simpa using this
    simp only [hname, isPrimvarDirty_points, h, Bool.false_eq_true, if_false]

theorem syncPoints_clean (d : HdSceneDelegate) (dirtyBits : HdDirtyBits)
    (st : HdCyclesMeshState × SyncLocals) (h : dirtyBits.DirtyPoints = false) :
    syncPoints d dirtyBits st = st := by
  unfold syncPoints
  simp only [isPrimvarDirty_points, h, Bool.false_eq_true, if_false]

theorem syncPull_quiet (d : HdSceneDelegate) (dirtyBits : HdDirtyBits) (s : HdCyclesMeshState)
    (hP : dirtyBits.DirtyPoints = false) (hT : dirtyBits.DirtyTopology = false)
    (hD : dirtyBits.DirtyDoubleSided = false) (hS : dirtyBits.DirtyDisplayStyle = false)
    (hG : dirtyBits.DirtySubdivTags = false) :
    syncPull d dirtyBits s
      = (s, { mesh_updated := false, newMesh := false, pointsIsComputed := false }) := by
  unfold syncPull
  rw [syncExtComputation_clean d dirtyBits _ hP, syncPoints_clean d dirtyBits _ hP]
  simp only [syncTopologyBlock, syncDoubleSided, syncDisplayStyle, syncSubdivTags, hT, hD, hS,
    hG, Bool.false_eq_true, if_false]

/-- The dirty bits outside the three that only `IsPrimvarDirty` reads are clean. -/
theorem sync_quiet (e : Renderer) (d : HdSceneDelegate) (dirtyBits : HdDirtyBits)
    (s : HdCyclesMeshState)
    (hP : dirtyBits.DirtyPoints = false) (hT : dirtyBits.DirtyTopology = false)
    (hD : dirtyBits.DirtyDoubleSided = false) (hS : dirtyBits.DirtyDisplayStyle = false)
    (hG : dirtyBits.DirtySubdivTags = false) (hX : dirtyBits.DirtyTransform = false)
    (hI : dirtyBits.DirtyPrimID = false) (hM : dirtyBits.DirtyMaterialId = false)
    (hV : dirtyBits.DirtyVisibility = false) (hN : dirtyBits.DirtyInstancer = false) :
    Sync e d dirtyBits s
      = some ({ s with scene := s.scene ++ [SceneEvent.lock, SceneEvent.unlock] },
          HdDirtyBits.Clean) := by
  simp only [Sync, syncPull_quiet d dirtyBits _ hP hT hD hS hG]
  simp [syncUpdate, syncFinish, syncTransform, syncPrimId, syncMaterialId, syncVisibility, syncInstances,
    syncTag, hX, hI, hM, hV, hN]

theorem syncTransform_frame (d : HdSceneDelegate) (dirtyBits : HdDirtyBits)
    (st : HdCyclesMeshState × SyncLocals) :
    syncFrame (syncTransform d dirtyBits st).1 = syncFrame st.1
      ∧ (syncTransform d dirtyBits st).1.m_cyclesInstances = st.1.m_cyclesInstances
      ∧ (syncTransform d dirtyBits st).1.m_visibilityFlags = st.1.m_visibilityFlags
      ∧ (syncTransform d dirtyBits st).2.newMesh = st.2.newMesh
      ∧ (syncTransform d dirtyBits st).1.scene = st.1.scene := by
  unfold syncTransform
  by_cases h : dirtyBits.DirtyTransform = true
  · rw [if_pos h]
    cases hp : st.1.m_cyclesMesh.subd_params <;> simp [syncFrame, meshBuffers, hp]
  · rw [if_neg h]
    simp

theorem syncPrimId_frame (d : HdSceneDelegate) (dirtyBits : HdDirtyBits)
    (s : HdCyclesMeshState) :
    syncFrame (syncPrimId d dirtyBits s) = syncFrame s
      ∧ (syncPrimId d dirtyBits s).m_cyclesInstances = s.m_cyclesInstances
      ∧ (syncPrimId d dirtyBits s).m_visibilityFlags = s.m_visibilityFlags
      ∧ (syncPrimId d dirtyBits s).scene = s.scene := by
  unfold syncPrimId
  by_cases h : dirtyBits.DirtyPrimID = true
  · rw [if_pos h]
    simp [syncFrame, meshBuffers]
  · rw [if_neg h]
    simp

theorem syncMaterialId_frame (e : Renderer) (d : HdSceneDelegate) (dirtyBits : HdDirtyBits)
    (s : HdCyclesMeshState) :
    syncFrame (syncMaterialId e d dirtyBits s) = syncFrame s
      ∧ (syncMaterialId e d dirtyBits s).m_cyclesInstances = s.m_cyclesInstances
      ∧ (syncMaterialId e d dirtyBits s).m_visibilityFlags = s.m_visibilityFlags
      ∧ (syncMaterialId e d dirtyBits s).scene = s.scene := by
  unfold syncMaterialId
  by_cases h : dirtyBits.DirtyMaterialId = true
  · by_cases h2 : s.m_faceVertexCounts.length > 0
    · simp [syncFrame, meshBuffers, h, h2]
    · simp [syncFrame, meshBuffers, h, h2]
  · simp [h]

theorem syncVisibility_frame (d : HdSceneDelegate) (dirtyBits : HdDirtyBits)
    (st : HdCyclesMeshState × SyncLocals) :
    syncFrame (syncVisibility d dirtyBits st).1 = syncFrame st.1
      ∧ (syncVisibility d dirtyBits st).1.m_cyclesInstances = st.1.m_cyclesInstances
      ∧ (syncVisibility d dirtyBits st).2.newMesh = st.2.newMesh
      ∧ (syncVisibility d dirtyBits st).1.scene = st.1.scene := by
  unfold syncVisibility
  by_cases h : dirtyBits.DirtyVisibility = true
  · by_cases h2 : d.visible = true
    · simp [syncFrame, meshBuffers, h, h2]
    · simp [syncFrame, meshBuffers, h, h2]
  · simp [h]

theorem syncInstances_frame (e : Renderer) (d : HdSceneDelegate) (dirtyBits : HdDirtyBits)
    (st st' : HdCyclesMeshState × SyncLocals)
    (h : syncInstances e d dirtyBits st = some st') :
    syncFrame st'.1 = syncFrame st.1 ∧ st'.2.newMesh = st.2.newMesh := by
  unfold syncInstances at h
  by_cases hrun : (st.2.newMesh || dirtyBits.DirtyInstancer) = true
  · rw [if_pos hrun] at h
    cases hi : d.instanceTransforms with
    | none =>
      rw [hi] at h
      simp only [Option.some.injEq] at h
      subst h
      exact ⟨rfl, rfl⟩
    | some it =>
      rw [hi] at h
      simp only [Option.bind_eq_some] at h
      obtain ⟨n, _, h⟩ := h
      by_cases hn : n ≠ 0
      · rw [if_pos hn] at h
        simp only [Option.map_eq_some'] at h
        obtain ⟨objs, _, h⟩ := h
        subst h
        exact ⟨rfl, rfl⟩
      · rw [if_neg hn] at h
        simp only [Option.some.injEq] at h
        subst h
        exact ⟨rfl, rfl⟩
  · rw [if_neg hrun] at h
    simp only [Option.some.injEq] at h
    subst h
    exact ⟨rfl, rfl⟩

theorem syncTag_frame (st : HdCyclesMeshState × SyncLocals) :
    syncFrame (syncTag st) = syncFrame st.1
      ∧ (syncTag st).m_cyclesInstances = st.1.m_cyclesInstances := by
  unfold syncTag
  by_cases h : (st.2.mesh_updated || st.2.newMesh) = true
  · rw [if_pos h]
    exact ⟨rfl, rfl⟩
  · rw [if_neg h]
    exact ⟨rfl, rfl⟩

theorem finishMesh_frame (e : Renderer) (s : HdCyclesMeshState) :
    (_FinishMesh e s).toHdCyclesMesh = s.toHdCyclesMesh
      ∧ (_FinishMesh e s).m_points = s.m_points
      ∧ (_FinishMesh e s).id = s.id
      ∧ (_FinishMesh e s).m_cyclesMesh.verts = s.m_cyclesMesh.verts
      ∧ (_FinishMesh e s).m_cyclesMesh.toMesh = s.m_cyclesMesh.toMesh
      ∧ (_FinishMesh e s).m_cyclesInstances = s.m_cyclesInstances
      ∧ (_FinishMesh e s).m_visibilityFlags = s.m_visibilityFlags := by
  unfold _FinishMesh addAttribute
  by_cases h : e.needGenerated = true
  · by_cases h2 : s.m_useSubdivision = true
    · simp [h, h2]
    · simp [h, h2]
  · simp [h]

/-! ## `Sync`: the pull of the scene data -/

theorem syncExtComputation_scene (d : HdSceneDelegate) (dirtyBits : HdDirtyBits)
    (st : HdCyclesMeshState × SyncLocals) (x : List SceneEvent) :
    syncExtComputation d dirtyBits ({ st.1 with scene := x }, st.2)
      = ({ (syncExtComputation d dirtyBits st).1 with scene := x },
          (syncExtComputation d dirtyBits st).2) := by
  unfold syncExtComputation
  cases d.extComputationPrimvarDescriptors.find? (fun desc => decide (desc.name = "points")) with
  | none => rfl
  | some desc =>
    by_cases h1 : IsPrimvarDirty dirtyBits desc.name = true
    · cases h2 : d.computedPrimvarValues desc.name with
      | none => simp [h1, h2]
      | some value =>
        by_cases h3 : value.IsEmpty = true
        · simp [h1, h2, h3]
        · simp [h1, h2, h3]
    · simp [h1]

theorem syncPoints_scene (d : HdSceneDelegate) (dirtyBits : HdDirtyBits)
    (st : HdCyclesMeshState × SyncLocals) (x : List SceneEvent) :
    syncPoints d dirtyBits ({ st.1 with scene := x }, st.2)
      = ({ (syncPoints d dirtyBits st).1 with scene := x }, (syncPoints d dirtyBits st).2) := by
  unfold syncPoints
  by_cases h1 : IsPrimvarDirty dirtyBits "points" = true
  · by_cases h2 : d.points.IsEmpty = true
    · simp [h1, h2]
    · by_cases h3 : d.points.GetVec3fArray.length > 0
      · simp [h1, h2, h3]
      · simp [h1, h2, h3]
  · simp [h1]

theorem syncTopologyBlock_scene (d : HdSceneDelegate) (dirtyBits : HdDirtyBits)
    (st : HdCyclesMeshState × SyncLocals) (x : List SceneEvent) :
    syncTopologyBlock d dirtyBits ({ st.1 with scene := x }, st.2)
      = ({ (syncTopologyBlock d dirtyBits st).1 with scene := x },
          (syncTopologyBlock d dirtyBits st).2) := by
  unfold syncTopologyBlock
  by_cases h1 : dirtyBits.DirtyTopology = true
  · simp [h1]
  · simp [h1]

theorem syncDoubleSided_scene (d : HdSceneDelegate) (dirtyBits : HdDirtyBits)
    (st : HdCyclesMeshState × SyncLocals) (x : List SceneEvent) :
    syncDoubleSided d dirtyBits ({ st.1 with scene := x }, st.2)
      = ({ (syncDoubleSided d dirtyBits st).1 with scene := x },
          (syncDoubleSided d dirtyBits st).2) := by
  unfold syncDoubleSided
  by_cases h1 : dirtyBits.DirtyDoubleSided = true
  · simp [h1]
  · simp [h1]

theorem syncDisplayStyle_scene (d : HdSceneDelegate) (dirtyBits : HdDirtyBits)
    (st : HdCyclesMeshState × SyncLocals) (x : List SceneEvent) :
    syncDisplayStyle d dirtyBits ({ st.1 with scene := x }, st.2)
      = ({ (syncDisplayStyle d dirtyBits st).1 with scene := x },
          (syncDisplayStyle d dirtyBits st).2) := by
  unfold syncDisplayStyle
  by_cases h1 : dirtyBits.DirtyDisplayStyle = true
  · by_cases h2 : st.1.m_refineLevel = d.refineLevel
    · simp [h1, h2]
    · simp [h1, h2]
  · simp [h1]

theorem syncSubdivTags_scene (d : HdSceneDelegate) (dirtyBits : HdDirtyBits)
    (st : HdCyclesMeshState × SyncLocals) (x : List SceneEvent) :
    syncSubdivTags d dirtyBits ({ st.1 with scene := x }, st.2)
      = ({ (syncSubdivTags d dirtyBits st).1 with scene := x },
          (syncSubdivTags d dirtyBits st).2) := by
  unfold syncSubdivTags
  by_cases h1 : dirtyBits.DirtySubdivTags = true
  · simp [h1]
  · simp [h1]

theorem syncPull_scene (d : HdSceneDelegate) (dirtyBits : HdDirtyBits) (s : HdCyclesMeshState)
    (x : List SceneEvent) :
    syncPull d dirtyBits { s with scene := x }
      = ({ (syncPull d dirtyBits s).1 with scene := x }, (syncPull d dirtyBits s).2) := by
  unfold syncPull
  have h0 := syncExtComputation_scene d dirtyBits
    (s, { mesh_updated := false, newMesh := false, pointsIsComputed := false }) x
  rw [h0, syncPoints_scene, syncTopologyBlock_scene, syncDoubleSided_scene,
    syncDisplayStyle_scene, syncSubdivTags_scene]

theorem syncExtComputation_frame (d : HdSceneDelegate) (dirtyBits : HdDirtyBits)
    (st : HdCyclesMeshState × SyncLocals) :
    pullFrame (syncExtComputation d dirtyBits st).1 = pullFrame st.1
      ∧ (st.2.newMesh = true → (syncExtComputation d dirtyBits st).2.newMesh = true) := by
  unfold syncExtComputation
  cases d.extComputationPrimvarDescriptors.find? (fun desc => decide (desc.name = "points")) with
  | none => exact ⟨rfl, fun h => h⟩
  | some desc =>
    by_cases h1 : IsPrimvarDirty dirtyBits desc.name = true
    · cases h2 : d.computedPrimvarValues desc.name with
      | none => simp [h1, h2, pullFrame]
      | some value =>
        by_cases h3 : value.IsEmpty = true
        · simp [h1, h2, h3, pullFrame]
        · simp [h1, h2, h3, pullFrame]
    · simp [h1]

theorem syncPoints_frame (d : HdSceneDelegate) (dirtyBits : HdDirtyBits)
    (st : HdCyclesMeshState × SyncLocals) :
    pullFrame (syncPoints d dirtyBits st).1 = pullFrame st.1
      ∧ (st.2.newMesh = true → (syncPoints d dirtyBits st).2.newMesh = true) := by
  unfold syncPoints
  by_cases h1 : IsPrimvarDirty dirtyBits "points" = true
  · by_cases h2 : d.points.IsEmpty = true
    · simp [h1, h2, pullFrame]
    · by_cases h3 : d.points.GetVec3fArray.length > 0
      · simp [h1, h2, h3, pullFrame]
      · simp [h1, h2, h3, pullFrame]
  · simp [h1]

theorem syncPoints_dirty (d : HdSceneDelegate) (dirtyBits : HdDirtyBits)
    (st : HdCyclesMeshState × SyncLocals) (hP : dirtyBits.DirtyPoints = true)
    (hne : d.points.GetVec3fArray ≠ []) :
    (syncPoints d dirtyBits st).2.newMesh = true
      ∧ (syncPoints d dirtyBits st).1.m_points = d.points.GetVec3fArray
      ∧ (syncPoints d dirtyBits st).1.m_numMeshVerts = d.points.GetVec3fArray.length := by
  have hnot : d.points.IsEmpty = false := by
    cases hv : d.points with
    | empty => rw [hv] at hne; exact absurd rfl hne
    | vec3fArray a => rfl
    | vec2fArray a => rfl
    | other => rfl
  have hlen : d.points.GetVec3fArray.length > 0 := List.length_pos.mpr hne
  unfold syncPoints
  simp [isPrimvarDirty_points, hP, hnot, hlen]

theorem syncTopologyBlock_frame (d : HdSceneDelegate) (dirtyBits : HdDirtyBits)
    (st : HdCyclesMeshState × SyncLocals) :
    pullFrame (syncTopologyBlock d dirtyBits st).1 = pullFrame st.1
      ∧ (st.2.newMesh = true → (syncTopologyBlock d dirtyBits st).2.newMesh = true)
      ∧ (syncTopologyBlock d dirtyBits st).1.m_points = st.1.m_points := by
  unfold syncTopologyBlock
  by_cases h1 : dirtyBits.DirtyTopology = true
  · have e1 : (syncTopology st.1.toHdCyclesMesh d.meshTopology).m_subdivEnabled
        = st.1.m_subdivEnabled := by
      unfold syncTopology
      simp only []
      split_ifs <;> rfl
    have e2 : (syncTopology st.1.toHdCyclesMesh d.meshTopology).countIsUnsigned
        = st.1.countIsUnsigned := by
      unfold syncTopology
      simp only []
      split_ifs <;> rfl
    simp [h1, pullFrame, e1, e2]
  · simp [h1]

theorem syncTopology_useSubdivision (s : HdCyclesMesh) (t : HdMeshTopology) :
    (syncTopology s t).m_useSubdivision = (s.m_subdivEnabled && t.schemeIsCatmullClark) := by
  unfold syncTopology
  simp only []
  cases h1 : s.m_subdivEnabled <;> cases h2 : t.schemeIsCatmullClark <;> simp

theorem syncTopology_numMeshVerts (s : HdCyclesMesh) (t : HdMeshTopology) :
    (syncTopology s t).m_numMeshVerts = s.m_numMeshVerts := by
  unfold syncTopology
  simp only []
  split_ifs <;> rfl

theorem syncDoubleSided_frame (d : HdSceneDelegate) (dirtyBits : HdDirtyBits)
    (st : HdCyclesMeshState × SyncLocals) :
    pullFrame (syncDoubleSided d dirtyBits st).1 = pullFrame st.1
      ∧ (syncDoubleSided d dirtyBits st).2.newMesh = st.2.newMesh
      ∧ (syncDoubleSided d dirtyBits st).1.toHdCyclesMesh = st.1.toHdCyclesMesh
      ∧ (syncDoubleSided d dirtyBits st).1.m_points = st.1.m_points
      ∧ (syncDoubleSided d dirtyBits st).1.m_refineLevel = st.1.m_refineLevel := by
  unfold syncDoubleSided
  by_cases h1 : dirtyBits.DirtyDoubleSided = true
  · simp [h1, pullFrame]
  · simp [h1]

theorem syncDisplayStyle_frame (d : HdSceneDelegate) (dirtyBits : HdDirtyBits)
    (st : HdCyclesMeshState × SyncLocals) :
    pullFrame (syncDisplayStyle d dirtyBits st).1 = pullFrame st.1
      ∧ (st.2.newMesh = true → (syncDisplayStyle d dirtyBits st).2.newMesh = true)
      ∧ (syncDisplayStyle d dirtyBits st).1.toHdCyclesMesh = st.1.toHdCyclesMesh
      ∧ (syncDisplayStyle d dirtyBits st).1.m_points = st.1.m_points
      ∧ (dirtyBits.DirtyDisplayStyle = false ∨ d.refineLevel = st.1.m_refineLevel →
          (syncDisplayStyle d dirtyBits st).2.newMesh = st.2.newMesh) := by
  unfold syncDisplayStyle
  by_cases h1 : dirtyBits.DirtyDisplayStyle = true
  · by_cases h2 : st.1.m_refineLevel = d.refineLevel
    · simp [h1, h2, pullFrame]
    · have h3 : ¬ d.refineLevel = st.1.m_refineLevel := fun h => h2 h.symm
      simp [h1, h2, h3, pullFrame]
  · simp [h1]

theorem syncSubdivTags_frame (d : HdSceneDelegate) (dirtyBits : HdDirtyBits)
    (st : HdCyclesMeshState × SyncLocals) :
    pullFrame (syncSubdivTags d dirtyBits st).1 = pullFrame st.1
      ∧ (st.2.newMesh = true → (syncSubdivTags d dirtyBits st).2.newMesh = true)
      ∧ (syncSubdivTags d dirtyBits st).1.toHdCyclesMesh = st.1.toHdCyclesMesh
      ∧ (syncSubdivTags d dirtyBits st).1.m_points = st.1.m_points
      ∧ (dirtyBits.DirtySubdivTags = false →
          (syncSubdivTags d dirtyBits st).2.newMesh = st.2.newMesh) := by
  unfold syncSubdivTags
  by_cases h1 : dirtyBits.DirtySubdivTags = true
  · simp [h1, pullFrame]
  · simp [h1]

theorem syncPull_frame (d : HdSceneDelegate) (dirtyBits : HdDirtyBits)
    (s : HdCyclesMeshState) : pullFrame (syncPull d dirtyBits s).1 = pullFrame s := by
  unfold syncPull
  rw [(syncSubdivTags_frame d dirtyBits _).1, (syncDisplayStyle_frame d dirtyBits _).1,
    (syncDoubleSided_frame d dirtyBits _).1, (syncTopologyBlock_frame d dirtyBits _).1,
    (syncPoints_frame d dirtyBits _).1, (syncExtComputation_frame d dirtyBits _).1]

theorem rebuilds_of_topology (d : HdSceneDelegate) (dirtyBits : HdDirtyBits)
    (s : HdCyclesMeshState) (h : dirtyBits.DirtyTopology = true) :
    rebuilds d dirtyBits s = true := by
  unfold rebuilds syncPull
  apply (syncSubdivTags_frame d dirtyBits _).2.1
  apply (syncDisplayStyle_frame d dirtyBits _).2.1
  rw [(syncDoubleSided_frame d dirtyBits _).2.1]
  unfold syncTopologyBlock
  simp [h]

theorem rebuilds_of_points (d : HdSceneDelegate) (dirtyBits : HdDirtyBits)
    (s : HdCyclesMeshState) (hP : dirtyBits.DirtyPoints = true)
    (hne : d.points.GetVec3fArray ≠ []) :
    rebuilds d dirtyBits s = true := by
  unfold rebuilds syncPull
  apply (syncSubdivTags_frame d dirtyBits _).2.1
  apply (syncDisplayStyle_frame d dirtyBits _).2.1
  rw [(syncDoubleSided_frame d dirtyBits _).2.1]
  apply (syncTopologyBlock_frame d dirtyBits _).2.1
  exact (syncPoints_dirty d dirtyBits _ hP hne).1

theorem rebuilds_false (d : HdSceneDelegate) (dirtyBits : HdDirtyBits)
    (s : HdCyclesMeshState) (hP : dirtyBits.DirtyPoints = false)
    (hT : dirtyBits.DirtyTopology = false) (hG : dirtyBits.DirtySubdivTags = false)
    (hS : dirtyBits.DirtyDisplayStyle = false ∨ d.refineLevel = s.m_refineLevel) :
    rebuilds d dirtyBits s = false := by
  unfold rebuilds syncPull
  rw [(syncSubdivTags_frame d dirtyBits _).2.2.2.2 hG,
    syncExtComputation_clean d dirtyBits _ hP, syncPoints_clean d dirtyBits _ hP]
  have ht : syncTopologyBlock d dirtyBits
      (s, { mesh_updated := false, newMesh := false, pointsIsComputed := false })
      = (s, { mesh_updated := false, newMesh := false, pointsIsComputed := false }) := by
    unfold syncTopologyBlock
    simp [hT]
  rw [ht, (syncDisplayStyle_frame d dirtyBits _).2.2.2.2, (syncDoubleSided_frame d dirtyBits _).2.1]
  rw [(syncDoubleSided_frame d dirtyBits _).2.2.2.2]
  exact hS

theorem syncPull_useSubdivision (d : HdSceneDelegate) (dirtyBits : HdDirtyBits)
    (s : HdCyclesMeshState) (h : dirtyBits.DirtyTopology = true) :
    (syncPull d dirtyBits s).1.m_useSubdivision
      = (s.m_subdivEnabled && d.meshTopology.schemeIsCatmullClark) := by
  unfold syncPull
  rw [(syncSubdivTags_frame d dirtyBits _).2.2.1, (syncDisplayStyle_frame d dirtyBits _).2.2.1,
    (syncDoubleSided_frame d dirtyBits _).2.2.1]
  have hs : (syncPoints d dirtyBits (syncExtComputation d dirtyBits
      (s, { mesh_updated := false, newMesh := false, pointsIsComputed := false }))).1.m_subdivEnabled
      = s.m_subdivEnabled := by
    have h1 := (syncPoints_frame d dirtyBits (syncExtComputation d dirtyBits
      (s, { mesh_updated := false, newMesh := false, pointsIsComputed := false }))).1
    have h2 := (syncExtComputation_frame d dirtyBits
      (s, { mesh_updated := false, newMesh := false, pointsIsComputed := false })).1
    rw [h2] at h1
    unfold pullFrame at h1
    simp only [Prod.mk.injEq] at h1
    exact h1.2.2.2.2.2.2.2.2.2.2.1
  unfold syncTopologyBlock
  simp only [h, if_true, syncTopology_useSubdivision, hs]

/-! ## `Sync`: the rebuild -/

theorem addAttribute_facts (s : HdCyclesMeshState) (a : Attribute) :
    rebuildFrame (addAttribute s a) = rebuildFrame s
      ∧ (addAttribute s a).m_cyclesMesh.verts = s.m_cyclesMesh.verts
      ∧ (addAttribute s a).m_cyclesMesh.toMesh = s.m_cyclesMesh.toMesh
      ∧ selectedAttributes (addAttribute s a) = selectedAttributes s ++ [a]
      ∧ unselectedAttributes (addAttribute s a) = unselectedAttributes s := by
  unfold addAttribute selectedAttributes unselectedAttributes rebuildFrame
  by_cases h : s.m_useSubdivision = true
  · simp [h]
  · simp [h]

theorem rebuildFrame_members {s s' : HdCyclesMeshState}
    (h : rebuildFrame s' = rebuildFrame s) : s'.toHdCyclesMesh = s.toHdCyclesMesh := by
  unfold rebuildFrame at h
  simp only [Prod.mk.injEq] at h
  exact h.1

theorem syncNormals_facts (interpolation : HdInterpolation) (value : VtValue)
    (pv : HdPrimvarDescriptor) (s s' : HdCyclesMeshState)
    (h : syncNormals interpolation value pv s = some s') :
    rebuildFrame s' = rebuildFrame s
      ∧ s'.m_cyclesMesh.verts = s.m_cyclesMesh.verts
      ∧ s'.m_cyclesMesh.toMesh = s.m_cyclesMesh.toMesh
      ∧ selectedAttributes s' = selectedAttributes s
          ++ normalsRecords interpolation value pv s.toHdCyclesMesh
      ∧ unselectedAttributes s' = unselectedAttributes s := by
  unfold syncNormals at h
  unfold normalsRecords
  by_cases hc : (!s.m_useSubdivision && decide (pv.name = "normals")) = true
  · rw [if_pos hc] at h
    rw [if_pos hc]
    cases value with
    | vec3fArray a =>
      simp only [VtValue.UncheckedGetVec3fArray, Option.map_some', Option.some.injEq] at h
      subst h
      exact addAttribute_facts s _
    | empty => cases h
    | vec2fArray a => cases h
    | other => cases h
  · rw [if_neg hc] at h
    rw [if_neg hc]
    simp only [Option.some.injEq] at h
    subst h
    simp

theorem syncColors_facts (e : Renderer) (interpolation : HdInterpolation) (value : VtValue)
    (pv : HdPrimvarDescriptor) (s : HdCyclesMeshState) :
    rebuildFrame (syncColors e interpolation value pv s) = rebuildFrame s
      ∧ (syncColors e interpolation value pv s).m_cyclesMesh.verts = s.m_cyclesMesh.verts
      ∧ (syncColors e interpolation value pv s).m_cyclesMesh.toMesh = s.m_cyclesMesh.toMesh
      ∧ selectedAttributes (syncColors e interpolation value pv s) = selectedAttributes s
          ++ colorsRecords e interpolation value pv s.toHdCyclesMesh
      ∧ unselectedAttributes (syncColors e interpolation value pv s)
          = unselectedAttributes s := by
  unfold syncColors colorsRecords
  by_cases hr : pv.role = "color"
  · rw [if_pos hr, if_pos hr]
    cases value with
    | vec3fArray a =>
      exact addAttribute_facts { s with m_hasVertexColors := true } _
    | empty => simp [rebuildFrame, selectedAttributes, unselectedAttributes]
    | vec2fArray a => simp [rebuildFrame, selectedAttributes, unselectedAttributes]
    | other => simp [rebuildFrame, selectedAttributes, unselectedAttributes]
  · rw [if_neg hr, if_neg hr]
    simp

theorem syncUVs_facts (e : Renderer) (interpolation : HdInterpolation) (value : VtValue)
    (pv : HdPrimvarDescriptor) (s : HdCyclesMeshState) :
    rebuildFrame (syncUVs e interpolation value pv s) = rebuildFrame s
      ∧ (syncUVs e interpolation value pv s).m_cyclesMesh.verts = s.m_cyclesMesh.verts
      ∧ (syncUVs e interpolation value pv s).m_cyclesMesh.toMesh = s.m_cyclesMesh.toMesh
      ∧ selectedAttributes (syncUVs e interpolation value pv s) = selectedAttributes s
          ++ uvRecords e interpolation value pv s.toHdCyclesMesh
      ∧ unselectedAttributes (syncUVs e interpolation value pv s) = unselectedAttributes s := by
  unfold syncUVs uvRecords
  cases value with
  | vec2fArray a => exact addAttribute_facts s _
  | empty => simp
  | vec3fArray a => simp
  | other => simp

theorem syncPrimvar_facts (e : Renderer) (d : HdSceneDelegate) (dirtyBits : HdDirtyBits)
    (interpolation : HdInterpolation) (s s' : HdCyclesMeshState) (pv : HdPrimvarDescriptor)
    (h : syncPrimvar e d dirtyBits interpolation s pv = some s') :
    rebuildFrame s' = rebuildFrame s
      ∧ s'.m_cyclesMesh.verts = s.m_cyclesMesh.verts
      ∧ s'.m_cyclesMesh.toMesh = s.m_cyclesMesh.toMesh
      ∧ selectedAttributes s' = selectedAttributes s
          ++ primvarRecords e d dirtyBits s.toHdCyclesMesh interpolation pv
      ∧ unselectedAttributes s' = unselectedAttributes s := by
  unfold syncPrimvar at h
  unfold primvarRecords
  by_cases hd : IsPrimvarDirty dirtyBits pv.name = true
  · rw [if_pos hd] at h
    rw [if_pos hd]
    rw [Option.map_eq_some'] at h
    obtain ⟨s1, h1, h2⟩ := h
    subst h2
    have hn := syncNormals_facts interpolation (d.primvar pv.name) pv s s1 h1
    have hc := syncColors_facts e interpolation (d.primvar pv.name) pv s1
    have hu := syncUVs_facts e interpolation (d.primvar pv.name) pv
      (syncColors e interpolation (d.primvar pv.name) pv s1)
    have hm1 := rebuildFrame_members hn.1
    have hm2 := rebuildFrame_members hc.1
    refine ⟨by rw [hu.1, hc.1, hn.1], by rw [hu.2.1, hc.2.1, hn.2.1],
      by rw [hu.2.2.1, hc.2.2.1, hn.2.2.1], ?_, by rw [hu.2.2.2.2, hc.2.2.2.2, hn.2.2.2.2]⟩
    rw [hu.2.2.2.1, hc.2.2.2.1, hn.2.2.2.1, hm2, hm1]
    simp only [List.append_assoc]
  · rw [if_neg hd] at h
    rw [if_neg hd]
    simp only [Option.some.injEq] at h
    subst h
    simp

theorem syncPrimvarList_facts (e : Renderer) (d : HdSceneDelegate) (dirtyBits : HdDirtyBits)
    (interpolation : HdInterpolation) :
    ∀ (pvs : List HdPrimvarDescriptor) (s s' : HdCyclesMeshState),
      pvs.foldlM (syncPrimvar e d dirtyBits interpolation) s = some s' →
      rebuildFrame s' = rebuildFrame s
        ∧ s'.m_cyclesMesh.verts = s.m_cyclesMesh.verts
        ∧ s'.m_cyclesMesh.toMesh = s.m_cyclesMesh.toMesh
        ∧ selectedAttributes s' = selectedAttributes s
            ++ pvs.flatMap (primvarRecords e d dirtyBits s.toHdCyclesMesh interpolation)
        ∧ unselectedAttributes s' = unselectedAttributes s := by
  intro pvs
  induction pvs with
  | nil =>
    intro s s' h
    simp only [List.foldlM_nil, Option.pure_def, Option.some.injEq] at h
    subst h
    simp
  | cons pv pvs ih =>
    intro s s' h
    rw [List.foldlM_cons] at h
    obtain ⟨s1, h1, h2⟩ := Option.bind_eq_some.mp h
    have f1 := syncPrimvar_facts e d dirtyBits interpolation s s1 pv h1
    have f2 := ih s1 s' h2
    have hm := rebuildFrame_members f1.1
    refine ⟨by rw [f2.1, f1.1], by rw [f2.2.1, f1.2.1], by rw [f2.2.2.1, f1.2.2.1], ?_,
      by rw [f2.2.2.2.2, f1.2.2.2.2]⟩
    rw [f2.2.2.2.1, f1.2.2.2.1, hm, List.flatMap_cons, List.append_assoc]

theorem syncPrimvars_facts (e : Renderer) (d : HdSceneDelegate) (dirtyBits : HdDirtyBits)
    (s s' : HdCyclesMeshState) (h : syncPrimvars e d dirtyBits s = some s') :
    rebuildFrame s' = rebuildFrame s
      ∧ s'.m_cyclesMesh.verts = s.m_cyclesMesh.verts
      ∧ s'.m_cyclesMesh.toMesh = s.m_cyclesMesh.toMesh
      ∧ selectedAttributes s' = selectedAttributes s
          ++ allPrimvarRecords e d dirtyBits s.toHdCyclesMesh
      ∧ unselectedAttributes s' = unselectedAttributes s := by
  unfold syncPrimvars at h
  simp only [List.foldlM_cons, List.foldlM_nil] at h
  obtain ⟨s1, h1, h⟩ := Option.bind_eq_some.mp h
  obtain ⟨s2, h2, h⟩ := Option.bind_eq_some.mp h
  obtain ⟨s3, h3, h⟩ := Option.bind_eq_some.mp h
  simp only [Option.pure_def, Option.some.injEq] at h
  subst h
  have f1 := syncPrimvarList_facts e d dirtyBits _ _ s s1 h1
  have f2 := syncPrimvarList_facts e d dirtyBits _ _ s1 s2 h2
  have f3 := syncPrimvarList_facts e d dirtyBits _ _ s2 s3 h3
  have hm1 := rebuildFrame_members f1.1
  have hm2 := rebuildFrame_members f2.1
  refine ⟨by rw [f3.1, f2.1, f1.1], by rw [f3.2.1, f2.2.1, f1.2.1],
    by rw [f3.2.2.1, f2.2.2.1, f1.2.2.1], ?_, by rw [f3.2.2.2.2, f2.2.2.2.2, f1.2.2.2.2]⟩
  rw [f3.2.2.2.1, f2.2.2.2.1, f1.2.2.2.1, hm2, hm1]
  unfold allPrimvarRecords
  simp only [List.flatMap_cons, List.flatMap_nil, List.append_nil, List.append_assoc]

theorem rebuildVertices_facts (s : HdCyclesMeshState) :
    rebuildFrame (rebuildVertices s) = rebuildFrame s
      ∧ (rebuildVertices s).m_cyclesMesh.verts = s.m_points
      ∧ (rebuildVertices s).m_cyclesMesh.toMesh = s.m_cyclesMesh.clear.toMesh
      ∧ selectedAttributes (rebuildVertices s) = []
      ∧ unselectedAttributes (rebuildVertices s) = [] := by
  unfold rebuildVertices _PopulateVertices CyclesMesh.clear selectedAttributes
    unselectedAttributes rebuildFrame
  by_cases h : s.m_useSubdivision = true
  · simp [h]
  · simp [h]

theorem populateMotion_facts (s s' : HdCyclesMeshState) (h : _PopulateMotion s = some s') :
    rebuildFrame s' = rebuildFrame s
      ∧ s'.m_cyclesMesh.verts = s.m_cyclesMesh.verts
      ∧ s'.m_cyclesMesh.toMesh = s.m_cyclesMesh.toMesh
      ∧ (∃ motion : List Attribute, (∀ a ∈ motion, a.isMotion = true)
          ∧ selectedAttributes s' = selectedAttributes s ++ motion)
      ∧ unselectedAttributes s' = unselectedAttributes s := by
  unfold _PopulateMotion at h
  by_cases hn : s.m_pointSamples.count ≤ 1
  · rw [if_pos hn] at h
    simp only [Option.some.injEq] at h
    subst h
    exact ⟨rfl, rfl, rfl, ⟨[], by simp, by simp⟩, rfl⟩
  · rw [if_neg hn] at h
    by_cases hs : s.m_useSubdivision = true
    · simp only [hs, if_true] at h
      by_cases ha : s.m_cyclesMesh.subd_attributes.any Attribute.isMotion = true
      · rw [if_pos ha] at h
        cases h
      · rw [if_neg ha] at h
        obtain ⟨mP, _, h⟩ := Option.bind_eq_some.mp h
        simp only [Option.some.injEq] at h
        subst h
        refine ⟨rfl, rfl, rfl, ⟨[Attribute.ATTR_STD_MOTION_VERTEX_POSITION mP], ?_, ?_⟩, ?_⟩
        · intro a ha
          rw [List.mem_singleton] at ha
          subst ha
          rfl
        · simp [selectedAttributes, hs]
        · simp [unselectedAttributes, hs]
    · simp only [hs, Bool.false_eq_true, if_false] at h
      by_cases ha : s.m_cyclesMesh.attributes.any Attribute.isMotion = true
      · rw [if_pos ha] at h
        cases h
      · rw [if_neg ha] at h
        obtain ⟨mP, _, h⟩ := Option.bind_eq_some.mp h
        simp only [Option.some.injEq] at h
        subst h
        refine ⟨rfl, rfl, rfl, ⟨[Attribute.ATTR_STD_MOTION_VERTEX_POSITION mP], ?_, ?_⟩, ?_⟩
        · intro a ha
          rw [List.mem_singleton] at ha
          subst ha
          rfl
        · simp [selectedAttributes, hs]
        · simp [unselectedAttributes, hs]

theorem rebuildMotion_facts (s s' : HdCyclesMeshState) (h : rebuildMotion s = some s') :
    rebuildFrame s' = rebuildFrame s
      ∧ s'.m_cyclesMesh.verts = s.m_cyclesMesh.verts
      ∧ s'.m_cyclesMesh.toMesh = s.m_cyclesMesh.toMesh
      ∧ (∃ motion : List Attribute, (∀ a ∈ motion, a.isMotion = true)
          ∧ selectedAttributes s' = selectedAttributes s ++ motion)
      ∧ unselectedAttributes s' = unselectedAttributes s := by
  unfold rebuildMotion at h
  by_cases hm : s.m_useMotionBlur = true
  · rw [if_pos hm] at h
    exact populateMotion_facts s s' h
  · rw [if_neg hm] at h
    simp only [Option.some.injEq] at h
    subst h
    exact ⟨rfl, rfl, rfl, ⟨[], by simp, by simp⟩, rfl⟩

theorem rebuildFaces_facts (d : HdSceneDelegate) (s s' : HdCyclesMeshState)
    (h : rebuildFaces d s = some s') :
    rebuildFrame s' = rebuildFrame s
      ∧ s'.m_cyclesMesh.verts = s.m_cyclesMesh.verts
      ∧ (∃ a_faceMaterials, _PopulateFaces s.toHdCyclesMesh a_faceMaterials s.m_cyclesMesh.toMesh
          = some s'.m_cyclesMesh.toMesh)
      ∧ selectedAttributes s' = selectedAttributes s
      ∧ unselectedAttributes s' = unselectedAttributes s := by
  unfold rebuildFaces at h
  obtain ⟨st, _, h⟩ := Option.bind_eq_some.mp h
  rw [Option.map_eq_some'] at h
  obtain ⟨geometry, hg, h⟩ := h
  subst h
  exact ⟨rfl, rfl, ⟨st.faceMaterials, hg⟩, rfl, rfl⟩

theorem syncSubdivision_facts (s s' : HdCyclesMeshState) (h : syncSubdivision s = some s') :
    rebuildFrame s' = rebuildFrame s
      ∧ s'.m_cyclesMesh.verts = s.m_cyclesMesh.verts
      ∧ s'.m_cyclesMesh.toMesh = s.m_cyclesMesh.toMesh
      ∧ selectedAttributes s' = selectedAttributes s
      ∧ unselectedAttributes s' = unselectedAttributes s := by
  unfold syncSubdivision at h
  by_cases hs : s.m_useSubdivision = true
  · rw [if_pos hs] at h
    obtain ⟨s1, h1, h⟩ := Option.bind_eq_some.mp h
    unfold _PopulateCreases at h1
    obtain ⟨creases, _, h1⟩ := Option.bind_eq_some.mp h1
    simp only [Option.some.injEq] at h1 h
    subst h1
    subst h
    exact ⟨rfl, rfl, rfl, rfl, rfl⟩
  · rw [if_neg hs] at h
    simp only [Option.some.injEq] at h
    subst h
    exact ⟨rfl, rfl, rfl, rfl, rfl⟩

theorem applyUsedShaders_facts (s : HdCyclesMeshState) :
    rebuildFrame (applyUsedShaders s) = rebuildFrame s
      ∧ (applyUsedShaders s).m_cyclesMesh.verts = s.m_cyclesMesh.verts
      ∧ (applyUsedShaders s).m_cyclesMesh.toMesh = s.m_cyclesMesh.toMesh
      ∧ selectedAttributes (applyUsedShaders s) = selectedAttributes s
      ∧ unselectedAttributes (applyUsedShaders s) = unselectedAttributes s := by
  unfold applyUsedShaders
  by_cases h : s.m_usedShaders.length > 0
  · rw [if_pos h]
    exact ⟨rfl, rfl, rfl, rfl, rfl⟩
  · rw [if_neg h]
    exact ⟨rfl, rfl, rfl, rfl, rfl⟩

theorem syncRebuild_facts (e : Renderer) (d : HdSceneDelegate) (dirtyBits : HdDirtyBits)
    (s s' : HdCyclesMeshState) (h : syncRebuild e d dirtyBits s = some s') :
    rebuildFrame s' = rebuildFrame s
      ∧ s'.m_cyclesMesh.verts = s.m_points
      ∧ (∃ a_faceMaterials,
          _PopulateFaces s.toHdCyclesMesh a_faceMaterials s.m_cyclesMesh.clear.toMesh
            = some s'.m_cyclesMesh.toMesh)
      ∧ (∃ motion : List Attribute, (∀ a ∈ motion, a.isMotion = true)
          ∧ selectedAttributes s' = motion ++ allPrimvarRecords e d dirtyBits s.toHdCyclesMesh)
      ∧ unselectedAttributes s' = [] := by
  unfold syncRebuild at h
  obtain ⟨s1, h1, h⟩ := Option.bind_eq_some.mp h
  obtain ⟨s2, h2, h⟩ := Option.bind_eq_some.mp h
  obtain ⟨s3, h3, h⟩ := Option.bind_eq_some.mp h
  rw [Option.map_eq_some'] at h
  obtain ⟨s4, h4, h⟩ := h
  subst h
  have f0 := rebuildVertices_facts s
  have f1 := rebuildMotion_facts _ s1 h1
  have f2 := rebuildFaces_facts d s1 s2 h2
  have f3 := syncSubdivision_facts s2 s3 h3
  have f4 := syncPrimvars_facts e d dirtyBits s3 s4 h4
  have f5 := applyUsedShaders_facts s4
  have hm1 : s1.toHdCyclesMesh = s.toHdCyclesMesh := by
    rw [rebuildFrame_members f1.1, rebuildFrame_members f0.1]
  have hm3 : s3.toHdCyclesMesh = s.toHdCyclesMesh := by
    rw [rebuildFrame_members f3.1, rebuildFrame_members f2.1, hm1]
  refine ⟨by rw [f5.1, f4.1, f3.1, f2.1, f1.1, f0.1],
    by rw [f5.2.1, f4.2.1, f3.2.1, f2.2.1, f1.2.1, f0.2.1], ?_, ?_,
    by rw [f5.2.2.2.2, f4.2.2.2.2, f3.2.2.2.2, f2.2.2.2.2, f1.2.2.2.2, f0.2.2.2.2]⟩
  · obtain ⟨fm, hfm⟩ := f2.2.2.1
    refine ⟨fm, ?_⟩
    rw [f5.2.2.1, f4.2.2.1, f3.2.2.1, ← hfm, hm1, f1.2.2.1, f0.2.2.1]
  · obtain ⟨motion, hmotion, hsel⟩ := f1.2.2.2.1
    refine ⟨motion, hmotion, ?_⟩
    rw [f5.2.2.2.1, f4.2.2.2.1, f3.2.2.2.1, f2.2.2.2.1, hsel, f0.2.2.2.1, hm3]
    rfl

/-! ## `Sync`: from the rebuild to the release of the lock -/

theorem syncUpdate_facts (e : Renderer) (d : HdSceneDelegate) (dirtyBits : HdDirtyBits)
    (st st' : HdCyclesMeshState × SyncLocals) (h : syncUpdate e d dirtyBits st = some st') :
    ∃ s2, (if st.2.newMesh then syncRebuild e d dirtyBits st.1 else some st.1) = some s2
      ∧ syncFrame st'.1 = syncFrame s2
      ∧ st'.1.m_cyclesInstances = s2.m_cyclesInstances
      ∧ st'.1.scene = s2.scene
      ∧ st'.2.newMesh = st.2.newMesh := by
  unfold syncUpdate at h
  rw [Option.map_eq_some'] at h
  obtain ⟨s2, h2, h⟩ := h
  subst h
  refine ⟨s2, h2, ?_, ?_, ?_, ?_⟩
  · simp only []
    rw [(syncVisibility_frame d dirtyBits _).1, (syncMaterialId_frame e d dirtyBits _).1,
      (syncPrimId_frame d dirtyBits _).1, (syncTransform_frame d dirtyBits _).1]
  · simp only []
    rw [(syncVisibility_frame d dirtyBits _).2.1, (syncMaterialId_frame e d dirtyBits _).2.1,
      (syncPrimId_frame d dirtyBits _).2.1, (syncTransform_frame d dirtyBits _).2.1]
  · simp only []
    rw [(syncVisibility_frame d dirtyBits _).2.2.2, (syncMaterialId_frame e d dirtyBits _).2.2.2,
      (syncPrimId_frame d dirtyBits _).2.2.2, (syncTransform_frame d dirtyBits _).2.2.2.2]
  · simp only []
    rw [(syncVisibility_frame d dirtyBits _).2.2.1, (syncTransform_frame d dirtyBits _).2.2.2.1]

theorem mapM_some_length {ι β : Type} (f : ι → Option β) :
    ∀ (l : List ι) (ys : List β), l.mapM f = some ys → ys.length = l.length := by
  intro l
  induction l with
  | nil =>
    intro ys h
    rw [List.mapM_nil] at h
    cases h
    rfl
  | cons x xs ih =>
    intro ys h
    rw [List.mapM_cons] at h
    obtain ⟨y, _, h⟩ := Option.bind_eq_some.mp h
    obtain ⟨ys', h2, h⟩ := Option.bind_eq_some.mp h
    cases h
    rw [List.length_cons, List.length_cons, ih ys' h2]

theorem mapM_some_forall {ι β : Type} (f : ι → Option β) (P : β → Prop)
    (hP : ∀ x y, f x = some y → P y) :
    ∀ (l : List ι) (ys : List β), l.mapM f = some ys → ∀ y ∈ ys, P y := by
  intro l
  induction l with
  | nil =>
    intro ys h
    rw [List.mapM_nil] at h
    cases h
    intro y hy
    cases hy
  | cons x xs ih =>
    intro ys h
    rw [List.mapM_cons] at h
    obtain ⟨y, h1, h⟩ := Option.bind_eq_some.mp h
    obtain ⟨ys', h2, h⟩ := Option.bind_eq_some.mp h
    cases h
    intro z hz
    rcases List.mem_cons.mp hz with hz | hz
    · rw [hz]
      exact hP x y h1
    · exact ih ys' h2 z hz

theorem createInstances_facts (e : Renderer) (s : HdCyclesMeshState)
    (it : HdTimeSampleArray (List GfMatrix4d)) (n : Nat) (objects : List CyclesObject)
    (h : createInstances e s it n = some objects) :
    objects.length = n ∧ ∀ o ∈ objects, o.geometry = some s.id := by
  unfold createInstances at h
  obtain ⟨c, _, h⟩ := Option.bind_eq_some.mp h
  refine ⟨?_, ?_⟩
  · rw [mapM_some_length _ _ _ h, List.length_range]
  · apply mapM_some_forall (instanceObject e s c) (fun o => o.geometry = some s.id) _ _ _ h
    intro j o hj
    unfold instanceObject at hj
    obtain ⟨combined, _, hj⟩ := Option.bind_eq_some.mp hj
    obtain ⟨m, _, hj⟩ := Option.bind_eq_some.mp hj
    simp only [Option.some.injEq] at hj
    subst hj
    rfl

theorem syncInstances_report (e : Renderer) (d : HdSceneDelegate) (dirtyBits : HdDirtyBits)
    (st st' : HdCyclesMeshState × SyncLocals)
    (h : syncInstances e d dirtyBits st = some st')
    (hrun : (st.2.newMesh || dirtyBits.DirtyInstancer) = true)
    (it : HdTimeSampleArray (List GfMatrix4d)) (hi : d.instanceTransforms = some it) :
    ∃ n, newNumInstances it = some n
      ∧ st'.1.m_cyclesInstances.length = n
      ∧ (∀ o ∈ st'.1.m_cyclesInstances, o.geometry = some st.1.id)
      ∧ st'.1.scene = st.1.scene ++ st.1.m_cyclesInstances.map SceneEvent.RemoveObject
          ++ st'.1.m_cyclesInstances.map SceneEvent.AddObject
      ∧ (n ≠ 0 → st'.1.m_visibilityFlags = 0)
      ∧ (n = 0 → st'.1.m_visibilityFlags = st.1.m_visibilityFlags)
      ∧ st'.2.mesh_updated = true := by
  unfold syncInstances at h
  rw [if_pos hrun, hi] at h
  simp only [] at h
  obtain ⟨n, hn, h⟩ := Option.bind_eq_some.mp h
  refine ⟨n, hn, ?_⟩
  by_cases h0 : n ≠ 0
  · rw [if_pos h0] at h
    rw [Option.map_eq_some'] at h
    obtain ⟨objects, ho, h⟩ := h
    subst h
    have f := createInstances_facts e _ it n objects ho
    refine ⟨?_, ?_, ?_, fun _ => rfl, fun hz => absurd hz h0, rfl⟩
    · simp [pushInstances, clearInstances, f.1]
    · intro o hmem
      have : o ∈ objects := by simpa [pushInstances, clearInstances] using hmem
      exact f.2 o this
    · simp [pushInstances, clearInstances]
  · rw [if_neg h0] at h
    simp only [Option.some.injEq] at h
    subst h
    have hz : n = 0 := by
      by_contra hc
      exact h0 hc
    refine ⟨?_, ?_, ?_, fun hc => absurd hz hc, fun _ => rfl, rfl⟩
    · simp [clearInstances, hz]
    · intro o hmem
      simp [clearInstances] at hmem
    · simp [clearInstances]

theorem syncFinish_facts (e : Renderer) (st : HdCyclesMeshState × SyncLocals) :
    (syncFinish e st).toHdCyclesMesh = st.1.toHdCyclesMesh
      ∧ (syncFinish e st).m_points = st.1.m_points
      ∧ (syncFinish e st).id = st.1.id
      ∧ (syncFinish e st).m_cyclesMesh.verts = st.1.m_cyclesMesh.verts
      ∧ (syncFinish e st).m_cyclesMesh.toMesh = st.1.m_cyclesMesh.toMesh
      ∧ (syncFinish e st).m_cyclesInstances = st.1.m_cyclesInstances
      ∧ (st.2.newMesh = false →
          (syncFinish e st).m_cyclesMesh.attributes = st.1.m_cyclesMesh.attributes
            ∧ (syncFinish e st).m_cyclesMesh.subd_attributes
              = st.1.m_cyclesMesh.subd_attributes)
      ∧ (st.2.newMesh = true →
          selectedAttributes (syncFinish e st) = selectedAttributes st.1
              ++ (if e.needGenerated then [Attribute.ATTR_STD_GENERATED] else [])
            ∧ unselectedAttributes (syncFinish e st) = unselectedAttributes st.1)
      ∧ ((st.2.mesh_updated || st.2.newMesh) = true →
          (syncFinish e st).m_cyclesObject.visibility = st.1.m_visibilityFlags
            ∧ (syncFinish e st).scene = st.1.scene
              ++ [SceneEvent.meshTagUpdate, SceneEvent.objectTagUpdate, SceneEvent.Interrupt,
                SceneEvent.unlock]) := by
  unfold syncFinish syncTag _FinishMesh addAttribute selectedAttributes unselectedAttributes
  by_cases h1 : st.2.newMesh = true
  · by_cases h2 : e.needGenerated = true
    · by_cases h3 : st.1.m_useSubdivision = true
      · simp [h1, h2, h3]
      · simp [h1, h2, h3]
    · simp [h1, h2]
  · by_cases h4 : st.2.mesh_updated = true
    · simp [h1, h4]
    · simp [h1, h4]

theorem sync_run (e : Renderer) (d : HdSceneDelegate) (dirtyBits : HdDirtyBits)
    (s : HdCyclesMeshState) (r : HdCyclesMeshState × HdDirtyBits)
    (h : Sync e d dirtyBits s = some r) :
    ∃ s2 st2 st3,
      (if rebuilds d dirtyBits s
        then syncRebuild e d dirtyBits
          { (syncPull d dirtyBits s).1 with scene := s.scene ++ [SceneEvent.lock] }
        else some { (syncPull d dirtyBits s).1 with scene := s.scene ++ [SceneEvent.lock] })
        = some s2
      ∧ syncFrame st2.1 = syncFrame s2
      ∧ st2.1.m_cyclesInstances = s2.m_cyclesInstances
      ∧ st2.1.scene = s2.scene
      ∧ st2.2.newMesh = rebuilds d dirtyBits s
      ∧ syncInstances e d dirtyBits st2 = some st3
      ∧ r = (syncFinish e st3, HdDirtyBits.Clean) := by
  unfold Sync at h
  rw [Option.map_eq_some'] at h
  obtain ⟨st3, h, hr⟩ := h
  obtain ⟨st2, h2, h3⟩ := Option.bind_eq_some.mp h
  rw [syncPull_scene] at h2
  obtain ⟨s2, hs2, f1, f2, f3, f4⟩ := syncUpdate_facts e d dirtyBits _ st2 h2
  exact ⟨s2, st2, st3, hs2, f1, f2, f3, f4, h3, hr.symm⟩

/-- C13: a `Sync` called with an empty dirty-bit set returns and changes nothing but the
record of the scene calls, to which it adds the lock and the unlock: the renderer mesh
(vertices, faces, attribute sets), the prototype object, the instance objects and every
member of the prim stay as they are, the scene is not tagged or interrupted, and any number
of such calls, whatever the delegates answer, leaves the same state. -/
theorem sync_clean_changes_nothing (e : Renderer) (s : HdCyclesMeshState)
    (delegates : List HdSceneDelegate) :
    (∀ d : HdSceneDelegate, Sync e d HdDirtyBits.Clean s
        = some ({ s with scene := s.scene ++ [SceneEvent.lock, SceneEvent.unlock] },
            HdDirtyBits.Clean))
      ∧ syncAll e (delegates.map (fun d => (d, HdDirtyBits.Clean))) s
        = some { s with scene := s.scene
            ++ delegates.flatMap (fun _ => [SceneEvent.lock, SceneEvent.unlock]) } := by
  have hone : ∀ (t : HdCyclesMeshState) (d : HdSceneDelegate), Sync e d HdDirtyBits.Clean t
      = some ({ t with scene := t.scene ++ [SceneEvent.lock, SceneEvent.unlock] },
          HdDirtyBits.Clean) :=
    fun t d => sync_quiet e d HdDirtyBits.Clean t rfl rfl rfl rfl rfl rfl rfl rfl rfl rfl
  refine ⟨hone s, ?_⟩
  induction delegates generalizing s with
  | nil => simp [syncAll]
  | cons d ds ih =>
    rw [List.map_cons, syncAll, hone s d]
    simp only [Option.some_bind]
    rw [ih]
    simp [List.flatMap_cons, List.append_assoc]

theorem syncFrame_fields {a b : HdCyclesMeshState} (h : syncFrame a = syncFrame b) :
    a.toHdCyclesMesh = b.toHdCyclesMesh ∧ a.m_points = b.m_points ∧ a.id = b.id
      ∧ a.m_cyclesMesh.verts = b.m_cyclesMesh.verts
      ∧ a.m_cyclesMesh.toMesh = b.m_cyclesMesh.toMesh
      ∧ a.m_cyclesMesh.attributes = b.m_cyclesMesh.attributes
      ∧ a.m_cyclesMesh.subd_attributes = b.m_cyclesMesh.subd_attributes
      ∧ selectedAttributes a = selectedAttributes b
      ∧ unselectedAttributes a = unselectedAttributes b := by
  unfold syncFrame meshBuffers at h
  simp only [Prod.mk.injEq] at h
  obtain ⟨h1, h2, h3, h4, h5, h6, h7⟩ := h
  refine ⟨h1, h2, h3, h4, h5, h6, h7, ?_, ?_⟩
  · unfold selectedAttributes
    rw [h6, h7, h1]
  · unfold unselectedAttributes
    rw [h6, h7, h1]

theorem rebuildFrame_fields {a b : HdCyclesMeshState} (h : rebuildFrame a = rebuildFrame b) :
    a.toHdCyclesMesh = b.toHdCyclesMesh ∧ a.id = b.id ∧ a.m_points = b.m_points
      ∧ a.m_cyclesInstances = b.m_cyclesInstances ∧ a.scene = b.scene
      ∧ a.m_visibilityFlags = b.m_visibilityFlags := by
  unfold rebuildFrame at h
  simp only [Prod.mk.injEq] at h
  exact ⟨h.1, h.2.1, h.2.2.1, h.2.2.2.1, h.2.2.2.2.1, h.2.2.2.2.2.1⟩

theorem pullFrame_fields {a b : HdCyclesMeshState} (h : pullFrame a = pullFrame b) :
    a.id = b.id ∧ a.m_cyclesMesh = b.m_cyclesMesh ∧ a.m_cyclesObject = b.m_cyclesObject
      ∧ a.m_cyclesInstances = b.m_cyclesInstances ∧ a.scene = b.scene
      ∧ a.m_visibilityFlags = b.m_visibilityFlags ∧ a.m_subdivEnabled = b.m_subdivEnabled := by
  unfold pullFrame at h
  simp only [Prod.mk.injEq] at h
  exact ⟨h.1, h.2.1, h.2.2.1, h.2.2.2.1, h.2.2.2.2.1, h.2.2.2.2.2.2.2.1,
    h.2.2.2.2.2.2.2.2.2.2.1⟩

theorem syncPull_points (d : HdSceneDelegate) (dirtyBits : HdDirtyBits)
    (s : HdCyclesMeshState) (hP : dirtyBits.DirtyPoints = true)
    (hne : d.points.GetVec3fArray ≠ []) :
    (syncPull d dirtyBits s).1.m_points = d.points.GetVec3fArray := by
  unfold syncPull
  rw [(syncSubdivTags_frame d dirtyBits _).2.2.2.1, (syncDisplayStyle_frame d dirtyBits _).2.2.2.1,
    (syncDoubleSided_frame d dirtyBits _).2.2.2.1, (syncTopologyBlock_frame d dirtyBits _).2.2]
  exact (syncPoints_dirty d dirtyBits _ hP hne).2.1

theorem syncPull_topology (d : HdSceneDelegate) (dirtyBits : HdDirtyBits)
    (s : HdCyclesMeshState) (hT : dirtyBits.DirtyTopology = true) :
    (syncPull d dirtyBits s).1.m_faceVertexCounts = d.meshTopology.faceVertexCounts
      ∧ (syncPull d dirtyBits s).1.m_faceVertexIndices = d.meshTopology.faceVertexIndices
      ∧ (syncPull d dirtyBits s).1.m_orientation = d.meshTopology.orientation := by
  unfold syncPull
  rw [(syncSubdivTags_frame d dirtyBits _).2.2.1, (syncDisplayStyle_frame d dirtyBits _).2.2.1,
    (syncDoubleSided_frame d dirtyBits _).2.2.1]
  unfold syncTopologyBlock
  simp only [hT, if_true]
  unfold syncTopology
  simp only []
  split_ifs <;> exact ⟨rfl, rfl, rfl⟩

/-- The members of the topology builder, the points and the id after a `Sync` are those at
the end of the pull of the scene data. -/
theorem sync_members (e : Renderer) (d : HdSceneDelegate) (dirtyBits : HdDirtyBits)
    (s : HdCyclesMeshState) (r : HdCyclesMeshState × HdDirtyBits)
    (h : Sync e d dirtyBits s = some r) :
    r.1.toHdCyclesMesh = (syncPull d dirtyBits s).1.toHdCyclesMesh
      ∧ r.1.m_points = (syncPull d dirtyBits s).1.m_points
      ∧ r.1.id = s.id := by
  obtain ⟨s2, st2, st3, hs2, f1, _, _, _, h3, hr⟩ := sync_run e d dirtyBits s r h
  have g3 := syncFrame_fields (syncInstances_frame e d dirtyBits st2 st3 h3).1
  have g2 := syncFrame_fields f1
  have gf := syncFinish_facts e st3
  have hid : (syncPull d dirtyBits s).1.id = s.id :=
    (pullFrame_fields (syncPull_frame d dirtyBits s)).1
  have gs : s2.toHdCyclesMesh = (syncPull d dirtyBits s).1.toHdCyclesMesh
      ∧ s2.m_points = (syncPull d dirtyBits s).1.m_points
      ∧ s2.id = (syncPull d dirtyBits s).1.id := by
    by_cases hb : rebuilds d dirtyBits s = true
    · rw [if_pos hb] at hs2
      have := rebuildFrame_fields (syncRebuild_facts e d dirtyBits _ s2 hs2).1
      exact ⟨this.1, this.2.2.1, this.2.1⟩
    · rw [if_neg hb] at hs2
      simp only [Option.some.injEq] at hs2
      subst hs2
      exact ⟨rfl, rfl, rfl⟩
  subst hr
  refine ⟨?_, ?_, ?_⟩
  · rw [gf.1, g3.1, g2.1, gs.1]
  · rw [gf.2.1, g3.2.1, g2.2.1, gs.2.1]
  · rw [gf.2.2.1, g3.2.2.1, g2.2.2.1, gs.2.2, hid]

theorem syncExtComputation_newMesh (d : HdSceneDelegate) (dirtyBits : HdDirtyBits)
    (st : HdCyclesMeshState × SyncLocals) :
    (syncExtComputation d dirtyBits st).2.newMesh
        = (st.2.newMesh || computedPointsRebuild d dirtyBits)
      ∧ (syncExtComputation d dirtyBits st).1.m_refineLevel = st.1.m_refineLevel := by
  unfold syncExtComputation computedPointsRebuild
  cases hf : d.extComputationPrimvarDescriptors.find?
      (fun desc => decide (desc.name = "points")) with
  | none =>
    have hany : d.extComputationPrimvarDescriptors.any
        (fun desc => decide (desc.name = "points")) = false := by
      rw [List.any_eq_false]
      intro x hx
      exact List.find?_eq_none.mp hf x hx
    simp [hany]
  | some desc =>
    have hname : desc.name = "points" := by
      have := List.find?_some hf
      simpa using this
    have hany : d.extComputationPrimvarDescriptors.any
        (fun desc => decide (desc.name = "points")) = true := by
      rw [List.any_eq_true]
      exact ⟨desc, List.mem_of_find?_eq_some hf, by simp [hname]⟩
    simp only [hname, isPrimvarDirty_points, hany, Bool.true_and]
    cases hP : dirtyBits.DirtyPoints with
    | false => simp
    | true =>
      cases hv : d.computedPrimvarValues "points" with
      | none => simp
      | some value =>
        cases he : value.IsEmpty with
        | false => simp [he]
        | true => simp [he]

theorem syncPoints_newMesh (d : HdSceneDelegate) (dirtyBits : HdDirtyBits)
    (st : HdCyclesMeshState × SyncLocals) :
    (syncPoints d dirtyBits st).2.newMesh
        = (st.2.newMesh || (dirtyBits.DirtyPoints && !d.points.GetVec3fArray.isEmpty))
      ∧ (syncPoints d dirtyBits st).1.m_refineLevel = st.1.m_refineLevel := by
  unfold syncPoints
  rw [isPrimvarDirty_points]
  cases hP : dirtyBits.DirtyPoints with
  | false => simp
  | true =>
    cases hv : d.points with
    | empty => simp [VtValue.IsEmpty, VtValue.GetVec3fArray]
    | vec2fArray a => simp [VtValue.IsEmpty, VtValue.GetVec3fArray]
    | other => simp [VtValue.IsEmpty, VtValue.GetVec3fArray]
    | vec3fArray a =>
      cases a with
      | nil => simp [VtValue.IsEmpty, VtValue.GetVec3fArray]
      | cons p ps => simp [VtValue.IsEmpty, VtValue.GetVec3fArray]

theorem syncTopologyBlock_newMesh (d : HdSceneDelegate) (dirtyBits : HdDirtyBits)
    (st : HdCyclesMeshState × SyncLocals) :
    (syncTopologyBlock d dirtyBits st).2.newMesh = (st.2.newMesh || dirtyBits.DirtyTopology)
      ∧ (syncTopologyBlock d dirtyBits st).1.m_refineLevel = st.1.m_refineLevel := by
  unfold syncTopologyBlock
  cases hT : dirtyBits.DirtyTopology with
  | false => simp
  | true => simp

theorem syncDisplayStyle_newMesh (d : HdSceneDelegate) (dirtyBits : HdDirtyBits)
    (st : HdCyclesMeshState × SyncLocals) :
    (syncDisplayStyle d dirtyBits st).2.newMesh
      = (st.2.newMesh
          || (dirtyBits.DirtyDisplayStyle && !decide (st.1.m_refineLevel = d.refineLevel))) := by
  unfold syncDisplayStyle
  cases hD : dirtyBits.DirtyDisplayStyle with
  | false => simp
  | true =>
    by_cases h2 : st.1.m_refineLevel = d.refineLevel
    · simp [h2]
    · simp [h2]

theorem syncSubdivTags_newMesh (d : HdSceneDelegate) (dirtyBits : HdDirtyBits)
    (st : HdCyclesMeshState × SyncLocals) :
    (syncSubdivTags d dirtyBits st).2.newMesh = (st.2.newMesh || dirtyBits.DirtySubdivTags) := by
  unfold syncSubdivTags
  cases hG : dirtyBits.DirtySubdivTags with
  | false => simp
  | true => simp

/-- `Sync` rebuilds exactly under `rebuildCondition`. -/
theorem rebuilds_eq (d : HdSceneDelegate) (dirtyBits : HdDirtyBits) (s : HdCyclesMeshState) :
    rebuilds d dirtyBits s = rebuildCondition d dirtyBits s := by
  unfold rebuilds syncPull rebuildCondition
  rw [syncSubdivTags_newMesh, syncDisplayStyle_newMesh, (syncDoubleSided_frame d dirtyBits _).2.1,
    (syncDoubleSided_frame d dirtyBits _).2.2.2.2, (syncTopologyBlock_newMesh d dirtyBits _).1,
    (syncTopologyBlock_newMesh d dirtyBits _).2, (syncPoints_newMesh d dirtyBits _).1,
    (syncPoints_newMesh d dirtyBits _).2, (syncExtComputation_newMesh d dirtyBits _).1,
    (syncExtComputation_newMesh d dirtyBits _).2]
  simp only [Bool.false_or]

/-- A `Sync` that does not rebuild and returns leaves the buffers of the mesh as they are. -/
theorem sync_no_rebuild_buffers (e : Renderer) (d : HdSceneDelegate) (dirtyBits : HdDirtyBits)
    (s : HdCyclesMeshState) (r : HdCyclesMeshState × HdDirtyBits)
    (h : Sync e d dirtyBits s = some r) (hb : rebuilds d dirtyBits s = false) :
    meshBuffers r.1 = meshBuffers s := by
  obtain ⟨s2, st2, st3, hs2, f1, _, _, f4, h3, hr⟩ := sync_run e d dirtyBits s r h
  rw [hb] at hs2 f4
  simp only [Bool.false_eq_true, if_false, Option.some.injEq] at hs2
  subst hs2
  have g2 := syncFrame_fields f1
  have fi := syncInstances_frame e d dirtyBits st2 st3 h3
  have g3 := syncFrame_fields fi.1
  have gf := syncFinish_facts e st3
  have hnew : st3.2.newMesh = false := by rw [fi.2, f4]
  have hmesh : (syncPull d dirtyBits s).1.m_cyclesMesh = s.m_cyclesMesh :=
    (pullFrame_fields (syncPull_frame d dirtyBits s)).2.1
  subst hr
  unfold meshBuffers
  rw [gf.2.2.2.1, gf.2.2.2.2.1, (gf.2.2.2.2.2.2.1 hnew).1, (gf.2.2.2.2.2.2.1 hnew).2,
    g3.2.2.2.1, g3.2.2.2.2.1, g3.2.2.2.2.2.1, g3.2.2.2.2.2.2.1,
    g2.2.2.2.1, g2.2.2.2.2.1, g2.2.2.2.2.2.1, g2.2.2.2.2.2.2.1]
  show ((syncPull d dirtyBits s).1.m_cyclesMesh.verts,
    (syncPull d dirtyBits s).1.m_cyclesMesh.toMesh,
    (syncPull d dirtyBits s).1.m_cyclesMesh.attributes,
    (syncPull d dirtyBits s).1.m_cyclesMesh.subd_attributes) = _
  rw [hmesh]

/-- C11 (amended): a `Sync` rebuilds the mesh exactly when Topology is dirty, or SubdivTags is
dirty, or DisplayStyle is dirty and the refine level of the delegate differs from the one the
prim holds, or Points is dirty and either the points value of the delegate holds a non-empty
array or an external computation for `points` yields a value that is not empty.  A `Sync`
that rebuilds and returns leaves the vertex buffer equal to the current points, the faces
equal to what `_PopulateFaces` emits for the current topology on the cleared mesh, and in the
attribute sets only the motion positions, the attributes of the primvars that are dirty in
this `Sync` and the generated coordinates: the attribute of a primvar that is not dirty is
cleared and not written again.  A `Sync` that does not rebuild and returns leaves the
vertices, the faces and both attribute sets of the mesh as they are.  The current points and
topology are those of the delegate when the respective bit is dirty. -/
theorem sync_rebuild_repopulates (e : Renderer) (d : HdSceneDelegate) (dirtyBits : HdDirtyBits)
    (s : HdCyclesMeshState) :
    rebuilds d dirtyBits s
        = (computedPointsRebuild d dirtyBits
            || (dirtyBits.DirtyPoints && !d.points.GetVec3fArray.isEmpty)
            || dirtyBits.DirtyTopology
            || (dirtyBits.DirtyDisplayStyle && !decide (s.m_refineLevel = d.refineLevel))
            || dirtyBits.DirtySubdivTags)
      ∧ (dirtyBits.DirtyTopology = true → rebuilds d dirtyBits s = true)
      ∧ (dirtyBits.DirtyPoints = true → d.points.GetVec3fArray ≠ [] →
          rebuilds d dirtyBits s = true)
      ∧ ∀ r, Sync e d dirtyBits s = some r →
        (rebuilds d dirtyBits s = true →
          r.1.m_cyclesMesh.verts = r.1.m_points
            ∧ (∃ a_faceMaterials,
                _PopulateFaces r.1.toHdCyclesMesh a_faceMaterials s.m_cyclesMesh.clear.toMesh
                  = some r.1.m_cyclesMesh.toMesh)
            ∧ (∃ motion : List Attribute, (∀ a ∈ motion, a.isMotion = true)
                ∧ selectedAttributes r.1 = motion
                  ++ allPrimvarRecords e d dirtyBits r.1.toHdCyclesMesh
                  ++ (if e.needGenerated then [Attribute.ATTR_STD_GENERATED] else []))
            ∧ unselectedAttributes r.1 = [])
        ∧ (rebuilds d dirtyBits s = false → meshBuffers r.1 = meshBuffers s)
        ∧ (dirtyBits.DirtyPoints = true → d.points.GetVec3fArray ≠ [] →
            r.1.m_points = d.points.GetVec3fArray)
        ∧ (dirtyBits.DirtyTopology = true →
            r.1.m_faceVertexCounts = d.meshTopology.faceVertexCounts
              ∧ r.1.m_faceVertexIndices = d.meshTopology.faceVertexIndices
              ∧ r.1.m_orientation = d.meshTopology.orientation) := by
  refine ⟨rebuilds_eq d dirtyBits s, rebuilds_of_topology d dirtyBits s,
    rebuilds_of_points d dirtyBits s, ?_⟩
  intro r h
  have hmem := sync_members e d dirtyBits s r h
  refine ⟨?_, sync_no_rebuild_buffers e d dirtyBits s r h, ?_, ?_⟩
  · intro hb
    obtain ⟨s2, st2, st3, hs2, f1, _, _, f4, h3, hr⟩ := sync_run e d dirtyBits s r h
    rw [if_pos hb] at hs2
    have fr := syncRebuild_facts e d dirtyBits _ s2 hs2
    have g2 := syncFrame_fields f1
    have fi := syncInstances_frame e d dirtyBits st2 st3 h3
    have g3 := syncFrame_fields fi.1
    have gf := syncFinish_facts e st3
    have hnew : st3.2.newMesh = true := by rw [fi.2, f4, hb]
    have gr := rebuildFrame_fields fr.1
    have hmesh : (syncPull d dirtyBits s).1.m_cyclesMesh = s.m_cyclesMesh :=
      (pullFrame_fields (syncPull_frame d dirtyBits s)).2.1
    subst hr
    refine ⟨?_, ?_, ?_, ?_⟩
    · rw [gf.2.2.2.1, g3.2.2.2.1, g2.2.2.2.1, fr.2.1, gf.2.1, g3.2.1, g2.2.1, gr.2.2.1]
    · obtain ⟨fm, hfm⟩ := fr.2.2.1
      refine ⟨fm, ?_⟩
      rw [gf.1, g3.1, g2.1, gr.1, gf.2.2.2.2.1, g3.2.2.2.2.1, g2.2.2.2.2.1, ← hfm]
      show _ = _PopulateFaces _ fm (syncPull d dirtyBits s).1.m_cyclesMesh.clear.toMesh
      rw [hmesh]
    · obtain ⟨motion, hmotion, hsel⟩ := fr.2.2.2.1
      refine ⟨motion, hmotion, ?_⟩
      rw [(gf.2.2.2.2.2.2.2.1 hnew).1, g3.2.2.2.2.2.2.2.1, g2.2.2.2.2.2.2.2.1, hsel,
        gf.1, g3.1, g2.1, gr.1]
    · rw [(gf.2.2.2.2.2.2.2.1 hnew).2, g3.2.2.2.2.2.2.2.2, g2.2.2.2.2.2.2.2.2,
        fr.2.2.2.2]
  · intro hP hne
    rw [hmem.2.1, syncPull_points d dirtyBits s hP hne]
  · intro hT
    have := syncPull_topology d dirtyBits s hT
    rw [hmem.1]
    exact this

/-- C11 (witness): the first `Sync` of a triangle rebuilds and returns with the three points
in the vertex buffer; with an external computation for `points` a `Sync` whose only dirty bit
is Points rebuilds although the points value holds an empty array, and without the
computation it does not. -/
theorem sync_rebuild_repopulates_witness :
    (∃ r, Sync plainRenderer triangleDelegate initialDirtyBits newPrim = some r
      ∧ r.1.m_cyclesMesh.verts = r.1.m_points
      ∧ r.1.m_points = trianglePoints
      ∧ r.1.m_faceVertexCounts = [3])
    ∧ rebuilds computedEmptyPointsDelegate onlyPointsDirty newPrim = true
    ∧ rebuilds emptyPointsDelegate onlyPointsDirty newPrim = false :=
  ⟨(match h : Sync plainRenderer triangleDelegate initialDirtyBits newPrim with
    | some r =>
      ⟨r, rfl,
        (((sync_rebuild_repopulates plainRenderer triangleDelegate initialDirtyBits
          newPrim).2.2.2 r h).1 (by decide)).1,
        ((sync_rebuild_repopulates plainRenderer triangleDelegate initialDirtyBits
          newPrim).2.2.2 r h).2.2.1 (by decide) (by decide),
        (((sync_rebuild_repopulates plainRenderer triangleDelegate initialDirtyBits
          newPrim).2.2.2 r h).2.2.2 (by decide)).1⟩
    | none => by
      have hs : (Sync plainRenderer triangleDelegate initialDirtyBits newPrim).isSome
          = true := by
        decide
      rw [h] at hs
      cases hs),
    (sync_rebuild_repopulates plainRenderer computedEmptyPointsDelegate onlyPointsDirty
      newPrim).1.trans (by decide),
    (sync_rebuild_repopulates plainRenderer emptyPointsDelegate onlyPointsDirty
      newPrim).1.trans (by decide)⟩

/-- C11 (counterexample). After a first `Sync` of a triangle with a UV set, a `Sync` whose
dirty bits are Points alone does not rebuild when the points value of the delegate holds an
empty array: the vertex buffer keeps the three old vertices while the points are empty.
With moved points it rebuilds, and the UV set, whose primvar is not dirty, is cleared and
not written again although the delegate still lists it. -/
theorem points_dirty_without_rebuild_or_attributes :
    (syncAll plainRenderer
        [(triangleDelegate, initialDirtyBits), (emptyPointsDelegate, onlyPointsDirty)]
        newPrim).map (fun s => (s.m_points, s.m_cyclesMesh.verts, s.m_cyclesMesh.attributes))
      = some ([], trianglePoints,
          [Attribute.uvSet "st" [{ x := 0, y := 0 }, { x := 1, y := 0 }, { x := 0, y := 1 }]
            HdInterpolation.HdInterpolationVertex])
    ∧ (syncAll plainRenderer
        [(triangleDelegate, initialDirtyBits), (raisedPointsDelegate, onlyPointsDirty)]
        newPrim).map (fun s => (s.m_points, s.m_cyclesMesh.verts, s.m_cyclesMesh.attributes))
      = some (raisedPoints, raisedPoints, []) := by
  decide

/-- C12 (amended): a `Sync` in which Points, Topology and SubdivTags are clean, and
DisplayStyle is clean or the refine level is unchanged, does not rebuild, whether or not
Primvar is dirty: when it returns, the vertex buffer, the faces and both attribute sets of
the renderer mesh are those of before the call, so no buffer is cleared and no attribute
writer is run with the new primvar values.  When the other bits that `Sync` tests are clean
as well, the call returns and changes nothing but the record of the scene calls. -/
theorem sync_primvar_dirty_does_not_rebuild (e : Renderer) (d : HdSceneDelegate)
    (dirtyBits : HdDirtyBits) (s : HdCyclesMeshState)
    (hP : dirtyBits.DirtyPoints = false) (hT : dirtyBits.DirtyTopology = false)
    (hG : dirtyBits.DirtySubdivTags = false)
    (hS : dirtyBits.DirtyDisplayStyle = false ∨ d.refineLevel = s.m_refineLevel) :
    rebuilds d dirtyBits s = false
      ∧ (∀ r, Sync e d dirtyBits s = some r → meshBuffers r.1 = meshBuffers s)
      ∧ (dirtyBits.DirtyDoubleSided = false → dirtyBits.DirtyDisplayStyle = false →
          dirtyBits.DirtyTransform = false → dirtyBits.DirtyPrimID = false →
          dirtyBits.DirtyMaterialId = false → dirtyBits.DirtyVisibility = false →
          dirtyBits.DirtyInstancer = false →
          Sync e d dirtyBits s
            = some ({ s with scene := s.scene ++ [SceneEvent.lock, SceneEvent.unlock] },
                HdDirtyBits.Clean)) := by
  have hb := rebuilds_false d dirtyBits s hP hT hG hS
  refine ⟨hb, ?_, ?_⟩
  · intro r h
    obtain ⟨s2, st2, st3, hs2, f1, _, _, f4, h3, hr⟩ := sync_run e d dirtyBits s r h
    rw [hb] at hs2 f4
    simp only [Bool.false_eq_true, if_false, Option.some.injEq] at hs2
    subst hs2
    have g2 := syncFrame_fields f1
    have fi := syncInstances_frame e d dirtyBits st2 st3 h3
    have g3 := syncFrame_fields fi.1
    have gf := syncFinish_facts e st3
    have hnew : st3.2.newMesh = false := by rw [fi.2, f4]
    have hmesh : (syncPull d dirtyBits s).1.m_cyclesMesh = s.m_cyclesMesh :=
      (pullFrame_fields (syncPull_frame d dirtyBits s)).2.1
    subst hr
    unfold meshBuffers
    rw [gf.2.2.2.1, gf.2.2.2.2.1, (gf.2.2.2.2.2.2.1 hnew).1, (gf.2.2.2.2.2.2.1 hnew).2,
      g3.2.2.2.1, g3.2.2.2.2.1, g3.2.2.2.2.2.1, g3.2.2.2.2.2.2.1,
      g2.2.2.2.1, g2.2.2.2.2.1, g2.2.2.2.2.2.1, g2.2.2.2.2.2.2.1]
    show ((syncPull d dirtyBits s).1.m_cyclesMesh.verts,
      (syncPull d dirtyBits s).1.m_cyclesMesh.toMesh,
      (syncPull d dirtyBits s).1.m_cyclesMesh.attributes,
      (syncPull d dirtyBits s).1.m_cyclesMesh.subd_attributes) = _
    rw [hmesh]
  · intro hD hS2 hX hI hM hV hN
    exact sync_quiet e d dirtyBits s hP hT hD hS2 hG hX hI hM hV hN

theorem sync_primvar_dirty_does_not_rebuild_witness :
    rebuilds editedUVsDelegate onlyPrimvarDirty newPrim = false
      ∧ Sync plainRenderer editedUVsDelegate onlyPrimvarDirty newPrim
        = some ({ newPrim with scene := newPrim.scene ++ [SceneEvent.lock, SceneEvent.unlock] },
            HdDirtyBits.Clean) :=
  match sync_primvar_dirty_does_not_rebuild plainRenderer editedUVsDelegate onlyPrimvarDirty
      newPrim rfl rfl rfl (Or.inl rfl) with
  | ⟨h1, _, h3⟩ => ⟨h1, h3 rfl rfl rfl rfl rfl rfl rfl⟩

/-- C12 (counterexample). After a first `Sync` of a triangle with the UV set `st`, the UV
values are edited and `Sync` is called with Primvar as the only dirty bit: the vertex
buffer, the triangles and the UV attribute of the renderer mesh are those of the first
`Sync`, the attribute still holds the old values. -/
theorem primvar_dirty_keeps_old_attribute :
    (syncAll plainRenderer
        [(triangleDelegate, initialDirtyBits), (editedUVsDelegate, onlyPrimvarDirty)]
        newPrim).map
        (fun s => (s.m_cyclesMesh.verts, s.m_cyclesMesh.triangles, s.m_cyclesMesh.attributes))
      = some (trianglePoints, [{ v0 := 0, v1 := 1, v2 := 2, shader := 0, smooth := true }],
          [Attribute.uvSet "st" [{ x := 0, y := 0 }, { x := 1, y := 0 }, { x := 0, y := 1 }]
            HdInterpolation.HdInterpolationVertex]) := by
  decide

/-- C14: a `Sync` that runs the instancing block (it rebuilds, or Instancer is dirty), with an
instancer that reports `M > 0` instances (`M` the number of transforms of its first sample),
and that returns, leaves exactly `M` instance objects, each with the renderer mesh of the
prim as its geometry, and visibility mask `0` on the prototype object.  The scene calls of
the `Sync` are: the lock, one `RemoveObject` per instance object that existed before, one
`AddObject` per new instance object, the tags of the mesh and of the object, the interrupt
and the unlock. -/
theorem sync_instances_created (e : Renderer) (d : HdSceneDelegate) (dirtyBits : HdDirtyBits)
    (s : HdCyclesMeshState) (r : HdCyclesMeshState × HdDirtyBits)
    (h : Sync e d dirtyBits s = some r)
    (hrun : rebuilds d dirtyBits s = true ∨ dirtyBits.DirtyInstancer = true)
    (instanceTransforms : HdTimeSampleArray (List GfMatrix4d))
    (hi : d.instanceTransforms = some instanceTransforms)
    (hcount : 0 < instanceTransforms.count) (first : List GfMatrix4d)
    (hfirst : instanceTransforms.values[0]? = some first) (hM : first ≠ []) :
    r.1.m_cyclesInstances.length = first.length
      ∧ (∀ o ∈ r.1.m_cyclesInstances, o.geometry = some s.id)
      ∧ r.1.m_cyclesObject.visibility = 0
      ∧ r.1.scene = s.scene ++ [SceneEvent.lock]
          ++ s.m_cyclesInstances.map SceneEvent.RemoveObject
          ++ r.1.m_cyclesInstances.map SceneEvent.AddObject
          ++ [SceneEvent.meshTagUpdate, SceneEvent.objectTagUpdate, SceneEvent.Interrupt,
            SceneEvent.unlock] := by
  obtain ⟨s2, st2, st3, hs2, f1, f2, f3, f4, h3, hr⟩ := sync_run e d dirtyBits s r h
  have hp := pullFrame_fields (syncPull_frame d dirtyBits s)
  have gs : s2.id = s.id ∧ s2.m_cyclesInstances = s.m_cyclesInstances
      ∧ s2.scene = s.scene ++ [SceneEvent.lock] := by
    by_cases hb : rebuilds d dirtyBits s = true
    · rw [if_pos hb] at hs2
      have := rebuildFrame_fields (syncRebuild_facts e d dirtyBits _ s2 hs2).1
      exact ⟨this.2.1.trans hp.1, this.2.2.2.1.trans hp.2.2.2.1, this.2.2.2.2.1⟩
    · rw [if_neg hb] at hs2
      simp only [Option.some.injEq] at hs2
      subst hs2
      exact ⟨hp.1, hp.2.2.2.1, rfl⟩
  have hrun2 : (st2.2.newMesh || dirtyBits.DirtyInstancer) = true := by
    rw [f4]
    rcases hrun with hb | hd
    · rw [hb]; rfl
    · rw [hd]; exact Bool.or_true _
  obtain ⟨n, hn, c1, c2, c3, c4, _, c6⟩ :=
    syncInstances_report e d dirtyBits st2 st3 h3 hrun2 instanceTransforms hi
  have hnM : n = first.length := by
    unfold newNumInstances at hn
    rw [if_pos hcount, hfirst] at hn
    simp only [Option.map_some', Option.some.injEq] at hn
    exact hn.symm
  have hn0 : n ≠ 0 := by
    rw [hnM]
    exact fun hz => hM (List.length_eq_zero.mp hz)
  have gf := syncFinish_facts e st3
  have hupd : (st3.2.mesh_updated || st3.2.newMesh) = true := by rw [c6]; rfl
  have hid2 : st2.1.id = s.id := (syncFrame_fields f1).2.2.1.trans gs.1
  subst hr
  refine ⟨?_, ?_, ?_, ?_⟩
  · rw [gf.2.2.2.2.2.1, c1, hnM]
  · intro o ho
    rw [gf.2.2.2.2.2.1] at ho
    rw [c2 o ho, hid2]
  · rw [(gf.2.2.2.2.2.2.2.2 hupd).1, c4 hn0]
  · rw [(gf.2.2.2.2.2.2.2.2 hupd).2, gf.2.2.2.2.2.1, c3, f3, f2, gs.2.2, gs.2.1]

theorem sync_instances_created_witness :
    ∃ r, Sync plainRenderer instancedDelegate initialDirtyBits newPrim = some r
      ∧ r.1.m_cyclesInstances.length = 2
      ∧ (∀ o ∈ r.1.m_cyclesInstances, o.geometry = some "/mesh")
      ∧ r.1.m_cyclesObject.visibility = 0 :=
  match h : Sync plainRenderer instancedDelegate initialDirtyBits newPrim with
  | some r =>
    match sync_instances_created plainRenderer instancedDelegate initialDirtyBits newPrim r h
        (Or.inl (by decide)) twoInstances rfl (by decide) [1, 1] rfl (by simp) with
    | ⟨h1, h2, h3, _⟩ => ⟨r, rfl, h1, h2, h3⟩
  | none => by
    have hs : (Sync plainRenderer instancedDelegate initialDirtyBits newPrim).isSome = true := by
      decide
    rw [h] at hs
    cases hs

/-- C15: a first `Sync` with an instancer that reports two instances, then a `Sync` with
Instancer dirty and an instancer that reports no instance: the instance list is empty and
the visibility mask of the prototype object is `0`, as is the member `m_visibilityFlags`. -/
theorem sync_no_instances_after_instancing_stays_hidden :
    (syncAll plainRenderer
        [(instancedDelegate, initialDirtyBits), (noInstanceDelegate, onlyInstancerDirty)]
        newPrim).map
        (fun s => (s.m_cyclesInstances.length, s.m_cyclesObject.visibility, s.m_visibilityFlags))
      = some (0, 0, 0) := by
  decide

/-- C18 (amended): when Topology is dirty, subdivision is used exactly when subdivision is
enabled in the configuration and the scheme of the topology is Catmull-Clark, whatever the
configured maximum subdivision `m` is: this holds at the end of the pull of the scene data
and in the state any returning `Sync` leaves. -/
theorem sync_subdivision_decision (e : Renderer) (d : HdSceneDelegate)
    (dirtyBits : HdDirtyBits) (s : HdCyclesMeshState) (m : Int)
    (hT : dirtyBits.DirtyTopology = true) :
    (syncPull d dirtyBits { s with m_maxSubdivision := m }).1.m_useSubdivision
        = (s.m_subdivEnabled && d.meshTopology.schemeIsCatmullClark)
      ∧ ∀ r, Sync e d dirtyBits { s with m_maxSubdivision := m } = some r →
          r.1.m_useSubdivision = (s.m_subdivEnabled && d.meshTopology.schemeIsCatmullClark) := by
  have h1 := syncPull_useSubdivision d dirtyBits { s with m_maxSubdivision := m } hT
  refine ⟨h1, ?_⟩
  intro r hr
  have := (sync_members e d dirtyBits _ r hr).1
  rw [← h1]
  show r.1.toHdCyclesMesh.m_useSubdivision = _
  rw [this]

theorem sync_subdivision_decision_witness :
    ∃ r, Sync plainRenderer quadDelegate initialDirtyBits
          { newSubdivPrim with m_maxSubdivision := 7 } = some r
      ∧ r.1.m_useSubdivision = true :=
  match h : Sync plainRenderer quadDelegate initialDirtyBits
      { newSubdivPrim with m_maxSubdivision := 7 } with
  | some r =>
    ⟨r, rfl, (sync_subdivision_decision plainRenderer quadDelegate initialDirtyBits
      newSubdivPrim 7 rfl).2 r h⟩
  | none => by
    have hs : (Sync plainRenderer quadDelegate initialDirtyBits
        { newSubdivPrim with m_maxSubdivision := 7 }).isSome = true := by
      decide
    rw [h] at hs
    cases hs

/-- C18 (counterexample). Subdivision enabled, a Catmull-Clark quad, configured maximum
subdivision `0` and refine level `5`: the `Sync` uses subdivision (one subdivision face, no
triangle); the maximum subdivision is only copied to `max_level`. -/
theorem subdivision_used_beyond_max_subdivision :
    newSubdivPrim.m_maxSubdivision = 0 ∧ quadDelegate.refineLevel = 5
      ∧ (Sync plainRenderer quadDelegate initialDirtyBits newSubdivPrim).map
          (fun r => (r.1.m_useSubdivision, r.1.m_cyclesMesh.subd_faces,
            r.1.m_cyclesMesh.triangles))
        = some (true, [{ corners := [0, 1, 2, 3], shader := 0, smooth := true }], [])
      ∧ (Sync plainRenderer quadDelegate initialDirtyBits newSubdivPrim).map
          (fun r => r.1.m_cyclesMesh.subd_params.map (fun p => p.max_level))
        = some (some 0) := by
  decide

/-- C19: Points is dirty, an external computation provides the non-empty `computedPoints`
for the primvar `points`, and the points primvar of the delegate holds the non-empty
`trianglePoints`: the rebuild uses `trianglePoints`, the value of the primvar, not the
computed value. -/
theorem computed_points_are_overwritten :
    (Sync plainRenderer computedPointsDelegate initialDirtyBits newPrim).map
        (fun r => (r.1.m_points, r.1.m_cyclesMesh.verts))
      = some (trianglePoints, trianglePoints)
    ∧ (syncExtComputation computedPointsDelegate initialDirtyBits
        (newPrim, { mesh_updated := false, newMesh := false, pointsIsComputed := false })).1.m_points
      = computedPoints := by
  decide

/-! ## The writers as a whole: Constant and Uniform colours, empty UV arrays -/

/-- A loop that reads the same element at every iteration stores that many copies of it. -/
theorem mapM_const_some {ι β : Type} (y : β) :
    ∀ l : List ι, l.mapM (fun _ : ι => some y) = some (List.replicate l.length y) := by
  intro l
  induction l with
  | nil => rfl
  | cons x xs ih =>
    rw [List.mapM_cons, ih]
    rfl

/-- C21: for Constant interpolation and a non-empty colour array `_AddColors` returns and
stores the converted `colors[0]` once per iteration of a loop that runs
`m_numMeshFaces * 3` times, with or without subdivision.  Without subdivision
`m_numMeshFaces` is the triangle count (two quads: 4 triangles, 12 entries).  With
subdivision it is the face count: for a quad and a triangle, whose face-vertex-counts sum to
7, the writer stores 6 entries, not one per corner. -/
theorem addColors_constant_three_per_face :
    (∀ (α β : Type) (conv : α → β) (s : HdCyclesMesh) (c0 : α) (rest : List α),
      _AddColors conv s (c0 :: rest) HdInterpolation.HdInterpolationConstant
        = some (some (List.replicate (sizeTLoopCount (s.m_numMeshFaces * 3)) (conv c0))))
      ∧ (syncTopology (meshWithVerts 8) twoQuadsTopology).m_useSubdivision = false
      ∧ (syncTopology (meshWithVerts 8) twoQuadsTopology).m_numMeshFaces = 4
      ∧ _AddColors (fun c : Nat => c) (syncTopology (meshWithVerts 8) twoQuadsTopology) [5]
          HdInterpolation.HdInterpolationConstant = some (some (List.replicate 12 5))
      ∧ (syncTopology (subdivMeshWithVerts 7)
          (quadAndTriangle Orientation.rightHanded)).m_useSubdivision = true
      ∧ (syncTopology (subdivMeshWithVerts 7)
          (quadAndTriangle Orientation.rightHanded)).m_faceVertexCounts.sum = 7
      ∧ (syncTopology (subdivMeshWithVerts 7)
          (quadAndTriangle Orientation.rightHanded)).m_numCorners = 7
      ∧ _AddColors (fun c : Nat => c)
          (syncTopology (subdivMeshWithVerts 7) (quadAndTriangle Orientation.rightHanded)) [5]
          HdInterpolation.HdInterpolationConstant = some (some (List.replicate 6 5)) := by
  refine ⟨?_, by decide, by decide, by decide, by decide, by decide, by decide, by decide⟩
  intro α β conv s c0 rest
  have hlen : ¬ (c0 :: rest).length ≤ 0 := by simp
  have hrun : _AddColors_Constant conv s (c0 :: rest)
      = some (List.replicate (sizeTLoopCount (s.m_numMeshFaces * 3)) (conv c0)) := by
    unfold _AddColors_Constant
    have h0 : ((c0 :: rest)[0]?).map conv = some (conv c0) := by
      rw [List.getElem?_cons_zero, Option.map_some']
    simp only [h0, ite_self]
    rw [mapM_const_some, List.length_range]
  unfold _AddColors
  rw [if_neg hlen]
  simp only [hrun, Option.map_some']

/-- C26: `_AddUVSet` has no test of the size of `uvs`.  With an empty array and an
interpolation whose branch reads nothing (Constant, for every mesh) it adds the UV attribute
`name` and calls `mikk_compute_tangents` for it; with an empty array and a triangle it reads
`uvs` outside the array in the Vertex and in the FaceVarying branch.  `_AddColors`, for the
same mesh and an empty array, returns before it adds an attribute. -/
theorem addUVSet_empty_array_not_skipped :
    (∀ (α β : Type) (conv : α → β) (s : HdCyclesMesh) (name : TfToken),
      _AddUVSet conv s name [] HdInterpolation.HdInterpolationConstant
        = some { uv_name := name, fdata := [], tangents_of := name, need_sign := true })
      ∧ _AddUVSet (fun uv : Nat => uv) leftHandedTriangle "st" []
          HdInterpolation.HdInterpolationVertex = none
      ∧ _AddUVSet (fun uv : Nat => uv) leftHandedTriangle "st" []
          HdInterpolation.HdInterpolationFaceVarying = none
      ∧ (∀ (α β : Type) (conv : α → β) (s : HdCyclesMesh) (interpolation : HdInterpolation),
          _AddColors conv s [] interpolation = some none) := by
  refine ⟨?_, by decide, by decide, ?_⟩
  · intro α β conv s name
    rfl
  · intro α β conv s interpolation
    rfl

/-! ## `_AddNormals` -/

theorem mapM_range_some {β : Type} (f : Nat → Option β) (g : Nat → β) :
    ∀ n : Nat, (∀ i, i < n → f i = some (g i)) →
      (List.range n).mapM f = some ((List.range n).map g) := by
  intro n
  induction n with
  | zero => intro _; rfl
  | succ n ih =>
    intro h
    rw [List.range_succ, List.mapM_append, ih (fun i hi => h i (by omega)), List.mapM_cons,
      List.mapM_nil, h n (by omega), List.map_append]
    rfl

/-- C22: in Vertex mode, given at least as many normals as the vertex buffer of the mesh has
vertices, `_AddNormals` returns, leaves the prim as it is and adds the vertex-normal
attribute with exactly one store per vertex: store `i` is `cdata[i] = normals[i]` for
RightHanded and, for LeftHanded, `cdata[i] = (-x, -y, -z)` with `(x, y, z) = normals[i]`;
every index stored to is below the vertex count. -/
theorem addNormals_vertex_one_per_vertex
    (add_face_normals add_vertex_normals : CyclesMesh → CyclesMesh) (fuel : Nat)
    (s : HdCyclesMeshState) (normals : List GfVec3f)
    (h : s.m_cyclesMesh.verts.length ≤ normals.length) :
    ∃ cdata : List (Int × GfVec3f),
      _AddNormals add_face_normals add_vertex_normals fuel s normals
          HdInterpolation.HdInterpolationVertex
        = Run.done (s, some (NormalsAttribute.ATTR_STD_VERTEX_NORMAL cdata))
      ∧ cdata.length = s.m_cyclesMesh.verts.length
      ∧ (∀ i : Nat, i < s.m_cyclesMesh.verts.length →
          ∃ n, normals[i]? = some n
            ∧ cdata[i]? = some ((i : Int),
                match s.m_orientation with
                | Orientation.rightHanded => n
                | Orientation.leftHanded => { x := -n.x, y := -n.y, z := -n.z }))
      ∧ (∀ p ∈ cdata, 0 ≤ p.1 ∧ p.1 < (s.m_cyclesMesh.verts.length : Int)) := by
  have hrun : _AddNormals_Vertex s normals
      = some ((List.range s.m_cyclesMesh.verts.length).map (fun i : Nat =>
          ((i : Int), if s.m_orientation = Orientation.leftHanded
            then (normals.getD i { x := 0, y := 0, z := 0 }).neg
            else normals.getD i { x := 0, y := 0, z := 0 }))) := by
    unfold _AddNormals_Vertex
    apply mapM_range_some
    intro i hi
    have hi2 : i < normals.length := by omega
    rw [List.getElem?_eq_getElem hi2, List.getD_eq_getElem _ _ hi2]
    rfl
  refine ⟨(List.range s.m_cyclesMesh.verts.length).map (fun i : Nat =>
      ((i : Int), if s.m_orientation = Orientation.leftHanded
        then (normals.getD i { x := 0, y := 0, z := 0 }).neg
        else normals.getD i { x := 0, y := 0, z := 0 })), ?_, ?_, ?_, ?_⟩
  · unfold _AddNormals
    simp only [hrun]
  · rw [List.length_map, List.length_range]
  · intro i hi
    have hi2 : i < normals.length := by omega
    refine ⟨normals[i], List.getElem?_eq_getElem hi2, ?_⟩
    rw [List.getElem?_map, List.getElem?_range hi, Option.map_some',
      List.getD_eq_getElem _ _ hi2]
    cases ho : s.m_orientation <;> simp [GfVec3f.neg]
  · intro p hp
    obtain ⟨i, hi, rfl⟩ := List.mem_map.mp hp
    have := List.mem_range.mp hi
    exact ⟨by simp, by simp only []; omega⟩

/-- C22 (witness): a LeftHanded triangle with three vertices and the three normals `(0, 0, 1)`,
`(1, 0, 1)`, `(0, 1, 1)`: the three stores are `cdata[0] = (0, 0, -1)`,
`cdata[1] = (-1, 0, -1)` and `cdata[2] = (0, -1, -1)`. -/
theorem addNormals_vertex_one_per_vertex_witness :
    (trianglePrim Orientation.leftHanded).m_cyclesMesh.verts.length ≤ raisedPoints.length
      ∧ ∃ cdata : List (Int × GfVec3f),
        _AddNormals (fun m => m) (fun m => m) 0 (trianglePrim Orientation.leftHanded)
            raisedPoints HdInterpolation.HdInterpolationVertex
          = Run.done (trianglePrim Orientation.leftHanded,
              some (NormalsAttribute.ATTR_STD_VERTEX_NORMAL cdata))
        ∧ cdata.length = 3
        ∧ cdata[0]? = some (0, { x := 0, y := 0, z := -1 })
        ∧ cdata[1]? = some (1, { x := -1, y := 0, z := -1 })
        ∧ cdata[2]? = some (2, { x := 0, y := -1, z := -1 }) :=
  ⟨by decide,
    match addNormals_vertex_one_per_vertex (fun m => m) (fun m => m) 0
      (trianglePrim Orientation.leftHanded) raisedPoints (by decide) with
    | ⟨cdata, h1, h2, h3, _⟩ =>
      ⟨cdata, h1, h2,
        (match h3 0 (by decide) with
          | ⟨n, hn, hc⟩ => by
            have hn0 : n = { x := 0, y := 0, z := 1 } :=
              Option.some.inj (hn.symm.trans (by decide))
            subst hn0
            exact hc),
        (match h3 1 (by decide) with
          | ⟨n, hn, hc⟩ => by
            have hn1 : n = { x := 1, y := 0, z := 1 } :=
              Option.some.inj (hn.symm.trans (by decide))
            subst hn1
            exact hc),
        (match h3 2 (by decide) with
          | ⟨n, hn, hc⟩ => by
            have hn2 : n = { x := 0, y := 1, z := 1 } :=
              Option.some.inj (hn.symm.trans (by decide))
            subst hn2
            exact hc)⟩⟩

/-- C23: in FaceVarying mode `_AddNormals` returns for every array of normals, and for two
arrays and the same prim before the call the prims after the call are the same: the mesh is
the one `add_face_normals` and `add_vertex_normals` of the renderer compute from the mesh
before the call, and no attribute is written from the array. -/
theorem addNormals_faceVarying_ignores_normals
    (add_face_normals add_vertex_normals : CyclesMesh → CyclesMesh) (fuel : Nat)
    (s : HdCyclesMeshState) (normals1 normals2 : List GfVec3f) :
    _AddNormals add_face_normals add_vertex_normals fuel s normals1
        HdInterpolation.HdInterpolationFaceVarying
      = _AddNormals add_face_normals add_vertex_normals fuel s normals2
        HdInterpolation.HdInterpolationFaceVarying
      ∧ ∃ s', _AddNormals add_face_normals add_vertex_normals fuel s normals1
            HdInterpolation.HdInterpolationFaceVarying = Run.done (s', none)
          ∧ s'.m_cyclesMesh = add_vertex_normals (add_face_normals s.m_cyclesMesh)
          ∧ s'.toHdCyclesMesh = s.toHdCyclesMesh :=
  ⟨rfl, _, rfl, rfl, rfl⟩

/-- With more than one sample, a run of `_PopulateMotion` that returns has set the
motion-step count and the motion-blur flag. -/
theorem populateMotion_steps (s s' : HdCyclesMeshState) (hn : 1 < s.m_pointSamples.count)
    (h : _PopulateMotion s = some s') :
    s'.m_cyclesMesh.motion_steps = s.m_pointSamples.count + 1
      ∧ s'.m_cyclesMesh.use_motion_blur = true := by
  unfold _PopulateMotion at h
  rw [if_neg (by omega)] at h
  by_cases hs : s.m_useSubdivision = true
  · simp only [hs, if_true] at h
    by_cases ha : s.m_cyclesMesh.subd_attributes.any Attribute.isMotion = true
    · rw [if_pos ha] at h
      cases h
    · rw [if_neg ha] at h
      obtain ⟨mP, _, h⟩ := Option.bind_eq_some.mp h
      simp only [Option.some.injEq] at h
      subst h
      exact ⟨rfl, rfl⟩
  · simp only [hs, Bool.false_eq_true, if_false] at h
    by_cases ha : s.m_cyclesMesh.attributes.any Attribute.isMotion = true
    · rw [if_pos ha] at h
      cases h
    · rw [if_neg ha] at h
      obtain ⟨mP, _, h⟩ := Option.bind_eq_some.mp h
      simp only [Option.some.injEq] at h
      subst h
      exact ⟨rfl, rfl⟩

/-- When the selected attribute set already holds motion positions, a call of
`_PopulateMotion` with more than one sample does not replace them by a fresh attribute:
`attributes->remove (attr_mP)` removes the attribute found, `if (!attr_mP)` skips `add`
because the pointer is not null, and the keyframes are stored through the pointer to the
removed attribute.  The run is undefined. -/
theorem populateMotion_existing_attribute_not_replaced (s : HdCyclesMeshState)
    (hn : 1 < s.m_pointSamples.count)
    (hex : (selectedAttributes s).any Attribute.isMotion = true) :
    _PopulateMotion s = none := by
  unfold _PopulateMotion
  rw [if_neg (by omega)]
  have hex2 : (if s.m_useSubdivision = true then s.m_cyclesMesh.subd_attributes
      else s.m_cyclesMesh.attributes).any Attribute.isMotion = true := hex
  simp only [hex2, if_true]

/-- C28: with at most one sample `_PopulateMotion` returns and leaves the prim, and so the
motion-step count, the motion-blur flag and both attribute sets of its mesh, as they are.
With `n > 1` samples every run that returns leaves the motion-step count `n + 1` and the
motion-blur flag set; the run returns when the samples hold `n` times and `n` values, the
selected attribute set holds no motion positions and every sample with a non-zero time holds
at least `m_numMeshVerts` positions. -/
theorem populateMotion_static_noop_else_steps (s : HdCyclesMeshState) :
    (s.m_pointSamples.count ≤ 1 → _PopulateMotion s = some s)
      ∧ (1 < s.m_pointSamples.count →
          (∀ s', _PopulateMotion s = some s' →
            s'.m_cyclesMesh.motion_steps = s.m_pointSamples.count + 1
              ∧ s'.m_cyclesMesh.use_motion_blur = true)
          ∧ (s.m_pointSamples.count ≤ s.m_pointSamples.times.length →
              s.m_pointSamples.count ≤ s.m_pointSamples.values.length →
              (selectedAttributes s).any Attribute.isMotion = false →
              samplesFit s.m_numMeshVerts (motionSamples s) = true →
              ∃ s', _PopulateMotion s = some s'
                ∧ s'.m_cyclesMesh.motion_steps = s.m_pointSamples.count + 1)) := by
  refine ⟨?_, ?_⟩
  · intro hn
    unfold _PopulateMotion
    rw [if_pos hn]
  · intro hn
    refine ⟨fun s' h => populateMotion_steps s s' hn h, ?_⟩
    intro ht hv hfresh hfit
    have hrun := populateMotion_run s hn ht hv hfresh
    rw [if_pos hfit] at hrun
    exact ⟨_, hrun, motion_steps_withMotion s _⟩

/-- C28 (witness): a prim without samples is left as it is, with motion-step count `0`; a
prim with two samples gets the motion-step count `3`. -/
theorem populateMotion_static_noop_else_steps_witness :
    (trianglePrim Orientation.rightHanded).m_pointSamples.count ≤ 1
      ∧ _PopulateMotion (trianglePrim Orientation.rightHanded)
          = some (trianglePrim Orientation.rightHanded)
      ∧ (trianglePrim Orientation.rightHanded).m_cyclesMesh.motion_steps = 0
      ∧ 1 < (movingTriangle [0, 1] raisedPoints).m_pointSamples.count
      ∧ ∃ s', _PopulateMotion (movingTriangle [0, 1] raisedPoints) = some s'
          ∧ s'.m_cyclesMesh.motion_steps = 2 + 1 :=
  ⟨by decide,
    (populateMotion_static_noop_else_steps (trianglePrim Orientation.rightHanded)).1
      (by decide),
    by decide, by decide,
    ((populateMotion_static_noop_else_steps (movingTriangle [0, 1] raisedPoints)).2
      (by decide)).2 (by decide) (by decide) (by decide) (by decide)⟩

/-! ## `Sync`: the PrimID and MaterialId blocks -/

theorem syncPrimId_scene (d : HdSceneDelegate) (dirtyBits : HdDirtyBits)
    (s : HdCyclesMeshState) (x : List SceneEvent) :
    syncPrimId d dirtyBits { s with scene := x }
      = { syncPrimId d dirtyBits s with scene := x } := by
  unfold syncPrimId
  by_cases h : dirtyBits.DirtyPrimID = true
  · simp [h]
  · simp [h]

theorem syncMaterialId_scene (e : Renderer) (d : HdSceneDelegate) (dirtyBits : HdDirtyBits)
    (s : HdCyclesMeshState) (x : List SceneEvent) :
    syncMaterialId e d dirtyBits { s with scene := x }
      = { syncMaterialId e d dirtyBits s with scene := x } := by
  unfold syncMaterialId
  by_cases h : dirtyBits.DirtyMaterialId = true
  · by_cases h2 : s.m_faceVertexCounts.length > 0
    · simp [h, h2]
    · simp [h, h2]
  · simp [h]

/-- A `Sync` whose dirty bits are among MaterialId, PrimID and the three bits only
`IsPrimvarDirty` reads. -/
theorem sync_material_primId (e : Renderer) (d : HdSceneDelegate) (dirtyBits : HdDirtyBits)
    (s : HdCyclesMeshState)
    (hP : dirtyBits.DirtyPoints = false) (hT : dirtyBits.DirtyTopology = false)
    (hD : dirtyBits.DirtyDoubleSided = false) (hS : dirtyBits.DirtyDisplayStyle = false)
    (hG : dirtyBits.DirtySubdivTags = false) (hX : dirtyBits.DirtyTransform = false)
    (hV : dirtyBits.DirtyVisibility = false) (hN : dirtyBits.DirtyInstancer = false) :
    Sync e d dirtyBits s
      = some ({ syncMaterialId e d dirtyBits (syncPrimId d dirtyBits s)
          with scene := s.scene ++ [SceneEvent.lock, SceneEvent.unlock] },
        HdDirtyBits.Clean) := by
  simp only [Sync, syncPull_quiet d dirtyBits _ hP hT hD hS hG]
  simp [syncUpdate, syncFinish, syncTransform, syncVisibility, syncInstances, syncTag,
    hX, hV, hN, syncPrimId_scene, syncMaterialId_scene]

theorem syncUpdate_eq (e : Renderer) (d : HdSceneDelegate) (dirtyBits : HdDirtyBits)
    (st st' : HdCyclesMeshState × SyncLocals) (h : syncUpdate e d dirtyBits st = some st') :
    ∃ s2, (if st.2.newMesh then syncRebuild e d dirtyBits st.1 else some st.1) = some s2
      ∧ st' = syncVisibility d dirtyBits
          (syncMaterialId e d dirtyBits
            (syncPrimId d dirtyBits (syncTransform d dirtyBits (s2, st.2)).1),
            (syncTransform d dirtyBits (s2, st.2)).2) := by
  unfold syncUpdate at h
  rw [Option.map_eq_some'] at h
  obtain ⟨s2, h2, h⟩ := h
  exact ⟨s2, h2, h.symm⟩

theorem syncTransform_shaders (d : HdSceneDelegate) (dirtyBits : HdDirtyBits)
    (st : HdCyclesMeshState × SyncLocals) :
    (syncTransform d dirtyBits st).1.m_usedShaders = st.1.m_usedShaders
      ∧ (syncTransform d dirtyBits st).1.m_hasVertexColors = st.1.m_hasVertexColors := by
  unfold syncTransform
  by_cases h : dirtyBits.DirtyTransform = true
  · rw [if_pos h]
    cases hp : st.1.m_cyclesMesh.subd_params <;> simp [hp]
  · rw [if_neg h]
    exact ⟨rfl, rfl⟩

theorem syncPrimId_shaders (d : HdSceneDelegate) (dirtyBits : HdDirtyBits)
    (s : HdCyclesMeshState) :
    (syncPrimId d dirtyBits s).m_usedShaders = s.m_usedShaders
      ∧ (syncPrimId d dirtyBits s).m_hasVertexColors = s.m_hasVertexColors := by
  unfold syncPrimId
  by_cases h : dirtyBits.DirtyPrimID = true
  · rw [if_pos h]
    exact ⟨rfl, rfl⟩
  · rw [if_neg h]
    exact ⟨rfl, rfl⟩

/-- The MaterialId block, for a dirty material id and a face list that is not empty. -/
theorem syncMaterialId_appends (e : Renderer) (d : HdSceneDelegate) (dirtyBits : HdDirtyBits)
    (s : HdCyclesMeshState) (hM : dirtyBits.DirtyMaterialId = true)
    (hF : 0 < s.m_faceVertexCounts.length) :
    shaderMembers (syncMaterialId e d dirtyBits s)
      = (s.m_usedShaders ++ [materialShader e d s.m_hasVertexColors],
          s.m_usedShaders ++ [materialShader e d s.m_hasVertexColors],
          s.m_hasVertexColors, d.materialId) := by
  have hF2 : s.m_faceVertexCounts.length > 0 := hF
  unfold syncMaterialId shaderMembers materialShader fallbackShader
  simp only [hM, if_true, hF2]

theorem syncVisibility_shaders (d : HdSceneDelegate) (dirtyBits : HdDirtyBits)
    (st : HdCyclesMeshState × SyncLocals) :
    shaderMembers (syncVisibility d dirtyBits st).1 = shaderMembers st.1 := by
  unfold syncVisibility
  by_cases h : dirtyBits.DirtyVisibility = true
  · rw [if_pos h]
    by_cases hv : d.visible = true
    · simp [hv, shaderMembers]
    · simp [hv, shaderMembers]
  · rw [if_neg h]

theorem syncInstances_shaders (e : Renderer) (d : HdSceneDelegate) (dirtyBits : HdDirtyBits)
    (st st' : HdCyclesMeshState × SyncLocals)
    (h : syncInstances e d dirtyBits st = some st') :
    shaderMembers st'.1 = shaderMembers st.1 := by
  unfold syncInstances at h
  by_cases hrun : (st.2.newMesh || dirtyBits.DirtyInstancer) = true
  · rw [if_pos hrun] at h
    cases hi : d.instanceTransforms with
    | none =>
      rw [hi] at h
      simp only [Option.some.injEq] at h
      subst h
      rfl
    | some it =>
      rw [hi] at h
      obtain ⟨n, _, h⟩ := Option.bind_eq_some.mp h
      by_cases hn : n ≠ 0
      · rw [if_pos hn, Option.map_eq_some'] at h
        obtain ⟨objects, _, h⟩ := h
        subst h
        rfl
      · rw [if_neg hn] at h
        simp only [Option.some.injEq] at h
        subst h
        rfl
  · rw [if_neg hrun] at h
    simp only [Option.some.injEq] at h
    subst h
    rfl

theorem syncFinish_shaders (e : Renderer) (st : HdCyclesMeshState × SyncLocals) :
    shaderMembers (syncFinish e st) = shaderMembers st.1 := by
  unfold syncFinish syncTag _FinishMesh addAttribute shaderMembers
  by_cases h1 : st.2.newMesh = true <;> by_cases h2 : e.needGenerated = true
    <;> by_cases h3 : st.1.m_useSubdivision = true <;> by_cases h4 : st.2.mesh_updated = true
    <;> simp [h1, h2, h3, h4]

theorem syncPull_hasVertexColors (d : HdSceneDelegate) (dirtyBits : HdDirtyBits)
    (s : HdCyclesMeshState) :
    (syncPull d dirtyBits s).1.m_hasVertexColors = s.m_hasVertexColors := by
  have h1 : ∀ st : HdCyclesMeshState × SyncLocals,
      (syncExtComputation d dirtyBits st).1.m_hasVertexColors = st.1.m_hasVertexColors := by
    intro st
    unfold syncExtComputation
    cases d.extComputationPrimvarDescriptors.find? (fun desc => decide (desc.name = "points")) with
    | none => rfl
    | some desc =>
      by_cases h1 : IsPrimvarDirty dirtyBits desc.name = true
      · cases h2 : d.computedPrimvarValues desc.name with
        | none => simp [h1, h2]
        | some value =>
          by_cases h3 : value.IsEmpty = true
          · simp [h1, h2, h3]
          · simp [h1, h2, h3]
      · simp [h1]
  have h2 : ∀ st : HdCyclesMeshState × SyncLocals,
      (syncPoints d dirtyBits st).1.m_hasVertexColors = st.1.m_hasVertexColors := by
    intro st
    unfold syncPoints
    by_cases h1 : IsPrimvarDirty dirtyBits "points" = true
    · by_cases h2 : d.points.IsEmpty = true
      · simp [h1, h2]
      · by_cases h3 : d.points.GetVec3fArray.length > 0
        · simp [h1, h2, h3]
        · simp [h1, h2, h3]
    · simp [h1]
  have h3 : ∀ st : HdCyclesMeshState × SyncLocals,
      (syncTopologyBlock d dirtyBits st).1.m_hasVertexColors = st.1.m_hasVertexColors := by
    intro st
    unfold syncTopologyBlock
    by_cases h1 : dirtyBits.DirtyTopology = true
    · simp [h1]
    · simp [h1]
  have h4 : ∀ st : HdCyclesMeshState × SyncLocals,
      (syncDoubleSided d dirtyBits st).1.m_hasVertexColors = st.1.m_hasVertexColors := by
    intro st
    unfold syncDoubleSided
    by_cases h1 : dirtyBits.DirtyDoubleSided = true
    · simp [h1]
    · simp [h1]
  have h5 : ∀ st : HdCyclesMeshState × SyncLocals,
      (syncDisplayStyle d dirtyBits st).1.m_hasVertexColors = st.1.m_hasVertexColors := by
    intro st
    unfold syncDisplayStyle
    by_cases h1 : dirtyBits.DirtyDisplayStyle = true
    · by_cases h2 : st.1.m_refineLevel = d.refineLevel
      · simp [h1, h2]
      · simp [h1, h2]
    · simp [h1]
  have h6 : ∀ st : HdCyclesMeshState × SyncLocals,
      (syncSubdivTags d dirtyBits st).1.m_hasVertexColors = st.1.m_hasVertexColors := by
    intro st
    unfold syncSubdivTags
    by_cases h1 : dirtyBits.DirtySubdivTags = true
    · simp [h1]
    · simp [h1]
  unfold syncPull
  rw [h6, h5, h4, h3, h2, h1]

theorem syncPrimvar_hasVertexColors (e : Renderer) (d : HdSceneDelegate)
    (dirtyBits : HdDirtyBits) (interpolation : HdInterpolation) (s s' : HdCyclesMeshState)
    (pv : HdPrimvarDescriptor) (h : syncPrimvar e d dirtyBits interpolation s pv = some s') :
    s'.m_hasVertexColors
      = (s.m_hasVertexColors
          || (IsPrimvarDirty dirtyBits pv.name && decide (pv.role = "color"))) := by
  unfold syncPrimvar at h
  by_cases hd : IsPrimvarDirty dirtyBits pv.name = true
  · rw [if_pos hd, Option.map_eq_some'] at h
    obtain ⟨s1, h1, h⟩ := h
    subst h
    have g1 : s1.m_hasVertexColors = s.m_hasVertexColors
        ∧ s1.m_useSubdivision = s.m_useSubdivision := by
      unfold syncNormals at h1
      by_cases hc : (!s.m_useSubdivision && decide (pv.name = "normals")) = true
      · rw [if_pos hc, Option.map_eq_some'] at h1
        obtain ⟨n, _, h1⟩ := h1
        subst h1
        unfold addAttribute
        by_cases hs : s.m_useSubdivision = true
        · simp [hs]
        · simp [hs]
      · rw [if_neg hc] at h1
        simp only [Option.some.injEq] at h1
        subst h1
        exact ⟨rfl, rfl⟩
    have g2 : ∀ t : HdCyclesMeshState,
        (syncColors e interpolation (d.primvar pv.name) pv t).m_hasVertexColors
          = (t.m_hasVertexColors || decide (pv.role = "color")) := by
      intro t
      unfold syncColors addAttribute
      by_cases hr : pv.role = "color"
      · by_cases hs : t.m_useSubdivision = true
        · cases d.primvar pv.name <;> simp [hr, hs]
        · cases d.primvar pv.name <;> simp [hr, hs]
      · simp [hr]
    have g3 : ∀ t : HdCyclesMeshState,
        (syncUVs e interpolation (d.primvar pv.name) pv t).m_hasVertexColors
          = t.m_hasVertexColors := by
      intro t
      unfold syncUVs addAttribute
      by_cases hs : t.m_useSubdivision = true
      · cases d.primvar pv.name <;> simp [hs]
      · cases d.primvar pv.name <;> simp [hs]
    rw [g3, g2, g1.1, hd, Bool.true_and]
  · rw [if_neg hd] at h
    simp only [Option.some.injEq] at h
    subst h
    simp [hd]

theorem syncPrimvarList_hasVertexColors (e : Renderer) (d : HdSceneDelegate)
    (dirtyBits : HdDirtyBits) (interpolation : HdInterpolation) :
    ∀ (pvs : List HdPrimvarDescriptor) (s s' : HdCyclesMeshState),
      pvs.foldlM (syncPrimvar e d dirtyBits interpolation) s = some s' →
      s'.m_hasVertexColors
        = (s.m_hasVertexColors
            || pvs.any (fun pv =>
                IsPrimvarDirty dirtyBits pv.name && decide (pv.role = "color"))) := by
  intro pvs
  induction pvs with
  | nil =>
    intro s s' h
    simp only [List.foldlM_nil, Option.pure_def, Option.some.injEq] at h
    subst h
    simp
  | cons pv pvs ih =>
    intro s s' h
    rw [List.foldlM_cons] at h
    obtain ⟨s1, h1, h⟩ := Option.bind_eq_some.mp h
    rw [ih s1 s' h, syncPrimvar_hasVertexColors e d dirtyBits interpolation s s1 pv h1,
      List.any_cons, Bool.or_assoc]

theorem syncPrimvars_hasVertexColors (e : Renderer) (d : HdSceneDelegate)
    (dirtyBits : HdDirtyBits) (s s' : HdCyclesMeshState)
    (h : syncPrimvars e d dirtyBits s = some s') :
    s'.m_hasVertexColors = (s.m_hasVertexColors || visitsColorPrimvar d dirtyBits) := by
  unfold syncPrimvars at h
  simp only [List.foldlM_cons, List.foldlM_nil] at h
  obtain ⟨s1, h1, h⟩ := Option.bind_eq_some.mp h
  obtain ⟨s2, h2, h⟩ := Option.bind_eq_some.mp h
  obtain ⟨s3, h3, h⟩ := Option.bind_eq_some.mp h
  simp only [Option.pure_def, Option.some.injEq] at h
  subst h
  rw [syncPrimvarList_hasVertexColors e d dirtyBits _ _ s2 s3 h3,
    syncPrimvarList_hasVertexColors e d dirtyBits _ _ s1 s2 h2,
    syncPrimvarList_hasVertexColors e d dirtyBits _ _ s s1 h1]
  unfold visitsColorPrimvar
  simp only [List.any_cons, List.any_nil, Bool.or_false, Bool.or_assoc]

theorem syncRebuild_hasVertexColors (e : Renderer) (d : HdSceneDelegate)
    (dirtyBits : HdDirtyBits) (s s' : HdCyclesMeshState)
    (h : syncRebuild e d dirtyBits s = some s') :
    s'.m_hasVertexColors = (s.m_hasVertexColors || visitsColorPrimvar d dirtyBits) := by
  unfold syncRebuild at h
  obtain ⟨s1, h1, h⟩ := Option.bind_eq_some.mp h
  obtain ⟨s2, h2, h⟩ := Option.bind_eq_some.mp h
  obtain ⟨s3, h3, h⟩ := Option.bind_eq_some.mp h
  rw [Option.map_eq_some'] at h
  obtain ⟨s4, h4, h⟩ := h
  subst h
  have g1 : s1.m_hasVertexColors = s.m_hasVertexColors := by
    unfold rebuildMotion at h1
    by_cases hb : (rebuildVertices s).m_useMotionBlur = true
    · rw [if_pos hb] at h1
      unfold _PopulateMotion at h1
      by_cases hn : (rebuildVertices s).m_pointSamples.count ≤ 1
      · rw [if_pos hn] at h1
        simp only [Option.some.injEq] at h1
        subst h1
        rfl
      · rw [if_neg hn] at h1
        by_cases hs : (rebuildVertices s).m_useSubdivision = true
        · simp only [hs, if_true] at h1
          by_cases ha : (rebuildVertices s).m_cyclesMesh.subd_attributes.any
              Attribute.isMotion = true
          · rw [if_pos ha] at h1
            cases h1
          · rw [if_neg ha] at h1
            obtain ⟨mP, _, h1⟩ := Option.bind_eq_some.mp h1
            simp only [Option.some.injEq] at h1
            subst h1
            rfl
        · simp only [hs, Bool.false_eq_true, if_false] at h1
          by_cases ha : (rebuildVertices s).m_cyclesMesh.attributes.any
              Attribute.isMotion = true
          · rw [if_pos ha] at h1
            cases h1
          · rw [if_neg ha] at h1
            obtain ⟨mP, _, h1⟩ := Option.bind_eq_some.mp h1
            simp only [Option.some.injEq] at h1
            subst h1
            rfl
    · rw [if_neg hb] at h1
      simp only [Option.some.injEq] at h1
      subst h1
      rfl
  have g2 : s2.m_hasVertexColors = s1.m_hasVertexColors := by
    unfold rebuildFaces at h2
    obtain ⟨st, _, h2⟩ := Option.bind_eq_some.mp h2
    rw [Option.map_eq_some'] at h2
    obtain ⟨g, _, h2⟩ := h2
    subst h2
    rfl
  have g3 : s3.m_hasVertexColors = s2.m_hasVertexColors := by
    unfold syncSubdivision at h3
    by_cases hs : s2.m_useSubdivision = true
    · rw [if_pos hs] at h3
      obtain ⟨t, ht, h3⟩ := Option.bind_eq_some.mp h3
      simp only [Option.some.injEq] at h3
      subst h3
      unfold _PopulateCreases at ht
      obtain ⟨c, _, ht⟩ := Option.bind_eq_some.mp ht
      simp only [Option.some.injEq] at ht
      subst ht
      rfl
    · rw [if_neg hs] at h3
      simp only [Option.some.injEq] at h3
      subst h3
      rfl
  have g4 : (applyUsedShaders s4).m_hasVertexColors = s4.m_hasVertexColors := by
    unfold applyUsedShaders
    by_cases hl : s4.m_usedShaders.length > 0
    · rw [if_pos hl]
    · rw [if_neg hl]
  rw [g4, syncPrimvars_hasVertexColors e d dirtyBits s3 s4 h4, g3, g2, g1]

/-- C25: a `Sync` whose dirty bits are among MaterialId and PrimID returns the state the
PrimID block and the MaterialId block leave and records the lock and the unlock only: it
does not store the visibility mask in the object, tag the mesh or the object, or call
`Interrupt`.  On a prim synced once, whose record holds the three calls of its first `Sync`:
a `Sync` with MaterialId alone changes the shader list of the mesh from `[1]` to `[1, 5]`, a
`Sync` with PrimID alone changes the pass id of the object from `8` to `10`, and the record
still holds three such calls after either. -/
theorem sync_material_or_primId_only_not_tagged :
    (∀ (e : Renderer) (d : HdSceneDelegate) (s : HdCyclesMeshState) (m p : Bool),
      Sync e d { HdDirtyBits.Clean with DirtyMaterialId := m, DirtyPrimID := p } s
        = some ({ syncMaterialId e d
              { HdDirtyBits.Clean with DirtyMaterialId := m, DirtyPrimID := p }
              (syncPrimId d
                { HdDirtyBits.Clean with DirtyMaterialId := m, DirtyPrimID := p } s)
            with scene := s.scene ++ [SceneEvent.lock, SceneEvent.unlock] },
          HdDirtyBits.Clean))
      ∧ (syncAll plainRenderer [(triangleDelegate, initialDirtyBits)] newPrim).map
          (fun s => (s.m_cyclesMesh.used_shaders, s.m_cyclesObject.pass_id,
            (s.scene.filter SceneEvent.isUpdate).length, s.scene.length))
          = some ([1], 8, 3, 5)
      ∧ (syncAll plainRenderer
            [(triangleDelegate, initialDirtyBits), (redMaterialDelegate, onlyMaterialIdDirty)]
            newPrim).map
          (fun s => (s.m_cyclesMesh.used_shaders, s.m_cyclesObject.pass_id,
            (s.scene.filter SceneEvent.isUpdate).length, s.scene.length))
          = some ([1, 5], 8, 3, 7)
      ∧ (syncAll plainRenderer
            [(triangleDelegate, initialDirtyBits), (renumberedDelegate, onlyPrimIdDirty)]
            newPrim).map
          (fun s => (s.m_cyclesMesh.used_shaders, s.m_cyclesObject.pass_id,
            (s.scene.filter SceneEvent.isUpdate).length, s.scene.length))
          = some ([1], 10, 3, 7) := by
  refine ⟨?_, by decide, by decide, by decide⟩
  intro e d s m p
  exact sync_material_primId e d _ s rfl rfl rfl rfl rfl rfl rfl rfl

/-- With MaterialId dirty, the MaterialId block applied to a prim whose face list is
not empty appends exactly one shader to `m_usedShaders` and stores the list in the mesh; the
block is a total function of the state.  The shader is the one of the material bound to the
prim when the material id is not empty and resolves to a material with a shader, and
otherwise the fallback: `default_vcol_surface` when `m_hasVertexColors` is set,
`default_surface` of the scene when it is not.  For every `Sync` that returns with a face
list that is not empty, the lists it leaves are those of the state before the blocks (the
list the prim had when the `Sync` does not rebuild) with that shader appended, and
`m_hasVertexColors` is set exactly when it was set before the `Sync` or the primvar loop of
its rebuild came across a dirty primvar of role `color`. -/
theorem sync_materialId_appends_one_shader (e : Renderer) (d : HdSceneDelegate)
    (dirtyBits : HdDirtyBits) (s : HdCyclesMeshState)
    (hM : dirtyBits.DirtyMaterialId = true) :
    (∀ c : Bool,
        (d.materialId ≠ "" → ∀ shader, d.material d.materialId = some shader →
          materialShader e d c = shader)
        ∧ (d.materialId = "" ∨ d.material d.materialId = none →
          materialShader e d c = if c then e.default_vcol_surface else e.default_surface))
      ∧ (∀ s0 : HdCyclesMeshState, 0 < s0.m_faceVertexCounts.length →
          (syncMaterialId e d dirtyBits s0).m_usedShaders
              = s0.m_usedShaders ++ [materialShader e d s0.m_hasVertexColors]
            ∧ (syncMaterialId e d dirtyBits s0).m_cyclesMesh.used_shaders
              = (syncMaterialId e d dirtyBits s0).m_usedShaders)
      ∧ ∀ r, Sync e d dirtyBits s = some r → 0 < r.1.m_faceVertexCounts.length →
          ∃ s2,
            (if rebuilds d dirtyBits s
              then syncRebuild e d dirtyBits
                { (syncPull d dirtyBits s).1 with scene := s.scene ++ [SceneEvent.lock] }
              else some
                { (syncPull d dirtyBits s).1 with scene := s.scene ++ [SceneEvent.lock] })
              = some s2
            ∧ r.1.m_usedShaders
                = s2.m_usedShaders ++ [materialShader e d r.1.m_hasVertexColors]
            ∧ r.1.m_cyclesMesh.used_shaders = r.1.m_usedShaders
            ∧ r.1.m_cachedMaterialId = d.materialId
            ∧ (rebuilds d dirtyBits s = false → s2.m_usedShaders = s.m_usedShaders)
            ∧ r.1.m_hasVertexColors
                = (s.m_hasVertexColors
                    || (rebuilds d dirtyBits s && visitsColorPrimvar d dirtyBits)) := by
  refine ⟨?_, ?_, ?_⟩
  · intro c
    refine ⟨?_, ?_⟩
    · intro hne shader hsh
      unfold materialShader
      rw [if_pos hne, hsh]
    · intro hor
      unfold materialShader fallbackShader
      by_cases hne : d.materialId ≠ ""
      · rcases hor with hempty | hnone
        · exact absurd hempty hne
        · rw [if_pos hne, hnone]
      · rw [if_neg hne]
  · intro s0 h0
    have hm := syncMaterialId_appends e d dirtyBits s0 hM h0
    unfold shaderMembers at hm
    simp only [Prod.mk.injEq] at hm
    exact ⟨hm.1, by rw [hm.2.1, hm.1]⟩
  · intro r h hF
    unfold Sync at h
    rw [Option.map_eq_some'] at h
    obtain ⟨st3, h, hr⟩ := h
    obtain ⟨st2, h2, h3⟩ := Option.bind_eq_some.mp h
    rw [syncPull_scene] at h2
    obtain ⟨s2, hs2, hst2⟩ := syncUpdate_eq e d dirtyBits _ st2 h2
    subst hr
    -- the state on entry to the MaterialId block
    have hT := syncTransform_shaders d dirtyBits (s2, (syncPull d dirtyBits s).2)
    have hT2 := syncTransform_frame d dirtyBits (s2, (syncPull d dirtyBits s).2)
    have hI := syncPrimId_shaders d dirtyBits
      (syncTransform d dirtyBits (s2, (syncPull d dirtyBits s).2)).1
    have hI2 := syncPrimId_frame d dirtyBits
      (syncTransform d dirtyBits (s2, (syncPull d dirtyBits s).2)).1
    have hMf := syncMaterialId_frame e d dirtyBits
      (syncPrimId d dirtyBits (syncTransform d dirtyBits (s2, (syncPull d dirtyBits s).2)).1)
    have hVs := syncVisibility_shaders d dirtyBits
      (syncMaterialId e d dirtyBits
        (syncPrimId d dirtyBits (syncTransform d dirtyBits (s2, (syncPull d dirtyBits s).2)).1),
        (syncTransform d dirtyBits (s2, (syncPull d dirtyBits s).2)).2)
    have hVf := syncVisibility_frame d dirtyBits
      (syncMaterialId e d dirtyBits
        (syncPrimId d dirtyBits (syncTransform d dirtyBits (s2, (syncPull d dirtyBits s).2)).1),
        (syncTransform d dirtyBits (s2, (syncPull d dirtyBits s).2)).2)
    rw [← hst2] at hVs hVf
    have hNs := syncInstances_shaders e d dirtyBits st2 st3 h3
    have hNf := (syncInstances_frame e d dirtyBits st2 st3 h3).1
    have hFs := syncFinish_shaders e st3
    have hFf := (syncFinish_facts e st3).1
    -- the face list on entry to the block is the one the `Sync` leaves
    have hmesh : (syncPrimId d dirtyBits
        (syncTransform d dirtyBits (s2, (syncPull d dirtyBits s).2)).1).toHdCyclesMesh
        = (syncFinish e st3).toHdCyclesMesh := by
      rw [hFf, (syncFrame_fields hNf).1, (syncFrame_fields hVf.1).1,
        (syncFrame_fields hMf.1).1]
    have hF0 : 0 < (syncPrimId d dirtyBits
        (syncTransform d dirtyBits (s2, (syncPull d dirtyBits s).2)).1).m_faceVertexCounts.length := by
      show 0 < (syncPrimId d dirtyBits (syncTransform d dirtyBits
        (s2, (syncPull d dirtyBits s).2)).1).toHdCyclesMesh.m_faceVertexCounts.length
      rw [hmesh]
      exact hF
    have hApp := syncMaterialId_appends e d dirtyBits _ hM hF0
    have hall : shaderMembers (syncFinish e st3)
        = (s2.m_usedShaders ++ [materialShader e d s2.m_hasVertexColors],
            s2.m_usedShaders ++ [materialShader e d s2.m_hasVertexColors],
            s2.m_hasVertexColors, d.materialId) := by
      rw [hFs, hNs, hVs, hApp, hI.1, hI.2, hT.1, hT.2]
    unfold shaderMembers at hall
    simp only [Prod.mk.injEq] at hall
    obtain ⟨a1, a2, a3, a4⟩ := hall
    have hflag : s2.m_hasVertexColors
        = (s.m_hasVertexColors
            || (rebuilds d dirtyBits s && visitsColorPrimvar d dirtyBits)) := by
      have hnm : (syncPull d dirtyBits s).2.newMesh = rebuilds d dirtyBits s := rfl
      by_cases hb : rebuilds d dirtyBits s = true
      · rw [hnm, if_pos hb] at hs2
        rw [syncRebuild_hasVertexColors e d dirtyBits _ s2 hs2, hb, Bool.true_and]
        show ((syncPull d dirtyBits s).1.m_hasVertexColors || _) = _
        rw [syncPull_hasVertexColors]
      · rw [hnm, if_neg hb] at hs2
        simp only [Option.some.injEq] at hs2
        subst hs2
        simp only [Bool.not_eq_true] at hb
        rw [hb, Bool.false_and, Bool.or_false]
        exact syncPull_hasVertexColors d dirtyBits s
    refine ⟨s2, hs2, ?_, ?_, a4, ?_, ?_⟩
    · show (syncFinish e st3).m_usedShaders = _
      rw [a1, a3]
    · show (syncFinish e st3).m_cyclesMesh.used_shaders = (syncFinish e st3).m_usedShaders
      rw [a1, a2]
    · intro hb
      have hnm : (syncPull d dirtyBits s).2.newMesh = rebuilds d dirtyBits s := rfl
      rw [hnm, hb] at hs2
      simp only [Bool.false_eq_true, if_false, Option.some.injEq] at hs2
      subst hs2
      have hp := syncPull_frame d dirtyBits s
      unfold pullFrame at hp
      simp only [Prod.mk.injEq] at hp
      exact hp.2.2.2.2.2.1
    · show (syncFinish e st3).m_hasVertexColors = _
      rw [a3, hflag]

/-- Example: the first `Sync` of a prim with one triangle to which the material `/red`
is bound; the fallback of the MaterialId block for a prim with a dirty primvar of role
`color` and no material, and for a material the render index does not hold. -/
theorem sync_materialId_appends_one_shader_witness :
    initialDirtyBits.DirtyMaterialId = true
      ∧ (Sync plainRenderer redMaterialDelegate initialDirtyBits newPrim).map
          (fun r => (r.1.m_usedShaders, r.1.m_cyclesMesh.used_shaders)) = some ([5], [5])
      ∧ (Sync plainRenderer colouredDelegate initialDirtyBits newPrim).map
          (fun r => (r.1.m_usedShaders, r.1.m_cyclesMesh.used_shaders)) = some ([2], [2])
      ∧ (Sync plainRenderer missingMaterialDelegate initialDirtyBits newPrim).map
          (fun r => (r.1.m_usedShaders, r.1.m_cyclesMesh.used_shaders)) = some ([1], [1])
      ∧ ∃ r, Sync plainRenderer redMaterialDelegate initialDirtyBits newPrim = some r
          ∧ 0 < r.1.m_faceVertexCounts.length
          ∧ r.1.m_cyclesMesh.used_shaders = r.1.m_usedShaders
          ∧ r.1.m_cachedMaterialId = "/red" :=
  ⟨rfl, by decide, by decide, by decide,
    match h : Sync plainRenderer redMaterialDelegate initialDirtyBits newPrim with
    | some r =>
      have hF : 0 < r.1.m_faceVertexCounts.length := by
        have hm := (sync_members plainRenderer redMaterialDelegate initialDirtyBits newPrim
          r h).1
        show 0 < r.1.toHdCyclesMesh.m_faceVertexCounts.length
        rw [hm]
        decide
      match (sync_materialId_appends_one_shader plainRenderer redMaterialDelegate
          initialDirtyBits newPrim rfl).2.2 r h hF with
      | ⟨_, _, _, h3, h4, _⟩ => ⟨r, rfl, hF, h3, h4⟩
    | none => by
      have hs : (Sync plainRenderer redMaterialDelegate initialDirtyBits newPrim).isSome
          = true := by
        decide
      rw [h] at hs
      cases hs⟩

/-! ## `Sync` over several calls: shader slot, vertex count, subdivision transform -/

theorem syncMaterialId_grows (e : Renderer) (d : HdSceneDelegate) (dirtyBits : HdDirtyBits)
    (s : HdCyclesMeshState) :
    ∃ extra, (syncMaterialId e d dirtyBits s).m_usedShaders = s.m_usedShaders ++ extra
      ∧ extra.length ≤ 1 := by
  unfold syncMaterialId
  by_cases h : dirtyBits.DirtyMaterialId = true
  · by_cases h2 : s.m_faceVertexCounts.length > 0
    · simp only [h, h2, if_true]
      exact ⟨_, rfl, by simp⟩
    · simp only [h, h2, if_true, if_false]
      exact ⟨[], by simp, by simp⟩
  · simp only [h, Bool.false_eq_true, if_false]
    exact ⟨[], by simp, by simp⟩

/-- C33: a `Sync` whose only dirty bit is MaterialId returns and leaves the shader list of the
prim it was given with at most one shader appended: no entry is removed or replaced.  On a
prim with one triangle and no geometry subset, synced once without a material (fallback
shader `1`), a `Sync` with MaterialId dirty and the material `/red` (shader `5`) bound leaves
the mesh shader list `[1, 5]`: slot `0`, which the triangle uses, still holds `1`, not the
shader `5` resolved in that `Sync`.  The same holds when the second `Sync` has all the
initial dirty bits and rebuilds the mesh. -/
theorem sync_material_change_keeps_slot_zero :
    (∀ (e : Renderer) (d : HdSceneDelegate) (s : HdCyclesMeshState),
      ∃ r extra, Sync e d onlyMaterialIdDirty s = some r
        ∧ r.1.m_usedShaders = s.m_usedShaders ++ extra ∧ extra.length ≤ 1)
      ∧ materialShader plainRenderer redMaterialDelegate false = 5
      ∧ (syncAll plainRenderer
            [(triangleDelegate, initialDirtyBits), (redMaterialDelegate, onlyMaterialIdDirty)]
            newPrim).map
          (fun s => (s.m_geomSubsets, s.m_faceVertexCounts, s.m_hasVertexColors))
          = some ([], [3], false)
      ∧ (syncAll plainRenderer
            [(triangleDelegate, initialDirtyBits), (redMaterialDelegate, onlyMaterialIdDirty)]
            newPrim).map
          (fun s => (s.m_cyclesMesh.triangles.map (fun t => t.shader),
            s.m_cyclesMesh.used_shaders, s.m_cyclesMesh.used_shaders[0]?))
          = some ([0], [1, 5], some 1)
      ∧ (syncAll plainRenderer
            [(triangleDelegate, initialDirtyBits), (redMaterialDelegate, initialDirtyBits)]
            newPrim).map
          (fun s => (s.m_geomSubsets, s.m_faceVertexCounts, s.m_hasVertexColors))
          = some ([], [3], false)
      ∧ (syncAll plainRenderer
            [(triangleDelegate, initialDirtyBits), (redMaterialDelegate, initialDirtyBits)]
            newPrim).map
          (fun s => (s.m_cyclesMesh.triangles.map (fun t => t.shader),
            s.m_cyclesMesh.used_shaders, s.m_cyclesMesh.used_shaders[0]?))
          = some ([0], [1, 5], some 1) := by
  refine ⟨?_, by decide, by decide, by decide, by decide, by decide⟩
  intro e d s
  obtain ⟨extra, hx, hl⟩ := syncMaterialId_grows e d onlyMaterialIdDirty
    (syncPrimId d onlyMaterialIdDirty s)
  refine ⟨_, extra, sync_material_primId e d onlyMaterialIdDirty s rfl rfl rfl rfl rfl rfl
    rfl rfl, ?_, hl⟩
  show (syncMaterialId e d onlyMaterialIdDirty (syncPrimId d onlyMaterialIdDirty s)).m_usedShaders
    = _
  rw [hx, (syncPrimId_shaders d onlyMaterialIdDirty s).1]

/-- C34: a prim with one triangle and three points is synced once; a second `Sync` has Points
and Topology dirty and the points value holds an empty array.  The second `Sync` rebuilds
the mesh: its vertex buffer is empty, `m_numMeshVerts` is still `3`, and the mesh holds the
triangle `(0, 1, 2)`, whose indices are not below the number of vertices stored. -/
theorem sync_stale_vertex_count_keeps_triangle :
    (∀ s : HdCyclesMeshState,
        rebuilds emptyPointsDelegate pointsAndTopologyDirty s = true)
      ∧ (syncAll plainRenderer [(triangleDelegate, initialDirtyBits)] newPrim).map
          (fun s => (s.m_cyclesMesh.verts.length, s.m_numMeshVerts,
            s.m_cyclesMesh.triangles.map Triangle.corners))
          = some (3, 3, [[0, 1, 2]])
      ∧ (syncAll plainRenderer
            [(triangleDelegate, initialDirtyBits), (emptyPointsDelegate, pointsAndTopologyDirty)]
            newPrim).map
          (fun s => (s.m_cyclesMesh.verts.length, s.m_numMeshVerts,
            s.m_cyclesMesh.triangles.map Triangle.corners))
          = some (0, 3, [[0, 1, 2]]) := by
  refine ⟨?_, by decide, by decide⟩
  intro s
  exact rebuilds_of_topology emptyPointsDelegate pointsAndTopologyDirty s rfl

/-- C37: one LeftHanded triangle has one fan triangle, so the face-varying UV buffer has
three entries; `_AddUVSet` reads the entries `2`, `3` and `4` (`iter = (vCount - 1) - (j - 1)`
is `2`), of which `3` and `4` are outside the buffer.  With five entries the values stored
are those at `2`, `3`, `4`.  For the same triangle with RightHanded orientation the three
entries are read in order. -/
theorem addUVSet_faceVarying_leftHanded_reads_past_buffer :
    fanTriangleCount leftHandedTriangle.m_faceVertexCounts = 1
      ∧ leftHandedTriangle.m_useSubdivision = false
      ∧ _AddUVSet (fun uv : Nat => uv) leftHandedTriangle "st" [10, 11, 12]
          HdInterpolation.HdInterpolationFaceVarying = none
      ∧ (_AddUVSet (fun uv : Nat => uv) leftHandedTriangle "st" [10, 11, 12, 13, 14]
          HdInterpolation.HdInterpolationFaceVarying).map (fun a => a.fdata)
          = some [12, 13, 14]
      ∧ (_AddUVSet (fun uv : Nat => uv)
          { leftHandedTriangle with m_orientation := Orientation.rightHanded } "st"
          [10, 11, 12] HdInterpolation.HdInterpolationFaceVarying).map (fun a => a.fdata)
          = some [10, 11, 12] := by
  refine ⟨by decide, by decide, by decide, by decide, by decide⟩

/-- C38: a prim with subdivision and one quad is synced with the initial dirty bits while the
transform of the object is set to a translation by `5` along `x`: the object-to-world
transform of the subdivision parameters is that translation.  A second `Sync` whose only
dirty bit is Topology rebuilds the mesh and leaves the object-to-world transform the
identity (entry `(0, 3)` is `0`), while the transform of the object is still the translation
(entry `(0, 3)` is `5`). -/
theorem sync_rebuild_resets_objecttoworld :
    (∀ s : HdCyclesMeshState, rebuilds movedQuadDelegate onlyTopologyDirty s = true)
      ∧ onlyTopologyDirty.DirtyTransform = false
      ∧ (syncAll plainRenderer [(movedQuadDelegate, initialDirtyBits)] newSubdivPrim).map
          (fun s => (s.m_useSubdivision,
            s.m_cyclesMesh.subd_params.map (fun p => p.objecttoworld 0 3),
            s.m_cyclesObject.tfm 0 3))
          = some (true, some 5, 5)
      ∧ (syncAll plainRenderer
            [(movedQuadDelegate, initialDirtyBits), (movedQuadDelegate, onlyTopologyDirty)]
            newSubdivPrim).map
          (fun s => (s.m_useSubdivision,
            s.m_cyclesMesh.subd_params.map (fun p => p.objecttoworld 0 3),
            s.m_cyclesObject.tfm 0 3))
          = some (true, some 0, 5) := by
  refine ⟨?_, rfl, by decide, by decide⟩
  intro s
  exact rebuilds_of_topology movedQuadDelegate onlyTopologyDirty s rfl

/-! ## `Sync`: the scene lock and the visibility mask -/

theorem syncVisibility_mask (d : HdSceneDelegate) (dirtyBits : HdDirtyBits)
    (st : HdCyclesMeshState × SyncLocals) (h0 : st.1.m_visibilityFlags = 0) :
    (syncVisibility d dirtyBits st).1.m_visibilityFlags = 0 := by
  unfold syncVisibility
  by_cases h : dirtyBits.DirtyVisibility = true
  · rw [if_pos h]
    by_cases hv : d.visible = true
    · simp [hv, h0]
    · simp [hv]
  · rw [if_neg h]
    exact h0

theorem syncInstances_tail (e : Renderer) (d : HdSceneDelegate) (dirtyBits : HdDirtyBits)
    (st st' : HdCyclesMeshState × SyncLocals)
    (h : syncInstances e d dirtyBits st = some st') :
    (∃ evs, st'.1.scene = st.1.scene ++ evs
        ∧ ∀ ev ∈ evs, ev.isLock = false ∧ ev.isUnlock = false)
      ∧ (st.1.m_visibilityFlags = 0 → st'.1.m_visibilityFlags = 0) := by
  unfold syncInstances at h
  by_cases hrun : (st.2.newMesh || dirtyBits.DirtyInstancer) = true
  · rw [if_pos hrun] at h
    cases hi : d.instanceTransforms with
    | none =>
      rw [hi] at h
      simp only [Option.some.injEq] at h
      subst h
      exact ⟨⟨[], by simp, by simp⟩, fun h0 => h0⟩
    | some it =>
      rw [hi] at h
      obtain ⟨n, _, h⟩ := Option.bind_eq_some.mp h
      by_cases hn : n ≠ 0
      · rw [if_pos hn, Option.map_eq_some'] at h
        obtain ⟨objects, _, h⟩ := h
        subst h
        refine ⟨⟨st.1.m_cyclesInstances.map SceneEvent.RemoveObject
          ++ objects.map SceneEvent.AddObject, ?_, ?_⟩, fun _ => rfl⟩
        · simp [pushInstances, clearInstances, List.append_assoc]
        · intro ev hev
          rcases List.mem_append.mp hev with hev | hev
          · obtain ⟨o, _, rfl⟩ := List.mem_map.mp hev
            exact ⟨rfl, rfl⟩
          · obtain ⟨o, _, rfl⟩ := List.mem_map.mp hev
            exact ⟨rfl, rfl⟩
      · rw [if_neg hn] at h
        simp only [Option.some.injEq] at h
        subst h
        refine ⟨⟨st.1.m_cyclesInstances.map SceneEvent.RemoveObject, rfl, ?_⟩, fun h0 => h0⟩
        intro ev hev
        obtain ⟨o, _, rfl⟩ := List.mem_map.mp hev
        exact ⟨rfl, rfl⟩
  · rw [if_neg hrun] at h
    simp only [Option.some.injEq] at h
    subst h
    exact ⟨⟨[], by simp, by simp⟩, fun h0 => h0⟩

theorem syncFinish_tail (e : Renderer) (st : HdCyclesMeshState × SyncLocals) :
    (syncFinish e st).m_visibilityFlags = st.1.m_visibilityFlags
      ∧ ∃ tags, (syncFinish e st).scene = st.1.scene ++ tags ++ [SceneEvent.unlock]
          ∧ ∀ ev ∈ tags, ev.isLock = false ∧ ev.isUnlock = false := by
  have hfin : (if st.2.newMesh = true then _FinishMesh e st.1 else st.1).scene = st.1.scene
      ∧ (if st.2.newMesh = true then _FinishMesh e st.1 else st.1).m_visibilityFlags
        = st.1.m_visibilityFlags := by
    unfold _FinishMesh addAttribute
    by_cases h1 : st.2.newMesh = true <;> by_cases h2 : e.needGenerated = true
      <;> by_cases h3 : st.1.m_useSubdivision = true <;> simp [h1, h2, h3]
  unfold syncFinish syncTag
  by_cases hu : (st.2.mesh_updated || st.2.newMesh) = true
  · simp only [hu, if_true]
    refine ⟨hfin.2, [SceneEvent.meshTagUpdate, SceneEvent.objectTagUpdate,
      SceneEvent.Interrupt], ?_, ?_⟩
    · simp only [hfin.1]
    · intro ev hev
      simp only [List.mem_cons, List.mem_singleton, List.not_mem_nil, or_false] at hev
      rcases hev with rfl | rfl | rfl <;> exact ⟨rfl, rfl⟩
  · simp only [hu, Bool.false_eq_true, if_false]
    refine ⟨hfin.2, [], ?_, by simp⟩
    simp only [hfin.1, List.append_nil]

/-- A `Sync` that returns: the record of the scene calls, the dirty bits and the visibility
mask. -/
theorem sync_bracket (e : Renderer) (d : HdSceneDelegate) (dirtyBits : HdDirtyBits)
    (s : HdCyclesMeshState) (r : HdCyclesMeshState × HdDirtyBits)
    (h : Sync e d dirtyBits s = some r) :
    (∃ middle, r.1.scene = s.scene ++ [SceneEvent.lock] ++ middle ++ [SceneEvent.unlock]
        ∧ ∀ ev ∈ middle, ev.isLock = false ∧ ev.isUnlock = false)
      ∧ r.2 = HdDirtyBits.Clean
      ∧ (s.m_visibilityFlags = 0 → r.1.m_visibilityFlags = 0) := by
  unfold Sync at h
  rw [Option.map_eq_some'] at h
  obtain ⟨st3, h, hr⟩ := h
  obtain ⟨st2, h2, h3⟩ := Option.bind_eq_some.mp h
  rw [syncPull_scene] at h2
  obtain ⟨s2, hs2, hst2⟩ := syncUpdate_eq e d dirtyBits _ st2 h2
  subst hr
  have hp := syncPull_frame d dirtyBits s
  unfold pullFrame at hp
  simp only [Prod.mk.injEq] at hp
  have hpm : (syncPull d dirtyBits s).1.m_visibilityFlags = s.m_visibilityFlags :=
    hp.2.2.2.2.2.2.2.1
  -- the state before the blocks
  have hs2f : s2.scene = s.scene ++ [SceneEvent.lock]
      ∧ s2.m_visibilityFlags = s.m_visibilityFlags := by
    by_cases hb : (syncPull d dirtyBits s).2.newMesh = true
    · rw [if_pos hb] at hs2
      have hf := rebuildFrame_fields (syncRebuild_facts e d dirtyBits _ s2 hs2).1
      exact ⟨hf.2.2.2.2.1, by rw [hf.2.2.2.2.2]; exact hpm⟩
    · rw [if_neg hb] at hs2
      simp only [Option.some.injEq] at hs2
      subst hs2
      exact ⟨rfl, hpm⟩
  have hT := syncTransform_frame d dirtyBits (s2, (syncPull d dirtyBits s).2)
  have hI := syncPrimId_frame d dirtyBits
    (syncTransform d dirtyBits (s2, (syncPull d dirtyBits s).2)).1
  have hM := syncMaterialId_frame e d dirtyBits
    (syncPrimId d dirtyBits (syncTransform d dirtyBits (s2, (syncPull d dirtyBits s).2)).1)
  have hV := syncVisibility_frame d dirtyBits
    (syncMaterialId e d dirtyBits
      (syncPrimId d dirtyBits (syncTransform d dirtyBits (s2, (syncPull d dirtyBits s).2)).1),
      (syncTransform d dirtyBits (s2, (syncPull d dirtyBits s).2)).2)
  have hVm := syncVisibility_mask d dirtyBits
    (syncMaterialId e d dirtyBits
      (syncPrimId d dirtyBits (syncTransform d dirtyBits (s2, (syncPull d dirtyBits s).2)).1),
      (syncTransform d dirtyBits (s2, (syncPull d dirtyBits s).2)).2)
  rw [← hst2] at hV hVm
  have hscene2 : st2.1.scene = s.scene ++ [SceneEvent.lock] := by
    rw [hV.2.2.2, hM.2.2.2, hI.2.2.2, hT.2.2.2.2, hs2f.1]
  have hmask2 : s.m_visibilityFlags = 0 → st2.1.m_visibilityFlags = 0 := by
    intro h0
    apply hVm
    rw [hM.2.2.1, hI.2.2.1, hT.2.2.1, hs2f.2, h0]
  obtain ⟨⟨evs, hevs, hevs2⟩, hmask3⟩ := syncInstances_tail e d dirtyBits st2 st3 h3
  obtain ⟨hmaskF, tags, htags, htags2⟩ := syncFinish_tail e st3
  refine ⟨⟨evs ++ tags, ?_, ?_⟩, rfl, ?_⟩
  · show (syncFinish e st3).scene = _
    rw [htags, hevs, hscene2]
    simp only [List.append_assoc]
  · intro ev hev
    rcases List.mem_append.mp hev with hev | hev
    · exact hevs2 ev hev
    · exact htags2 ev hev
  · intro h0
    show (syncFinish e st3).m_visibilityFlags = 0
    rw [hmaskF]
    exact hmask3 (hmask2 h0)

/-- Every `Sync` that returns has called `scene->mutex.lock ()` first, before the blocks
that read and write the prim, the mesh and the object, and `scene->mutex.unlock ()` last: the
record of the scene calls grows by `lock`, then calls none of which is a lock or an unlock,
then `unlock`, so the lock is taken once and released once, and the dirty bits it leaves are
`Clean`.  `Sync` has no `return` statement: the blocks between the two calls are those of
`syncPull`, `syncUpdate`, `syncInstances` and `syncFinish`. -/
theorem sync_locks_once_and_cleans (e : Renderer) (d : HdSceneDelegate)
    (dirtyBits : HdDirtyBits) (s : HdCyclesMeshState) :
    Sync e d dirtyBits s
        = ((syncUpdate e d dirtyBits
              (syncPull d dirtyBits { s with scene := s.scene ++ [SceneEvent.lock] })).bind
            (syncInstances e d dirtyBits)).map
          (fun st => (syncFinish e st, HdDirtyBits.Clean))
      ∧ ∀ r, Sync e d dirtyBits s = some r →
          (∃ middle,
              r.1.scene = s.scene ++ [SceneEvent.lock] ++ middle ++ [SceneEvent.unlock]
                ∧ (∀ ev ∈ middle, ev.isLock = false ∧ ev.isUnlock = false)
                ∧ (r.1.scene.drop s.scene.length).countP SceneEvent.isLock = 1
                ∧ (r.1.scene.drop s.scene.length).countP SceneEvent.isUnlock = 1)
            ∧ r.2 = HdDirtyBits.Clean := by
  refine ⟨rfl, ?_⟩
  intro r h
  obtain ⟨⟨middle, hsc, hmid⟩, hclean, _⟩ := sync_bracket e d dirtyBits s r h
  refine ⟨⟨middle, hsc, hmid, ?_, ?_⟩, hclean⟩
  · have hz : middle.countP SceneEvent.isLock = 0 := by
      rw [List.countP_eq_zero]
      intro ev hev
      simp [(hmid ev hev).1]
    rw [hsc, List.append_assoc, List.append_assoc, List.drop_left]
    simp [List.countP_append, hz, SceneEvent.isLock]
  · have hz : middle.countP SceneEvent.isUnlock = 0 := by
      rw [List.countP_eq_zero]
      intro ev hev
      simp [(hmid ev hev).2]
    rw [hsc, List.append_assoc, List.append_assoc, List.drop_left]
    simp [List.countP_append, hz, SceneEvent.isUnlock]

/-- Example: the first `Sync` of a prim with two instances returns; its record is the
lock, the two `AddObject` calls, the two tags, `Interrupt` and the unlock. -/
theorem sync_locks_once_and_cleans_witness :
    ∃ r, Sync plainRenderer instancedDelegate initialDirtyBits newPrim = some r
      ∧ (r.1.scene.drop newPrim.scene.length).countP SceneEvent.isLock = 1
      ∧ (r.1.scene.drop newPrim.scene.length).countP SceneEvent.isUnlock = 1
      ∧ r.2 = HdDirtyBits.Clean :=
  match h : Sync plainRenderer instancedDelegate initialDirtyBits newPrim with
  | some r =>
    match (sync_locks_once_and_cleans plainRenderer instancedDelegate initialDirtyBits
        newPrim).2 r h with
    | ⟨⟨_, _, _, h1, h2⟩, h3⟩ => ⟨r, rfl, h1, h2, h3⟩
  | none => by
    have hs : (Sync plainRenderer instancedDelegate initialDirtyBits newPrim).isSome
        = true := by
      decide
    rw [h] at hs
    cases hs

/-- C36: in the build without the usdCycles schema, when `m_visibilityFlags` is `0` before a
`Sync`, it is `0` after it, for every renderer, delegate, dirty bits and prim state, and so
after every sequence of calls of `Sync`: the only assignments to the member in `Sync` store
`0`. -/
theorem sync_hidden_mask_stays_zero (e : Renderer) (s : HdCyclesMeshState)
    (h0 : s.m_visibilityFlags = 0) :
    (∀ (d : HdSceneDelegate) (dirtyBits : HdDirtyBits) (r : HdCyclesMeshState × HdDirtyBits),
        Sync e d dirtyBits s = some r → r.1.m_visibilityFlags = 0)
      ∧ ∀ (calls : List (HdSceneDelegate × HdDirtyBits)) (s' : HdCyclesMeshState),
          syncAll e calls s = some s' → s'.m_visibilityFlags = 0 := by
  have hone : ∀ (t : HdCyclesMeshState), t.m_visibilityFlags = 0 →
      ∀ (d : HdSceneDelegate) (dirtyBits : HdDirtyBits)
        (r : HdCyclesMeshState × HdDirtyBits),
        Sync e d dirtyBits t = some r → r.1.m_visibilityFlags = 0 :=
    fun t ht d dirtyBits r h => (sync_bracket e d dirtyBits t r h).2.2 ht
  refine ⟨hone s h0, ?_⟩
  intro calls
  induction calls generalizing s with
  | nil =>
    intro s' h
    simp only [syncAll, Option.some.injEq] at h
    subst h
    exact h0
  | cons call rest ih =>
    intro s' h
    rw [syncAll] at h
    obtain ⟨r, hr, h⟩ := Option.bind_eq_some.mp h
    exact ih r.1 (hone s h0 call.1 call.2 r hr) s' h

/-- C36 (witness): a prim whose mask is `0` is synced with all the initial dirty bits while
the delegate reports it visible, then with Instancer dirty and no instance: the mask is
still `0`.  The mask becomes `0` in a `Sync` that reports the prim invisible and is `0`
after a later `Sync` that reports it visible. -/
theorem sync_hidden_mask_stays_zero_witness :
    hiddenPrim.m_visibilityFlags = 0
      ∧ (syncAll plainRenderer
            [(hiddenDelegate, initialDirtyBits), (triangleDelegate, initialDirtyBits)]
            newPrim).map (fun s => (s.m_visibilityFlags, s.m_cyclesObject.visibility, s.visible))
          = some (0, 0, true)
      ∧ ∃ s', syncAll plainRenderer
            [(triangleDelegate, initialDirtyBits), (noInstanceDelegate, onlyInstancerDirty)]
            hiddenPrim = some s'
          ∧ s'.m_visibilityFlags = 0 :=
  ⟨rfl, by decide,
    match h : syncAll plainRenderer
        [(triangleDelegate, initialDirtyBits), (noInstanceDelegate, onlyInstancerDirty)]
        hiddenPrim with
    | some s' =>
      ⟨s', rfl, (sync_hidden_mask_stays_zero plainRenderer hiddenPrim rfl).2 _ s' h⟩
    | none => by
      have hs : (syncAll plainRenderer
          [(triangleDelegate, initialDirtyBits), (noInstanceDelegate, onlyInstancerDirty)]
          hiddenPrim).isSome = true := by
        decide
      rw [h] at hs
      cases hs⟩

/-! ## `_PopulateFaces`: the two orientations of the triangulated layout -/

theorem range'_one_reverse (n : Nat) :
    (List.range' 1 n).reverse = (List.range' 1 n).map (fun j => n + 1 - j) := by
  apply List.ext_getElem
  · simp
  · intro i h1 h2
    simp only [List.length_reverse, List.length_range'] at h1
    simp only [List.getElem_reverse, List.getElem_map, List.getElem_range', List.length_range']
    omega

theorem fanCandidate_leftHanded (s : HdCyclesMesh) (p N materialId : Int) (j : Nat)
    (hj : 1 ≤ j) (hjN : (j : Int) + 2 ≤ N) :
    fanCandidate { s with m_orientation := Orientation.leftHanded } p N materialId j
      = fanCandidate { s with m_orientation := Orientation.rightHanded } p N materialId
          ((N - 2).toNat + 1 - j) := by
  have hcast : (((N - 2).toNat + 1 - j : Nat) : Int) = (N - 1) - j := by omega
  unfold fanCandidate corner
  simp only [if_true, reduceCtorEq, if_false, hcast]

theorem faceTriangles_leftHanded (s : HdCyclesMesh) (p N materialId : Int) :
    faceTriangles { s with m_orientation := Orientation.leftHanded } p N materialId
      = (faceTriangles { s with m_orientation := Orientation.rightHanded } p N
          materialId).reverse := by
  unfold faceTriangles
  have hpass : passesBound { s with m_orientation := Orientation.leftHanded }
      = passesBound { s with m_orientation := Orientation.rightHanded } := rfl
  rw [hpass, ← List.filter_reverse, ← List.map_reverse]
  unfold fanRange
  rw [range'_one_reverse, List.map_map]
  congr 1
  apply List.map_congr_left
  intro j hj
  have hm := List.mem_range'_1.mp hj
  exact fanCandidate_leftHanded s p N materialId j hm.1 (by omega)

theorem facesTriangles_leftHanded (s : HdCyclesMesh) (a_faceMaterials : List Int) :
    ∀ (counts : List Int) (i : Nat) (p : Int),
      facesTriangles { s with m_orientation := Orientation.leftHanded } a_faceMaterials
          counts i p
        = facesTrianglesReversed { s with m_orientation := Orientation.rightHanded }
            a_faceMaterials counts i p := by
  intro counts
  induction counts with
  | nil => intro i p; rfl
  | cons c cs ih =>
    intro i p
    rw [facesTriangles, facesTrianglesReversed, faceTriangles_leftHanded, ih]

theorem facesTrianglesReversed_perm (s : HdCyclesMesh) (a_faceMaterials : List Int) :
    ∀ (counts : List Int) (i : Nat) (p : Int),
      (facesTrianglesReversed s a_faceMaterials counts i p).Perm
        (facesTriangles s a_faceMaterials counts i p) := by
  intro counts
  induction counts with
  | nil => intro i p; exact List.Perm.refl _
  | cons c cs ih =>
    intro i p
    rw [facesTriangles, facesTrianglesReversed]
    exact List.Perm.append (List.reverse_perm _) (ih (i + 1) (p + c))

/-- C32: in the triangulated layout the candidate triangle of iteration `j` for LeftHanded
orientation is the candidate triangle of iteration `N - 1 - j` for RightHanded orientation,
corner for corner, so the triangles kept from a polygon for LeftHanded are those kept for
RightHanded in reverse order.  For a topology whose polygons have at least three vertices
and whose index array holds all their corners, `_PopulateFaces` returns for both
orientations; the LeftHanded triangle list is the RightHanded one with the triangles of each
polygon reversed, a permutation of it, and for a single polygon its reverse. -/
theorem populateFaces_leftHanded_reverses_each_fan (s : HdCyclesMesh)
    (a_faceMaterials : List Int) (mesh : Mesh)
    (hsub : s.m_useSubdivision = false) (hnn : ∀ c ∈ s.m_faceVertexCounts, 3 ≤ c)
    (hlen : countSum s.m_faceVertexCounts ≤ s.m_faceVertexIndices.length) :
    (∀ (p N materialId : Int) (j : Nat), 1 ≤ j → (j : Int) + 2 ≤ N →
        fanCandidate { s with m_orientation := Orientation.leftHanded } p N materialId j
          = fanCandidate { s with m_orientation := Orientation.rightHanded } p N materialId
              (N - 1 - j).toNat)
      ∧ (∀ p N materialId : Int,
          faceTriangles { s with m_orientation := Orientation.leftHanded } p N materialId
            = (faceTriangles { s with m_orientation := Orientation.rightHanded } p N
                materialId).reverse)
      ∧ ∃ mR mL : Mesh,
          _PopulateFaces { s with m_orientation := Orientation.rightHanded } a_faceMaterials
              mesh = some mR
            ∧ _PopulateFaces { s with m_orientation := Orientation.leftHanded }
              a_faceMaterials mesh = some mL
            ∧ mR.triangles = mesh.triangles
                ++ facesTriangles { s with m_orientation := Orientation.rightHanded }
                  a_faceMaterials s.m_faceVertexCounts 0 0
            ∧ mL.triangles = mesh.triangles
                ++ facesTrianglesReversed { s with m_orientation := Orientation.rightHanded }
                  a_faceMaterials s.m_faceVertexCounts 0 0
            ∧ mL.triangles.Perm mR.triangles
            ∧ (∀ N : Int, s.m_faceVertexCounts = [N] → mesh.triangles = [] →
                mL.triangles = mR.triangles.reverse) := by
  have hnn0 : ∀ c ∈ s.m_faceVertexCounts, 0 ≤ c := fun c hc => by
    have := hnn c hc
    omega
  refine ⟨?_, faceTriangles_leftHanded s, ?_⟩
  · intro p N materialId j hj hjN
    rw [fanCandidate_leftHanded s p N materialId j hj hjN]
    congr 1
    omega
  · have hR := populateFaces_triangulated { s with m_orientation := Orientation.rightHanded }
      a_faceMaterials mesh hsub hnn0 hlen
    have hL := populateFaces_triangulated { s with m_orientation := Orientation.leftHanded }
      a_faceMaterials mesh hsub hnn0 hlen
    refine ⟨_, _, hR, hL, rfl, ?_, ?_, ?_⟩
    · show mesh.triangles ++ facesTriangles { s with m_orientation := Orientation.leftHanded }
        a_faceMaterials s.m_faceVertexCounts 0 0 = _
      rw [facesTriangles_leftHanded]
    · show (mesh.triangles ++ facesTriangles
        { s with m_orientation := Orientation.leftHanded }
        a_faceMaterials s.m_faceVertexCounts 0 0).Perm
        (mesh.triangles ++ facesTriangles { s with m_orientation := Orientation.rightHanded }
          a_faceMaterials s.m_faceVertexCounts 0 0)
      rw [facesTriangles_leftHanded]
      exact List.Perm.append_left _ (facesTrianglesReversed_perm _ _ _ _ _)
    · intro N hN hempty
      show mesh.triangles ++ facesTriangles { s with m_orientation := Orientation.leftHanded }
        a_faceMaterials s.m_faceVertexCounts 0 0
        = (mesh.triangles ++ facesTriangles
          { s with m_orientation := Orientation.rightHanded }
          a_faceMaterials s.m_faceVertexCounts 0 0).reverse
      rw [facesTriangles_leftHanded, hN, hempty]
      simp [facesTriangles, facesTrianglesReversed]

/-- C32 (witness): two quads over eight vertices. -/
theorem populateFaces_leftHanded_reverses_each_fan_witness :
    (twoQuads Orientation.rightHanded).m_useSubdivision = false
      ∧ (∀ c ∈ (twoQuads Orientation.rightHanded).m_faceVertexCounts, 3 ≤ c)
      ∧ ∃ mR mL : Mesh,
          _PopulateFaces (twoQuads Orientation.rightHanded) [] Mesh.cleared = some mR
            ∧ _PopulateFaces (twoQuads Orientation.leftHanded) [] Mesh.cleared = some mL
            ∧ mL.triangles.Perm mR.triangles :=
  ⟨rfl, by decide,
    match populateFaces_leftHanded_reverses_each_fan (twoQuads Orientation.rightHanded) []
        Mesh.cleared rfl (by decide) (by decide) with
    | ⟨_, _, mR, mL, h1, h2, _, _, h5, _⟩ => ⟨mR, mL, h1, h2, h5⟩⟩

/-! ## `_MeshTextureSpace` -/

/-- The two results of `_MeshTextureSpace` on one axis. -/
theorem meshTextureSpace_axis (bounds : BoundBox) (a : Fin 3) :
    (_MeshTextureSpace bounds).2.axis a
        = (if (bounds.max.axis a - bounds.min.axis a) / 2 ≠ 0
          then (1 / 2) / ((bounds.max.axis a - bounds.min.axis a) / 2)
          else (bounds.max.axis a - bounds.min.axis a) / 2)
      ∧ (_MeshTextureSpace bounds).1.axis a
        = (bounds.max.axis a + bounds.min.axis a) / 2 * (_MeshTextureSpace bounds).2.axis a
          - 1 / 2 := by
  fin_cases a
  · unfold _MeshTextureSpace float3.axis float3.divScalar float3.sub float3.add float3.mul
      make_float3
    simp only []
    split_ifs <;> simp
  · unfold _MeshTextureSpace float3.axis float3.divScalar float3.sub float3.add float3.mul
      make_float3
    simp only []
    split_ifs <;> simp
  · unfold _MeshTextureSpace float3.axis float3.divScalar float3.sub float3.add float3.mul
      make_float3
    simp only []
    split_ifs <;> simp

theorem generatedCoordinate_axis (v loc size : float3) (a : Fin 3) :
    (generatedCoordinate v loc size).axis a = v.axis a * size.axis a - loc.axis a := by
  fin_cases a <;> rfl

/-- C39: over the rationals, for every bounds and every axis: when `max ≠ min` on the axis,
the generated coordinate `v * size - loc` of every `v` is `(v - min) / (max - min)`, which
lies in `[0, 1]` when `min ≤ v ≤ max`; when `max = min` on the axis, `size` is `0`, `loc` is
`-1/2` and the generated coordinate of every `v` is `1/2`. -/
theorem meshTextureSpace_normalises (bounds : BoundBox) (a : Fin 3) :
    (bounds.max.axis a ≠ bounds.min.axis a →
        (∀ v : float3,
          (generatedCoordinate v (_MeshTextureSpace bounds).1
              (_MeshTextureSpace bounds).2).axis a
            = (v.axis a - bounds.min.axis a) / (bounds.max.axis a - bounds.min.axis a))
        ∧ (bounds.min.axis a ≤ bounds.max.axis a → ∀ v : float3,
            bounds.min.axis a ≤ v.axis a → v.axis a ≤ bounds.max.axis a →
            0 ≤ (generatedCoordinate v (_MeshTextureSpace bounds).1
                (_MeshTextureSpace bounds).2).axis a
              ∧ (generatedCoordinate v (_MeshTextureSpace bounds).1
                (_MeshTextureSpace bounds).2).axis a ≤ 1))
      ∧ (bounds.max.axis a = bounds.min.axis a →
          (_MeshTextureSpace bounds).2.axis a = 0
            ∧ (_MeshTextureSpace bounds).1.axis a = -(1 / 2)
            ∧ ∀ v : float3,
              (generatedCoordinate v (_MeshTextureSpace bounds).1
                (_MeshTextureSpace bounds).2).axis a = 1 / 2) := by
  obtain ⟨hsize, hloc⟩ := meshTextureSpace_axis bounds a
  refine ⟨?_, ?_⟩
  · intro hne
    have hd : bounds.max.axis a - bounds.min.axis a ≠ 0 := sub_ne_zero.mpr hne
    have hd2 : (bounds.max.axis a - bounds.min.axis a) / 2 ≠ 0 := by
      intro h
      apply hd
      linarith
    rw [if_pos hd2] at hsize
    have hgen : ∀ v : float3,
        (generatedCoordinate v (_MeshTextureSpace bounds).1
            (_MeshTextureSpace bounds).2).axis a
          = (v.axis a - bounds.min.axis a) / (bounds.max.axis a - bounds.min.axis a) := by
      intro v
      rw [generatedCoordinate_axis, hloc, hsize]
      field_simp
      ring
    refine ⟨hgen, ?_⟩
    intro hle v hlo hhi
    have hpos : 0 < bounds.max.axis a - bounds.min.axis a := by
      rcases lt_or_eq_of_le hle with hlt | heq
      · linarith
      · exact absurd heq.symm hne
    rw [hgen v]
    refine ⟨div_nonneg (by linarith) (le_of_lt hpos), ?_⟩
    rw [div_le_one hpos]
    linarith
  · intro heq
    have hd2 : ¬ (bounds.max.axis a - bounds.min.axis a) / 2 ≠ 0 := by
      rw [heq]
      simp
    rw [if_neg hd2] at hsize
    have hs0 : (_MeshTextureSpace bounds).2.axis a = 0 := by
      rw [hsize, heq]
      simp
    refine ⟨hs0, ?_, ?_⟩
    · rw [hloc, hs0]
      ring
    · intro v
      rw [generatedCoordinate_axis, hloc, hs0]
      ring

/-- C39 (witness): the flat box from `(0, 0, 0)` to `(2, 4, 0)`.  On the axis `x` the point
with `x = 1` gets the generated coordinate `1/2`; on the axis `z`, where `max = min`, `size`
is `0` and `loc` is `-1/2`. -/
theorem meshTextureSpace_normalises_witness :
    flatBounds.max.axis 0 ≠ flatBounds.min.axis 0
      ∧ (generatedCoordinate (make_float3 1 1 0) (_MeshTextureSpace flatBounds).1
          (_MeshTextureSpace flatBounds).2).axis 0
          = ((make_float3 1 1 0).axis 0 - flatBounds.min.axis 0)
            / (flatBounds.max.axis 0 - flatBounds.min.axis 0)
      ∧ flatBounds.max.axis 2 = flatBounds.min.axis 2
      ∧ (_MeshTextureSpace flatBounds).2.axis 2 = 0
      ∧ (_MeshTextureSpace flatBounds).1.axis 2 = -(1 / 2) :=
  ⟨by simp [flatBounds, make_float3, float3.axis],
    ((meshTextureSpace_normalises flatBounds 0).1
      (by simp [flatBounds, make_float3, float3.axis])).1 (make_float3 1 1 0),
    by simp [flatBounds, make_float3, float3.axis],
    ((meshTextureSpace_normalises flatBounds 2).2
      (by simp [flatBounds, make_float3, float3.axis])).1,
    ((meshTextureSpace_normalises flatBounds 2).2
      (by simp [flatBounds, make_float3, float3.axis])).2.1⟩

/-! ## Face-varying writers of the subdivision layout -/

section subdFaceVarying

variable {α β : Type}

theorem foldlM_read_append (conv : α → β) (data : List α) (pos : Nat → Int) :
    ∀ (ks : List Nat) (out : List β),
      ks.foldlM (fun (out : List β) (k : Nat) =>
          (readAt data (pos k)).map (fun x => out ++ [conv x])) out
        = ((ks.map pos).mapM (fun q => (readAt data q).map conv)).map
            (fun chunk => out ++ chunk) := by
  intro ks
  induction ks with
  | nil =>
    intro out
    rw [List.map_nil, List.mapM_nil]
    simp
  | cons k ks ih =>
    intro out
    rw [List.foldlM_cons, List.map_cons, List.mapM_cons]
    cases hr : readAt data (pos k) with
    | none => rfl
    | some x =>
      simp only [Option.map_some', Option.bind_eq_bind, Option.some_bind]
      rw [ih]
      cases ((ks.map pos).mapM (fun q => (readAt data q).map conv)) with
      | none => rfl
      | some ys => simp

theorem range_map_reverse {γ : Type} (f : Nat → γ) (n : Nat) :
    (List.range n).map (fun k => f (n - 1 - k)) = ((List.range n).map f).reverse := by
  apply List.ext_getElem
  · simp
  · intro i h1 h2
    simp only [List.length_map, List.length_range] at h1
    simp only [List.getElem_map, List.getElem_range, List.getElem_reverse, List.length_map,
      List.length_range]

theorem faceVaryingSubdFace_eq (conv : α → β) (s : HdCyclesMesh) (data : List α)
    (idx vCount : Int) (out : List β) :
    faceVaryingSubdFace conv s data idx vCount out
      = ((orientCorners s.m_orientation
            ((List.range vCount.toNat).map (fun k : Nat => idx + k))).mapM
          (fun q => (readAt data q).map conv)).map (fun chunk => out ++ chunk) := by
  unfold faceVaryingSubdFace orientCorners
  by_cases ho : s.m_orientation = Orientation.rightHanded
  · simp only [ho, if_true]
    exact foldlM_read_append conv data (fun k : Nat => idx + k) _ out
  · simp only [ho, if_false]
    rw [foldlM_read_append conv data (fun k : Nat => idx + ((vCount - k) - 1)) _ out]
    have hpos : (List.range vCount.toNat).map (fun k : Nat => idx + ((vCount - (k : Int)) - 1))
        = ((List.range vCount.toNat).map (fun k : Nat => idx + (k : Int))).reverse := by
      rw [← range_map_reverse]
      apply List.map_congr_left
      intro k hk
      have := List.mem_range.mp hk
      have hcast : (((vCount.toNat - 1 - k : Nat)) : Int) = vCount - k - 1 := by omega
      rw [hcast]
    rw [hpos]

theorem faceVaryingSubdLoop_eq (conv : α → β) (s : HdCyclesMesh) (data : List α) :
    ∀ (counts : List Int) (idx : Int) (out : List β),
      faceVaryingSubdLoop conv s data counts idx out
        = ((subdCornerPositions s.m_orientation counts idx).mapM
            (fun q => (readAt data q).map conv)).map (fun chunk => out ++ chunk) := by
  intro counts
  induction counts with
  | nil =>
    intro idx out
    rw [faceVaryingSubdLoop, subdCornerPositions, List.mapM_nil]
    simp
  | cons c cs ih =>
    intro idx out
    rw [faceVaryingSubdLoop, faceVaryingSubdFace_eq, subdCornerPositions, List.mapM_append]
    cases h1 : (orientCorners s.m_orientation
        ((List.range c.toNat).map (fun k : Nat => idx + k))).mapM
        (fun q => (readAt data q).map conv) with
    | none => rfl
    | some a =>
      simp only [Option.map_some', Option.bind_eq_bind, Option.some_bind]
      rw [ih]
      cases (subdCornerPositions s.m_orientation cs (idx + c)).mapM
          (fun q => (readAt data q).map conv) with
      | none => rfl
      | some b => simp

theorem mapM_map_option {γ : Type} (f : γ → Option α) (g : α → β) :
    ∀ l : List γ, l.mapM (fun q => (f q).map g) = (l.mapM f).map (List.map g) := by
  intro l
  induction l with
  | nil =>
    rw [List.mapM_nil, List.mapM_nil]
    rfl
  | cons x xs ih =>
    rw [List.mapM_cons, List.mapM_cons, ih]
    cases f x with
    | none => rfl
    | some y =>
      cases xs.mapM f with
      | none => rfl
      | some ys => rfl

end subdFaceVarying

theorem countSum_reverse (cs : List Int) : countSum cs.reverse = countSum cs := by
  induction cs with
  | nil => rfl
  | cons c cs ih =>
    rw [List.reverse_cons, countSum_append, ih, countSum_cons, countSum_cons, countSum_nil]
    ring

theorem subdCornerPositions_rightHanded :
    ∀ (cs : List Int) (idx : Int), (∀ c ∈ cs, 0 ≤ c) →
      subdCornerPositions Orientation.rightHanded cs idx
        = (List.range (countSum cs).toNat).map (fun k : Nat => idx + k) := by
  intro cs
  induction cs with
  | nil =>
    intro idx _
    simp [subdCornerPositions, countSum_nil]
  | cons c cs ih =>
    intro idx hnn
    have hc : 0 ≤ c := hnn c (List.mem_cons_self _ _)
    have hcs : ∀ x ∈ cs, 0 ≤ x := fun x hx => hnn x (List.mem_cons_of_mem _ hx)
    have hsum : 0 ≤ countSum cs := countSum_nonneg cs hcs
    rw [subdCornerPositions, ih (idx + c) hcs, countSum_cons]
    have hsplit : (c + countSum cs).toNat = c.toNat + (countSum cs).toNat := by omega
    rw [hsplit, List.range_add, List.map_append, List.map_map]
    unfold orientCorners
    rw [if_pos rfl]
    congr 1
    apply List.map_congr_left
    intro k _
    show idx + c + (k : Int) = idx + ((c.toNat + k : Nat) : Int)
    omega

theorem subdCornerPositions_range (o : Orientation) :
    ∀ (cs : List Int) (p : Int), (∀ c ∈ cs, 0 ≤ c) →
      (subdCornerPositions o cs p).length = (countSum cs).toNat
        ∧ ∀ q ∈ subdCornerPositions o cs p, p ≤ q ∧ q < p + countSum cs := by
  intro cs
  induction cs with
  | nil =>
    intro p _
    simp [subdCornerPositions, countSum_nil]
  | cons c cs ih =>
    intro p hnn
    have hc : 0 ≤ c := hnn c (List.mem_cons_self _ _)
    have hcs : ∀ x ∈ cs, 0 ≤ x := fun x hx => hnn x (List.mem_cons_of_mem _ hx)
    have hsum : 0 ≤ countSum cs := countSum_nonneg cs hcs
    obtain ⟨hl, hr⟩ := ih (p + c) hcs
    have hlen1 : (orientCorners o ((List.range c.toNat).map (fun k : Nat => p + (k : Int)))).length
        = c.toNat := by
      unfold orientCorners
      by_cases ho : o = Orientation.rightHanded
      · simp [ho]
      · simp [ho]
    have hmem1 : ∀ q ∈ orientCorners o ((List.range c.toNat).map (fun k : Nat => p + (k : Int))),
        p ≤ q ∧ q < p + c := by
      intro q hq
      have hq2 : q ∈ (List.range c.toNat).map (fun k : Nat => p + (k : Int)) := by
        unfold orientCorners at hq
        by_cases ho : o = Orientation.rightHanded
        · simpa [ho] using hq
        · simpa [ho] using hq
      obtain ⟨k, hk, rfl⟩ := List.mem_map.mp hq2
      have := List.mem_range.mp hk
      omega
    rw [subdCornerPositions, countSum_cons]
    refine ⟨?_, ?_⟩
    · rw [List.length_append, hlen1, hl]
      omega
    · intro q hq
      rcases List.mem_append.mp hq with hq | hq
      · have := hmem1 q hq
        omega
      · have := hr q hq
        omega

theorem layoutCorners_positions (s : HdCyclesMesh) (hsub : s.m_useSubdivision = true) :
    ∀ (cs : List Int) (p : Int),
      layoutCorners s cs p = (subdCornerPositions s.m_orientation cs p).map (corner s 0) := by
  intro cs
  induction cs with
  | nil => intro p; rfl
  | cons c cs ih =>
    intro p
    rw [layoutCorners, subdCornerPositions, List.map_append, ih, if_pos hsub]
    congr 1
    unfold orientCorners polygonCorners corner
    by_cases ho : s.m_orientation = Orientation.rightHanded
    · simp [ho]
    · simp [ho, List.map_reverse]

theorem mapM_readAt_positions {γ : Type} (xs : List γ) :
    ∀ (qs : List Int), (∀ q ∈ qs, 0 ≤ q ∧ q < xs.length) →
      ∃ src, qs.mapM (readAt xs) = some src ∧ src.length = qs.length
        ∧ ∀ k (hk : k < qs.length), readAt xs (qs.get ⟨k, hk⟩) = src[k]? := by
  intro qs
  induction qs with
  | nil =>
    intro _
    exact ⟨[], by rw [List.mapM_nil]; rfl, rfl, fun k hk => absurd hk (by simp)⟩
  | cons q qs ih =>
    intro h
    obtain ⟨src, h1, h2, h3⟩ := ih (fun x hx => h x (List.mem_cons_of_mem _ hx))
    obtain ⟨y, hy⟩ := readAt_some_of_lt xs q (h q (List.mem_cons_self _ _)).1
      (h q (List.mem_cons_self _ _)).2
    refine ⟨y :: src, ?_, by simp [h2], ?_⟩
    · rw [List.mapM_cons, hy, h1]
      rfl
    · intro k hk
      cases k with
      | zero => simpa using hy
      | succ k =>
        have := h3 k (by simpa using hk)
        simpa using this

/-- C35: in the subdivision layout, for a topology with non-negative face-vertex counts, an
index array that holds all the corners and a face-varying buffer with at least one entry per
corner, `_PopulateFaces` and both writers return, and they visit the same positions in the
same order: corner `k` of the mesh (in the order of the subdivision faces and of their
corners) holds the vertex index at position `q` of the index array, and entry `k` of the UV
and of the colour attribute is the converted buffer entry at the same position `q`.  There
is one entry per corner.  The positions are `0, 1, 2, ..` for RightHanded orientation (the
first entries of the buffer, copied in order) and the positions of each face reversed for
LeftHanded orientation. -/
theorem faceVarying_subdivision_follows_faces {α β : Type} (conv : α → β) (s : HdCyclesMesh)
    (a_faceMaterials : List Int) (data : List α)
    (hsub : s.m_useSubdivision = true)
    (hfaces : s.m_numMeshFaces = s.m_faceVertexCounts.length)
    (hnn : ∀ c ∈ s.m_faceVertexCounts, 0 ≤ c)
    (hlen : countSum s.m_faceVertexCounts ≤ s.m_faceVertexIndices.length)
    (hdata : countSum s.m_faceVertexCounts ≤ data.length) :
    ∃ (m : Mesh) (src : List α),
      _PopulateFaces s a_faceMaterials Mesh.cleared = some m
        ∧ cornerVertices true m
          = (subdCornerPositions s.m_orientation s.m_faceVertexCounts 0).map (corner s 0)
        ∧ (subdCornerPositions s.m_orientation s.m_faceVertexCounts 0).mapM (readAt data)
          = some src
        ∧ _AddUVSet_FaceVarying_subdivision conv s data = some (src.map conv)
        ∧ _AddColors_FaceVarying_subdivision conv s data = some (src.map conv)
        ∧ src.length = (countSum s.m_faceVertexCounts).toNat
        ∧ (s.m_orientation = Orientation.rightHanded →
            src = data.take (countSum s.m_faceVertexCounts).toNat) := by
  have hsum : 0 ≤ countSum s.m_faceVertexCounts := countSum_nonneg _ hnn
  obtain ⟨hplen, hprange⟩ :=
    subdCornerPositions_range s.m_orientation s.m_faceVertexCounts 0 hnn
  obtain ⟨src, hsrc, hsrclen, hsrcget⟩ := mapM_readAt_positions data
    (subdCornerPositions s.m_orientation s.m_faceVertexCounts 0)
    (fun q hq => by
      have := hprange q hq
      omega)
  -- the faces
  have hpop : _PopulateFaces s a_faceMaterials Mesh.cleared
      = some { ({ Mesh.cleared with
            subdivision_type := SubdivisionType.SUBDIVISION_CATMULL_CLARK } : Mesh) with
          subd_faces := [] ++ subdFacesOf s a_faceMaterials s.m_faceVertexCounts 0 0 } := by
    unfold _PopulateFaces
    rw [if_pos hsub, hfaces, Int.toNat_ofNat]
    exact subdLoop_eq s a_faceMaterials s.m_faceVertexCounts 0 0 _ (by simp) (le_refl _) hnn
      (by simpa using hlen)
  -- the writers
  have hwriter : faceVaryingSubdLoop conv s data
      (if s.m_orientation = Orientation.rightHanded
        then s.m_faceVertexCounts.reverse else s.m_faceVertexCounts) 0 []
      = some (src.map conv) := by
    rw [faceVaryingSubdLoop_eq]
    have hpos : subdCornerPositions s.m_orientation
        (if s.m_orientation = Orientation.rightHanded
          then s.m_faceVertexCounts.reverse else s.m_faceVertexCounts) 0
        = subdCornerPositions s.m_orientation s.m_faceVertexCounts 0 := by
      by_cases ho : s.m_orientation = Orientation.rightHanded
      · rw [if_pos ho, ho,
          subdCornerPositions_rightHanded _ 0 (fun c hc => hnn c (List.mem_reverse.mp hc)),
          subdCornerPositions_rightHanded _ 0 hnn, countSum_reverse]
      · rw [if_neg ho]
    rw [hpos, mapM_map_option, hsrc]
    simp
  refine ⟨_, src, hpop, ?_, hsrc, hwriter, hwriter, ?_, ?_⟩
  · show cornerVertices true { ({ Mesh.cleared with
        subdivision_type := SubdivisionType.SUBDIVISION_CATMULL_CLARK } : Mesh) with
      subd_faces := [] ++ subdFacesOf s a_faceMaterials s.m_faceVertexCounts 0 0 } = _
    unfold cornerVertices
    simp only [if_true, List.nil_append]
    rw [subdFacesOf_corners s a_faceMaterials hsub, layoutCorners_positions s hsub]
  · rw [hsrclen, hplen]
  · intro ho
    rw [ho, subdCornerPositions_rightHanded _ 0 hnn] at hsrc
    have htake : ((List.range (countSum s.m_faceVertexCounts).toNat).map
        (fun k : Nat => (0 : Int) + k)).mapM (readAt data)
        = some (data.take (countSum s.m_faceVertexCounts).toNat) := by
      have hle : (countSum s.m_faceVertexCounts).toNat ≤ data.length := by omega
      generalize (countSum s.m_faceVertexCounts).toNat = n at hle
      induction n with
      | zero =>
        rw [List.range_zero, List.map_nil, List.mapM_nil]
        rfl
      | succ n ih =>
        have hn : n < data.length := by omega
        rw [List.range_succ, List.map_append, List.mapM_append, ih (by omega), List.map_cons,
          List.map_nil, List.mapM_cons, List.mapM_nil]
        have hread : readAt data ((0 : Int) + (n : Int)) = some data[n] := by
          unfold readAt
          rw [if_neg (by omega)]
          simp only [zero_add, Int.toNat_ofNat]
          exact List.getElem?_eq_getElem hn
        rw [hread, List.take_succ, List.getElem?_eq_getElem hn]
        rfl
    rw [htake] at hsrc
    exact (Option.some.inj hsrc).symm

/-- C35 (witness): a LeftHanded quad and triangle over the corners `0..6` and a buffer of
seven values: the faces get the corners `3, 2, 1, 0` and `6, 5, 4`, and both writers store
the values of the buffer at the positions `3, 2, 1, 0, 6, 5, 4`. -/
theorem faceVarying_subdivision_follows_faces_witness :
    (syncTopology (subdivMeshWithVerts 7)
        (quadAndTriangle Orientation.leftHanded)).m_useSubdivision = true
      ∧ (_PopulateFaces
          (syncTopology (subdivMeshWithVerts 7) (quadAndTriangle Orientation.leftHanded))
          [] Mesh.cleared).map (cornerVertices true) = some [3, 2, 1, 0, 6, 5, 4]
      ∧ _AddUVSet_FaceVarying_subdivision (fun x : Nat => x)
          (syncTopology (subdivMeshWithVerts 7) (quadAndTriangle Orientation.leftHanded))
          [10, 11, 12, 13, 14, 15, 16] = some [13, 12, 11, 10, 16, 15, 14]
      ∧ ∃ (m : Mesh) (src : List Nat),
          _PopulateFaces
              (syncTopology (subdivMeshWithVerts 7) (quadAndTriangle Orientation.leftHanded))
              [] Mesh.cleared = some m
            ∧ _AddColors_FaceVarying_subdivision (fun x : Nat => x)
              (syncTopology (subdivMeshWithVerts 7) (quadAndTriangle Orientation.leftHanded))
              [10, 11, 12, 13, 14, 15, 16] = some (src.map (fun x : Nat => x))
            ∧ src.length = 7 :=
  ⟨by decide, by decide, by decide,
    match faceVarying_subdivision_follows_faces (fun x : Nat => x)
        (syncTopology (subdivMeshWithVerts 7) (quadAndTriangle Orientation.leftHanded)) []
        [10, 11, 12, 13, 14, 15, 16] (by decide) (by decide) (by decide) (by decide)
        (by decide) with
    | ⟨m, src, h1, _, _, _, h5, h6, _⟩ => ⟨m, src, h1, h5, h6⟩⟩

/-! ## The array `faceMaterials`: stores of the rebuild and reads of `_PopulateFaces` -/

theorem subsetStep_returns (resolve : SdfPath → Option Shader) (st : SubsetState)
    (S : HdGeomSubset) (hidx : ∀ i ∈ S.indices, 0 ≤ i ∧ i < st.faceMaterials.length) :
    ∃ st1, subsetStep resolve st S = some st1
      ∧ st1.faceMaterials.length = st.faceMaterials.length := by
  by_cases hne : S.materialId = ""
  · obtain ⟨fm, hfm, hl, _⟩ := writeFaces_spec 0 S.indices st.faceMaterials hidx
    rw [subsetStep_unresolved resolve st S (Or.inl hne), hfm]
    exact ⟨_, rfl, hl⟩
  · cases hres : resolve S.materialId with
    | none =>
      obtain ⟨fm, hfm, hl, _⟩ := writeFaces_spec 0 S.indices st.faceMaterials hidx
      rw [subsetStep_unresolved resolve st S (Or.inr hres), hfm]
      exact ⟨_, rfl, hl⟩
    | some sh =>
      cases hfind : mapFind st.m_materialMap S.materialId with
      | none =>
        obtain ⟨fm, hfm, hl, _⟩ := writeFaces_spec
          (slotOfIndex ((st.m_usedShaders.length : Int) + 1)) S.indices st.faceMaterials hidx
        rw [subsetStep_new resolve st S sh hne hres hfind, hfm]
        exact ⟨_, rfl, hl⟩
      | some k =>
        obtain ⟨fm, hfm, hl, _⟩ := writeFaces_spec (slotOfIndex k) S.indices
          st.faceMaterials hidx
        rw [subsetStep_known resolve st S sh k hne hres hfind, hfm]
        exact ⟨_, rfl, hl⟩

theorem geomSubsetLoop_returns (resolve : SdfPath → Option Shader) :
    ∀ (subsets : List HdGeomSubset) (st : SubsetState),
      (∀ S ∈ subsets, ∀ i ∈ S.indices, 0 ≤ i ∧ i < st.faceMaterials.length) →
      ∃ st', geomSubsetLoop resolve subsets st = some st'
        ∧ st'.faceMaterials.length = st.faceMaterials.length := by
  intro subsets
  induction subsets with
  | nil =>
    intro st _
    exact ⟨st, rfl, rfl⟩
  | cons S rest ih =>
    intro st h
    obtain ⟨st1, h1, hl1⟩ := subsetStep_returns resolve st S (h S (List.mem_cons_self _ _))
    obtain ⟨st', h2, hl2⟩ := ih st1 (fun T hT i hi => by
      rw [hl1]
      exact h T (List.mem_cons_of_mem _ hT) i hi)
    refine ⟨st', ?_, by rw [hl2, hl1]⟩
    rw [geomSubsetLoop_cons, h1]
    exact h2

theorem countSum_ge_three (cs : List Int) (h3 : ∀ c ∈ cs, 3 ≤ c) :
    3 * (cs.length : Int) ≤ countSum cs := by
  induction cs with
  | nil => simp [countSum_nil]
  | cons c cs ih =>
    rw [countSum_cons]
    have := h3 c (List.mem_cons_self _ _)
    have := ih (fun x hx => h3 x (List.mem_cons_of_mem _ hx))
    simp only [List.length_cons, Nat.cast_add, Nat.cast_one]
    omega

theorem faceTriangles_shader (s : HdCyclesMesh) (p N materialId : Int) :
    ∀ t ∈ faceTriangles s p N materialId, t.shader = materialId := by
  intro t ht
  unfold faceTriangles at ht
  obtain ⟨j, _, rfl⟩ := List.mem_map.mp (List.mem_filter.mp ht).1
  unfold fanCandidate
  by_cases ho : s.m_orientation = Orientation.leftHanded
  · rw [if_pos ho]
  · rw [if_neg ho]

theorem facesTriangles_flatMap (s : HdCyclesMesh) (a_faceMaterials : List Int) :
    ∀ (cs : List Int) (i : Nat) (p : Int),
      facesTriangles s a_faceMaterials cs i p
        = (List.range cs.length).flatMap (fun k =>
            faceTriangles s (p + countSum (cs.take k)) (cs.getD k 0)
              (faceMaterial a_faceMaterials (i + k))) := by
  intro cs
  induction cs with
  | nil => intro i p; rfl
  | cons c cs ih =>
    intro i p
    rw [facesTriangles, ih, List.length_cons, List.range_succ_eq_map, List.flatMap_cons,
      List.flatMap_map]
    congr 1
    · simp [countSum_nil]
    · apply List.flatMap_congr
      intro k _
      simp only [List.take_succ_cons, countSum_cons, List.getD_cons_succ]
      have h1 : p + c + countSum (cs.take k) = p + (c + countSum (cs.take k)) := by ring
      have h2 : i + 1 + k = i + (k + 1) := by omega
      rw [h1, h2]

/-- C40: the members are those the topology block leaves (`syncTopology`), every polygon has
at least three vertices, every face index of a geometry subset is a polygon index (from `0`
to the number of polygons, excluded), and the index array holds all the corners.  Then the
subset loop returns, so every store `faceMaterials[i]` is inside the array, whose length is
`m_numMeshFaces`; the number of polygons is at most that length, so for every polygon index
`k` the test `k < a_faceMaterials.size ()` of `_PopulateFaces` holds and the read
`a_faceMaterials[k]` is inside the array; `_PopulateFaces` returns, and every triangle kept
from polygon `k` (without subdivision) and subdivision face `k` (with subdivision) carries
the slot stored at index `k`. -/
theorem faceMaterials_in_bounds_and_carried (resolve : SdfPath → Option Shader)
    (s0 : HdCyclesMesh) (t : HdMeshTopology) (subsets : List HdGeomSubset)
    (m_usedShaders : List Shader) (m_materialMap : List (SdfPath × Int)) (mesh : Mesh)
    (h3 : ∀ c ∈ t.faceVertexCounts, 3 ≤ c)
    (hidx : ∀ S ∈ subsets, ∀ i ∈ S.indices, 0 ≤ i ∧ i < (t.faceVertexCounts.length : Int))
    (hlen : countSum t.faceVertexCounts ≤ t.faceVertexIndices.length) :
    ∃ (st : SubsetState) (m : Mesh),
      buildFaceMaterials resolve subsets (syncTopology s0 t).m_numMeshFaces m_usedShaders
          m_materialMap = some st
        ∧ (st.faceMaterials.length : Int) = (syncTopology s0 t).m_numMeshFaces
        ∧ t.faceVertexCounts.length ≤ st.faceMaterials.length
        ∧ (∀ k : Nat, k < t.faceVertexCounts.length →
            readAt st.faceMaterials k = some (faceMaterial st.faceMaterials k))
        ∧ _PopulateFaces (syncTopology s0 t) st.faceMaterials mesh = some m
        ∧ ((syncTopology s0 t).m_useSubdivision = false →
            m.triangles = mesh.triangles
                ++ (List.range t.faceVertexCounts.length).flatMap
                  (polygonTriangles (syncTopology s0 t) st.faceMaterials)
              ∧ ∀ k : Nat, k < t.faceVertexCounts.length →
                  ∀ tri ∈ polygonTriangles (syncTopology s0 t) st.faceMaterials k,
                    readAt st.faceMaterials k = some tri.shader)
        ∧ ((syncTopology s0 t).m_useSubdivision = true →
            ∃ faces : List SubdFace, m.subd_faces = mesh.subd_faces ++ faces
              ∧ faces.length = t.faceVertexCounts.length
              ∧ ∀ k : Nat, k < t.faceVertexCounts.length →
                  ∃ f, faces[k]? = some f ∧ readAt st.faceMaterials k = some f.shader
                    ∧ f.corners = orientCorners t.orientation
                        (polygonCorners (syncTopology s0 t)
                          (countSum (t.faceVertexCounts.take k))
                          (t.faceVertexCounts.getD k 0))) := by
  have hnn : ∀ c ∈ t.faceVertexCounts, 0 ≤ c := fun c hc => by
    have := h3 c hc
    omega
  have hthree := countSum_ge_three t.faceVertexCounts h3
  -- the members the topology block leaves
  have hmem : (syncTopology s0 t).m_faceVertexCounts = t.faceVertexCounts
      ∧ (syncTopology s0 t).m_faceVertexIndices = t.faceVertexIndices
      ∧ (syncTopology s0 t).m_orientation = t.orientation
      ∧ (t.faceVertexCounts.length : Int) ≤ (syncTopology s0 t).m_numMeshFaces
      ∧ ((syncTopology s0 t).m_useSubdivision = true →
          (syncTopology s0 t).m_numMeshFaces = t.faceVertexCounts.length) := by
    by_cases hmode : (syncTopology s0 t).m_useSubdivision = true
    · have hs := syncTopology_subdivision s0 t hmode
      rw [hs]
      exact ⟨rfl, rfl, rfl, le_refl _, fun _ => rfl⟩
    · have hmode2 : (syncTopology s0 t).m_useSubdivision = false := by
        simpa using hmode
      have hs := syncTopology_triangulated s0 t hmode2
      refine ⟨by rw [hs], by rw [hs], by rw [hs], ?_, fun h => absurd h hmode⟩
      have hf : (syncTopology s0 t).m_numMeshFaces
          = t.faceVertexCounts.foldl (fun n vCount => n + (vCount - 2)) 0 := by rw [hs]
      rw [hf, foldl_faceCount]
      omega
  obtain ⟨hc, hi, ho, hge, hsubd⟩ := hmem
  have hn0 : ¬ (syncTopology s0 t).m_numMeshFaces < 0 := by omega
  -- the subset loop
  obtain ⟨st, hst, hstl⟩ := geomSubsetLoop_returns resolve subsets
    { m_usedShaders := m_usedShaders, m_materialMap := m_materialMap, used_shaders := [],
      faceMaterials := List.replicate (syncTopology s0 t).m_numMeshFaces.toNat 0 }
    (fun S hS i hi => by
      have := hidx S hS i hi
      simp only [List.length_replicate]
      omega)
  simp only [List.length_replicate] at hstl
  have hbuild : buildFaceMaterials resolve subsets (syncTopology s0 t).m_numMeshFaces
      m_usedShaders m_materialMap = some st := by
    unfold buildFaceMaterials
    rw [if_neg hn0]
    exact hst
  have hlenfm : t.faceVertexCounts.length ≤ st.faceMaterials.length := by omega
  have hread : ∀ k : Nat, k < t.faceVertexCounts.length →
      readAt st.faceMaterials k = some (faceMaterial st.faceMaterials k) := by
    intro k hk
    have hk2 : k < st.faceMaterials.length := by omega
    unfold readAt faceMaterial
    rw [if_neg (by omega), if_pos hk2, Int.toNat_ofNat, List.getElem?_eq_getElem hk2,
      List.getD_eq_getElem _ _ hk2]
  by_cases hmode : (syncTopology s0 t).m_useSubdivision = true
  · have hrun := subdLoop_eq (syncTopology s0 t) st.faceMaterials t.faceVertexCounts 0 0
      { mesh with subdivision_type := SubdivisionType.SUBDIVISION_CATMULL_CLARK }
      (by rw [hc]; rfl) (le_refl _) hnn (by rw [hi]; omega)
    have hpop : _PopulateFaces (syncTopology s0 t) st.faceMaterials mesh
        = some { ({ mesh with
            subdivision_type := SubdivisionType.SUBDIVISION_CATMULL_CLARK } : Mesh) with
          subd_faces := mesh.subd_faces
            ++ subdFacesOf (syncTopology s0 t) st.faceMaterials t.faceVertexCounts 0 0 } := by
      unfold _PopulateFaces
      rw [if_pos hmode, hsubd hmode, Int.toNat_ofNat]
      exact hrun
    refine ⟨st, _, hbuild, by omega, hlenfm, hread, hpop, fun h => ?_, fun _ => ?_⟩
    · rw [hmode] at h
      cases h
    · refine ⟨_, rfl, subdFacesOf_length _ _ _ 0 0, ?_⟩
      intro k hk
      refine ⟨_, subdFacesOf_getElem? _ _ _ 0 0 k hk, ?_, ?_⟩
      · simp only [zero_add]
        exact hread k hk
      · simp only [zero_add, ho]
  · have hmode2 : (syncTopology s0 t).m_useSubdivision = false := by
      simpa using hmode
    have hpop := populateFaces_triangulated (syncTopology s0 t) st.faceMaterials mesh hmode2
      (by rw [hc]; exact hnn) (by rw [hc, hi]; exact hlen)
    refine ⟨st, _, hbuild, by omega, hlenfm, hread, hpop, fun _ => ⟨?_, ?_⟩,
      fun h => absurd h hmode⟩
    · show mesh.triangles ++ facesTriangles (syncTopology s0 t) st.faceMaterials
        (syncTopology s0 t).m_faceVertexCounts 0 0 = _
      rw [facesTriangles_flatMap, hc]
      congr 1
      apply List.flatMap_congr
      intro k _
      unfold polygonTriangles
      rw [hc]
      simp only [zero_add]
    · intro k hk tri htri
      unfold polygonTriangles at htri
      rw [faceTriangles_shader _ _ _ _ tri htri]
      exact hread k hk


/-- C40 (witness): two quads, triangulated into four triangles, with a subset that binds the
material `/a` to the second quad while the shader list holds one shader: the array has four
entries, the store goes to index `1`, and the two triangles of the second quad carry the
slot `1`. -/
theorem faceMaterials_in_bounds_and_carried_witness :
    (∀ c ∈ twoQuadsTopology.faceVertexCounts, 3 ≤ c)
      ∧ (buildFaceMaterials twoMaterials [{ materialId := "/a", indices := [1] }]
          (syncTopology (meshWithVerts 8) twoQuadsTopology).m_numMeshFaces [9] []).map
          (fun st => st.faceMaterials) = some [0, 1, 0, 0]
      ∧ (_PopulateFaces (syncTopology (meshWithVerts 8) twoQuadsTopology) [0, 1, 0, 0]
          Mesh.cleared).map (fun m => m.triangles.map (fun tri => tri.shader))
          = some [0, 0, 1, 1]
      ∧ ∃ (st : SubsetState) (m : Mesh),
          buildFaceMaterials twoMaterials [{ materialId := "/a", indices := [1] }]
              (syncTopology (meshWithVerts 8) twoQuadsTopology).m_numMeshFaces [9] []
              = some st
            ∧ twoQuadsTopology.faceVertexCounts.length ≤ st.faceMaterials.length
            ∧ _PopulateFaces (syncTopology (meshWithVerts 8) twoQuadsTopology)
              st.faceMaterials Mesh.cleared = some m :=
  ⟨by decide, by decide, by decide,
    match faceMaterials_in_bounds_and_carried twoMaterials (meshWithVerts 8) twoQuadsTopology
        [{ materialId := "/a", indices := [1] }] [9] [] Mesh.cleared (by decide) (by decide)
        (by decide) with
    | ⟨st, m, h1, _, h3, _, h5, _⟩ => ⟨st, m, h1, h3, h5⟩⟩

/-! ## `Sync`: the run that leaves by an exception -/

/-- C31: a `Sync` that rebuilds a prim whose face count `m_numMeshFaces` is negative does not
reach the release of the lock.  The run takes the lock, pulls the scene data, clears the
mesh and arrives at `faceMaterials.resize (m_numMeshFaces)` with `lock` as the last recorded
scene call; the resize of a vector to a negative count throws `std::length_error`, the
rebuild has no result there, and `Sync` does not return: neither `scene->mutex.unlock ()` nor
`*dirtyBits = Clean` is executed. -/
theorem sync_negative_face_count_keeps_lock (e : Renderer) (d : HdSceneDelegate)
    (dirtyBits : HdDirtyBits) (s st : HdCyclesMeshState)
    (h : syncToResize d dirtyBits s = some st) (hneg : st.m_numMeshFaces < 0) :
    st.scene = s.scene ++ [SceneEvent.lock]
      ∧ buildFaceMaterials d.material st.m_geomSubsets st.m_numMeshFaces st.m_usedShaders
          st.m_materialMap = none
      ∧ rebuildFaces d st = none
      ∧ Sync e d dirtyBits s = none := by
  unfold syncToResize at h
  by_cases hb : rebuilds d dirtyBits s = true
  · rw [if_pos hb] at h
    have hbuild : buildFaceMaterials d.material st.m_geomSubsets st.m_numMeshFaces
        st.m_usedShaders st.m_materialMap = none := by
      unfold buildFaceMaterials
      rw [if_pos hneg]
    have hfaces : rebuildFaces d st = none := by
      unfold rebuildFaces
      rw [hbuild]
      rfl
    refine ⟨?_, hbuild, hfaces, ?_⟩
    · have f1 := rebuildFrame_fields (rebuildMotion_facts _ st h).1
      have f0 := rebuildFrame_fields (rebuildVertices_facts
        (syncPull d dirtyBits { s with scene := s.scene ++ [SceneEvent.lock] }).1).1
      rw [f1.2.2.2.2.1, f0.2.2.2.2.1, syncPull_scene]
    · have hnew : (syncPull d dirtyBits
          { s with scene := s.scene ++ [SceneEvent.lock] }).2.newMesh = true := by
        rw [syncPull_scene]
        exact hb
      unfold Sync syncUpdate
      rw [if_pos hnew]
      unfold syncRebuild
      rw [h]
      simp only [Option.some_bind, hfaces, Option.none_bind, Option.map_none']
  · rw [if_neg hb] at h
    cases h

/-- C31 (witness): the first `Sync` of a prim whose topology is one face with a single
vertex.  The face count is `1 - 2 = -1`; when the resize is reached the record of the scene
calls is the single `lock`, and `Sync` does not return. -/
theorem sync_negative_face_count_keeps_lock_witness :
    ∃ st, syncToResize oneVertexFaceDelegate initialDirtyBits newPrim = some st
      ∧ st.m_numMeshFaces = -1
      ∧ st.scene.map (fun ev => (ev.isLock, ev.isUnlock)) = [(true, false)]
      ∧ Sync plainRenderer oneVertexFaceDelegate initialDirtyBits newPrim = none :=
  match h : syncToResize oneVertexFaceDelegate initialDirtyBits newPrim with
  | some st =>
    have hfaces : st.m_numMeshFaces = -1 := by
      have hm : (syncToResize oneVertexFaceDelegate initialDirtyBits newPrim).map
          (fun st => st.m_numMeshFaces) = some (-1) := by
        decide
      rw [h] at hm
      exact Option.some.inj hm
    match sync_negative_face_count_keeps_lock plainRenderer oneVertexFaceDelegate
        initialDirtyBits newPrim st h (by rw [hfaces]; decide) with
    | ⟨h1, _, _, h4⟩ => ⟨st, rfl, hfaces, by rw [h1]; rfl, h4⟩
  | none => by
    have hs : (syncToResize oneVertexFaceDelegate initialDirtyBits newPrim).isSome = true := by
      decide
    rw [h] at hs
    cases hs

/-! ## `Sync`: slot 0 of the shader list on a first rebuild -/

/-- C17: the first `Sync` of a prim with motion blur enabled, three points and two point
samples, at the times `0` and `1`.  When the sample at time `1` holds six positions, the
`Sync` returns with the dirty bits `Clean`: `_PopulateMotion` signals nothing, sets the
motion-step count `3` and stores the first three positions of the sample as the keyframe
block.  When the sample holds two positions, the copy loop
`for (size_t j = 0; j < m_numMeshVerts; ++j, ++mP) *mP = vec3f_to_float3 (pp[j])` is entered
all the same and reads `pp[2]` outside the sample: the run is undefined, not a run that
fails. -/
theorem sync_accepts_sample_of_wrong_size :
    (Sync plainRenderer (sampledDelegate (raisedPoints ++ raisedPoints)) initialDirtyBits
        motionBlurPrim).map
        (fun r => (r.1.m_numMeshVerts, r.1.m_cyclesMesh.verts.length,
          r.1.m_cyclesMesh.motion_steps, r.2))
      = some (3, 3, 3, HdDirtyBits.Clean)
    ∧ (Sync plainRenderer (sampledDelegate (raisedPoints ++ raisedPoints)) initialDirtyBits
        motionBlurPrim).map
        (fun r => r.1.m_cyclesMesh.attributes.filter Attribute.isMotion)
      = some [Attribute.ATTR_STD_MOTION_VERTEX_POSITION raisedPoints]
    ∧ (raisedPoints ++ raisedPoints).length = 6
    ∧ (raisedPoints.take 2).length = 2
    ∧ (raisedPoints.take 2)[2]? = none
    ∧ motionBlock 3 (raisedPoints.take 2) = none
    ∧ (Sync plainRenderer (sampledDelegate (raisedPoints.take 2)) initialDirtyBits
        motionBlurPrim).isSome = false := by
  refine ⟨by decide, by decide, by decide, by decide, by decide, by decide, by decide⟩

/-! ## `Sync`: the fallback shader without a colour channel -/

/-- C29: the first `Sync` of a prim with one triangle, no material bound, and a dirty primvar
`displayColor` of role `color`.  When the value of the primvar is not an array of `GfVec3f`,
the branch `if (value.IsHolding<VtArray<GfVec3f>> ())` is skipped and `_AddColors` is not
called: both attribute sets of the mesh stay empty.  When the value is an empty array,
`_AddColors` is called and returns at `if (colors.size () <= 0) return;` before it adds an
attribute.  In both runs `m_hasVertexColors` is set, and the shader the MaterialId block
appends is `default_vcol_surface` (`2`), not the `default_surface` of the scene (`1`),
although no colour channel was populated. -/
theorem sync_vcol_fallback_without_colour_channel :
    (Sync plainRenderer otherColourDelegate initialDirtyBits newPrim).map
        (fun r => (r.1.m_cyclesMesh.attributes, r.1.m_cyclesMesh.subd_attributes))
      = some ([], [])
    ∧ (Sync plainRenderer otherColourDelegate initialDirtyBits newPrim).map
        (fun r => (r.1.m_hasVertexColors, r.1.m_usedShaders, r.1.m_cyclesMesh.used_shaders))
      = some (true, [plainRenderer.default_vcol_surface], [plainRenderer.default_vcol_surface])
    ∧ (Sync plainRenderer emptyColourDelegate initialDirtyBits newPrim).map
        (fun r => (r.1.m_cyclesMesh.attributes, r.1.m_cyclesMesh.subd_attributes))
      = some ([Attribute.colors "displayColor" [] HdInterpolation.HdInterpolationVertex], [])
    ∧ (∀ s : HdCyclesMesh,
        _AddColors (fun c : GfVec3f => c) s [] HdInterpolation.HdInterpolationVertex
          = some none)
    ∧ (Sync plainRenderer emptyColourDelegate initialDirtyBits newPrim).map
        (fun r => (r.1.m_hasVertexColors, r.1.m_usedShaders, r.1.m_cyclesMesh.used_shaders))
      = some (true, [plainRenderer.default_vcol_surface], [plainRenderer.default_vcol_surface])
    ∧ plainRenderer.default_vcol_surface = 2
    ∧ plainRenderer.default_surface = 1 := by
  refine ⟨by decide, by decide, by decide, fun s => rfl, by decide, rfl, rfl⟩

/-! ## `Sync`: the interpolations handed to `_AddNormals` and `_AddColors` -/

end HdCycles

